import Mathlib

/-!
# ISO 14443 Type B firmware core (armsrc/iso14443.c)

A shallow embedding of the frame coders, the reader UART, the BPSK
demodulator, the SRI512 read sequence, the tag emulation loop with its command
reception, the snoop loop and the receive loop of the reader with the DMA
cursor, followed by theorems about them. The definitions come first, the
lemmas and theorems after them.

Conventions.
* C `int` fields are `Int`; the 16-bit `WORD` shift registers are `Nat`
  (they are only ever shifted right and or-ed with `0x200`).
* A byte string `(cmd, len)` is a `List Nat` whose length is `len`.
* An output buffer `BYTE *output` is a function from the (signed) index to
  the byte stored there.
* `int` arithmetic is exact: the counters and sums stay far below `2^31` on
  8-bit samples and frames of the sizes the buffers allow.
-/

namespace Iso14443

/-! ## Modulation buffer -/

/-- The modulation buffer `ToSend[]` together with its counters. `bits` is the
ordered sequence of bits stuffed since the last reset, `ToSendMax` the index of
the last byte in use and `ToSendBit` the bit position inside that byte. -/
structure ToSendBuf where
  bits : List Bool
  ToSendMax : Int
  ToSendBit : Nat

/-- Modelled from the spec: `ToSendReset` is declared in apps.h and its body is
not part of this file. The buffer is emptied and the last-byte index restarts
at -1, so that the first stuffed bit opens byte 0. -/
def ToSendReset : ToSendBuf :=
  { bits := [], ToSendMax := -1, ToSendBit := 8 }

/-- Modelled from the spec: `ToSendStuffBit` is declared in apps.h and its body
is not part of this file. One bit is appended to the ordered bit sequence; a new
byte is opened every eight bits. -/
def ToSendStuffBit (b : Int) (t : ToSendBuf) : ToSendBuf :=
  let t1 : ToSendBuf :=
    if t.ToSendBit ≥ 8 then { t with ToSendMax := t.ToSendMax + 1, ToSendBit := 0 } else t
  { t1 with bits := t1.bits ++ [decide (b ≠ 0)], ToSendBit := t1.ToSendBit + 1 }

/-- The loop `for(i = 0; i < n; i++) body`. -/
def forLoop {α : Type} (n : Nat) (body : α → α) (a : α) : α :=
  match n with
  | 0 => a
  | k + 1 => forLoop k body (body a)

/-- Four calls `ToSendStuffBit(b)` in a row. -/
def stuff4 (b : Int) (t : ToSendBuf) : ToSendBuf :=
  ToSendStuffBit b (ToSendStuffBit b (ToSendStuffBit b (ToSendStuffBit b t)))

/-! ## Tag-side frame coder -/

/-- The data-bit loop of `CodeIso14443bAsTag`: eight times, stuff `b & 1`
four times and shift `b` right. The pair carries `b` and the buffer. -/
def tagDataBits (b : Nat) (t : ToSendBuf) : ToSendBuf :=
  (forLoop 8 (fun (p : Nat × ToSendBuf) =>
    (p.1 >>> 1, if p.1 &&& 1 ≠ 0 then stuff4 1 p.2 else stuff4 0 p.2)) (b, t)).2

/-- One iteration of the byte loop of `CodeIso14443bAsTag`. -/
def tagByte (t : ToSendBuf) (b : Nat) : ToSendBuf :=
  stuff4 1 (tagDataBits b (stuff4 0 t))

/-- The function `CodeIso14443bAsTag(cmd, len)` (lines 29-112). -/
def CodeIso14443bAsTag (cmd : List Nat) : ToSendBuf :=
  let t := ToSendReset
  let t := forLoop 20 (stuff4 1) t
  let t := forLoop 10 (stuff4 0) t
  let t := forLoop 2 (stuff4 1) t
  let t := cmd.foldl tagByte t
  let t := forLoop 10 (stuff4 0) t
  let t := forLoop 10 (stuff4 1) t
  let t := { t with ToSendMax := t.ToSendMax + 1 }
  { t with ToSendMax := t.ToSendMax + 2 }

/-! ## Reader-side frame coder -/

/-- The data-bit loop of `CodeIso14443bAsReader`. -/
def readerDataBits (b : Nat) (t : ToSendBuf) : ToSendBuf :=
  (forLoop 8 (fun (p : Nat × ToSendBuf) =>
    (p.1 >>> 1, if p.1 &&& 1 ≠ 0 then ToSendStuffBit 1 p.2 else ToSendStuffBit 0 p.2)) (b, t)).2

/-- One iteration of the byte loop of `CodeIso14443bAsReader`. -/
def readerByte (t : ToSendBuf) (b : Nat) : ToSendBuf :=
  readerDataBits b (ToSendStuffBit 0 (ToSendStuffBit 1 (ToSendStuffBit 1 t)))

/-- The function `CodeIso14443bAsReader(cmd, len)` (lines 736-786). -/
def CodeIso14443bAsReader (cmd : List Nat) : ToSendBuf :=
  let t := ToSendReset
  let t := forLoop 40 (ToSendStuffBit 1) t
  let t := forLoop 10 (ToSendStuffBit 0) t
  let t := cmd.foldl readerByte t
  let t := ToSendStuffBit 1 t
  let t := forLoop 10 (ToSendStuffBit 0) t
  let t := forLoop 8 (ToSendStuffBit 1) t
  let t := forLoop 24 (ToSendStuffBit 1) t
  { t with ToSendMax := t.ToSendMax + 1 }

/-- Data bits of a byte, least significant first. -/
def lsbBits (b : Nat) : List Bool :=
  (List.range 8).map (fun j => b.testBit j)

/-- The bit layout of a reader frame as a list. -/
def readerLayout (B : List Nat) : List Bool :=
  List.replicate 40 true ++ List.replicate 10 false ++
    B.flatMap (fun b => [true, true, false] ++ lsbBits b) ++
    [true] ++ List.replicate 10 false ++ List.replicate 8 true ++ List.replicate 24 true

/-- The bit layout of a tag frame as a list. -/
def tagLayout (B : List Nat) : List Bool :=
  List.replicate 80 true ++ List.replicate 40 false ++ List.replicate 8 true ++
    B.flatMap (fun b => List.replicate 4 false ++
      (lsbBits b).flatMap (fun x => List.replicate 4 x) ++ List.replicate 4 true) ++
    List.replicate 40 false ++ List.replicate 40 true

/-! ## Reader UART -/

/-- The `state` enum of the software UART (lines 119-125). -/
inductive UartMode where
  | STATE_UNSYNCD
  | STATE_GOT_FALLING_EDGE_OF_SOF
  | STATE_AWAITING_START_BIT
  | STATE_RECEIVING_DATA
  | STATE_ERROR_WAIT
  deriving DecidableEq, Repr

/-- The `Uart` struct (lines 118-132). -/
structure Uart where
  state : UartMode
  shiftReg : Nat
  bitCnt : Int
  byteCnt : Int
  byteCntMax : Int
  posCnt : Int
  output : Int → Nat

/-- What one call of `Handle14443UartBit` does: the new `Uart`, the index of the
store `Uart.output[Uart.byteCnt] = ...` when the call performs it, and the
returned `BOOL`. -/
structure UartResult where
  uart : Uart
  write : Option Int
  ret : Bool

/-- The assignment `p[i] = x` on a buffer. -/
def store (p : Int → Nat) (i : Int) (x : Nat) : Int → Nat :=
  fun j => if j = i then x else p j

/-- The function `Handle14443UartBit(bit)` (lines 134-249). The `default:` arm
of the switch is not reachable from a value of the enum. -/
def Handle14443UartBit (u : Uart) (bit : Int) : UartResult :=
  match u.state with
  | .STATE_UNSYNCD =>
    if bit = 0 then
      ⟨{ u with state := .STATE_GOT_FALLING_EDGE_OF_SOF, posCnt := 0, bitCnt := 0 }, none, false⟩
    else ⟨u, none, false⟩
  | .STATE_GOT_FALLING_EDGE_OF_SOF =>
    let u : Uart := { u with posCnt := u.posCnt + 1 }
    let u : Uart :=
      if u.posCnt = 2 then
        let u : Uart :=
          if bit ≠ 0 then
            if u.bitCnt ≥ 10 then
              { u with posCnt := 0, byteCnt := 0, state := .STATE_AWAITING_START_BIT }
            else { u with state := .STATE_ERROR_WAIT }
          else u
        { u with bitCnt := u.bitCnt + 1 }
      else u
    let u : Uart := if u.posCnt ≥ 4 then { u with posCnt := 0 } else u
    let u : Uart := if u.bitCnt > 14 then { u with state := .STATE_ERROR_WAIT } else u
    ⟨u, none, false⟩
  | .STATE_AWAITING_START_BIT =>
    let u : Uart := { u with posCnt := u.posCnt + 1 }
    if bit ≠ 0 then
      if u.posCnt > 25 then ⟨{ u with state := .STATE_ERROR_WAIT }, none, false⟩
      else ⟨u, none, false⟩
    else
      ⟨{ u with posCnt := 0, bitCnt := 0, shiftReg := 0, state := .STATE_RECEIVING_DATA },
        none, false⟩
  | .STATE_RECEIVING_DATA =>
    let u : Uart := { u with posCnt := u.posCnt + 1 }
    let u : Uart :=
      if u.posCnt = 2 then
        let u : Uart := { u with shiftReg := u.shiftReg >>> 1 }
        let u : Uart := if bit ≠ 0 then { u with shiftReg := u.shiftReg ||| 0x200 } else u
        { u with bitCnt := u.bitCnt + 1 }
      else u
    let u : Uart := if u.posCnt ≥ 4 then { u with posCnt := 0 } else u
    if u.bitCnt = 10 then
      if u.shiftReg &&& 0x200 ≠ 0 ∧ u.shiftReg &&& 0x001 = 0 then
        let i : Int := u.byteCnt
        let u : Uart := { u with output := store u.output i ((u.shiftReg >>> 1) &&& 0xff) }
        let u : Uart := { u with byteCnt := u.byteCnt + 1 }
        if u.byteCnt ≥ u.byteCntMax then
          ⟨{ u with posCnt := 0, state := .STATE_ERROR_WAIT }, some i, false⟩
        else
          ⟨{ u with posCnt := 0, state := .STATE_AWAITING_START_BIT }, some i, false⟩
      else if u.shiftReg = 0x000 then
        ⟨u, none, true⟩
      else
        ⟨{ u with posCnt := 0, state := .STATE_ERROR_WAIT }, none, false⟩
    else ⟨u, none, false⟩
  | .STATE_ERROR_WAIT =>
    let u : Uart := { u with posCnt := u.posCnt + 1 }
    if u.posCnt > 10 then ⟨{ u with state := .STATE_UNSYNCD }, none, false⟩
    else ⟨u, none, false⟩

/-- The UART after a caller has passed it the bits one by one, going on
whatever each call returned and resetting nothing. -/
def uartFeed (u : Uart) : List Int → Uart
  | [] => u
  | b :: bs => uartFeed (Handle14443UartBit u b).uart bs

/-- The values returned by the successive calls of `uartFeed`. -/
def uartReturns (u : Uart) : List Int → List Bool
  | [] => []
  | b :: bs => (Handle14443UartBit u b).ret :: uartReturns (Handle14443UartBit u b).uart bs

/-- The UART as it stands at the first call that returns TRUE, if there is one. -/
def uartFirstFrame (u : Uart) : List Int → Option Uart
  | [] => none
  | b :: bs =>
    if (Handle14443UartBit u b).ret then some (Handle14443UartBit u b).uart
    else uartFirstFrame (Handle14443UartBit u b).uart bs

/-- Idealised 4x-sample timing: every coded bit is seen on four input slots. -/
def oversample4 (bits : List Bool) : List Int :=
  bits.flatMap (fun b => List.replicate 4 (if b then 1 else 0))

/-- The first `n` bytes of an output buffer. -/
def bufferPrefix (p : Int → Nat) (n : Nat) : List Nat :=
  (List.range n).map (fun (i : Nat) => p (i : Int))

/-- The shift register once `bit` has been sampled into it (lines 196-199). -/
def sampledReg (r : Nat) (bit : Int) : Nat :=
  if bit ≠ 0 then (r >>> 1) ||| 0x200 else r >>> 1

/-! ## BPSK demodulator -/

/-- The `state` enum of the demodulator (lines 408-416). -/
inductive DemodMode where
  | DEMOD_UNSYNCD
  | DEMOD_PHASE_REF_TRAINING
  | DEMOD_AWAITING_FALLING_EDGE_OF_SOF
  | DEMOD_GOT_FALLING_EDGE_OF_SOF
  | DEMOD_AWAITING_START_BIT
  | DEMOD_RECEIVING_DATA
  | DEMOD_ERROR_WAIT
  deriving DecidableEq, Repr

/-- The `Demod` struct (lines 407-427). -/
structure Demod where
  state : DemodMode
  bitCount : Int
  posCount : Int
  thisBit : Int
  metric : Int
  metricN : Int
  shiftReg : Nat
  output : Int → Nat
  len : Int
  sumI : Int
  sumQ : Int

/-- What one call of `Handle14443SamplesDemod` does: the new `Demod`, the index
of the store `Demod.output[Demod.len] = b` when the call performs it, and the
returned `BOOL`. -/
structure DemodResult where
  demod : Demod
  write : Option Int
  ret : Bool

/-- The macro `MAKE_SOFT_DECISION()` (lines 435-446): the value it leaves in `v`. -/
def MAKE_SOFT_DECISION (d : Demod) (ci cq : Int) : Int :=
  let v : Int := if d.sumI > 0 then ci else -ci
  if d.sumQ > 0 then v + cq else v - cq

/-- The function `Handle14443SamplesDemod(ci, cq)` (lines 429-576).
`DEMOD_ERROR_WAIT` has no arm of its own and takes the `default:` one. -/
def Handle14443SamplesDemod (d : Demod) (ci cq : Int) : DemodResult :=
  match d.state with
  | .DEMOD_UNSYNCD =>
    let v : Int := ci
    let v : Int := if v < 0 then -v else v
    let v : Int := if cq > 0 then v + cq else v - cq
    if v > 40 then
      ⟨{ d with posCount := 0, state := .DEMOD_PHASE_REF_TRAINING, sumI := 0, sumQ := 0 },
        none, false⟩
    else ⟨d, none, false⟩
  | .DEMOD_PHASE_REF_TRAINING =>
    let d : Demod :=
      if d.posCount < 8 then { d with sumI := d.sumI + ci, sumQ := d.sumQ + cq }
      else if d.posCount > 100 then { d with state := .DEMOD_UNSYNCD }
      else
        let v := MAKE_SOFT_DECISION d ci cq
        if v < 0 then { d with state := .DEMOD_AWAITING_FALLING_EDGE_OF_SOF, posCount := 0 }
        else d
    ⟨{ d with posCount := d.posCount + 1 }, none, false⟩
  | .DEMOD_AWAITING_FALLING_EDGE_OF_SOF =>
    let v := MAKE_SOFT_DECISION d ci cq
    let d : Demod :=
      if v < 0 then { d with state := .DEMOD_GOT_FALLING_EDGE_OF_SOF, posCount := 0 }
      else if d.posCount > 100 then { d with state := .DEMOD_UNSYNCD }
      else d
    ⟨{ d with posCount := d.posCount + 1 }, none, false⟩
  | .DEMOD_GOT_FALLING_EDGE_OF_SOF =>
    let v := MAKE_SOFT_DECISION d ci cq
    let d : Demod :=
      if v > 0 then
        if d.posCount < 12 then { d with state := .DEMOD_UNSYNCD }
        else
          { d with state := .DEMOD_AWAITING_START_BIT, posCount := 0, len := 0,
                   metricN := 0, metric := 0 }
      else if d.posCount > 100 then { d with state := .DEMOD_UNSYNCD }
      else d
    ⟨{ d with posCount := d.posCount + 1 }, none, false⟩
  | .DEMOD_AWAITING_START_BIT =>
    let v := MAKE_SOFT_DECISION d ci cq
    if v > 0 then
      if d.posCount > 10 then ⟨{ d with state := .DEMOD_UNSYNCD }, none, false⟩
      else ⟨d, none, false⟩
    else
      ⟨{ d with bitCount := 0, posCount := 1, thisBit := v, shiftReg := 0,
                state := .DEMOD_RECEIVING_DATA }, none, false⟩
  | .DEMOD_RECEIVING_DATA =>
    let v := MAKE_SOFT_DECISION d ci cq
    if d.posCount = 0 then
      ⟨{ d with thisBit := v, posCount := 1 }, none, false⟩
    else
      let d : Demod := { d with thisBit := d.thisBit + v }
      let d : Demod :=
        if d.thisBit > 0 then { d with metric := d.metric + d.thisBit }
        else { d with metric := d.metric - d.thisBit }
      let d : Demod := { d with metricN := d.metricN + 1 }
      let d : Demod := { d with shiftReg := d.shiftReg >>> 1 }
      let d : Demod := if d.thisBit > 0 then { d with shiftReg := d.shiftReg ||| 0x200 } else d
      let d : Demod := { d with bitCount := d.bitCount + 1 }
      if d.bitCount = 10 then
        let s : Nat := d.shiftReg
        if s &&& 0x200 ≠ 0 ∧ s &&& 0x001 = 0 then
          let b : Nat := (s >>> 1) % 256
          let i : Int := d.len
          let d : Demod := { d with output := store d.output i b }
          let d : Demod := { d with len := d.len + 1 }
          let d : Demod := { d with state := .DEMOD_AWAITING_START_BIT }
          ⟨{ d with posCount := 0 }, some i, false⟩
        else if s = 0x000 then
          ⟨d, none, true⟩
        else
          let d : Demod := { d with state := .DEMOD_UNSYNCD }
          ⟨{ d with posCount := 0 }, none, false⟩
      else ⟨{ d with posCount := 0 }, none, false⟩
  | .DEMOD_ERROR_WAIT =>
    ⟨{ d with state := .DEMOD_UNSYNCD }, none, false⟩

/-- The demodulator after a caller has passed it the sample pairs one by one,
going on whatever each call returned and resetting nothing. -/
def demodFeed (d : Demod) : List (Int × Int) → Demod
  | [] => d
  | s :: ss => demodFeed (Handle14443SamplesDemod d s.1 s.2).demod ss

/-- The values returned by the successive calls of `demodFeed`. -/
def demodReturns (d : Demod) : List (Int × Int) → List Bool
  | [] => []
  | s :: ss =>
    (Handle14443SamplesDemod d s.1 s.2).ret ::
      demodReturns (Handle14443SamplesDemod d s.1 s.2).demod ss

/-- The demodulator as it stands at the first call that returns TRUE, if any. -/
def demodFirstFrame (d : Demod) : List (Int × Int) → Option Demod
  | [] => none
  | s :: ss =>
    if (Handle14443SamplesDemod d s.1 s.2).ret then some (Handle14443SamplesDemod d s.1 s.2).demod
    else demodFirstFrame (Handle14443SamplesDemod d s.1 s.2).demod ss

/-- One logical symbol per group of four stuffed bits: the first bit of each
group. -/
def symbolsOf : List Bool → List Bool
  | a :: _ :: _ :: _ :: rest => a :: symbolsOf rest
  | _ => []

/-- A synthetic in-phase carrier of amplitude `A`: every symbol becomes two
sample pairs, `(+A, 0)` for high and `(-A, 0)` for low. -/
def carrierSamples (A : Int) (symbols : List Bool) : List (Int × Int) :=
  symbols.flatMap (fun x => List.replicate 2 (if x then (A, 0) else (-A, 0)))

/-! ## CRC-B -/

/-- Modelled from the spec: the CRC routine lives in common/iso14443_crc.c, which
is not part of this file. One byte is folded into the running ISO/IEC 13239
checksum (reflected polynomial 0x8408). -/
def UpdateCrc14443 (crc : Nat) (ch : Nat) : Nat :=
  forLoop 8 (fun c => if c &&& 1 ≠ 0 then (c >>> 1) ^^^ 0x8408 else c >>> 1) (crc ^^^ ch)

/-- Modelled from the spec: `ComputeCrc14443(CRC_14443_B, data, n, &first, &second)`
from common/iso14443_crc.c, which is not part of this file. CRC-B is the
ISO/IEC 13239 checksum with the Type B seed 0xFFFF, complemented, and yields two
bytes, low then high. -/
def ComputeCrc14443 (data : List Nat) : Nat × Nat :=
  let w := (data.foldl UpdateCrc14443 0xFFFF) ^^^ 0xFFFF
  (w &&& 0xFF, (w >>> 8) &&& 0xFF)

/-! ## Read SRI512 -/

/-- What the operator and the tag see of a run of an orchestrator, in order:
a frame coded by `CodeIso14443bAsReader` and transmitted, a `DbpString` message
or a `DbpIntegers` record (three 32-bit words). -/
inductive Event where
  | frame (bytes : List Nat)
  | str (msg : String)
  | ints (a b c : Nat)
  deriving DecidableEq, Repr

/-- What `GetSamplesFor14443Demod` leaves behind for the orchestrator:
`Demod.len` and the bytes of `Demod.output`. -/
structure Answer where
  len : Int
  output : Int → Nat

/-- The tag and the air interface: given the frames transmitted so far, the
last one being the command just sent, the answer demodulated for it. -/
abbrev Tag := List (List Nat) → Answer

/-- An `int` argument as the 32-bit word `DbpIntegers` records. -/
def word32 (x : Int) : Nat := (x % 4294967296).toNat

/-- The block loop of `ReadSRI512Iso14443` (lines 916-946), one iteration per
unit of fuel; `none` when the fuel runs out before the loop ends. `i` is the
`BYTE` loop variable, `sent` the frames transmitted so far and `log` the events
so far. -/
def readBlocksLoop (tag : Tag) : Nat → Nat → List (List Nat) → List Event → Option (List Event)
  | 0, _, _, _ => none
  | fuel + 1, i, sent, log =>
    let log : List Event :=
      if i = 0x10 then log ++ [Event.str "System area block (0xff):"] else log
    let i : Nat := if i = 0x10 then 0xff else i
    let crc := ComputeCrc14443 [0x08, i]
    let cmd1 : List Nat := [0x08, i, crc.1, crc.2]
    let sent := sent ++ [cmd1]
    let log := log ++ [Event.frame cmd1]
    let a := tag sent
    if a.len ≠ 6 then
      some (log ++ [Event.str "Expected 6 bytes from tag, got less..."])
    else
      let crc := ComputeCrc14443 [a.output 0, a.output 1, a.output 2, a.output 3]
      let log : List Event :=
        if crc.1 ≠ a.output 4 ∨ crc.2 ≠ a.output 5 then
          log ++ [Event.str "CRC Error reading block! - Below: expected, got",
            Event.ints (word32 (((crc.1 : Int) <<< 8) + crc.2))
              (word32 (((a.output 4 : Int) <<< 8) + a.output 5)) 0]
        else log
      let log := log ++ [Event.str "Address , Contents, CRC",
        Event.ints (word32 i)
          (word32 (((a.output 3 : Int) <<< 24) + ((a.output 2 : Int) <<< 16)
            + ((a.output 1 : Int) <<< 8) + a.output 0))
          (word32 (((a.output 4 : Int) <<< 8) + a.output 5))]
      if i = 0xff then some log
      else readBlocksLoop tag fuel ((i + 1) % 256) sent log

/-- The function `ReadSRI512Iso14443` (lines 828-947) against a tag: the events
of the run, or `none` when the block loop needs more than `fuel` iterations. -/
def ReadSRI512Iso14443 (tag : Tag) (fuel : Nat) : Option (List Event) :=
  let cmd1 : List Nat := [0x06, 0x00, 0x97, 0x5b]
  let sent : List (List Nat) := [cmd1]
  let log : List Event := [Event.frame cmd1]
  let a := tag sent
  if a.len = 0 then some (log ++ [Event.str "No response from tag"])
  else
    let log := log ++ [Event.str "Randomly generated UID from tag (+ 2 byte CRC):",
      Event.ints (word32 (a.output 0)) (word32 (a.output 1)) (word32 (a.output 2)),
      Event.str "Now SELECT tag:"]
    let c1 : Nat := a.output 0
    let crc := ComputeCrc14443 [0x0E, c1]
    let cmd1 : List Nat := [0x0E, c1, crc.1, crc.2]
    let sent := sent ++ [cmd1]
    let log := log ++ [Event.frame cmd1]
    let a := tag sent
    if a.len ≠ 3 then
      some (log ++ [Event.str "Expected 3 bytes from tag, got:", Event.ints (word32 a.len) 0 0])
    else
      let crc := ComputeCrc14443 [a.output 0]
      if crc.1 ≠ a.output 1 ∨ crc.2 ≠ a.output 2 then
        some (log ++ [Event.str "CRC Error reading select response."])
      else if c1 ≠ a.output 0 then
        some (log ++ [Event.str "Bad response to SELECT from Tag, aborting:",
          Event.ints (word32 c1) (word32 (a.output 0)) 0])
      else
        let crc := ComputeCrc14443 [0x0B]
        let cmd1 : List Nat := [0x0B, crc.1, crc.2]
        let sent := sent ++ [cmd1]
        let log := log ++ [Event.frame cmd1]
        let a := tag sent
        if a.len ≠ 10 then
          some (log ++ [Event.str "Expected 10 bytes from tag, got:",
            Event.ints (word32 a.len) 0 0])
        else
          let crc := ComputeCrc14443 (bufferPrefix a.output 8)
          let log : List Event :=
            if crc.1 ≠ a.output 8 ∨ crc.2 ≠ a.output 9 then
              log ++ [Event.str "CRC Error reading block! - Below: expected, got",
                Event.ints (word32 (((crc.1 : Int) <<< 8) + crc.2))
                  (word32 (((a.output 8 : Int) <<< 8) + a.output 9)) 0]
            else log
          let log := log ++ [Event.str "Tag UID (64 bits):",
            Event.ints
              (word32 (((a.output 7 : Int) <<< 24) + ((a.output 6 : Int) <<< 16)
                + ((a.output 5 : Int) <<< 8) + a.output 4))
              (word32 (((a.output 3 : Int) <<< 24) + ((a.output 2 : Int) <<< 16)
                + ((a.output 1 : Int) <<< 8) + a.output 0)) 0,
            Event.str "Tag memory dump, block 0 to 15"]
          readBlocksLoop tag fuel 0x00 sent log

/-- The frames transmitted in a run, in order. -/
def framesOf (log : List Event) : List (List Nat) :=
  log.filterMap (fun e => match e with
    | Event.frame b => some b
    | _ => none)

/-- The frame of a READ_BLOCK command for a block address. -/
def readBlockFrame (addr : Nat) : List Nat :=
  [0x08, addr, (ComputeCrc14443 [0x08, addr]).1, (ComputeCrc14443 [0x08, addr]).2]

/-! ## States, inputs and run predicates used in the statements -/

/-- A UART about to sample the tenth bit of a character while its buffer holds
99 of 100 bytes. -/
def uartAtCapacity : Uart :=
  ⟨.STATE_RECEIVING_DATA, 0x154, 9, 99, 100, 1, fun _ => 0⟩

/-- A UART about to sample the tenth bit of a character with room left. -/
def uartMidFrame : Uart :=
  ⟨.STATE_RECEIVING_DATA, 0x154, 9, 3, 100, 1, fun _ => 0⟩

/-- The capacity invariant of the UART: the capacity is positive, the byte
count never exceeds it, and while a frame is being received the next store
index is inside the buffer. -/
def UartInv (u : Uart) : Prop :=
  1 ≤ u.byteCntMax ∧ u.byteCnt ≤ u.byteCntMax ∧
  ((u.state = .STATE_AWAITING_START_BIT ∨ u.state = .STATE_RECEIVING_DATA) →
    0 ≤ u.byteCnt ∧ u.byteCnt < u.byteCntMax)

/-- A UART as the orchestrators set it up: UNSYNCED, capacity 100. -/
def uartReset : Uart :=
  ⟨.STATE_UNSYNCD, 0, 0, 0, 100, 0, fun _ => 0x44⟩

/-- A demodulator as the orchestrators set it up: UNSYNCED, empty output. -/
def demodReset : Demod :=
  ⟨.DEMOD_UNSYNCD, 0, 0, 0, 0, 0, 0, fun _ => 0x44, 0, 0, 0⟩

/-- The demodulator right after a start of frame seen on an in-phase carrier of
amplitude 50 (40 samples high, 20 samples low, 2 samples high):
AWAITING_START_BIT, `posCount` 1, `sumI` 400. -/
def demodAfterSof : Demod :=
  demodFeed demodReset
    (carrierSamples 50 (List.replicate 20 true ++ List.replicate 10 false ++ [true]))

/-- A demodulator half way through a symbol whose first sample gave a soft
value of 0, with the phase reference `(sumI, sumQ) = (100, 1)`. -/
def demodMidSymbol : Demod :=
  ⟨.DEMOD_RECEIVING_DATA, 0, 1, 0, 0, 0, 0, fun _ => 0x44, 0, 100, 1⟩

/-- The output buffer holding the given bytes, `0x44` (the fill value of the
`memset`) elsewhere. -/
def bufferOf (l : List Nat) : Int → Nat :=
  fun i => if 0 ≤ i then l.getD i.toNat 0x44 else 0x44

/-- A well-behaved SRI512 for the walk: it answers by the opcode of the last
frame, SELECT and INITIATE with the chip id `0x77` and its CRC-B, GET_UID with
10 bytes and READ_BLOCK with 6 bytes. -/
def sriTag : Tag := fun sent =>
  match sent.getLast? with
  | some (0x0B :: _) => ⟨10, bufferOf [1, 2, 3, 4, 5, 6, 7, 8, 9, 10]⟩
  | some (0x08 :: _) => ⟨6, bufferOf [0x11, 0x22, 0x33, 0x44, 0x55, 0x66]⟩
  | _ => ⟨3, bufferOf [0x77, (ComputeCrc14443 [0x77]).1, (ComputeCrc14443 [0x77]).2]⟩

/-- The INITIATE frame (line 847). -/
def initiateFrame : List Nat := [0x06, 0x00, 0x97, 0x5b]

/-- The SELECT frame for a chip id (lines 863-865). -/
def selectFrame (id : Nat) : List Nat :=
  [0x0E, id, (ComputeCrc14443 [0x0E, id]).1, (ComputeCrc14443 [0x0E, id]).2]

/-- The GET_UID frame (lines 890-892). -/
def getUidFrame : List Nat :=
  [0x0B, (ComputeCrc14443 [0x0B]).1, (ComputeCrc14443 [0x0B]).2]

/-- A run of the UART in which no call returns TRUE, from `u` to `u'`. -/
def UartQuiet (u : Uart) (bits : List Int) (u' : Uart) : Prop :=
  uartFeed u bits = u' ∧ ∀ r ∈ uartReturns u bits, r = false

/-- The buffer after the bytes of `l` have been stored from index `k` on. -/
def storeList (p : Int → Nat) (k : Int) : List Nat → (Int → Nat)
  | [] => p
  | b :: bs => storeList (store p k b) (k + 1) bs

/-- The shift register after the bits of `xs` have been sampled into it, first
bit first. -/
def shiftInBits (r : Nat) (xs : List Bool) : Nat :=
  xs.foldl (fun r x => sampledReg r (if x then 1 else 0)) r

/-- The input slots the UART sees for one character when the stream is cut
after the third slot of a stop bit: the fourth slot of the first idle bit, the
second idle bit, the start bit, the eight data bits and three slots of the
next high bit. -/
def uartCharSlots (b : Nat) : List Int :=
  [1] ++ [1, 1, 1, 1] ++ [0, 0, 0, 0] ++ oversample4 (lsbBits b) ++ [1, 1, 1]

/-- The reset `SnoopIso14443` applies to the UART once a call has returned TRUE
(lines 1058-1061): `memset` to zero, same output buffer, capacity 100,
UNSYNCED. -/
def uartSnoopReset (u : Uart) : Uart :=
  ⟨.STATE_UNSYNCD, 0, 0, 0, 100, 0, u.output⟩

/-- The values returned by the successive calls when the caller applies
`uartSnoopReset` after every call that returned TRUE. -/
def uartReturnsReset (u : Uart) : List Int → List Bool
  | [] => []
  | b :: bs =>
    (Handle14443UartBit u b).ret ::
      uartReturnsReset
        (if (Handle14443UartBit u b).ret then uartSnoopReset (Handle14443UartBit u b).uart
         else (Handle14443UartBit u b).uart) bs

/-- A frame of 100 bytes, as long as the UART buffer. -/
def frame100 : List Nat := List.replicate 99 0 ++ [0]

/-- A run of the demodulator in which no call returns TRUE, from `d` to `d'`. -/
def DemodQuiet (d : Demod) (samples : List (Int × Int)) (d' : Demod) : Prop :=
  demodFeed d samples = d' ∧ ∀ r ∈ demodReturns d samples, r = false

/-- The sample pair of a symbol on an in-phase carrier of amplitude `A`. -/
def carrierSample (A : Int) (x : Bool) : Int × Int :=
  if x then (A, 0) else (-A, 0)

/-- The symbols the demodulator sees for one character: start, eight data bits
least significant first, stop. -/
def charSymbols (b : Nat) : List Bool :=
  [false] ++ lsbBits b ++ [true]

/-- The symbols of a tag frame: TR1 burst, start of frame, the characters, the
end of frame and the closing high level. -/
def tagSymbols (B : List Nat) : List Bool :=
  List.replicate 20 true ++ List.replicate 10 false ++ List.replicate 2 true ++
    B.flatMap charSymbols ++ List.replicate 10 false ++ List.replicate 10 true

/-- The address the block loop reads when its loop variable is `i`: iteration
index `0x10` is remapped to the system area `0xff` (lines 917-921). -/
def blockAddr (i : Nat) : Nat := if i = 0x10 then 0xff else i

/-- The events of the run up to and including the transmission of SELECT, for
an INITIATE answer `a` (lines 847-867). -/
def selectPrefix (a : Answer) : List Event :=
  [Event.frame initiateFrame, Event.str "Randomly generated UID from tag (+ 2 byte CRC):",
    Event.ints (word32 (a.output 0)) (word32 (a.output 1)) (word32 (a.output 2)),
    Event.str "Now SELECT tag:", Event.frame (selectFrame (a.output 0))]

/-- The message the block loop logs when it remaps iteration index `0x10`
(lines 917-920). -/
def sysEvents (i : Nat) : List Event :=
  if i = 0x10 then [Event.str "System area block (0xff):"] else []

/-- The events the block loop logs for the CRC check of a 6-byte answer
(lines 933-938): nothing when the CRC matches. -/
def blockCrcEvents (r : Answer) : List Event :=
  if (ComputeCrc14443 [r.output 0, r.output 1, r.output 2, r.output 3]).1 ≠ r.output 4 ∨
      (ComputeCrc14443 [r.output 0, r.output 1, r.output 2, r.output 3]).2 ≠ r.output 5 then
    [Event.str "CRC Error reading block! - Below: expected, got",
      Event.ints
        (word32 ((((ComputeCrc14443 [r.output 0, r.output 1, r.output 2, r.output 3]).1 : Int)
          <<< 8) + (ComputeCrc14443 [r.output 0, r.output 1, r.output 2, r.output 3]).2))
        (word32 (((r.output 4 : Int) <<< 8) + r.output 5)) 0]
  else []

/-- The record the block loop logs for address `a` and answer `r` (line 941). -/
def blockRecord (a : Nat) (r : Answer) : Event :=
  Event.ints (word32 a)
    (word32 (((r.output 3 : Int) <<< 24) + ((r.output 2 : Int) <<< 16)
      + ((r.output 1 : Int) <<< 8) + r.output 0))
    (word32 (((r.output 4 : Int) <<< 8) + r.output 5))

/-- The events logged for the CRC check of a 10-byte GET_UID answer
(lines 903-908): nothing when the CRC matches. -/
def uidCrcEvents (r : Answer) : List Event :=
  if (ComputeCrc14443 (bufferPrefix r.output 8)).1 ≠ r.output 8 ∨
      (ComputeCrc14443 (bufferPrefix r.output 8)).2 ≠ r.output 9 then
    [Event.str "CRC Error reading block! - Below: expected, got",
      Event.ints
        (word32 ((((ComputeCrc14443 (bufferPrefix r.output 8)).1 : Int) <<< 8)
          + (ComputeCrc14443 (bufferPrefix r.output 8)).2))
        (word32 (((r.output 8 : Int) <<< 8) + r.output 9)) 0]
  else []

/-- The events logged after the GET_UID CRC check and before the block loop
(lines 909-913). -/
def uidEvents (r : Answer) : List Event :=
  [Event.str "Tag UID (64 bits):",
    Event.ints
      (word32 (((r.output 7 : Int) <<< 24) + ((r.output 6 : Int) <<< 16)
        + ((r.output 5 : Int) <<< 8) + r.output 4))
      (word32 (((r.output 3 : Int) <<< 24) + ((r.output 2 : Int) <<< 16)
        + ((r.output 1 : Int) <<< 8) + r.output 0)) 0,
    Event.str "Tag memory dump, block 0 to 15"]

/-- The answer to INITIATE. -/
def initiateAnswer (tag : Tag) : Answer := tag [initiateFrame]

/-- The answer to SELECT. -/
def selectAnswer (tag : Tag) : Answer :=
  tag [initiateFrame, selectFrame ((initiateAnswer tag).output 0)]

/-- The answer to GET_UID. -/
def uidAnswer (tag : Tag) : Answer :=
  tag [initiateFrame, selectFrame ((initiateAnswer tag).output 0), getUidFrame]

/-- A tag that gives the answer `a` to every frame with opcode `op` and
behaves as `sriTag` on every other frame. -/
def answerTag (op : Nat) (a : Answer) : Tag := fun sent =>
  match sent.getLast? with
  | some (o :: _) => if o = op then a else sriTag sent
  | _ => sriTag sent

/-! ## Tag emulation -/

/-- The query `cmd1` of `SimulateIso14443Tag` (line 305). -/
def cmd1 : List Nat := [0x05, 0x00, 0x08, 0x39, 0x73]

/-- The answer `response1` of `SimulateIso14443Tag` (lines 306-309). -/
def response1 : List Nat :=
  [0x50, 0x82, 0x0d, 0xe1, 0x74, 0x20, 0x38, 0x19, 0x22, 0x00, 0x21, 0x85, 0x5e, 0xd7]

/-- What one successful call of `GetIso14443CommandFromReader` leaves behind:
the length stored through `len` (the UART's `byteCnt`) and the contents of
`receivedCmd` at the return. -/
structure Command where
  len : Int
  received : Int → Nat

/-- What `SimulateIso14443Tag` does that can be observed: `stream resp n` is
one pass of the transmit loop (lines 379-395) writing `n` bytes to the serial
port from the buffer that holds the copy of the coded frame `resp`; `str` and
`ints` are the calls of `DbpString` and `DbpIntegers`. -/
inductive SimEvent where
  | stream (resp : ToSendBuf) (n : Int)
  | str (s : String)
  | ints (a b c : Nat)

/-- The outcome of the main loop on a finite input: the events so far, the
command counter, and whether the function has returned (`exited`) or is still
waiting for the next command. -/
structure SimResult where
  log : List SimEvent
  cmdsRecvd : Int
  exited : Bool

/-- The test `len == sizeof(cmd1) && memcmp(receivedCmd, cmd1, len) == 0`
(line 343). -/
def matchesCmd1 (c : Command) : Bool :=
  decide (c.len = 5) && decide (bufferPrefix c.received 5 = cmd1)

/-- The main loop of `SimulateIso14443Tag` (lines 333-397) over the outcomes of
the successive calls of `GetIso14443CommandFromReader`: `none` is a button
press, `some c` a delivered frame. `resp1` is the coded answer, whose
`ToSendMax` is `resp1Len`. The transmit loop writes `resp[i]` and leaves when
`i > respLen` after the increment, so it writes `respLen + 1` bytes. The
`memset` of line 360 only prepares the buffer for the next call and is part of
what the next `Command` reports. In the branch of an unknown command the CRC
is taken over `len - 2` bytes; for `len < 2` the model takes the empty
prefix. -/
def simLoop (resp1 : ToSendBuf) : List (Option Command) → Int → List SimEvent → SimResult
  | [], n, log => ⟨log, n, false⟩
  | none :: _, n, log =>
    ⟨log ++ [SimEvent.ints (word32 n) 0 0, SimEvent.str "button press"], n, true⟩
  | some c :: rest, n, log =>
    if matchesCmd1 c then
      if n + 1 > 0x30 then
        ⟨log ++ [SimEvent.str "many commands later..."], n + 1, true⟩
      else if resp1.ToSendMax ≤ 0 then
        simLoop resp1 rest (n + 1) log
      else
        simLoop resp1 rest (n + 1) (log ++ [SimEvent.stream resp1 (resp1.ToSendMax + 1)])
    else
      ⟨log ++ [SimEvent.str "new cmd from reader:",
          SimEvent.ints (word32 c.len) 0x1234 (word32 n),
          if (ComputeCrc14443 (bufferPrefix c.received (c.len - 2).toNat)).1
                ≠ c.received (c.len - 2) ∨
              (ComputeCrc14443 (bufferPrefix c.received (c.len - 2).toNat)).2
                ≠ c.received (c.len - 1) then
            SimEvent.str "+++CRC fail"
          else SimEvent.str "CRC passes"], n, true⟩

/-- The function `SimulateIso14443Tag` (lines 303-398): the answer is coded
once, the counter starts at 0. -/
def SimulateIso14443Tag (input : List (Option Command)) : SimResult :=
  simLoop (CodeIso14443bAsTag response1) input 0 []

/-- The number of responses streamed in a log. -/
def responsesOf (log : List SimEvent) : Nat :=
  log.countP (fun e => match e with
    | SimEvent.stream _ _ => true
    | _ => false)

/-- A delivered frame holding exactly the bytes of `l`. -/
def commandOf (l : List Nat) : Command := ⟨l.length, bufferOf l⟩

/-- The bookkeeping of the modulation buffer: with `n` bits stuffed since the
reset, the last byte in use has index `(n - 1) / 8` (rounded down, so -1 before
the first bit) and `ToSendBit` is the number of bits already in that byte. -/
def ToSendInv (t : ToSendBuf) : Prop :=
  t.ToSendMax = ((t.bits.length : Int) - 1) / 8 ∧
    t.ToSendBit = if t.bits.length = 0 then 8 else (t.bits.length - 1) % 8 + 1

/-! ## Snoop -/

/-- The byte `(x >> k) & 0xff` of a C `int` (two's complement, arithmetic
shift). -/
def byteAt (x : Int) (k : Nat) : Nat := ((x / 2 ^ k) % 256).toNat

/-- The state of `SnoopIso14443` between two passes of its sample loop:
`trace` holds the bytes `trace[0 .. traceLen)`, so `traceLen` is its length;
`stopped` tells that the loop has been left through one of the two
`if(traceLen > 1000) break;`. The receive buffers `receivedCmd` and
`receivedResponse` are the `output` fields of `uart` and `demod`.
In the source all of them lie in `BigBuf` (lines 968-979): the trace from byte
0, `receivedCmd` from byte 1024, `receivedResponse` from byte 1536 and the DMA
ring from byte 2048. They are kept here as separate objects, which is what the
code does while a record ends below the buffer it is copied from and a tag
frame stays within the 512 bytes up to the DMA ring; what is proved of the
bytes of a record carries these bounds as hypotheses. -/
structure Snoop where
  triggered : Bool
  trace : List Nat
  samples : Int
  uart : Uart
  demod : Demod
  stopped : Bool

/-- What one pass of the sample loop does: the new state, the byte count of the
reader frame when a call of `Handle14443UartBit` returned TRUE in this pass,
and the length of the tag frame when `Handle14443SamplesDemod` did. -/
structure SnoopResult where
  snoop : Snoop
  reader : Option Int
  tag : Option Int

/-- The reset `SnoopIso14443` applies to the demodulator (lines 1064-1066 and
1098-1100): `memset` to zero, same output buffer, UNSYNCED. -/
def demodSnoopReset (d : Demod) : Demod :=
  ⟨.DEMOD_UNSYNCD, 0, 0, 0, 0, 0, 0, d.output, 0, 0, 0⟩

/-- The set-up of `SnoopIso14443` before its loop (lines 961-1014). Only
`output`, `len` and `state` of the demodulator are assigned, its other fields
are what an earlier use left there (`d0`); the UART is zeroed. -/
def snoopInit (d0 : Demod) (receivedCmd receivedResponse : Int → Nat) : Snoop :=
  { triggered := false
    trace := []
    samples := 0
    uart := ⟨.STATE_UNSYNCD, 0, 0, 0, 100, 0, receivedCmd⟩
    demod := { d0 with output := receivedResponse, len := 0, state := .DEMOD_UNSYNCD }
    stopped := false }

/-- The macro `HANDLE_BIT_IF_BODY` (lines 1041-1066), run when a call of
`Handle14443UartBit` has returned TRUE and left the UART as `u`. A UART in
that position has `0 ≤ byteCnt`, so the count passed to `memcpy` is
`byteCnt` itself. The `memcpy` of line 1053 copies from `receivedCmd`, at byte
1024 of the buffer the trace starts in: source and record are apart as long as
the record ends within the first 1024 bytes. -/
def HANDLE_BIT_IF_BODY (s : Snoop) (u : Uart) : Snoop :=
  if s.triggered then
    let trace : List Nat := s.trace ++
      [byteAt s.samples 0, byteAt s.samples 8, byteAt s.samples 16, byteAt s.samples 24,
        0, 0, 0, 0, (u.byteCnt % 256).toNat] ++ bufferPrefix u.output u.byteCnt.toNat
    if trace.length > 1000 then { s with trace := trace, uart := u, stopped := true }
    else { s with trace := trace, uart := uartSnoopReset u, demod := demodSnoopReset s.demod }
  else { s with uart := uartSnoopReset u, demod := demodSnoopReset s.demod }

/-- One call `if(Handle14443UartBit(bit)) { HANDLE_BIT_IF_BODY }` (lines
1068-1073). -/
def snoopUartBit (s : Snoop) (bit : Int) : Snoop :=
  if (Handle14443UartBit s.uart bit).ret then
    HANDLE_BIT_IF_BODY s (Handle14443UartBit s.uart bit).uart
  else { s with uart := (Handle14443UartBit s.uart bit).uart }

/-- The statement `if(Demod.metricN != 0) Demod.metric /= Demod.metricN;`
(lines 1081-1083). The C division truncates. -/
def snoopAverage (d : Demod) : Demod :=
  if d.metricN ≠ 0 then { d with metric := Int.tdiv d.metric d.metricN } else d

/-- The block `if(Handle14443SamplesDemod(ci, cq)) { ... }` (lines 1075-1103).
The `memcpy` of line 1091 copies `Demod.len` bytes from `receivedResponse`;
they are the bytes of `Demod.output` as long as `Demod.len ≤ 512`, beyond which
`receivedResponse` runs into the DMA ring. -/
def snoopDemod (s : Snoop) (ci cq : Int) : Snoop :=
  if (Handle14443SamplesDemod s.demod ci cq).ret then
    let d : Demod := snoopAverage (Handle14443SamplesDemod s.demod ci cq).demod
    let trace : List Nat := s.trace ++
      [byteAt s.samples 0, byteAt s.samples 8, byteAt s.samples 16,
        0x80 ||| byteAt s.samples 24,
        byteAt d.metric 0, byteAt d.metric 8, byteAt d.metric 16, byteAt d.metric 24,
        (d.len % 256).toNat] ++ bufferPrefix d.output d.len.toNat
    if trace.length > 1000 then { s with trace := trace, demod := d, stopped := true }
    else { s with trace := trace, triggered := true, demod := demodSnoopReset d }
  else { s with demod := (Handle14443SamplesDemod s.demod ci cq).demod }

/-- One pass of the sample loop of `SnoopIso14443` that consumes the pair
`(ci, cq)` (lines 1029-1101): `samples += 2`, the UART on `ci & 1`, the UART
on `cq & 1`, the demodulator on `(ci, cq)`; a `break` skips the rest. -/
def snoopStep (s : Snoop) (ci cq : Int) : SnoopResult :=
  let s0 : Snoop := { s with samples := s.samples + 2 }
  let r1 := Handle14443UartBit s0.uart (ci % 2)
  let s1 := snoopUartBit s0 (ci % 2)
  if s1.stopped then ⟨s1, some r1.uart.byteCnt, none⟩
  else
    let r2 := Handle14443UartBit s1.uart (cq % 2)
    let s2 := snoopUartBit s1 (cq % 2)
    let reader : Option Int :=
      if r1.ret then some r1.uart.byteCnt
      else if r2.ret then some r2.uart.byteCnt else none
    if s2.stopped then ⟨s2, reader, none⟩
    else
      let r3 := Handle14443SamplesDemod s2.demod ci cq
      ⟨snoopDemod s2 ci cq, reader, if r3.ret then some r3.demod.len else none⟩

/-- The loop of `SnoopIso14443` over the sample pairs it consumes, until a
`break` or the end of the input (the button, or the DMA overrun, ends the run
where the input ends). -/
def snoopFeed (s : Snoop) : List (Int × Int) → Snoop
  | [] => s
  | p :: ps => if s.stopped then s else snoopFeed (snoopStep s p.1 p.2).snoop ps

/-- Four little-endian bytes of a 32-bit value. -/
def le32 (x : Int) : List Nat :=
  [(x % 256).toNat, (x / 256 % 256).toNat, (x / 65536 % 256).toNat, (x / 16777216 % 256).toNat]

/-- A reader record as the trace format describes it: the sample count as 4
little-endian bytes, 4 zero bytes, the length byte, the command bytes. -/
def readerRecord (S : Int) (cmd : List Nat) : List Nat :=
  le32 S ++ [0, 0, 0, 0] ++ [cmd.length % 256] ++ cmd

/-- A tag record as the trace format describes it: the low 3 bytes of the
sample count, the byte `0x80 | ((S >> 24) & 0xFF)`, the metric average as 4
little-endian bytes, the length byte, the response bytes. -/
def tagRecord (S avg : Int) (resp : List Nat) : List Nat :=
  [(S % 256).toNat, (S / 256 % 256).toNat, (S / 65536 % 256).toNat,
    0x80 ||| (S / 16777216 % 256).toNat] ++ le32 avg ++ [resp.length % 256] ++ resp

/-- The bookkeeping of the demodulator between SOF and EOF: `len` is not
negative, `metricN` counts the symbols of the frame so far and `metric` is a
sum of absolute values. -/
def DemodOk (d : Demod) : Prop :=
  (d.state = .DEMOD_AWAITING_START_BIT →
    0 ≤ d.len ∧ d.metricN = 10 * d.len ∧ 0 ≤ d.metric) ∧
  (d.state = .DEMOD_RECEIVING_DATA →
    0 ≤ d.len ∧ d.metricN = 10 * d.len + d.bitCount ∧ 0 ≤ d.metric ∧
    0 ≤ d.bitCount ∧ d.bitCount < 10)

/-- What holds of every state of a snoop run: the UART keeps its capacity
invariant with capacity 100, and while the loop runs the demodulator keeps its
bookkeeping and at most 1000 bytes are in the trace. -/
def SnoopInv (s : Snoop) : Prop :=
  UartInv s.uart ∧ s.uart.byteCntMax = 100 ∧
  (s.stopped = false → DemodOk s.demod ∧ s.trace.length ≤ 1000)

/-- The bits the UART is given in a snoop run over the sample pairs `l`:
`ci & 1` then `cq & 1` of every pair. -/
def pairBits (l : List (Int × Int)) : List Int :=
  l.flatMap (fun p => [p.1 % 2, p.2 % 2])

/-- The modes of the UART in which it is not yet inside a frame. -/
def uartIdle (u : Uart) : Prop :=
  u.state = .STATE_UNSYNCD ∨ u.state = .STATE_GOT_FALLING_EDGE_OF_SOF ∨
    u.state = .STATE_ERROR_WAIT

/-- The sample pairs of the tag frame `B` on an in-phase carrier of amplitude
`A`, up to the pair before the one at which the demodulator reports the frame
(the second sample of the tenth low symbol of the end of frame). -/
def tagFrameHead (A : Int) (B : List Nat) : List (Int × Int) :=
  (carrierSamples A (symbolsOf (CodeIso14443bAsTag B).bits)).take (83 + 20 * B.length)

/-- The sample pairs of the tag frame `B`, cut right after the pair at which
the demodulator reports the frame. -/
def tagFrameSamples (A : Int) (B : List Nat) : List (Int × Int) :=
  (carrierSamples A (symbolsOf (CodeIso14443bAsTag B).bits)).take (84 + 20 * B.length)

/-- Consecutive input slots taken two by two, as the snoop loop gives them to
the UART: the I sample carries the first, the Q sample the second. -/
def pairUp : List Int → List (Int × Int)
  | a :: b :: rest => (a, b) :: pairUp rest
  | _ => []

/-- The sample pairs that carry the reader frame `B` (every coded bit on four
input slots), up to the pair before the one at which the UART reports the
frame. -/
def readerFrameHead (B : List Nat) : List (Int × Int) :=
  pairUp ((oversample4 (CodeIso14443bAsReader B).bits).take (242 + 44 * B.length))

/-- A snoop run right after the set-up, with both receive buffers and the
demodulator as a fresh board has them. -/
def snoopStart : Snoop :=
  snoopInit demodReset (fun _ => 0x44) (fun _ => 0x44)

/-! ## Invariants and relations of the demodulator -/

/-- The metric bookkeeping of the demodulator as it holds whether or not the
caller resets it after a frame: in AWAITING_START_BIT and in RECEIVING_DATA
`len` is not negative, `metricN` counts the symbols since the SOF and `metric`
is a sum of absolute values. -/
def MetricInv (d : Demod) : Prop :=
  (d.state = .DEMOD_AWAITING_START_BIT →
    0 ≤ d.len ∧ d.metricN = 10 * d.len ∧ 0 ≤ d.metric) ∧
  (d.state = .DEMOD_RECEIVING_DATA →
    0 ≤ d.len ∧ d.metricN = 10 * d.len + d.bitCount ∧ 0 ≤ d.metric)

/-- Two demodulators that agree on every field but the phase reference, the
second holding the reference of the first turned by a quarter turn:
`(sumI, sumQ)` becomes `(-sumQ, sumI)`. -/
def QuarterTurn (s s' : Demod) : Prop :=
  s'.state = s.state ∧ s'.bitCount = s.bitCount ∧ s'.posCount = s.posCount ∧
  s'.thisBit = s.thisBit ∧ s'.metric = s.metric ∧ s'.metricN = s.metricN ∧
  s'.shiftReg = s.shiftReg ∧ s'.output = s.output ∧ s'.len = s.len ∧
  s'.sumI = -s.sumQ ∧ s'.sumQ = s.sumI

/-- The states in which a call of `Handle14443SamplesDemod` runs
`MAKE_SOFT_DECISION()`: every mode after the training but for the first eight
samples and the time-out of PHASE_REF_TRAINING. -/
def softDecisionTaken (d : Demod) : Prop :=
  match d.state with
  | .DEMOD_UNSYNCD => False
  | .DEMOD_PHASE_REF_TRAINING => ¬ d.posCount < 8 ∧ ¬ d.posCount > 100
  | .DEMOD_AWAITING_FALLING_EDGE_OF_SOF => True
  | .DEMOD_GOT_FALLING_EDGE_OF_SOF => True
  | .DEMOD_AWAITING_START_BIT => True
  | .DEMOD_RECEIVING_DATA => True
  | .DEMOD_ERROR_WAIT => False

/-- A sample pair turned by a quarter turn: `(ci, cq)` becomes `(-cq, ci)`. -/
def quarterTurn (p : Int × Int) : Int × Int := (-p.2, p.1)

/-- Along the run of the demodulator over the sample pairs, `sumQ` is not zero
at any call that takes a soft decision. -/
def SoftOk (d : Demod) : List (Int × Int) → Prop
  | [] => True
  | p :: ps =>
    (softDecisionTaken d → d.sumQ ≠ 0) ∧ SoftOk (Handle14443SamplesDemod d p.1 p.2).demod ps

/-! ## Reader receive loop and the DMA ring -/

/-- The constant `DMA_BUFFER_SIZE` (line 14). -/
def DMA_BUFFER_SIZE : Int := 256

/-- The advance of the read cursor of the DMA ring, as both sample loops have
it (lines 625-627 and 1031-1034):
`upTo += 2; if(upTo - dmaBuf > DMA_BUFFER_SIZE) upTo -= DMA_BUFFER_SIZE;`.
The cursor is kept as the offset `upTo - dmaBuf`. -/
def dmaAdvance (upTo : Int) : Int :=
  let upTo : Int := upTo + 2
  if upTo > DMA_BUFFER_SIZE then upTo - DMA_BUFFER_SIZE else upTo

/-- The offset `upTo - dmaBuf` at which `upTo[0]` and `upTo[1]` are read for
the sample pair number `n` (counted from 0) of a sample loop: both loops start
with `upTo = dmaBuf` and advance the cursor once per pair consumed. -/
def dmaCursor : Nat → Int
  | 0 => 0
  | n + 1 => dmaAdvance (dmaCursor n)

/-- The locals of `GetSamplesFor14443Demod` (lines 580-591) and the two
receivers it drives. `upTo` is the offset `upTo - dmaBuf`. -/
structure Rx where
  max : Int
  gotFrame : Bool
  lastRxCounter : Int
  upTo : Int
  samples : Int
  uart : Uart
  demod : Demod

/-- What the hardware shows at one read of `PDC_RX_COUNTER(SSC_BASE)`: the
counter, and the bytes that `upTo[0]` and `upTo[1]` hold at that moment, which
the loop reads if it goes on to consume a pair. -/
structure Poll where
  counter : Int
  ci : Int
  cq : Int

/-- The outcome of `GetSamplesFor14443Demod` on a finite input: the locals, and
whether the `break` of line 648 was taken (`exited`) or the loop is still
running when the input ends. -/
structure RxResult where
  rx : Rx
  exited : Bool

/-- The set-up of `GetSamplesFor14443Demod` (lines 594-608). `bigBuf` is the
scratch buffer byte by byte, of which the first 400 bytes are filled with
`0x44`; the demodulator writes at its start, the UART at byte 1024. Of the
UART and the demodulator only `output`, `len`, `byteCntMax` and `state` are
assigned. -/
def rxInit (u0 : Uart) (d0 : Demod) (bigBuf : Int → Nat) : Rx :=
  let mem : Int → Nat := fun i => if 0 ≤ i ∧ i < 400 then 0x44 else bigBuf i
  { max := 0
    gotFrame := false
    lastRxCounter := DMA_BUFFER_SIZE
    upTo := 0
    samples := 0
    uart := { u0 with output := fun i => mem (i + 1024), byteCntMax := 100,
                      state := .STATE_UNSYNCD }
    demod := { d0 with output := mem, len := 0, state := .DEMOD_UNSYNCD } }

/-- The body of the `while` of `GetSamplesFor14443Demod` (lines 623-643) on the
pair `(ci, cq)` read at `upTo`: the cursor and the counter advance,
`samples += 2`, the UART is given two ones, and the demodulator the pair;
a TRUE from the demodulator sets `gotFrame` and nothing else. -/
def rxPair (s : Rx) (ci cq : Int) : Rx :=
  let upTo : Int := dmaAdvance s.upTo
  let last : Int := s.lastRxCounter - 2
  let last : Int := if last ≤ 0 then last + DMA_BUFFER_SIZE else last
  let u : Uart := (Handle14443UartBit (Handle14443UartBit s.uart 1).uart 1).uart
  let r := Handle14443SamplesDemod s.demod ci cq
  { s with upTo := upTo, lastRxCounter := last, samples := s.samples + 2, uart := u,
           demod := r.demod, gotFrame := if r.ret then true else s.gotFrame }

/-- The head of the loop `for(;;)` (lines 616-617):
`behindBy = lastRxCounter - PDC_RX_COUNTER(SSC_BASE); if(behindBy > max) max = behindBy;`. -/
def rxBehind (s : Rx) (counter : Int) : Rx :=
  let behindBy : Int := s.lastRxCounter - counter
  if behindBy > s.max then { s with max := behindBy } else s

/-- The loop `for(;;)` of `GetSamplesFor14443Demod` (lines 615-650) over the
successive reads of the hardware counter. With the flag `false` the next read
is the one of line 616, which only updates `max`; with the flag `true` it is
the test of the `while` (lines 620-621): `x & (DMA_BUFFER_SIZE - 1)` of a
two's-complement `int` is `x mod 256`. When the test fails the budget is
looked at (line 647). -/
def rxLoop : Bool → Rx → List Poll → RxResult
  | _, s, [] => ⟨s, false⟩
  | false, s, p :: ps => rxLoop true (rxBehind s p.counter) ps
  | true, s, p :: ps =>
    if (s.lastRxCounter - p.counter) % DMA_BUFFER_SIZE > 2 then
      rxLoop true (rxPair s p.ci p.cq) ps
    else if s.samples > 2000 then ⟨s, true⟩
    else rxLoop false s ps

/-- The function `GetSamplesFor14443Demod(weTx, n, quiet)` (lines 578-653).
`weTx` only selects the front-end mode, `quiet` only silences the closing
`DbpIntegers(max, gotFrame, Demod.len)`, and `n` is not used. -/
def GetSamplesFor14443Demod (u0 : Uart) (d0 : Demod) (bigBuf : Int → Nat)
    (polls : List Poll) : RxResult :=
  rxLoop false (rxInit u0 d0 bigBuf) polls

/-- The pairs handed to the demodulator over a run of the body of the
`while`. -/
def rxFeed (s : Rx) : List (Int × Int) → Rx
  | [] => s
  | p :: ps => rxFeed (rxPair s p.1 p.2) ps

/-- The `lastRxCounter` of the loop after one pair. -/
def nextRxCounter (last : Int) : Int :=
  if last - 2 ≤ 0 then last - 2 + DMA_BUFFER_SIZE else last - 2

/-- Reads of the `while` test at each of which the hardware is four bytes
ahead of the loop, carrying the given sample pairs. -/
def pollsAhead (last : Int) : List (Int × Int) → List Poll
  | [] => []
  | p :: ps => ⟨last - 4, p.1, p.2⟩ :: pollsAhead (nextRxCounter last) ps

/-! ## Command reception of the emulator -/

/-- The values `b & mask` that `GetIso14443CommandFromReader` hands to the
UART for one received byte, `mask` going from `0x80` down to `0x01`
(lines 287-289). -/
def byteMaskBits (b : Nat) : List Int :=
  (List.range 8).map (fun (i : Nat) => ((b &&& (0x80 >>> i) : Nat) : Int))

/-- The function `GetIso14443CommandFromReader(received, &len, maxLen)`
(lines 260-297) over the bytes the serial port delivers: the frame reported at
the first call of `Handle14443UartBit` that returns TRUE, with
`len = Uart.byteCnt`; `none` when the bytes end first (the button is pressed
after the last of them). Only `output`, `byteCntMax` and `state` of the UART
are assigned. -/
def GetIso14443CommandFromReader (u0 : Uart) (received : Int → Nat) (maxLen : Int)
    (bytes : List Nat) : Option Command :=
  (uartFirstFrame { u0 with output := received, byteCntMax := maxLen, state := .STATE_UNSYNCD }
    (bytes.flatMap byteMaskBits)).map (fun u => ⟨u.byteCnt, u.output⟩)

/-- The `lastRxCounter` of the receive loop after `n` pairs. -/
def rxCounterAfter : Nat → Int
  | 0 => DMA_BUFFER_SIZE
  | n + 1 => nextRxCounter (rxCounterAfter n)

/-- The reads of the hardware counter in a run of `GetSamplesFor14443Demod` in
which the hardware stays four bytes ahead while the pairs of `l` are consumed
and the ring is then found drained: the read of line 615 (value `c0`), one
read of the `while` test per pair, and a last one that finds
`PDC_RX_COUNTER` equal to `lastRxCounter`. -/
def drainedPolls (c0 : Int) (l : List (Int × Int)) : List Poll :=
  ⟨c0, 0, 0⟩ :: (pollsAhead DMA_BUFFER_SIZE l ++ [⟨rxCounterAfter l.length, 0, 0⟩])

/-- The bytes of the serial port that carry a reader frame with no character:
idle high, 40 slots low and 4 high for the SOF, then low for the EOF. -/
def emptyFrameBytes : List Nat :=
  [0xFF] ++ List.replicate 5 0 ++ [0xF0] ++ List.replicate 5 0

/-- The tag frame `5A` on a quadrature carrier of amplitude 50: the sample
pairs of `tagFrameSamples 50 [0x5A]` turned back by a quarter turn, `(ci, cq)`
to `(cq, -ci)`, so that a high symbol is `(0, -50)` and a low one `(0, 50)`. -/
@[irreducible]
def quadratureFrame : List (Int × Int) :=
  (tagFrameSamples 50 [0x5A]).map (fun p => (p.2, -p.1))

/-! ## Coder lemmas -/

theorem bits_ToSendStuffBit (b : Int) (t : ToSendBuf) :
    (ToSendStuffBit b t).bits = t.bits ++ [decide (b ≠ 0)] := by
  unfold ToSendStuffBit
  split <;> rfl

theorem bits_forLoop_stuff (b : Int) (n : Nat) (t : ToSendBuf) :
    (forLoop n (ToSendStuffBit b) t).bits = t.bits ++ List.replicate n (decide (b ≠ 0)) := by
  induction n generalizing t with
  | zero => simp [forLoop]
  | succ k ih =>
    rw [forLoop, ih, bits_ToSendStuffBit, List.replicate_succ]
    simp

theorem bits_stuff4 (b : Int) (t : ToSendBuf) :
    (stuff4 b t).bits = t.bits ++ List.replicate 4 (decide (b ≠ 0)) := by
  simp [stuff4, bits_ToSendStuffBit, List.replicate]

theorem bits_forLoop_stuff4 (b : Int) (n : Nat) (t : ToSendBuf) :
    (forLoop n (stuff4 b) t).bits = t.bits ++ List.replicate (4 * n) (decide (b ≠ 0)) := by
  induction n generalizing t with
  | zero => simp [forLoop]
  | succ k ih =>
    rw [forLoop, ih, bits_stuff4, List.append_assoc, ← List.replicate_add]
    congr 2
    omega

theorem decide_and_one (b : Nat) : decide (b &&& 1 ≠ 0) = b.testBit 0 := by
  rw [Nat.testBit, Nat.shiftRight_zero, Nat.and_comm]
  cases h : (b &&& 1 != 0) <;> simp_all

theorem forLoop_dataBits (f : Int → ToSendBuf → ToSendBuf) (g : Bool → List Bool)
    (hf : ∀ x t, (f x t).bits = t.bits ++ g (decide (x ≠ 0)))
    (n : Nat) (b : Nat) (t : ToSendBuf) :
    (forLoop n (fun (p : Nat × ToSendBuf) =>
      (p.1 >>> 1, if p.1 &&& 1 ≠ 0 then f 1 p.2 else f 0 p.2)) (b, t)).2.bits
      = t.bits ++ ((List.range n).map (fun j => b.testBit j)).flatMap g := by
  induction n generalizing b t with
  | zero => simp [forLoop]
  | succ k ih =>
    rw [forLoop, ih, List.range_succ_eq_map]
    have h0 : (if b &&& 1 ≠ 0 then f 1 t else f 0 t).bits = t.bits ++ g (b.testBit 0) := by
      rw [← decide_and_one]
      split
      · next h => rw [hf, decide_eq_true h, decide_eq_true (by decide : (1 : Int) ≠ 0)]
      · next h => rw [hf, decide_eq_false h, decide_eq_false (by decide : ¬ (0 : Int) ≠ 0)]
    simp only [h0, List.map_cons, List.map_map, List.flatMap_cons, List.append_assoc]
    congr 3
    apply List.map_congr_left
    intro j _
    simp [Nat.testBit_shiftRight, Nat.add_comm]

theorem bits_readerDataBits (b : Nat) (t : ToSendBuf) :
    (readerDataBits b t).bits = t.bits ++ lsbBits b := by
  have h := forLoop_dataBits ToSendStuffBit (fun x => [x]) bits_ToSendStuffBit 8 b t
  simpa [readerDataBits, lsbBits, List.flatMap] using h

theorem bits_tagDataBits (b : Nat) (t : ToSendBuf) :
    (tagDataBits b t).bits = t.bits ++ (lsbBits b).flatMap (fun x => List.replicate 4 x) := by
  exact forLoop_dataBits stuff4 (fun x => List.replicate 4 x) bits_stuff4 8 b t

theorem bits_foldl_readerByte (B : List Nat) (t : ToSendBuf) :
    (B.foldl readerByte t).bits
      = t.bits ++ B.flatMap (fun b => [true, true, false] ++ lsbBits b) := by
  induction B generalizing t with
  | nil => simp
  | cons b bs ih =>
    rw [List.foldl_cons, ih, readerByte, bits_readerDataBits]
    simp [bits_ToSendStuffBit]

theorem bits_foldl_tagByte (B : List Nat) (t : ToSendBuf) :
    (B.foldl tagByte t).bits
      = t.bits ++ B.flatMap (fun b => List.replicate 4 false ++
          (lsbBits b).flatMap (fun x => List.replicate 4 x) ++ List.replicate 4 true) := by
  induction B generalizing t with
  | nil => simp
  | cons b bs ih =>
    rw [List.foldl_cons, ih, tagByte, bits_stuff4, bits_tagDataBits, bits_stuff4]
    simp

theorem length_lsbBits (b : Nat) : (lsbBits b).length = 8 := by
  simp [lsbBits]

theorem bits_CodeIso14443bAsReader (B : List Nat) :
    (CodeIso14443bAsReader B).bits = readerLayout B := by
  have h1 : decide ((1 : Int) ≠ 0) = true := by decide
  have h0 : decide ((0 : Int) ≠ 0) = false := by decide
  simp only [CodeIso14443bAsReader, readerLayout, bits_forLoop_stuff, bits_foldl_readerByte,
    bits_ToSendStuffBit, ToSendReset, h1, h0, List.nil_append, List.append_assoc]

theorem bits_CodeIso14443bAsTag (B : List Nat) :
    (CodeIso14443bAsTag B).bits = tagLayout B := by
  have h1 : decide ((1 : Int) ≠ 0) = true := by decide
  have h0 : decide ((0 : Int) ≠ 0) = false := by decide
  simp only [CodeIso14443bAsTag, tagLayout, bits_forLoop_stuff4, bits_foldl_tagByte, ToSendReset,
    h1, h0, List.nil_append, List.append_assoc]

theorem length_flatMap_const {α β : Type} (f : α → List β) (n : Nat)
    (h : ∀ a, (f a).length = n) (l : List α) : (l.flatMap f).length = n * l.length := by
  induction l with
  | nil => simp
  | cons a as ih => simp [List.flatMap_cons, ih, h, Nat.mul_succ]; omega

/-- C4. Reader-side coder layout: the bits stuffed by `CodeIso14443bAsReader B`
are 40 ones, 10 zeros, for each byte `1, 1, 0, b0 .. b7` (least significant bit
first), then `1`, 10 zeros, 8 ones and 24 ones: `93 + 11 * |B|` bits in all. -/
theorem C4_reader_coder_layout (B : List Nat) :
    (CodeIso14443bAsReader B).bits
      = List.replicate 40 true ++ List.replicate 10 false ++
          B.flatMap (fun b => [true, true, false] ++ (List.range 8).map (fun j => b.testBit j)) ++
          [true] ++ List.replicate 10 false ++ List.replicate 8 true ++ List.replicate 24 true
    ∧ (CodeIso14443bAsReader B).bits.length = 93 + 11 * B.length := by
  constructor
  · exact bits_CodeIso14443bAsReader B
  · rw [bits_CodeIso14443bAsReader, readerLayout]
    simp only [List.length_append, List.length_replicate, List.length_singleton]
    rw [length_flatMap_const _ 11 (by intro a; simp [lsbBits])]
    omega

/-- C5. Tag-side coder layout: the bits stuffed by `CodeIso14443bAsTag B` are
80 ones, 40 zeros, 8 ones, for each byte 4 zeros, every data bit (least
significant first) four times, 4 ones, then 40 zeros and 40 ones:
`208 + 40 * |B|` bits in all. -/
theorem C5_tag_coder_layout (B : List Nat) :
    (CodeIso14443bAsTag B).bits
      = List.replicate 80 true ++ List.replicate 40 false ++ List.replicate 8 true ++
          B.flatMap (fun b => List.replicate 4 false ++
            ((List.range 8).map (fun j => b.testBit j)).flatMap (fun x => List.replicate 4 x) ++
            List.replicate 4 true) ++
          List.replicate 40 false ++ List.replicate 40 true
    ∧ (CodeIso14443bAsTag B).bits.length = 208 + 40 * B.length := by
  constructor
  · exact bits_CodeIso14443bAsTag B
  · rw [bits_CodeIso14443bAsTag, tagLayout]
    simp only [List.length_append, List.length_replicate]
    rw [length_flatMap_const _ 40 (by
      intro a
      simp only [List.length_append, List.length_replicate]
      rw [length_flatMap_const _ 4 (by intro x; simp), length_lsbBits])]
    omega

/-! ## Reader UART: single steps -/

@[simp] theorem store_same (p : Int → Nat) (i : Int) (x : Nat) : store p i x i = x := by
  simp [store]

theorem store_ne (p : Int → Nat) (i j : Int) (x : Nat) (h : j ≠ i) : store p i x j = p j := by
  simp [store, h]

theorem uart_step_sample10 (r : Nat) (byc mx : Int) (out : Int → Nat) (bit : Int) :
    Handle14443UartBit ⟨.STATE_RECEIVING_DATA, r, 9, byc, mx, 1, out⟩ bit =
      if sampledReg r bit &&& 0x200 ≠ 0 ∧ sampledReg r bit &&& 0x001 = 0 then
        if byc + 1 ≥ mx then
          ⟨⟨.STATE_ERROR_WAIT, sampledReg r bit, 10, byc + 1, mx, 0,
            store out byc ((sampledReg r bit >>> 1) &&& 0xff)⟩, some byc, false⟩
        else
          ⟨⟨.STATE_AWAITING_START_BIT, sampledReg r bit, 10, byc + 1, mx, 0,
            store out byc ((sampledReg r bit >>> 1) &&& 0xff)⟩, some byc, false⟩
      else if sampledReg r bit = 0 then
        ⟨⟨.STATE_RECEIVING_DATA, sampledReg r bit, 10, byc, mx, 2, out⟩, none, true⟩
      else
        ⟨⟨.STATE_ERROR_WAIT, sampledReg r bit, 10, byc, mx, 0, out⟩, none, false⟩ := by
  by_cases hbit : bit = 0
  · simp [Handle14443UartBit, sampledReg, hbit]
  · simp [Handle14443UartBit, sampledReg, hbit]

/-- C3 (amended). Reader UART framing check. Let `v` be the shift register once
the tenth bit of a character has been sampled in RECEIVING_DATA. A byte is
stored iff `(v & 0x200) != 0` and `(v & 0x001) == 0`; the byte is
`(v >> 1) & 0xFF`, it goes to `output[byteCnt]`, and the next mode is
AWAITING_START_BIT when room is left (`byteCnt + 1 < byteCntMax`) and ERROR_WAIT
when the buffer is now full. The call returns TRUE iff `v == 0`, and every other
`v` leads to ERROR_WAIT. -/
theorem C3_uart_framing_check (u : Uart) (bit : Int)
    (hs : u.state = .STATE_RECEIVING_DATA) (hp : u.posCnt = 1) (hb : u.bitCnt = 9) :
    (((sampledReg u.shiftReg bit) &&& 0x200 ≠ 0 ∧ (sampledReg u.shiftReg bit) &&& 0x001 = 0) →
        (Handle14443UartBit u bit).write = some u.byteCnt ∧
        (Handle14443UartBit u bit).uart.output u.byteCnt
          = ((sampledReg u.shiftReg bit) >>> 1) &&& 0xff ∧
        (Handle14443UartBit u bit).uart.byteCnt = u.byteCnt + 1 ∧
        (Handle14443UartBit u bit).ret = false ∧
        (Handle14443UartBit u bit).uart.state
          = if u.byteCnt + 1 ≥ u.byteCntMax then .STATE_ERROR_WAIT
            else .STATE_AWAITING_START_BIT) ∧
    (¬ ((sampledReg u.shiftReg bit) &&& 0x200 ≠ 0 ∧ (sampledReg u.shiftReg bit) &&& 0x001 = 0) →
        (Handle14443UartBit u bit).write = none ∧
        (Handle14443UartBit u bit).uart.output = u.output ∧
        (Handle14443UartBit u bit).uart.byteCnt = u.byteCnt) ∧
    ((Handle14443UartBit u bit).ret = true ↔ sampledReg u.shiftReg bit = 0) ∧
    (¬ ((sampledReg u.shiftReg bit) &&& 0x200 ≠ 0 ∧ (sampledReg u.shiftReg bit) &&& 0x001 = 0) →
        sampledReg u.shiftReg bit ≠ 0 →
        (Handle14443UartBit u bit).uart.state = .STATE_ERROR_WAIT) := by
  obtain ⟨st, r, bc, byc, mx, pc, out⟩ := u
  simp only at hs hp hb
  subst hs hp hb
  rw [uart_step_sample10]
  generalize sampledReg r bit = v
  have hv : v &&& 0x200 ≠ 0 → v ≠ 0 := by
    intro h h0
    subst h0
    simp at h
  by_cases hc : v &&& 0x200 ≠ 0 ∧ v &&& 0x001 = 0
  · have hz := hv hc.1
    rw [if_pos hc]
    refine ⟨fun _ => ?_, fun h => absurd hc h, ?_, fun h => absurd hc h⟩
    · split_ifs <;> simp
    · split_ifs <;> simp [hz]
  · rw [if_neg hc]
    refine ⟨fun h => absurd h hc, fun _ => ?_, ?_, fun _ hz => ?_⟩
    · split_ifs <;> simp
    · split_ifs with h0 <;> simp [h0]
    · rw [if_neg hz]

/-- C3 witness: a character `0x55` with good start and stop bits, room left. -/
theorem C3_uart_framing_check_witness :
    uartMidFrame.state = .STATE_RECEIVING_DATA ∧ uartMidFrame.posCnt = 1 ∧
    uartMidFrame.bitCnt = 9 ∧
    (Handle14443UartBit uartMidFrame 1).write = some 3 ∧
    (Handle14443UartBit uartMidFrame 1).uart.output 3 = 0x55 ∧
    (Handle14443UartBit uartMidFrame 1).uart.state = .STATE_AWAITING_START_BIT :=
  have h := (C3_uart_framing_check uartMidFrame 1 rfl rfl rfl).1 (by decide)
  ⟨rfl, rfl, rfl, h.1, h.2.1, h.2.2.2.2⟩

/-- C3 counterexample: the sampled value `0x2AA` has a good stop bit (`0x200`
set) and a good start bit (bit 0 clear), the byte `0x55` is stored at index 99,
and yet the next mode is ERROR_WAIT, not AWAITING_START_BIT, because the store
filled the buffer. -/
theorem C3_counterexample :
    uartAtCapacity.state = .STATE_RECEIVING_DATA ∧ uartAtCapacity.posCnt = 1 ∧
    uartAtCapacity.bitCnt = 9 ∧
    sampledReg uartAtCapacity.shiftReg 1 = 0x2AA ∧
    (0x2AA &&& 0x200 ≠ 0 ∧ 0x2AA &&& 0x001 = 0) ∧
    (Handle14443UartBit uartAtCapacity 1).write = some 99 ∧
    (Handle14443UartBit uartAtCapacity 1).uart.output 99 = 0x55 ∧
    (Handle14443UartBit uartAtCapacity 1).uart.state = .STATE_ERROR_WAIT ∧
    (Handle14443UartBit uartAtCapacity 1).uart.state ≠ .STATE_AWAITING_START_BIT := by
  decide

theorem uartInv_step (u : Uart) (bit : Int) (h : UartInv u) :
    UartInv (Handle14443UartBit u bit).uart ∧
    (Handle14443UartBit u bit).uart.byteCntMax = u.byteCntMax ∧
    (∀ i, (Handle14443UartBit u bit).write = some i → 0 ≤ i ∧ i < u.byteCntMax) ∧
    ((Handle14443UartBit u bit).write ≠ none →
      (Handle14443UartBit u bit).uart.byteCnt ≥ u.byteCntMax →
      (Handle14443UartBit u bit).uart.state = .STATE_ERROR_WAIT) := by
  obtain ⟨st, r, bc, byc, mx, pc, out⟩ := u
  obtain ⟨h1, h2, h3⟩ := h
  simp only at h1 h2 h3
  generalize hr : Handle14443UartBit ⟨st, r, bc, byc, mx, pc, out⟩ bit = res
  cases st
  · simp only [Handle14443UartBit] at hr
    split_ifs at hr <;> subst hr <;> simp_all [UartInv]
  · simp only [Handle14443UartBit] at hr
    split_ifs at hr <;> subst hr <;> simp_all [UartInv] <;> omega
  · simp only [Handle14443UartBit] at hr
    have := h3 (Or.inl rfl)
    split_ifs at hr <;> subst hr <;> simp_all [UartInv]
  · simp only [Handle14443UartBit] at hr
    have := h3 (Or.inr rfl)
    split_ifs at hr <;> subst hr <;> simp_all [UartInv] <;> omega
  · simp only [Handle14443UartBit] at hr
    split_ifs at hr <;> subst hr <;> simp_all [UartInv]

theorem uartInv_feed (bits : List Int) (u : Uart) (h : UartInv u) :
    UartInv (uartFeed u bits) ∧ (uartFeed u bits).byteCntMax = u.byteCntMax := by
  induction bits generalizing u with
  | nil => exact ⟨h, rfl⟩
  | cons b bs ih =>
    have hstep := uartInv_step u b h
    have := ih _ hstep.1
    exact ⟨this.1, this.2.trans hstep.2.1⟩

/-- C7. Reader UART capacity invariant: starting in UNSYNCED with
`byteCntMax >= 1` and `byteCnt <= byteCntMax`, after any sequence of calls the
next call leaves `byteCnt <= byteCntMax` and the capacity unchanged, a store to
the output buffer has its index in `[0, byteCntMax)`, and a store that brings
the byte count up to the capacity moves the UART to ERROR_WAIT. -/
theorem C7_uart_capacity_invariant (u0 : Uart) (bits : List Int) (bit : Int)
    (hs : u0.state = .STATE_UNSYNCD) (hm : 1 ≤ u0.byteCntMax)
    (hc : u0.byteCnt ≤ u0.byteCntMax) :
    (Handle14443UartBit (uartFeed u0 bits) bit).uart.byteCnt ≤ u0.byteCntMax ∧
    (Handle14443UartBit (uartFeed u0 bits) bit).uart.byteCntMax = u0.byteCntMax ∧
    (∀ i, (Handle14443UartBit (uartFeed u0 bits) bit).write = some i →
      0 ≤ i ∧ i < u0.byteCntMax) ∧
    ((Handle14443UartBit (uartFeed u0 bits) bit).write ≠ none →
      (Handle14443UartBit (uartFeed u0 bits) bit).uart.byteCnt ≥ u0.byteCntMax →
      (Handle14443UartBit (uartFeed u0 bits) bit).uart.state = .STATE_ERROR_WAIT) := by
  have h0 : UartInv u0 := ⟨hm, hc, by rw [hs]; simp⟩
  have hf := uartInv_feed bits u0 h0
  have hstep := uartInv_step (uartFeed u0 bits) bit hf.1
  rw [hf.2] at hstep
  exact ⟨hstep.1.2.1.trans_eq hstep.2.1, hstep.2.1, hstep.2.2.1, hstep.2.2.2⟩

/-- C7 witness: the reset UART after a falling edge and two more slots. -/
theorem C7_uart_capacity_invariant_witness :
    uartReset.state = .STATE_UNSYNCD ∧ 1 ≤ uartReset.byteCntMax ∧
    uartReset.byteCnt ≤ uartReset.byteCntMax ∧
    (Handle14443UartBit (uartFeed uartReset [0, 0, 1]) 1).uart.byteCnt
      ≤ uartReset.byteCntMax :=
  ⟨rfl, by decide, by decide,
    (C7_uart_capacity_invariant uartReset [0, 0, 1] 1 rfl (by decide) (by decide)).1⟩

/-! ## BPSK demodulator: single steps -/

set_option maxRecDepth 100000 in
theorem demodAfterSof_eq :
    demodAfterSof.state = .DEMOD_AWAITING_START_BIT ∧ demodAfterSof.posCount = 1 ∧
    demodAfterSof.sumI = 400 ∧ demodAfterSof.sumQ = 0 := by
  decide

theorem demod_awaiting_high (d : Demod) (ci cq : Int)
    (hs : d.state = .DEMOD_AWAITING_START_BIT) (hp : d.posCount ≤ 10)
    (hv : MAKE_SOFT_DECISION d ci cq > 0) :
    Handle14443SamplesDemod d ci cq = ⟨d, none, false⟩ := by
  obtain ⟨st, bc, pc, tb, m, mn, r, out, len, si, sq⟩ := d
  simp only at hs hp
  subst hs
  have hp2 : ¬ pc > 10 := by omega
  simp only [Handle14443SamplesDemod, hv, hp2, if_true, if_false]

theorem demod_awaiting_high_feed (n : Nat) (d : Demod) (ci cq : Int)
    (hs : d.state = .DEMOD_AWAITING_START_BIT) (hp : d.posCount ≤ 10)
    (hv : MAKE_SOFT_DECISION d ci cq > 0) :
    demodFeed d (List.replicate n (ci, cq)) = d := by
  induction n with
  | zero => rfl
  | succ k ih =>
    rw [List.replicate_succ, demodFeed, demod_awaiting_high d ci cq hs hp hv]
    exact ih

/-- C8 (the code at the failing input). Right after a start of frame, with the
carrier held high so that the soft decision is positive on every sample, the
demodulator is still in AWAITING_START_BIT after any number `n` of samples:
`posCount` is not advanced in that mode, so the test `posCount > 10` never
fires. -/
theorem C8_awaiting_start_bit_never_times_out (n : Nat) :
    0 < MAKE_SOFT_DECISION demodAfterSof 50 0 ∧
    (demodFeed demodAfterSof (List.replicate n (50, 0))).state = .DEMOD_AWAITING_START_BIT ∧
    (demodFeed demodAfterSof (List.replicate n (50, 0))).posCount = 1 := by
  obtain ⟨h1, h2, h3, h4⟩ := demodAfterSof_eq
  have hv : MAKE_SOFT_DECISION demodAfterSof 50 0 > 0 := by
    simp [MAKE_SOFT_DECISION, h3, h4]
  rw [demod_awaiting_high_feed n demodAfterSof 50 0 h1 (by omega) hv]
  exact ⟨hv, h1, h2⟩

theorem and_512_ne_zero_iff (x : Nat) : x &&& 0x200 ≠ 0 ↔ x.testBit 9 = true := by
  have h : (0x200 : Nat) = 2 ^ 9 := by norm_num
  rw [h, Nat.and_two_pow]
  cases x.testBit 9 <;> simp

theorem shifted_lor_bit9 (x : Nat) : (x >>> 1 ||| 0x200) &&& 0x200 ≠ 0 := by
  rw [and_512_ne_zero_iff, Nat.testBit_or]
  have h : (0x200 : Nat) = 2 ^ 9 := by norm_num
  rw [h, Nat.testBit_two_pow_self]
  simp

theorem shifted_bit9 (x : Nat) (hx : x < 1024) : ¬ (x >>> 1) &&& 0x200 ≠ 0 := by
  rw [and_512_ne_zero_iff, Nat.testBit_shiftRight]
  have : x.testBit (1 + 9) = false := Nat.testBit_lt_two_pow (by norm_num; exact hx)
  simp [this]

theorem demod_step_symbol (bc pc tb m mn : Int) (r : Nat) (out : Int → Nat) (len si sq : Int)
    (ci cq : Int) (hp : pc ≠ 0) :
    (Handle14443SamplesDemod ⟨.DEMOD_RECEIVING_DATA, bc, pc, tb, m, mn, r, out, len, si, sq⟩
      ci cq).demod.shiftReg
      = (if 0 < tb + MAKE_SOFT_DECISION
            ⟨.DEMOD_RECEIVING_DATA, bc, pc, tb, m, mn, r, out, len, si, sq⟩ ci cq
          then r >>> 1 ||| 0x200 else r >>> 1) ∧
    (Handle14443SamplesDemod ⟨.DEMOD_RECEIVING_DATA, bc, pc, tb, m, mn, r, out, len, si, sq⟩
      ci cq).demod.thisBit
      = tb + MAKE_SOFT_DECISION
          ⟨.DEMOD_RECEIVING_DATA, bc, pc, tb, m, mn, r, out, len, si, sq⟩ ci cq := by
  generalize hv : MAKE_SOFT_DECISION
    ⟨.DEMOD_RECEIVING_DATA, bc, pc, tb, m, mn, r, out, len, si, sq⟩ ci cq = v
  generalize hr : Handle14443SamplesDemod
    ⟨.DEMOD_RECEIVING_DATA, bc, pc, tb, m, mn, r, out, len, si, sq⟩ ci cq = res
  simp only [Handle14443SamplesDemod, hv, hp, if_false] at hr
  split_ifs at hr <;> subst hr <;> simp_all <;> rw [if_neg (by omega)]

/-- C9 (amended). BPSK hard decision: for every demodulator state in
RECEIVING_DATA and every sample `(ci, cq)` that completes a symbol
(`posCount != 0`), the bit shifted into the shift register is 1 exactly when the
two-sample soft sum `thisBit + v` is positive, where `thisBit` is the soft value
of the first sample of the symbol and `v = (sumI > 0 ? ci : -ci) +
(sumQ > 0 ? cq : -cq)` the soft value of this one. -/
theorem C9_hard_decision_is_sign_of_soft_sum (d : Demod) (ci cq : Int)
    (hs : d.state = .DEMOD_RECEIVING_DATA) (hp : d.posCount ≠ 0) (hr : d.shiftReg < 1024) :
    MAKE_SOFT_DECISION d ci cq
      = (if d.sumI > 0 then ci else -ci) + (if d.sumQ > 0 then cq else -cq) ∧
    (Handle14443SamplesDemod d ci cq).demod.thisBit = d.thisBit + MAKE_SOFT_DECISION d ci cq ∧
    (Handle14443SamplesDemod d ci cq).demod.shiftReg
      = (if 0 < d.thisBit + MAKE_SOFT_DECISION d ci cq then d.shiftReg >>> 1 ||| 0x200
          else d.shiftReg >>> 1) ∧
    ((Handle14443SamplesDemod d ci cq).demod.shiftReg &&& 0x200 ≠ 0
      ↔ 0 < d.thisBit + MAKE_SOFT_DECISION d ci cq) := by
  obtain ⟨st, bc, pc, tb, m, mn, r, out, len, si, sq⟩ := d
  simp only at hs hp hr
  subst hs
  obtain ⟨h1, h2⟩ := demod_step_symbol bc pc tb m mn r out len si sq ci cq hp
  refine ⟨?_, h2, h1, ?_⟩
  · simp only [MAKE_SOFT_DECISION]
    split_ifs <;> ring
  · rw [h1]
    split_ifs with h
    · exact ⟨fun _ => h, fun _ => shifted_lor_bit9 r⟩
    · exact ⟨fun hc => absurd hc (shifted_bit9 r hr), fun hc => absurd hc h⟩

/-- C9 witness: the second sample of a symbol on an in-phase carrier. -/
theorem C9_hard_decision_is_sign_of_soft_sum_witness :
    demodMidSymbol.state = .DEMOD_RECEIVING_DATA ∧ demodMidSymbol.posCount ≠ 0 ∧
    demodMidSymbol.shiftReg < 1024 ∧
    ((Handle14443SamplesDemod demodMidSymbol 50 0).demod.shiftReg &&& 0x200 ≠ 0
      ↔ 0 < demodMidSymbol.thisBit + MAKE_SOFT_DECISION demodMidSymbol 50 0) :=
  ⟨rfl, by decide, by decide,
    (C9_hard_decision_is_sign_of_soft_sum demodMidSymbol 50 0 rfl (by decide)
      (by decide)).2.2.2⟩

/-- C9 counterexample: with the phase reference `(sumI, sumQ) = (100, 1)` and a
first-sample soft value of 0, the sample `(ci, cq) = (1, -2)` completes a symbol
with `ci * sumI + cq * sumQ = 98 > 0`, yet the bit shifted in is 0. -/
theorem C9_counterexample :
    demodMidSymbol.state = .DEMOD_RECEIVING_DATA ∧ demodMidSymbol.posCount = 1 ∧
    0 < 1 * demodMidSymbol.sumI + (-2) * demodMidSymbol.sumQ ∧
    (Handle14443SamplesDemod demodMidSymbol 1 (-2)).demod.shiftReg &&& 0x200 = 0 := by
  decide

/-! ## Read SRI512 -/

theorem framesOf_append (l1 l2 : List Event) :
    framesOf (l1 ++ l2) = framesOf l1 ++ framesOf l2 := by
  simp [framesOf]

theorem readBlocksLoop_step (tag : Tag) (f i : Nat) (sent : List (List Nat))
    (log : List Event) (hi : i < 16)
    (hlen : (tag (sent ++ [readBlockFrame i])).len = 6) :
    ∃ L, readBlocksLoop tag (f + 1) i sent log
        = readBlocksLoop tag f (i + 1) (sent ++ [readBlockFrame i]) L ∧
      framesOf L = framesOf log ++ [readBlockFrame i] := by
  have hi16 : i ≠ 0x10 := by omega
  have hiff : i ≠ 0xff := by omega
  have hmod : (i + 1) % 256 = i + 1 := by omega
  simp only [readBlockFrame] at hlen
  simp only [readBlocksLoop, hi16, hiff, if_false, hlen, ne_eq, not_true_eq_false, hmod,
    readBlockFrame]
  refine ⟨_, rfl, ?_⟩
  split_ifs <;> simp [framesOf]

theorem readBlocksLoop_last (tag : Tag) (f : Nat) (sent : List (List Nat))
    (log : List Event) (hlen : (tag (sent ++ [readBlockFrame 0xff])).len = 6) :
    ∃ L, readBlocksLoop tag (f + 1) 0x10 sent log = some L ∧
      framesOf L = framesOf log ++ [readBlockFrame 0xff] := by
  simp only [readBlockFrame] at hlen
  simp only [readBlocksLoop, if_true, hlen, ne_eq, not_true_eq_false, if_false]
  refine ⟨_, rfl, ?_⟩
  split_ifs <;> simp [framesOf, readBlockFrame]

theorem readBlocksLoop_frames (tag : Tag)
    (h6 : ∀ pre addr, (tag (pre ++ [readBlockFrame addr])).len = 6)
    (m : Nat) : ∀ (i fuel : Nat) (sent : List (List Nat)) (log : List Event),
      i + m = 16 → m + 1 ≤ fuel →
      ∃ log', readBlocksLoop tag fuel i sent log = some log' ∧
        framesOf log' = framesOf log ++
          (List.range' i m ++ [0xff]).map readBlockFrame := by
  induction m with
  | zero =>
    intro i fuel sent log hi hf
    obtain ⟨f, rfl⟩ : ∃ f, fuel = f + 1 := ⟨fuel - 1, by omega⟩
    have hi16 : i = 16 := by omega
    subst hi16
    simpa using readBlocksLoop_last tag f sent log (h6 sent 0xff)
  | succ k ih =>
    intro i fuel sent log hi hf
    obtain ⟨f, rfl⟩ : ∃ f, fuel = f + 1 := ⟨fuel - 1, by omega⟩
    obtain ⟨L, hL1, hL2⟩ := readBlocksLoop_step tag f i sent log (by omega) (h6 sent i)
    obtain ⟨log', h1, h2⟩ := ih (i + 1) f (sent ++ [readBlockFrame i]) L (by omega) (by omega)
    refine ⟨log', hL1.trans h1, ?_⟩
    rw [h2, hL2, List.range'_succ]
    simp

/-- C10. SRI512 block walk: when the tag answers INITIATE (chip id `id`),
answers SELECT with 3 bytes that echo the chip id under a valid CRC-B, answers
GET_UID with 10 bytes and every READ_BLOCK with 6 bytes, the run ends (17
iterations of the block loop are enough) and the frames it transmitted are
INITIATE, SELECT, GET_UID and then the READ_BLOCK frames `08 addr crc crc` for
`addr = 0, 1, ..., 15, 0xFF` in that order, 17 of them, and nothing else. -/
theorem C10_sri512_block_walk (tag : Tag) (fuel : Nat) (id : Nat) (hfuel : 17 ≤ fuel)
    (hinit : (tag [initiateFrame]).len ≠ 0)
    (hid : (tag [initiateFrame]).output 0 = id)
    (hsel_len : (tag [initiateFrame, selectFrame id]).len = 3)
    (hsel_id : (tag [initiateFrame, selectFrame id]).output 0 = id)
    (hsel_crc1 : (tag [initiateFrame, selectFrame id]).output 1 = (ComputeCrc14443 [id]).1)
    (hsel_crc2 : (tag [initiateFrame, selectFrame id]).output 2 = (ComputeCrc14443 [id]).2)
    (huid : (tag [initiateFrame, selectFrame id, getUidFrame]).len = 10)
    (hblk : ∀ pre addr, (tag (pre ++ [readBlockFrame addr])).len = 6) :
    ∃ log, ReadSRI512Iso14443 tag fuel = some log ∧
      framesOf log = [initiateFrame, selectFrame id, getUidFrame] ++
        ([0, 1, 2, 3, 4, 5, 6, 7, 8, 9, 10, 11, 12, 13, 14, 15, 0xff].map readBlockFrame) ∧
      ((framesOf log).drop 3).length = 17 := by
  have hr : List.range' 0 16 = [0, 1, 2, 3, 4, 5, 6, 7, 8, 9, 10, 11, 12, 13, 14, 15] := by
    decide
  have key := fun L => readBlocksLoop_frames tag hblk 16 0 fuel
    [initiateFrame, selectFrame id, getUidFrame] L (by omega) (by omega)
  simp only [initiateFrame, selectFrame, getUidFrame] at hinit hid hsel_len hsel_id huid key
  simp only [initiateFrame, selectFrame, getUidFrame] at hsel_crc1 hsel_crc2
  simp only [ReadSRI512Iso14443, hinit, if_false, List.cons_append, List.nil_append, hid,
    hsel_len, hsel_id, hsel_crc1, hsel_crc2, huid, ne_eq, not_true_eq_false, or_self]
  refine Exists.imp (fun log h => ⟨h.1, ?_⟩) (key _)
  have h3 : framesOf log = [initiateFrame, selectFrame id, getUidFrame] ++
      ([0, 1, 2, 3, 4, 5, 6, 7, 8, 9, 10, 11, 12, 13, 14, 15, 0xff].map readBlockFrame) := by
    rw [h.2, hr]
    split_ifs <;> simp [framesOf, initiateFrame, selectFrame, getUidFrame]
  exact ⟨h3, by rw [h3]; rfl⟩

theorem sriTag_readBlock (pre : List (List Nat)) (addr : Nat) :
    (sriTag (pre ++ [readBlockFrame addr])).len = 6 := by
  simp [sriTag, readBlockFrame]

/-- C10 witness: the walk against `sriTag`, with exactly 17 units of fuel. -/
theorem C10_sri512_block_walk_witness :
    (sriTag [initiateFrame]).len ≠ 0 ∧
    (sriTag [initiateFrame, selectFrame 0x77]).len = 3 ∧
    (sriTag [initiateFrame, selectFrame 0x77, getUidFrame]).len = 10 ∧
    ∃ log, ReadSRI512Iso14443 sriTag 17 = some log ∧
      framesOf log = [initiateFrame, selectFrame 0x77, getUidFrame] ++
        ([0, 1, 2, 3, 4, 5, 6, 7, 8, 9, 10, 11, 12, 13, 14, 15, 0xff].map readBlockFrame) ∧
      ((framesOf log).drop 3).length = 17 :=
  ⟨by decide, by decide, by decide,
    C10_sri512_block_walk sriTag 17 0x77 (by decide) (by decide) (by decide) (by decide)
      (by decide) (by decide) (by decide) (by decide) sriTag_readBlock⟩

/-! ## Reader UART: runs -/

theorem uartFeed_append (l1 l2 : List Int) (u : Uart) :
    uartFeed u (l1 ++ l2) = uartFeed (uartFeed u l1) l2 := by
  induction l1 generalizing u with
  | nil => rfl
  | cons b bs ih =>
    rw [List.cons_append]
    simp only [uartFeed]
    exact ih _

theorem uartReturns_append (l1 l2 : List Int) (u : Uart) :
    uartReturns u (l1 ++ l2) = uartReturns u l1 ++ uartReturns (uartFeed u l1) l2 := by
  induction l1 generalizing u with
  | nil => rfl
  | cons b bs ih =>
    rw [List.cons_append]
    simp only [uartFeed, uartReturns]
    rw [ih, List.cons_append]

theorem uartFirstFrame_append (l1 l2 : List Int) (u : Uart)
    (h : ∀ r ∈ uartReturns u l1, r = false) :
    uartFirstFrame u (l1 ++ l2) = uartFirstFrame (uartFeed u l1) l2 := by
  induction l1 generalizing u with
  | nil => rfl
  | cons b bs ih =>
    simp only [uartReturns, List.mem_cons, forall_eq_or_imp] at h
    rw [List.cons_append]
    simp only [uartFirstFrame, uartFeed, h.1, Bool.false_eq_true, if_false]
    exact ih _ h.2

theorem uartQuiet_nil (u : Uart) : UartQuiet u [] u :=
  ⟨rfl, by simp [uartReturns]⟩

theorem uartQuiet_append {u u1 u2 : Uart} {l1 l2 : List Int}
    (h1 : UartQuiet u l1 u1) (h2 : UartQuiet u1 l2 u2) : UartQuiet u (l1 ++ l2) u2 := by
  obtain ⟨ha, hb⟩ := h1
  obtain ⟨hc, hd⟩ := h2
  subst ha
  refine ⟨by rw [uartFeed_append, hc], ?_⟩
  intro r hr
  rw [uartReturns_append, List.mem_append] at hr
  rcases hr with hr | hr
  · exact hb r hr
  · exact hd r hr

theorem uartQuiet_cons {u u2 : Uart} {b : Int} {l : List Int} (u1 : Uart)
    (h1 : (Handle14443UartBit u b).uart = u1) (hr : (Handle14443UartBit u b).ret = false)
    (h2 : UartQuiet u1 l u2) : UartQuiet u (b :: l) u2 := by
  obtain ⟨hc, hd⟩ := h2
  refine ⟨by simp only [uartFeed, h1, hc], ?_⟩
  intro r hr'
  simp only [uartReturns, h1, hr, List.mem_cons] at hr'
  rcases hr' with hr' | hr'
  · exact hr'
  · exact hd r hr'

theorem uart_unsynced_ones (n : Nat) (r : Nat) (bc byc mx pc : Int) (out : Int → Nat) :
    UartQuiet ⟨.STATE_UNSYNCD, r, bc, byc, mx, pc, out⟩ (List.replicate n 1)
      ⟨.STATE_UNSYNCD, r, bc, byc, mx, pc, out⟩ := by
  induction n with
  | zero => exact uartQuiet_nil _
  | succ k ih =>
    rw [List.replicate_succ]
    exact uartQuiet_cons _ (by simp [Handle14443UartBit]) (by simp [Handle14443UartBit]) ih

set_option maxRecDepth 10000 in
theorem uart_sof (r : Nat) (bc byc mx pc : Int) (out : Int → Nat) :
    UartQuiet ⟨.STATE_UNSYNCD, r, bc, byc, mx, pc, out⟩ (List.replicate 40 0 ++ [1, 1, 1])
      ⟨.STATE_AWAITING_START_BIT, r, 11, 0, mx, 0, out⟩ := by
  simp [UartQuiet, uartFeed, uartReturns, Handle14443UartBit, List.replicate]

theorem uart_start (r : Nat) (bc k mx : Int) (out : Int → Nat) :
    UartQuiet ⟨.STATE_AWAITING_START_BIT, r, bc, k, mx, 0, out⟩
      ([1] ++ [1, 1, 1, 1] ++ [0, 0, 0, 0])
      ⟨.STATE_RECEIVING_DATA, 0, 1, k, mx, 3, out⟩ := by
  simp [UartQuiet, uartFeed, uartReturns, Handle14443UartBit]

theorem uart_data_bit (r : Nat) (n k mx : Int) (out : Int → Nat) (x : Int)
    (h1 : n ≠ 10) (h2 : n + 1 ≠ 10) :
    UartQuiet ⟨.STATE_RECEIVING_DATA, r, n, k, mx, 3, out⟩ (List.replicate 4 x)
      ⟨.STATE_RECEIVING_DATA, sampledReg r x, n + 1, k, mx, 3, out⟩ := by
  by_cases hx : x = 0
  · simp [UartQuiet, uartFeed, uartReturns, Handle14443UartBit, List.replicate, sampledReg,
      hx, h1, h2]
  · simp [UartQuiet, uartFeed, uartReturns, Handle14443UartBit, List.replicate, sampledReg,
      hx, h1, h2]

theorem uart_data_bits (xs : List Bool) (r : Nat) (n k mx : Int) (out : Int → Nat)
    (h : n + xs.length ≤ 9) :
    UartQuiet ⟨.STATE_RECEIVING_DATA, r, n, k, mx, 3, out⟩ (oversample4 xs)
      ⟨.STATE_RECEIVING_DATA, shiftInBits r xs, n + xs.length, k, mx, 3, out⟩ := by
  induction xs generalizing r n with
  | nil => simpa [oversample4, shiftInBits] using uartQuiet_nil _
  | cons x xs ih =>
    simp only [List.length_cons, Nat.cast_add, Nat.cast_one] at h
    have h1 := uart_data_bit r n k mx out (if x then 1 else 0) (by omega) (by omega)
    have h2 := ih (sampledReg r (if x then 1 else 0)) (n + 1) (by omega)
    have h3 := uartQuiet_append h1 h2
    simp only [oversample4, List.flatMap_cons, shiftInBits, List.foldl_cons, List.length_cons,
      Nat.cast_add, Nat.cast_one] at h3 ⊢
    rw [show n + (↑xs.length + 1) = n + 1 + ↑xs.length by ring]
    exact h3

theorem uart_stop (r : Nat) (k mx : Int) (out : Int → Nat)
    (h0 : sampledReg r 1 &&& 0x001 = 0) (hk : k + 1 < mx) :
    UartQuiet ⟨.STATE_RECEIVING_DATA, r, 9, k, mx, 3, out⟩ [1, 1, 1]
      ⟨.STATE_AWAITING_START_BIT, sampledReg r 1, 10, k + 1, mx, 0,
        store out k ((sampledReg r 1 >>> 1) &&& 0xff)⟩ := by
  have h9 : sampledReg r 1 &&& 0x200 ≠ 0 := by
    simp only [sampledReg, ne_eq, one_ne_zero, not_false_eq_true, if_true]
    exact shifted_lor_bit9 r
  have hk2 : ¬ (k + 1 ≥ mx) := by omega
  refine uartQuiet_cons (⟨.STATE_RECEIVING_DATA, r, 9, k, mx, 0, out⟩)
    (by simp [Handle14443UartBit]) (by simp [Handle14443UartBit]) ?_
  refine uartQuiet_cons (⟨.STATE_RECEIVING_DATA, r, 9, k, mx, 1, out⟩)
    (by simp [Handle14443UartBit]) (by simp [Handle14443UartBit]) ?_
  refine uartQuiet_cons _ ?_ ?_ (uartQuiet_nil _)
  · rw [uart_step_sample10, if_pos ⟨h9, h0⟩, if_neg hk2]
  · rw [uart_step_sample10, if_pos ⟨h9, h0⟩, if_neg hk2]

set_option maxRecDepth 100000 in
theorem shiftIn_byte : ∀ b < 256,
    sampledReg (shiftInBits 0 (lsbBits b)) 1 &&& 0x001 = 0 ∧
    (sampledReg (shiftInBits 0 (lsbBits b)) 1 >>> 1) &&& 0xff = b := by
  decide

theorem uart_char (b : Nat) (hb : b < 256) (r : Nat) (bc k mx : Int) (out : Int → Nat)
    (hk : k + 1 < mx) :
    ∃ r' bc', UartQuiet ⟨.STATE_AWAITING_START_BIT, r, bc, k, mx, 0, out⟩ (uartCharSlots b)
      ⟨.STATE_AWAITING_START_BIT, r', bc', k + 1, mx, 0, store out k b⟩ := by
  obtain ⟨hv0, hvb⟩ := shiftIn_byte b hb
  have h1 := uart_start r bc k mx out
  have h2 := uart_data_bits (lsbBits b) 0 1 k mx out (by simp [length_lsbBits])
  have h3 := uart_stop (shiftInBits 0 (lsbBits b)) k mx out hv0 hk
  rw [hvb] at h3
  simp only [length_lsbBits] at h2
  norm_num at h2
  exact ⟨_, _, uartQuiet_append (uartQuiet_append h1 h2) h3⟩

theorem uart_chars (B : List Nat) (hB : ∀ b ∈ B, b < 256) (mx : Int) :
    ∀ (r : Nat) (bc k : Int) (out : Int → Nat), k + B.length < mx →
      ∃ r' bc', UartQuiet ⟨.STATE_AWAITING_START_BIT, r, bc, k, mx, 0, out⟩
        (B.flatMap uartCharSlots)
        ⟨.STATE_AWAITING_START_BIT, r', bc', k + B.length, mx, 0, storeList out k B⟩ := by
  induction B with
  | nil =>
    intro r bc k out _
    exact ⟨r, bc, by simpa [storeList] using uartQuiet_nil _⟩
  | cons b bs ih =>
    intro r bc k out hk
    simp only [List.length_cons, Nat.cast_add, Nat.cast_one] at hk
    obtain ⟨r1, bc1, h1⟩ := uart_char b (hB b (List.mem_cons_self _ _)) r bc k mx out (by omega)
    obtain ⟨r2, bc2, h2⟩ := ih (fun x hx => hB x (List.mem_cons_of_mem _ hx)) r1 bc1 (k + 1)
      (store out k b) (by omega)
    refine ⟨r2, bc2, ?_⟩
    have h3 := uartQuiet_append h1 h2
    simp only [List.flatMap_cons, storeList, List.length_cons, Nat.cast_add, Nat.cast_one]
    rw [show k + (↑bs.length + 1) = k + 1 + ↑bs.length by ring]
    exact h3

set_option maxRecDepth 10000 in
theorem uart_eof_quiet (r : Nat) (bc k mx : Int) (out : Int → Nat) :
    UartQuiet ⟨.STATE_AWAITING_START_BIT, r, bc, k, mx, 0, out⟩ ([1] ++ List.replicate 38 0)
      ⟨.STATE_RECEIVING_DATA, 0, 9, k, mx, 1, out⟩ := by
  simp [UartQuiet, uartFeed, uartReturns, Handle14443UartBit, List.replicate]

theorem uart_eof_returns (k mx : Int) (out : Int → Nat) :
    Handle14443UartBit ⟨.STATE_RECEIVING_DATA, 0, 9, k, mx, 1, out⟩ 0
      = ⟨⟨.STATE_RECEIVING_DATA, 0, 10, k, mx, 2, out⟩, none, true⟩ ∧
    uartReturns ⟨.STATE_RECEIVING_DATA, 0, 9, k, mx, 1, out⟩ [0, 0, 1, 1, 1]
      = [true, true, true, true, false] ∧
    uartFeed ⟨.STATE_RECEIVING_DATA, 0, 9, k, mx, 1, out⟩ [0, 0, 1, 1, 1]
      = ⟨.STATE_RECEIVING_DATA, 0x200, 11, k, mx, 2, out⟩ := by
  simp [uartFeed, uartReturns, Handle14443UartBit]

theorem uart_stuck_step (u : Uart) (bit : Int)
    (hs : u.state = .STATE_RECEIVING_DATA) (hb : u.bitCnt > 10) :
    (Handle14443UartBit u bit).ret = false ∧
    (Handle14443UartBit u bit).uart.state = .STATE_RECEIVING_DATA ∧
    (Handle14443UartBit u bit).uart.bitCnt > 10 := by
  obtain ⟨st, r, bc, byc, mx, pc, out⟩ := u
  simp only at hs hb
  subst hs
  generalize hr : Handle14443UartBit ⟨.STATE_RECEIVING_DATA, r, bc, byc, mx, pc, out⟩ bit = res
  simp only [Handle14443UartBit] at hr
  split_ifs at hr <;> subst hr <;> simp_all <;> omega

theorem uart_stuck (l : List Int) (u : Uart)
    (hs : u.state = .STATE_RECEIVING_DATA) (hb : u.bitCnt > 10) :
    ∀ r ∈ uartReturns u l, r = false := by
  induction l generalizing u with
  | nil => simp [uartReturns]
  | cons b bs ih =>
    obtain ⟨h1, h2, h3⟩ := uart_stuck_step u b hs hb
    intro r hr
    simp only [uartReturns, List.mem_cons] at hr
    rcases hr with hr | hr
    · rw [hr, h1]
    · exact ih _ h2 h3 r hr

theorem oversample4_append (l1 l2 : List Bool) :
    oversample4 (l1 ++ l2) = oversample4 l1 ++ oversample4 l2 := by
  simp [oversample4]

theorem oversample4_replicate (n : Nat) (x : Bool) :
    oversample4 (List.replicate n x) = List.replicate (4 * n) (if x then 1 else 0) := by
  induction n with
  | zero => simp [oversample4]
  | succ k ih =>
    rw [List.replicate_succ, show x :: List.replicate k x = [x] ++ List.replicate k x from rfl,
      oversample4_append, ih, show 4 * (k + 1) = 4 + 4 * k by ring, List.replicate_add]
    simp [oversample4]

theorem oversample4_flatMap (B : List Nat) (f : Nat → List Bool) :
    oversample4 (B.flatMap f) = B.flatMap (fun b => oversample4 (f b)) := by
  induction B with
  | nil => simp [oversample4]
  | cons b bs ih => simp only [List.flatMap_cons, oversample4_append, ih]

theorem uart_slots_rotate (B : List Nat) (rest : List Int) :
    (B.flatMap fun b => oversample4 [true, true, false] ++ oversample4 (lsbBits b))
        ++ ([1, 1, 1, 1] ++ rest)
      = [1, 1, 1] ++ (B.flatMap uartCharSlots ++ ([1] ++ rest)) := by
  induction B with
  | nil => rfl
  | cons b bs ih =>
    rw [List.flatMap_cons, List.append_assoc, ih]
    simp [uartCharSlots, oversample4]

set_option maxRecDepth 100000 in
theorem uart_stream (B : List Nat) :
    oversample4 (CodeIso14443bAsReader B).bits
      = List.replicate 160 1 ++ (List.replicate 40 0 ++ [1, 1, 1]) ++ B.flatMap uartCharSlots
          ++ ([1] ++ List.replicate 38 0) ++ ([0, 0, 1, 1, 1] ++ List.replicate 125 1) := by
  rw [bits_CodeIso14443bAsReader, readerLayout]
  simp only [oversample4_append, oversample4_replicate, oversample4_flatMap, if_true,
    Bool.false_eq_true, if_false]
  have e1 : oversample4 [true] = [1, 1, 1, 1] := rfl
  have e2 : List.replicate (4 * 10) (0 : Int)
      ++ (List.replicate (4 * 8) 1 ++ List.replicate (4 * 24) 1)
      = List.replicate 38 0 ++ ([0, 0, 1, 1, 1] ++ List.replicate 125 1) := by
    decide
  rw [e1]
  simp only [List.append_assoc]
  rw [uart_slots_rotate, e2]

theorem storeList_lt (B : List Nat) : ∀ (out : Int → Nat) (k j : Int), j < k →
    storeList out k B j = out j := by
  induction B with
  | nil => intro out k j _; rfl
  | cons b bs ih =>
    intro out k j hj
    rw [storeList, ih _ _ _ (by omega), store_ne _ _ _ _ (by omega)]

theorem bufferPrefix_storeList (B : List Nat) : ∀ (out : Int → Nat) (k : Int),
    (List.range B.length).map (fun (i : Nat) => storeList out k B (k + (i : Int))) = B := by
  induction B with
  | nil => intro out k; rfl
  | cons b bs ih =>
    intro out k
    rw [List.length_cons, List.range_succ_eq_map, List.map_cons, List.map_map]
    have h0 : storeList out k (b :: bs) (k + ((0 : Nat) : Int)) = b := by
      rw [storeList, storeList_lt _ _ _ _ (by simp), Nat.cast_zero, add_zero, store_same]
    rw [h0]
    congr 1
    have h1 := ih (store out k b) (k + 1)
    conv_rhs => rw [← h1]
    apply List.map_congr_left
    intro i _
    simp only [Function.comp, storeList, Nat.cast_succ]
    congr 1
    ring

theorem uart_prefix_quiet (B : List Nat) (hB : ∀ b ∈ B, b < 256) (r : Nat)
    (bc byc mx pc : Int) (out : Int → Nat) (h : (B.length : Int) < mx) :
    ∃ r' bc', UartQuiet ⟨.STATE_UNSYNCD, r, bc, byc, mx, pc, out⟩
      (List.replicate 160 1 ++ (List.replicate 40 0 ++ [1, 1, 1]) ++ B.flatMap uartCharSlots)
      ⟨.STATE_AWAITING_START_BIT, r', bc', B.length, mx, 0, storeList out 0 B⟩ := by
  have h1 := uart_unsynced_ones 160 r bc byc mx pc out
  have h2 := uart_sof r bc byc mx pc out
  obtain ⟨r', bc', h3⟩ := uart_chars B hB mx r 11 0 out (by omega)
  rw [zero_add] at h3
  exact ⟨r', bc', uartQuiet_append (uartQuiet_append h1 h2) h3⟩

theorem uart_roundtrip (B : List Nat) (hB : ∀ b ∈ B, b < 256) (r : Nat)
    (bc byc mx pc : Int) (out : Int → Nat) (h : (B.length : Int) < mx) :
    uartFirstFrame ⟨.STATE_UNSYNCD, r, bc, byc, mx, pc, out⟩
        (oversample4 (CodeIso14443bAsReader B).bits)
      = some ⟨.STATE_RECEIVING_DATA, 0, 10, B.length, mx, 2, storeList out 0 B⟩ ∧
    ∃ n m, uartReturns ⟨.STATE_UNSYNCD, r, bc, byc, mx, pc, out⟩
        (oversample4 (CodeIso14443bAsReader B).bits)
      = List.replicate n false ++ [true, true, true, true] ++ List.replicate m false := by
  obtain ⟨r', bc', h1⟩ := uart_prefix_quiet B hB r bc byc mx pc out h
  have h2 := uartQuiet_append h1 (uart_eof_quiet r' bc' B.length mx (storeList out 0 B))
  obtain ⟨e1, e2, e3⟩ := uart_eof_returns B.length mx (storeList out 0 B)
  rw [uart_stream]
  constructor
  · rw [uartFirstFrame_append _ _ _ h2.2, h2.1, List.cons_append, uartFirstFrame, e1]
    rfl
  · rw [uartReturns_append, h2.1, uartReturns_append [0, 0, 1, 1, 1] (List.replicate 125 1),
      e2, e3]
    obtain ⟨n, q1⟩ : ∃ n, uartReturns ⟨.STATE_UNSYNCD, r, bc, byc, mx, pc, out⟩
        (List.replicate 160 1 ++ (List.replicate 40 0 ++ [1, 1, 1]) ++ B.flatMap uartCharSlots
          ++ ([1] ++ List.replicate 38 0)) = List.replicate n false :=
      ⟨_, List.eq_replicate_iff.mpr ⟨rfl, h2.2⟩⟩
    obtain ⟨m, q2⟩ : ∃ m, uartReturns
        ⟨.STATE_RECEIVING_DATA, 0x200, 11, B.length, mx, 2, storeList out 0 B⟩
        (List.replicate 125 1) = List.replicate m false :=
      ⟨_, List.eq_replicate_iff.mpr ⟨rfl, uart_stuck (List.replicate 125 1)
        ⟨.STATE_RECEIVING_DATA, 0x200, 11, B.length, mx, 2, storeList out 0 B⟩ rfl
        (by show (11 : Int) > 10; decide)⟩⟩
    refine ⟨n, m + 1, ?_⟩
    rw [q1, q2, List.replicate_succ]
    simp

theorem uartReturnsReset_append (l1 l2 : List Int) (u : Uart)
    (h : ∀ r ∈ uartReturns u l1, r = false) :
    uartReturnsReset u (l1 ++ l2) = uartReturns u l1 ++ uartReturnsReset (uartFeed u l1) l2 := by
  induction l1 generalizing u with
  | nil => rfl
  | cons b bs ih =>
    simp only [uartReturns, List.mem_cons, forall_eq_or_imp] at h
    rw [List.cons_append]
    simp only [uartReturnsReset, uartReturns, uartFeed, h.1, Bool.false_eq_true, if_false]
    rw [ih _ h.2, List.cons_append]

theorem uartReturnsReset_quiet (l : List Int) (u : Uart)
    (h : ∀ r ∈ uartReturns u l, r = false) : uartReturnsReset u l = uartReturns u l := by
  have := uartReturnsReset_append l [] u h
  simpa [uartReturnsReset] using this

set_option maxRecDepth 10000 in
theorem uart_after_reset (out : Int → Nat) :
    UartQuiet ⟨.STATE_UNSYNCD, 0, 0, 0, 100, 0, out⟩ ([0] ++ List.replicate 11 1)
      ⟨.STATE_UNSYNCD, 0, 1, 0, 100, 11, out⟩ := by
  simp [UartQuiet, uartFeed, uartReturns, Handle14443UartBit, List.replicate]

set_option maxRecDepth 100000 in
theorem uart_roundtrip_reset (B : List Nat) (hB : ∀ b ∈ B, b < 256) (r : Nat)
    (bc byc mx pc : Int) (out : Int → Nat) (h : (B.length : Int) < mx) :
    ∃ n m, uartReturnsReset ⟨.STATE_UNSYNCD, r, bc, byc, mx, pc, out⟩
        (oversample4 (CodeIso14443bAsReader B).bits)
      = List.replicate n false ++ [true] ++ List.replicate m false := by
  obtain ⟨r', bc', h1⟩ := uart_prefix_quiet B hB r bc byc mx pc out h
  have h2 := uartQuiet_append h1 (uart_eof_quiet r' bc' B.length mx (storeList out 0 B))
  obtain ⟨e1, -, -⟩ := uart_eof_returns B.length mx (storeList out 0 B)
  have h3 := uartQuiet_append (uart_after_reset (storeList out 0 B))
    (uart_unsynced_ones 117 0 1 0 100 11 (storeList out 0 B))
  have e4 : ([0, 0, 1, 1, 1] ++ List.replicate 125 1 : List Int)
      = 0 :: ([0] ++ List.replicate 11 1 ++ List.replicate 117 1) := by decide
  rw [uart_stream, uartReturnsReset_append _ _ _ h2.2, h2.1, e4, uartReturnsReset, e1]
  simp only [if_true, uartSnoopReset]
  rw [uartReturnsReset_quiet _ _ h3.2]
  obtain ⟨n, q1⟩ : ∃ n, uartReturns ⟨.STATE_UNSYNCD, r, bc, byc, mx, pc, out⟩
      (List.replicate 160 1 ++ (List.replicate 40 0 ++ [1, 1, 1]) ++ B.flatMap uartCharSlots
        ++ ([1] ++ List.replicate 38 0)) = List.replicate n false :=
    ⟨_, List.eq_replicate_iff.mpr ⟨rfl, h2.2⟩⟩
  obtain ⟨m, q2⟩ : ∃ m, uartReturns ⟨.STATE_UNSYNCD, 0, 0, 0, 100, 0, storeList out 0 B⟩
      ([0] ++ List.replicate 11 1 ++ List.replicate 117 1) = List.replicate m false :=
    ⟨_, List.eq_replicate_iff.mpr ⟨rfl, h3.2⟩⟩
  exact ⟨n, m, by rw [q1, q2]; simp⟩

theorem uart_stop_full (r : Nat) (k mx : Int) (out : Int → Nat)
    (h0 : sampledReg r 1 &&& 0x001 = 0) (hk : k + 1 ≥ mx) :
    UartQuiet ⟨.STATE_RECEIVING_DATA, r, 9, k, mx, 3, out⟩ [1, 1, 1]
      ⟨.STATE_ERROR_WAIT, sampledReg r 1, 10, k + 1, mx, 0,
        store out k ((sampledReg r 1 >>> 1) &&& 0xff)⟩ := by
  have h9 : sampledReg r 1 &&& 0x200 ≠ 0 := by
    simp only [sampledReg, ne_eq, one_ne_zero, not_false_eq_true, if_true]
    exact shifted_lor_bit9 r
  refine uartQuiet_cons (⟨.STATE_RECEIVING_DATA, r, 9, k, mx, 0, out⟩)
    (by simp [Handle14443UartBit]) (by simp [Handle14443UartBit]) ?_
  refine uartQuiet_cons (⟨.STATE_RECEIVING_DATA, r, 9, k, mx, 1, out⟩)
    (by simp [Handle14443UartBit]) (by simp [Handle14443UartBit]) ?_
  refine uartQuiet_cons _ ?_ ?_ (uartQuiet_nil _)
  · rw [uart_step_sample10, if_pos ⟨h9, h0⟩, if_pos hk]
  · rw [uart_step_sample10, if_pos ⟨h9, h0⟩, if_pos hk]

theorem uart_char_full (b : Nat) (hb : b < 256) (r : Nat) (bc k mx : Int) (out : Int → Nat)
    (hk : k + 1 ≥ mx) :
    ∃ r' bc', UartQuiet ⟨.STATE_AWAITING_START_BIT, r, bc, k, mx, 0, out⟩ (uartCharSlots b)
      ⟨.STATE_ERROR_WAIT, r', bc', k + 1, mx, 0, store out k b⟩ := by
  obtain ⟨hv0, hvb⟩ := shiftIn_byte b hb
  have h1 := uart_start r bc k mx out
  have h2 := uart_data_bits (lsbBits b) 0 1 k mx out (by simp [length_lsbBits])
  have h3 := uart_stop_full (shiftInBits 0 (lsbBits b)) k mx out hv0 hk
  rw [hvb] at h3
  simp only [length_lsbBits] at h2
  norm_num at h2
  exact ⟨_, _, uartQuiet_append (uartQuiet_append h1 h2) h3⟩

set_option maxRecDepth 10000 in
theorem uart_error_tail (r : Nat) (bc k mx : Int) (out : Int → Nat) :
    UartQuiet ⟨.STATE_ERROR_WAIT, r, bc, k, mx, 0, out⟩
      ([1] ++ List.replicate 40 0 ++ List.replicate 10 1)
      ⟨.STATE_UNSYNCD, r, 8, k, mx, 11, out⟩ := by
  simp [UartQuiet, uartFeed, uartReturns, Handle14443UartBit, List.replicate]

set_option maxRecDepth 100000 in
theorem uart_overflow (B : List Nat) (b : Nat) (hB : ∀ x ∈ B, x < 256) (hb : b < 256)
    (r : Nat) (bc byc mx pc : Int) (out : Int → Nat) (h : (B.length : Int) + 1 = mx) :
    ∀ x ∈ uartReturns ⟨.STATE_UNSYNCD, r, bc, byc, mx, pc, out⟩
      (oversample4 (CodeIso14443bAsReader (B ++ [b])).bits), x = false := by
  obtain ⟨r1, bc1, h1⟩ := uart_prefix_quiet B hB r bc byc mx pc out (by omega)
  obtain ⟨r2, bc2, h2⟩ := uart_char_full b hb r1 bc1 B.length mx (storeList out 0 B) (by omega)
  have h3 := uart_error_tail r2 bc2 (B.length + 1) mx (store (storeList out 0 B) B.length b)
  have h4 := uart_unsynced_ones 118 r2 8 (B.length + 1) mx 11
    (store (storeList out 0 B) B.length b)
  have h5 := uartQuiet_append (uartQuiet_append (uartQuiet_append h1 h2) h3) h4
  have e : ([1] ++ List.replicate 38 0 ++ ([0, 0, 1, 1, 1] ++ List.replicate 125 1) : List Int)
      = [1] ++ List.replicate 40 0 ++ List.replicate 10 1 ++ List.replicate 118 1 := by decide
  rw [uart_stream, List.flatMap_append, List.flatMap_singleton]
  simp only [List.append_assoc] at h5 e ⊢
  rw [e]
  exact h5.2

theorem uartFirstFrame_none (l : List Int) (u : Uart)
    (h : ∀ r ∈ uartReturns u l, r = false) : uartFirstFrame u l = none := by
  have := uartFirstFrame_append l [] u h
  simpa [uartFirstFrame] using this

/-! ## Reader coder and UART: round trip -/

/-- C1 (amended). Reader coder/UART round trip: for every byte sequence `B` of
length at most 99, feeding each bit of `CodeIso14443bAsReader B` four times in a
row to `Handle14443UartBit`, starting in UNSYNCED with `byteCntMax = 100`,
reaches a call that returns TRUE, and at the first such call `byteCnt = |B|` and
`output[0..|B|) = B`. -/
theorem C1_reader_uart_roundtrip (B : List Nat) (u0 : Uart) (hB : ∀ b ∈ B, b < 256)
    (hlen : B.length ≤ 99) (hs : u0.state = .STATE_UNSYNCD) (hm : u0.byteCntMax = 100) :
    ∃ u, uartFirstFrame u0 (oversample4 (CodeIso14443bAsReader B).bits) = some u ∧
      u.byteCnt = B.length ∧ bufferPrefix u.output B.length = B := by
  obtain ⟨st, r, bc, byc, mx, pc, out⟩ := u0
  simp only at hs hm
  subst hs hm
  obtain ⟨h1, -⟩ := uart_roundtrip B hB r bc byc 100 pc out (by omega)
  refine ⟨_, h1, rfl, ?_⟩
  have h2 := bufferPrefix_storeList B out 0
  simp only [zero_add] at h2
  exact h2

/-- C1 witness: the two-byte frame `5A FF`. -/
theorem C1_reader_uart_roundtrip_witness :
    (∀ b ∈ [0x5A, 0xFF], b < 256) ∧ [0x5A, 0xFF].length ≤ 99 ∧
    uartReset.state = .STATE_UNSYNCD ∧ uartReset.byteCntMax = 100 ∧
    ∃ u, uartFirstFrame uartReset (oversample4 (CodeIso14443bAsReader [0x5A, 0xFF]).bits)
        = some u ∧
      u.byteCnt = ([0x5A, 0xFF] : List Nat).length ∧
      bufferPrefix u.output ([0x5A, 0xFF] : List Nat).length = [0x5A, 0xFF] :=
  ⟨by decide, by decide, rfl, rfl,
    C1_reader_uart_roundtrip [0x5A, 0xFF] uartReset (by decide) (by decide) rfl rfl⟩

/-- C1 counterexample: a frame of 100 bytes (all zero), `byteCntMax = 100`. The
hundredth byte fills the buffer, the UART goes to ERROR_WAIT and no call ever
returns TRUE. -/
theorem C1_counterexample :
    frame100.length = 100 ∧ (∀ b ∈ frame100, b < 256) ∧
    uartReset.state = .STATE_UNSYNCD ∧ uartReset.byteCntMax = 100 ∧
    uartFirstFrame uartReset (oversample4 (CodeIso14443bAsReader frame100).bits) = none := by
  have hB : ∀ x ∈ List.replicate 99 0, x < 256 := by
    intro x hx
    rw [List.eq_of_mem_replicate hx]
    decide
  refine ⟨by decide, ?_, rfl, rfl, ?_⟩
  · intro b hb
    simp only [frame100, List.mem_append, List.mem_singleton] at hb
    rcases hb with hb | hb
    · exact hB b hb
    · rw [hb]; decide
  · exact uartFirstFrame_none _ _
      (uart_overflow (List.replicate 99 0) 0 hB (by decide) 0 0 0 100 0 (fun _ => 0x44)
        (by simp))

/-- C6 (amended). For every byte sequence `B` shorter than `byteCntMax`, when
the complete 4x-oversampled output of `CodeIso14443bAsReader B` is fed bit by
bit to a UART that starts in UNSYNCED: if the caller resets nothing, exactly
four calls return TRUE and they are consecutive (the call that samples the
tenth zero of the EOF and the next three); if the caller resets the UART after a
call that returned TRUE, as `SnoopIso14443` does, exactly one call returns
TRUE. -/
theorem C6_uart_frame_complete_count (B : List Nat) (u0 : Uart) (hB : ∀ b ∈ B, b < 256)
    (hs : u0.state = .STATE_UNSYNCD) (hlen : (B.length : Int) < u0.byteCntMax) :
    (∃ n m, uartReturns u0 (oversample4 (CodeIso14443bAsReader B).bits)
        = List.replicate n false ++ [true, true, true, true] ++ List.replicate m false) ∧
    (uartReturns u0 (oversample4 (CodeIso14443bAsReader B).bits)).count true = 4 ∧
    (∃ n m, uartReturnsReset u0 (oversample4 (CodeIso14443bAsReader B).bits)
        = List.replicate n false ++ [true] ++ List.replicate m false) ∧
    (uartReturnsReset u0 (oversample4 (CodeIso14443bAsReader B).bits)).count true = 1 := by
  obtain ⟨st, r, bc, byc, mx, pc, out⟩ := u0
  simp only at hs hlen
  subst hs
  obtain ⟨-, n, m, h1⟩ := uart_roundtrip B hB r bc byc mx pc out hlen
  obtain ⟨n', m', h2⟩ := uart_roundtrip_reset B hB r bc byc mx pc out hlen
  refine ⟨⟨n, m, h1⟩, ?_, ⟨n', m', h2⟩, ?_⟩
  · rw [h1]
    simp [List.count_append, List.count_replicate]
  · rw [h2]
    simp [List.count_append, List.count_replicate]

/-- C6 witness: the one-byte frame `5A`. -/
theorem C6_uart_frame_complete_count_witness :
    (∀ b ∈ [0x5A], b < 256) ∧ uartReset.state = .STATE_UNSYNCD ∧
    (([0x5A] : List Nat).length : Int) < uartReset.byteCntMax ∧
    (uartReturns uartReset (oversample4 (CodeIso14443bAsReader [0x5A]).bits)).count true = 4 ∧
    (uartReturnsReset uartReset
      (oversample4 (CodeIso14443bAsReader [0x5A]).bits)).count true = 1 :=
  have h := C6_uart_frame_complete_count [0x5A] uartReset (by decide) rfl (by decide)
  ⟨by decide, rfl, by decide, h.2.1, h.2.2.2⟩

/-- C6 counterexample: the empty frame, fed to a UART that is never reset. Four
calls return TRUE, not one. -/
theorem C6_counterexample :
    uartReset.state = .STATE_UNSYNCD ∧
    (uartReturns uartReset (oversample4 (CodeIso14443bAsReader []).bits)).count true = 4 ∧
    (uartReturns uartReset (oversample4 (CodeIso14443bAsReader []).bits)).count true ≠ 1 := by
  obtain ⟨-, n, m, h1⟩ := uart_roundtrip [] (by simp) 0 0 0 100 0 (fun _ => 0x44) (by decide)
  have h4 : (uartReturns uartReset
      (oversample4 (CodeIso14443bAsReader []).bits)).count true = 4 := by
    rw [uartReset, h1]
    simp [List.count_append, List.count_replicate]
  exact ⟨rfl, h4, by rw [h4]; decide⟩

/-! ## BPSK demodulator: runs -/

theorem demodFeed_append (l1 l2 : List (Int × Int)) (d : Demod) :
    demodFeed d (l1 ++ l2) = demodFeed (demodFeed d l1) l2 := by
  induction l1 generalizing d with
  | nil => rfl
  | cons b bs ih =>
    rw [List.cons_append]
    simp only [demodFeed]
    exact ih _

theorem demodReturns_append (l1 l2 : List (Int × Int)) (d : Demod) :
    demodReturns d (l1 ++ l2) = demodReturns d l1 ++ demodReturns (demodFeed d l1) l2 := by
  induction l1 generalizing d with
  | nil => rfl
  | cons b bs ih =>
    rw [List.cons_append]
    simp only [demodFeed, demodReturns]
    rw [ih, List.cons_append]

theorem demodFirstFrame_append (l1 l2 : List (Int × Int)) (d : Demod)
    (h : ∀ r ∈ demodReturns d l1, r = false) :
    demodFirstFrame d (l1 ++ l2) = demodFirstFrame (demodFeed d l1) l2 := by
  induction l1 generalizing d with
  | nil => rfl
  | cons b bs ih =>
    simp only [demodReturns, List.mem_cons, forall_eq_or_imp] at h
    rw [List.cons_append]
    simp only [demodFirstFrame, demodFeed, h.1, Bool.false_eq_true, if_false]
    exact ih _ h.2

theorem demodQuiet_nil (d : Demod) : DemodQuiet d [] d :=
  ⟨rfl, by simp [demodReturns]⟩

theorem demodQuiet_append {d d1 d2 : Demod} {l1 l2 : List (Int × Int)}
    (h1 : DemodQuiet d l1 d1) (h2 : DemodQuiet d1 l2 d2) : DemodQuiet d (l1 ++ l2) d2 := by
  obtain ⟨ha, hb⟩ := h1
  obtain ⟨hc, hd⟩ := h2
  subst ha
  refine ⟨by rw [demodFeed_append, hc], ?_⟩
  intro r hr
  rw [demodReturns_append, List.mem_append] at hr
  rcases hr with hr | hr
  · exact hb r hr
  · exact hd r hr

theorem demodQuiet_cons {d d2 : Demod} {s : Int × Int} {l : List (Int × Int)}
    (d1 : Demod) (h1 : (Handle14443SamplesDemod d s.1 s.2).demod = d1)
    (hr : (Handle14443SamplesDemod d s.1 s.2).ret = false)
    (h2 : DemodQuiet d1 l d2) : DemodQuiet d (s :: l) d2 := by
  obtain ⟨hc, hd⟩ := h2
  refine ⟨by simp only [demodFeed, h1, hc], ?_⟩
  intro r hr'
  simp only [demodReturns, h1, hr, List.mem_cons] at hr'
  rcases hr' with hr' | hr'
  · exact hr'
  · exact hd r hr'

theorem demod_unsynced_hit (A : Int) (hA : 40 < A) (bc pc tb m mn : Int) (r : Nat)
    (out : Int → Nat) (len si sq : Int) :
    DemodQuiet ⟨.DEMOD_UNSYNCD, bc, pc, tb, m, mn, r, out, len, si, sq⟩
      (List.replicate 9 (A, 0))
      ⟨.DEMOD_PHASE_REF_TRAINING, bc, 8, tb, m, mn, r, out, len, 8 * A, 0⟩ := by
  have f1 : ¬ A < 0 := by omega
  have f2 : A > 40 := by omega
  have e : 8 * A = A + A + A + A + A + A + A + A := by ring
  rw [e]
  simp [DemodQuiet, demodFeed, demodReturns, Handle14443SamplesDemod, List.replicate, f1, f2]

theorem demod_training_hold (n : Nat) (ci : Int) (hci : 0 ≤ ci) (bc tb m mn : Int) (r : Nat)
    (out : Int → Nat) (len si : Int) (hsi : 0 < si) : ∀ (pc : Int), 8 ≤ pc → pc + n ≤ 101 →
    DemodQuiet ⟨.DEMOD_PHASE_REF_TRAINING, bc, pc, tb, m, mn, r, out, len, si, 0⟩
      (List.replicate n (ci, 0))
      ⟨.DEMOD_PHASE_REF_TRAINING, bc, pc + n, tb, m, mn, r, out, len, si, 0⟩ := by
  induction n with
  | zero => intro pc _ _; simpa using demodQuiet_nil _
  | succ k ih =>
    intro pc h1 h2
    have f1 : ¬ pc < 8 := by omega
    have f2 : ¬ pc > 100 := by push_cast at h2; omega
    have f3 : ¬ ci < 0 := by omega
    rw [List.replicate_succ]
    refine demodQuiet_cons (⟨.DEMOD_PHASE_REF_TRAINING, bc, pc + 1, tb, m, mn, r, out,
      len, si, 0⟩) ?_ ?_ ?_
    · simp [Handle14443SamplesDemod, MAKE_SOFT_DECISION, f1, f2, f3, hsi]
    · simp [Handle14443SamplesDemod, MAKE_SOFT_DECISION, f1, f2, f3, hsi]
    · have := ih (pc + 1) (by omega) (by push_cast at h2 ⊢; omega)
      rw [show pc + ((k + 1 : Nat) : Int) = pc + 1 + (k : Int) by push_cast; ring]
      exact this

theorem demod_falling_edge (ci : Int) (hci : ci < 0) (bc tb m mn : Int) (r : Nat)
    (out : Int → Nat) (len si : Int) (hsi : 0 < si) (pc : Int) (h1 : 8 ≤ pc) (h2 : pc ≤ 100) :
    DemodQuiet ⟨.DEMOD_PHASE_REF_TRAINING, bc, pc, tb, m, mn, r, out, len, si, 0⟩
      [(ci, 0), (ci, 0)]
      ⟨.DEMOD_GOT_FALLING_EDGE_OF_SOF, bc, 1, tb, m, mn, r, out, len, si, 0⟩ := by
  have f1 : ¬ pc < 8 := by omega
  have f2 : ¬ pc > 100 := by omega
  simp [DemodQuiet, demodFeed, demodReturns, Handle14443SamplesDemod, MAKE_SOFT_DECISION,
    f1, f2, hci, hsi]

theorem demod_sof_low (n : Nat) (ci : Int) (hci : ci < 0) (bc tb m mn : Int) (r : Nat)
    (out : Int → Nat) (len si : Int) (hsi : 0 < si) : ∀ (pc : Int), pc + n ≤ 101 →
    DemodQuiet ⟨.DEMOD_GOT_FALLING_EDGE_OF_SOF, bc, pc, tb, m, mn, r, out, len, si, 0⟩
      (List.replicate n (ci, 0))
      ⟨.DEMOD_GOT_FALLING_EDGE_OF_SOF, bc, pc + n, tb, m, mn, r, out, len, si, 0⟩ := by
  induction n with
  | zero => intro pc _; simpa using demodQuiet_nil _
  | succ k ih =>
    intro pc h2
    have f2 : ¬ pc > 100 := by push_cast at h2; omega
    have f3 : ¬ ci > 0 := by omega
    rw [List.replicate_succ]
    refine demodQuiet_cons (⟨.DEMOD_GOT_FALLING_EDGE_OF_SOF, bc, pc + 1, tb, m, mn, r,
      out, len, si, 0⟩) ?_ ?_ ?_
    · simp [Handle14443SamplesDemod, MAKE_SOFT_DECISION, f2, f3, hsi]
    · simp [Handle14443SamplesDemod, MAKE_SOFT_DECISION, f2, f3, hsi]
    · have := ih (pc + 1) (by push_cast at h2 ⊢; omega)
      rw [show pc + ((k + 1 : Nat) : Int) = pc + 1 + (k : Int) by push_cast; ring]
      exact this

theorem demod_sof_rise (ci : Int) (hci : 0 < ci) (bc tb m mn : Int) (r : Nat)
    (out : Int → Nat) (len si : Int) (hsi : 0 < si) (pc : Int) (h1 : 12 ≤ pc) :
    DemodQuiet ⟨.DEMOD_GOT_FALLING_EDGE_OF_SOF, bc, pc, tb, m, mn, r, out, len, si, 0⟩
      [(ci, 0)]
      ⟨.DEMOD_AWAITING_START_BIT, bc, 1, tb, 0, 0, r, out, 0, si, 0⟩ := by
  have f1 : ¬ pc < 12 := by omega
  simp [DemodQuiet, demodFeed, demodReturns, Handle14443SamplesDemod, MAKE_SOFT_DECISION,
    f1, hci, hsi]

theorem demod_idle_high (n : Nat) (ci : Int) (hci : 0 < ci) (bc pc tb m mn : Int) (r : Nat)
    (out : Int → Nat) (len si : Int) (hsi : 0 < si) (hpc : pc ≤ 10) :
    DemodQuiet ⟨.DEMOD_AWAITING_START_BIT, bc, pc, tb, m, mn, r, out, len, si, 0⟩
      (List.replicate n (ci, 0))
      ⟨.DEMOD_AWAITING_START_BIT, bc, pc, tb, m, mn, r, out, len, si, 0⟩ := by
  have f1 : ¬ pc > 10 := by omega
  induction n with
  | zero => exact demodQuiet_nil _
  | succ k ih =>
    rw [List.replicate_succ]
    refine demodQuiet_cons _ ?_ ?_ ih
    · simp [Handle14443SamplesDemod, MAKE_SOFT_DECISION, f1, hci, hsi]
    · simp [Handle14443SamplesDemod, MAKE_SOFT_DECISION, f1, hci, hsi]

/-- From UNSYNCED through the TR1 burst and the start of frame. -/
theorem demod_preamble (A : Int) (hA : 40 < A) (bc pc tb m mn : Int) (r : Nat)
    (out : Int → Nat) (len si sq : Int) :
    DemodQuiet ⟨.DEMOD_UNSYNCD, bc, pc, tb, m, mn, r, out, len, si, sq⟩
      (List.replicate 9 (A, 0) ++ List.replicate 31 (A, 0) ++ [(-A, 0), (-A, 0)]
        ++ List.replicate 18 (-A, 0) ++ [(A, 0)] ++ List.replicate 3 (A, 0))
      ⟨.DEMOD_AWAITING_START_BIT, bc, 1, tb, 0, 0, r, out, 0, 8 * A, 0⟩ := by
  have h8 : 0 < 8 * A := by omega
  have h1 := demod_unsynced_hit A hA bc pc tb m mn r out len si sq
  have h2 := demod_training_hold 31 A (by omega) bc tb m mn r out len (8 * A) h8 8
    (by omega) (by norm_num)
  have h3 := demod_falling_edge (-A) (by omega) bc tb m mn r out len (8 * A) h8 (8 + (31 : Nat))
    (by norm_num) (by norm_num)
  have h4 := demod_sof_low 18 (-A) (by omega) bc tb m mn r out len (8 * A) h8 1 (by norm_num)
  have h5 := demod_sof_rise A (by omega) bc tb m mn r out len (8 * A) h8 (1 + (18 : Nat))
    (by norm_num)
  have h6 := demod_idle_high 3 A (by omega) bc 1 tb 0 0 r out 0 (8 * A) h8 (by omega)
  exact demodQuiet_append (demodQuiet_append (demodQuiet_append (demodQuiet_append
    (demodQuiet_append h1 h2) h3) h4) h5) h6

theorem carrierSamples_append (A : Int) (l1 l2 : List Bool) :
    carrierSamples A (l1 ++ l2) = carrierSamples A l1 ++ carrierSamples A l2 := by
  simp [carrierSamples]

theorem carrierSamples_cons (A : Int) (x : Bool) (l : List Bool) :
    carrierSamples A (x :: l) = [carrierSample A x, carrierSample A x] ++ carrierSamples A l := by
  simp [carrierSamples, carrierSample, List.replicate]

theorem demod_symbol (A : Int) (hA : 0 < A) (x : Bool) (n tb m mn : Int) (r : Nat)
    (out : Int → Nat) (len si : Int) (hsi : 0 < si) (hn : n + 1 ≠ 10) :
    DemodQuiet ⟨.DEMOD_RECEIVING_DATA, n, 0, tb, m, mn, r, out, len, si, 0⟩
      [carrierSample A x, carrierSample A x]
      ⟨.DEMOD_RECEIVING_DATA, n + 1, 0, (if x then 2 * A else -(2 * A)), m + 2 * A, mn + 1,
        sampledReg r (if x then 1 else 0), out, len, si, 0⟩ := by
  have f1 : A + A = 2 * A := by ring
  have f2 : -A + -A = -(2 * A) := by ring
  have f3 : 0 < 2 * A := by omega
  have f4 : ¬ 0 < -(2 * A) := by omega
  cases x
  · simp [DemodQuiet, demodFeed, demodReturns, Handle14443SamplesDemod, MAKE_SOFT_DECISION,
      carrierSample, sampledReg, hsi, hn, f2, f4]
  · simp [DemodQuiet, demodFeed, demodReturns, Handle14443SamplesDemod, MAKE_SOFT_DECISION,
      carrierSample, sampledReg, hsi, hn, f1, f3]

theorem demod_start (A : Int) (hA : 0 < A) (bc pc tb m mn : Int) (r : Nat)
    (out : Int → Nat) (len si : Int) (hsi : 0 < si) :
    DemodQuiet ⟨.DEMOD_AWAITING_START_BIT, bc, pc, tb, m, mn, r, out, len, si, 0⟩
      [carrierSample A false, carrierSample A false]
      ⟨.DEMOD_RECEIVING_DATA, 1, 0, -(2 * A), m + 2 * A, mn + 1, 0, out, len, si, 0⟩ := by
  have f2 : -A + -A = -(2 * A) := by ring
  have f4 : ¬ 0 < -(2 * A) := by omega
  have f5 : ¬ 0 < -A := by omega
  simp [DemodQuiet, demodFeed, demodReturns, Handle14443SamplesDemod, MAKE_SOFT_DECISION,
    carrierSample, hsi, f2, f4, f5]

theorem demod_symbols (A : Int) (hA : 0 < A) (xs : List Bool) (m : Int) (out : Int → Nat)
    (len si : Int) (hsi : 0 < si) : ∀ (n tb mn : Int) (r : Nat), n + xs.length ≤ 9 →
    ∃ tb', DemodQuiet ⟨.DEMOD_RECEIVING_DATA, n, 0, tb, m, mn, r, out, len, si, 0⟩
      (carrierSamples A xs)
      ⟨.DEMOD_RECEIVING_DATA, n + xs.length, 0, tb', m + 2 * A * xs.length, mn + xs.length,
        shiftInBits r xs, out, len, si, 0⟩ := by
  induction xs generalizing m with
  | nil =>
    intro n tb mn r _
    exact ⟨tb, by simpa [carrierSamples, shiftInBits] using demodQuiet_nil _⟩
  | cons x xs ih =>
    intro n tb mn r h
    simp only [List.length_cons, Nat.cast_add, Nat.cast_one] at h
    have h1 := demod_symbol A hA x n tb m mn r out len si hsi (by omega)
    obtain ⟨tb', h2⟩ := ih (m + 2 * A) (n + 1) (if x then 2 * A else -(2 * A)) (mn + 1)
      (sampledReg r (if x then 1 else 0)) (by omega)
    refine ⟨tb', ?_⟩
    have h3 := demodQuiet_append h1 h2
    rw [carrierSamples_cons]
    simp only [shiftInBits, List.foldl_cons, List.length_cons, Nat.cast_add, Nat.cast_one]
    rw [show n + (↑xs.length + 1) = n + 1 + ↑xs.length by ring,
      show m + 2 * A * (↑xs.length + 1) = m + 2 * A + 2 * A * ↑xs.length by ring,
      show mn + (↑xs.length + 1) = mn + 1 + ↑xs.length by ring]
    exact h3

theorem demod_stop (A : Int) (hA : 0 < A) (tb m mn : Int) (r : Nat)
    (out : Int → Nat) (len si : Int) (hsi : 0 < si)
    (h0 : sampledReg r 1 &&& 0x001 = 0) :
    DemodQuiet ⟨.DEMOD_RECEIVING_DATA, 9, 0, tb, m, mn, r, out, len, si, 0⟩
      [carrierSample A true, carrierSample A true]
      ⟨.DEMOD_AWAITING_START_BIT, 10, 0, 2 * A, m + 2 * A, mn + 1, sampledReg r 1,
        store out len ((sampledReg r 1 >>> 1) % 256), len + 1, si, 0⟩ := by
  have h9 : sampledReg r 1 &&& 0x200 ≠ 0 := by
    simp only [sampledReg, ne_eq, one_ne_zero, not_false_eq_true, if_true]
    exact shifted_lor_bit9 r
  simp only [sampledReg, ne_eq, one_ne_zero, not_false_eq_true, if_true] at h0 h9 ⊢
  have f1 : A + A = 2 * A := by ring
  have f3 : 0 < 2 * A := by omega
  have h0' : (r >>> 1 ||| 512) % 2 = 0 := by rw [← Nat.and_one_is_mod]; exact h0
  simp [DemodQuiet, demodFeed, demodReturns, Handle14443SamplesDemod, MAKE_SOFT_DECISION,
    carrierSample, hsi, f1, f3, h0', h9]

set_option maxRecDepth 100000 in
theorem shiftIn_byte_mod : ∀ b < 256,
    (sampledReg (shiftInBits 0 (lsbBits b)) 1 >>> 1) % 256 = b := by
  decide

theorem demod_char (A : Int) (hA : 0 < A) (b : Nat) (hb : b < 256) (bc pc tb m mn : Int)
    (r : Nat) (out : Int → Nat) (len si : Int) (hsi : 0 < si) :
    ∃ r', DemodQuiet ⟨.DEMOD_AWAITING_START_BIT, bc, pc, tb, m, mn, r, out, len, si, 0⟩
      (carrierSamples A (charSymbols b))
      ⟨.DEMOD_AWAITING_START_BIT, 10, 0, 2 * A, m + 20 * A, mn + 10, r',
        store out len b, len + 1, si, 0⟩ := by
  obtain ⟨hv0, -⟩ := shiftIn_byte b hb
  have hvb := shiftIn_byte_mod b hb
  have h1 := demod_start A hA bc pc tb m mn r out len si hsi
  obtain ⟨tb', h2⟩ := demod_symbols A hA (lsbBits b) (m + 2 * A) out len si hsi 1 (-(2 * A))
    (mn + 1) 0 (by simp [length_lsbBits])
  have h3 := demod_stop A hA tb' (m + 2 * A + 2 * A * (lsbBits b).length)
    (mn + 1 + (lsbBits b).length) (shiftInBits 0 (lsbBits b)) out len si hsi hv0
  rw [hvb] at h3
  simp only [length_lsbBits] at h2 h3
  norm_num at h2 h3
  have h4 := demodQuiet_append (demodQuiet_append h1 h2) h3
  refine ⟨sampledReg (shiftInBits 0 (lsbBits b)) 1, ?_⟩
  have e : carrierSamples A (charSymbols b)
      = [carrierSample A false, carrierSample A false] ++ carrierSamples A (lsbBits b) ++
        [carrierSample A true, carrierSample A true] := by
    simp [charSymbols, carrierSamples, carrierSample, List.replicate]
  rw [e, show m + 20 * A = m + 2 * A + 2 * A * 8 + 2 * A by ring,
    show mn + 10 = mn + 1 + 8 + 1 by ring]
  exact h4

theorem demod_chars (A : Int) (hA : 0 < A) (B : List Nat) (hB : ∀ b ∈ B, b < 256) (si : Int)
    (hsi : 0 < si) : ∀ (bc pc tb m mn : Int) (r : Nat) (out : Int → Nat) (len : Int),
    ∃ bc' pc' tb' r',
      DemodQuiet ⟨.DEMOD_AWAITING_START_BIT, bc, pc, tb, m, mn, r, out, len, si, 0⟩
        (carrierSamples A (B.flatMap charSymbols))
        ⟨.DEMOD_AWAITING_START_BIT, bc', pc', tb', m + 20 * A * B.length, mn + 10 * B.length,
          r', storeList out len B, len + B.length, si, 0⟩ := by
  induction B with
  | nil =>
    intro bc pc tb m mn r out len
    exact ⟨bc, pc, tb, r, by simpa [carrierSamples, storeList] using demodQuiet_nil _⟩
  | cons b bs ih =>
    intro bc pc tb m mn r out len
    obtain ⟨r1, h1⟩ := demod_char A hA b (hB b (List.mem_cons_self _ _)) bc pc tb m mn r out
      len si hsi
    obtain ⟨bc2, pc2, tb2, r2, h2⟩ := ih (fun x hx => hB x (List.mem_cons_of_mem _ hx)) 10 0
      (2 * A) (m + 20 * A) (mn + 10) r1 (store out len b) (len + 1)
    refine ⟨bc2, pc2, tb2, r2, ?_⟩
    have h3 := demodQuiet_append h1 h2
    rw [List.flatMap_cons, carrierSamples_append]
    simp only [storeList, List.length_cons, Nat.cast_add, Nat.cast_one]
    rw [show m + 20 * A * (↑bs.length + 1) = m + 20 * A + 20 * A * ↑bs.length by ring,
      show mn + 10 * (↑bs.length + 1) = mn + 10 + 10 * ↑bs.length by ring,
      show len + (↑bs.length + 1) = len + 1 + ↑bs.length by ring]
    exact h3

theorem shiftInBits_zeros (n : Nat) : shiftInBits 0 (List.replicate n false) = 0 := by
  induction n with
  | zero => rfl
  | succ k ih =>
    rw [List.replicate_succ, shiftInBits, List.foldl_cons]
    simpa [shiftInBits, sampledReg] using ih

/-- The end of frame up to, but not including, the sample that completes its
tenth symbol. -/
theorem demod_eof_quiet (A : Int) (hA : 0 < A) (bc pc tb m mn : Int) (r : Nat)
    (out : Int → Nat) (len si : Int) (hsi : 0 < si) :
    DemodQuiet ⟨.DEMOD_AWAITING_START_BIT, bc, pc, tb, m, mn, r, out, len, si, 0⟩
      (carrierSamples A (List.replicate 9 false) ++ [carrierSample A false])
      ⟨.DEMOD_RECEIVING_DATA, 9, 1, -A, m + 18 * A, mn + 9, 0, out, len, si, 0⟩ := by
  have h1 := demod_start A hA bc pc tb m mn r out len si hsi
  obtain ⟨tb', h2⟩ := demod_symbols A hA (List.replicate 8 false) (m + 2 * A) out len si hsi 1
    (-(2 * A)) (mn + 1) 0 (by simp)
  rw [shiftInBits_zeros] at h2
  simp only [List.length_replicate] at h2
  norm_num at h2
  have h3 : DemodQuiet
      ⟨.DEMOD_RECEIVING_DATA, 9, 0, tb', m + 2 * A + 2 * A * 8, mn + 1 + 8, 0, out, len, si, 0⟩
      [carrierSample A false]
      ⟨.DEMOD_RECEIVING_DATA, 9, 1, -A, m + 2 * A + 2 * A * 8, mn + 1 + 8, 0, out, len, si,
        0⟩ := by
    simp [DemodQuiet, demodFeed, demodReturns, Handle14443SamplesDemod, MAKE_SOFT_DECISION,
      carrierSample, hsi]
  have h4 := demodQuiet_append (demodQuiet_append h1 h2) h3
  rw [show List.replicate 9 false = false :: List.replicate 8 false from rfl,
    carrierSamples_cons, show m + 18 * A = m + 2 * A + 2 * A * 8 by ring,
    show mn + 9 = mn + 1 + 8 by ring]
  exact h4

theorem demod_eof_return (A : Int) (hA : 0 < A) (m mn : Int) (out : Int → Nat)
    (len si : Int) (hsi : 0 < si) :
    Handle14443SamplesDemod
        ⟨.DEMOD_RECEIVING_DATA, 9, 1, -A, m, mn, 0, out, len, si, 0⟩ (-A) 0
      = ⟨⟨.DEMOD_RECEIVING_DATA, 10, 1, -(2 * A), m + 2 * A, mn + 1, 0, out, len, si, 0⟩,
          none, true⟩ := by
  have f2 : -A + -A = -(2 * A) := by ring
  have f4 : ¬ 0 < -(2 * A) := by omega
  simp [Handle14443SamplesDemod, MAKE_SOFT_DECISION, hsi, f2, f4]

theorem demod_stuck_step (d : Demod) (ci cq : Int)
    (hs : d.state = .DEMOD_RECEIVING_DATA) (hb : d.bitCount ≥ 10) :
    (Handle14443SamplesDemod d ci cq).ret = false ∧
    (Handle14443SamplesDemod d ci cq).write = none ∧
    (Handle14443SamplesDemod d ci cq).demod.state = .DEMOD_RECEIVING_DATA ∧
    (Handle14443SamplesDemod d ci cq).demod.bitCount ≥ 10 ∧
    (Handle14443SamplesDemod d ci cq).demod.len = d.len ∧
    (Handle14443SamplesDemod d ci cq).demod.output = d.output := by
  obtain ⟨st, bc, pc, tb, m, mn, r, out, len, si, sq⟩ := d
  simp only at hs hb
  subst hs
  generalize hr : Handle14443SamplesDemod
    ⟨.DEMOD_RECEIVING_DATA, bc, pc, tb, m, mn, r, out, len, si, sq⟩ ci cq = res
  simp only [Handle14443SamplesDemod] at hr
  split_ifs at hr <;> subst hr <;> simp_all <;> omega

theorem demod_stuck (l : List (Int × Int)) (d : Demod)
    (hs : d.state = .DEMOD_RECEIVING_DATA) (hb : d.bitCount ≥ 10) :
    ∀ r ∈ demodReturns d l, r = false := by
  induction l generalizing d with
  | nil => simp [demodReturns]
  | cons b bs ih =>
    obtain ⟨h1, -, h2, h3, -, -⟩ := demod_stuck_step d b.1 b.2 hs hb
    intro r hr
    simp only [demodReturns, List.mem_cons] at hr
    rcases hr with hr | hr
    · rw [hr, h1]
    · exact ih _ h2 h3 r hr

theorem symbolsOf_cons4 (x : Bool) (rest : List Bool) :
    symbolsOf (x :: x :: x :: x :: rest) = x :: symbolsOf rest := by
  rw [symbolsOf]

theorem symbolsOf_quad (xs : List Bool) :
    symbolsOf (xs.flatMap (fun x => List.replicate 4 x)) = xs := by
  induction xs with
  | nil => rfl
  | cons x xs ih =>
    have e : List.replicate 4 x ++ xs.flatMap (fun x => List.replicate 4 x)
        = x :: x :: x :: x :: xs.flatMap (fun x => List.replicate 4 x) := rfl
    rw [List.flatMap_cons, e, symbolsOf_cons4, ih]

theorem quad_replicate (n : Nat) (x : Bool) :
    (List.replicate n x).flatMap (fun x => List.replicate 4 x) = List.replicate (4 * n) x := by
  induction n with
  | zero => rfl
  | succ k ih =>
    rw [List.replicate_succ, List.flatMap_cons, ih, ← List.replicate_add]
    congr 1
    omega

theorem tagLayout_eq_quad (B : List Nat) :
    tagLayout B = (tagSymbols B).flatMap (fun x => List.replicate 4 x) := by
  have hq : ∀ b, (charSymbols b).flatMap (fun x => List.replicate 4 x)
      = List.replicate 4 false ++ (lsbBits b).flatMap (fun x => List.replicate 4 x)
        ++ List.replicate 4 true := by
    intro b
    simp [charSymbols, List.flatMap_append]
  simp only [tagLayout, tagSymbols, List.flatMap_append, quad_replicate, List.flatMap_assoc, hq]

theorem symbolsOf_tag (B : List Nat) :
    symbolsOf (CodeIso14443bAsTag B).bits = tagSymbols B := by
  rw [bits_CodeIso14443bAsTag, tagLayout_eq_quad, symbolsOf_quad]

theorem demod_stream (A : Int) (B : List Nat) :
    carrierSamples A (symbolsOf (CodeIso14443bAsTag B).bits)
      = (List.replicate 9 (A, 0) ++ List.replicate 31 (A, 0) ++ [(-A, 0), (-A, 0)]
          ++ List.replicate 18 (-A, 0) ++ [(A, 0)] ++ List.replicate 3 (A, 0))
        ++ carrierSamples A (B.flatMap charSymbols)
        ++ (carrierSamples A (List.replicate 9 false) ++ [carrierSample A false])
        ++ ((-A, 0) :: carrierSamples A (List.replicate 10 true)) := by
  rw [symbolsOf_tag, tagSymbols]
  simp only [carrierSamples_append]
  have e1 : carrierSamples A (List.replicate 20 true) ++ carrierSamples A (List.replicate 10 false)
      ++ carrierSamples A (List.replicate 2 true)
      = List.replicate 9 (A, 0) ++ List.replicate 31 (A, 0) ++ [(-A, 0), (-A, 0)]
          ++ List.replicate 18 (-A, 0) ++ [(A, 0)] ++ List.replicate 3 (A, 0) := by
    simp [carrierSamples, List.replicate]
  have e2 : carrierSamples A (List.replicate 10 false)
      = carrierSamples A (List.replicate 9 false) ++ [carrierSample A false] ++ [(-A, 0)] := by
    simp [carrierSamples, carrierSample, List.replicate]
  rw [e1, e2]
  simp only [List.append_assoc, List.singleton_append, List.cons_append, List.nil_append]

theorem demod_roundtrip (A : Int) (hA : 40 < A) (B : List Nat) (hB : ∀ b ∈ B, b < 256)
    (bc pc tb m mn : Int) (r : Nat) (out : Int → Nat) (len si sq : Int) :
    demodFirstFrame ⟨.DEMOD_UNSYNCD, bc, pc, tb, m, mn, r, out, len, si, sq⟩
        (carrierSamples A (symbolsOf (CodeIso14443bAsTag B).bits))
      = some ⟨.DEMOD_RECEIVING_DATA, 10, 1, -(2 * A), 20 * A * (B.length + 1),
          10 * (B.length + 1), 0, storeList out 0 B, B.length, 8 * A, 0⟩ ∧
    ∃ n k, demodReturns ⟨.DEMOD_UNSYNCD, bc, pc, tb, m, mn, r, out, len, si, sq⟩
        (carrierSamples A (symbolsOf (CodeIso14443bAsTag B).bits))
      = List.replicate n false ++ [true] ++ List.replicate k false := by
  have hA0 : 0 < A := by omega
  have h8 : 0 < 8 * A := by omega
  have h1 := demod_preamble A hA bc pc tb m mn r out len si sq
  obtain ⟨bc2, pc2, tb2, r2, h2⟩ := demod_chars A hA0 B hB (8 * A) h8 bc 1 tb 0 0 r out 0
  simp only [zero_add] at h2
  have h3 := demod_eof_quiet A hA0 bc2 pc2 tb2 (20 * A * B.length) (10 * B.length) r2
    (storeList out 0 B) B.length (8 * A) h8
  have h4 := demodQuiet_append (demodQuiet_append h1 h2) h3
  have e1 := demod_eof_return A hA0 (20 * A * B.length + 18 * A) (10 * B.length + 9)
    (storeList out 0 B) B.length (8 * A) h8
  rw [show 20 * A * (B.length : Int) + 18 * A + 2 * A = 20 * A * (B.length + 1) by ring,
    show 10 * (B.length : Int) + 9 + 1 = 10 * (B.length + 1) by ring] at e1
  rw [demod_stream]
  constructor
  · rw [demodFirstFrame_append _ _ _ h4.2, h4.1, demodFirstFrame]
    simp only [e1, if_true]
  · rw [demodReturns_append _ _ _, h4.1, demodReturns]
    simp only [e1]
    obtain ⟨n, q1⟩ : ∃ n, demodReturns ⟨.DEMOD_UNSYNCD, bc, pc, tb, m, mn, r, out, len, si, sq⟩
        (List.replicate 9 (A, 0) ++ List.replicate 31 (A, 0) ++ [(-A, 0), (-A, 0)]
          ++ List.replicate 18 (-A, 0) ++ [(A, 0)] ++ List.replicate 3 (A, 0)
          ++ carrierSamples A (B.flatMap charSymbols)
          ++ (carrierSamples A (List.replicate 9 false) ++ [carrierSample A false]))
        = List.replicate n false :=
      ⟨_, List.eq_replicate_iff.mpr ⟨rfl, h4.2⟩⟩
    obtain ⟨k, q2⟩ : ∃ k, demodReturns
        ⟨.DEMOD_RECEIVING_DATA, 10, 1, -(2 * A), 20 * A * (B.length + 1), 10 * (B.length + 1),
          0, storeList out 0 B, B.length, 8 * A, 0⟩
        (carrierSamples A (List.replicate 10 true)) = List.replicate k false :=
      ⟨_, List.eq_replicate_iff.mpr ⟨rfl, demod_stuck _ _ rfl (by show (10 : Int) ≥ 10; decide)⟩⟩
    exact ⟨n, k, by rw [q1, q2]; simp⟩

/-! ## Tag coder and BPSK demodulator: round trip -/

/-- C2. Tag coder/BPSK demodulator round trip: for every byte sequence `B` of
length at most 100 and every amplitude `A > 40`, take the bits of
`CodeIso14443bAsTag B`, turn every symbol (group of four stuffed bits) into two
sample pairs, `(+A, 0)` for high and `(-A, 0)` for low, and feed them to
`Handle14443SamplesDemod` starting in UNSYNCED. Exactly one call returns TRUE,
and at that call `len = |B|` and `output[0..|B|) = B`. (At that call the phase
reference is `(8A, 0)`, `metricN = 10 (|B| + 1)` and `metric = 20 A (|B| + 1)`.) -/
theorem C2_tag_demod_roundtrip (B : List Nat) (A : Int) (d0 : Demod)
    (hB : ∀ b ∈ B, b < 256) (_hlen : B.length ≤ 100) (hA : 40 < A)
    (hs : d0.state = .DEMOD_UNSYNCD) :
    (∃ n k, demodReturns d0 (carrierSamples A (symbolsOf (CodeIso14443bAsTag B).bits))
        = List.replicate n false ++ [true] ++ List.replicate k false) ∧
    (demodReturns d0 (carrierSamples A (symbolsOf (CodeIso14443bAsTag B).bits))).count true
      = 1 ∧
    ∃ d, demodFirstFrame d0 (carrierSamples A (symbolsOf (CodeIso14443bAsTag B).bits)) = some d ∧
      d.len = B.length ∧ bufferPrefix d.output B.length = B ∧
      d.sumI = 8 * A ∧ d.sumQ = 0 ∧ d.metricN = 10 * (B.length + 1) ∧
      d.metric = 20 * A * (B.length + 1) := by
  obtain ⟨st, bc, pc, tb, m, mn, r, out, len, si, sq⟩ := d0
  simp only at hs
  subst hs
  obtain ⟨h1, n, k, h2⟩ := demod_roundtrip A hA B hB bc pc tb m mn r out len si sq
  refine ⟨⟨n, k, h2⟩, ?_, _, h1, rfl, ?_, rfl, rfl, rfl, rfl⟩
  · rw [h2]
    simp [List.count_append, List.count_replicate]
  · have h3 := bufferPrefix_storeList B out 0
    simp only [zero_add] at h3
    exact h3

/-- C2 witness: the one-byte frame `5A` at amplitude 41. -/
theorem C2_tag_demod_roundtrip_witness :
    (∀ b ∈ [0x5A], b < 256) ∧ ([0x5A] : List Nat).length ≤ 100 ∧ (40 : Int) < 41 ∧
    demodReset.state = .DEMOD_UNSYNCD ∧
    (demodReturns demodReset
      (carrierSamples 41 (symbolsOf (CodeIso14443bAsTag [0x5A]).bits))).count true = 1 ∧
    ∃ d, demodFirstFrame demodReset
        (carrierSamples 41 (symbolsOf (CodeIso14443bAsTag [0x5A]).bits)) = some d ∧
      d.len = ([0x5A] : List Nat).length ∧
      bufferPrefix d.output ([0x5A] : List Nat).length = [0x5A] ∧
      d.sumI = 8 * 41 ∧ d.sumQ = 0 ∧ d.metricN = 10 * (([0x5A] : List Nat).length + 1) ∧
      d.metric = 20 * 41 * (([0x5A] : List Nat).length + 1) :=
  have h := C2_tag_demod_roundtrip [0x5A] 41 demodReset (by decide) (by decide) (by decide) rfl
  ⟨by decide, by decide, by decide, rfl, h.2.1, h.2.2⟩

/-! ## Read SRI512: every branch -/

theorem readBlocksLoop_total (tag : Tag) (m : Nat) :
    ∀ (i fuel : Nat) (sent : List (List Nat)) (log : List Event),
      i + m = 16 → m + 1 ≤ fuel →
      ∃ ext, readBlocksLoop tag fuel i sent log = some (log ++ ext) := by
  induction m with
  | zero =>
    intro i fuel sent log hi hf
    obtain ⟨f, rfl⟩ : ∃ f, fuel = f + 1 := ⟨fuel - 1, by omega⟩
    have hi16 : i = 16 := by omega
    subst hi16
    simp only [readBlocksLoop, if_true]
    split_ifs <;> exact ⟨_, by simp only [List.append_assoc]; rfl⟩
  | succ k ih =>
    intro i fuel sent log hi hf
    obtain ⟨f, rfl⟩ : ∃ f, fuel = f + 1 := ⟨fuel - 1, by omega⟩
    have hi16 : i ≠ 0x10 := by omega
    have hiff : i ≠ 0xff := by omega
    have hmod : (i + 1) % 256 = i + 1 := by omega
    simp only [readBlocksLoop, hi16, hiff, if_false, hmod]
    split_ifs
    · exact ⟨_, by simp only [List.append_assoc]; rfl⟩
    · obtain ⟨ext, h⟩ := ih (i + 1) f _ _ (by omega) (by omega)
      exact ⟨_, by rw [h]; simp only [List.append_assoc]; rfl⟩
    · obtain ⟨ext, h⟩ := ih (i + 1) f _ _ (by omega) (by omega)
      exact ⟨_, by rw [h]; simp only [List.append_assoc]; rfl⟩

/-- One iteration of the block loop, spelled out. -/
theorem readBlocksLoop_iter (tag : Tag) (f i : Nat) (sent : List (List Nat))
    (log : List Event) :
    readBlocksLoop tag (f + 1) i sent log =
      if (tag (sent ++ [readBlockFrame (blockAddr i)])).len ≠ 6 then
        some (log ++ sysEvents i ++ [Event.frame (readBlockFrame (blockAddr i)),
          Event.str "Expected 6 bytes from tag, got less..."])
      else if blockAddr i = 0xff then
        some (log ++ sysEvents i ++ [Event.frame (readBlockFrame (blockAddr i))] ++
          blockCrcEvents (tag (sent ++ [readBlockFrame (blockAddr i)])) ++
          [Event.str "Address , Contents, CRC",
            blockRecord (blockAddr i) (tag (sent ++ [readBlockFrame (blockAddr i)]))])
      else
        readBlocksLoop tag f ((blockAddr i + 1) % 256) (sent ++ [readBlockFrame (blockAddr i)])
          (log ++ sysEvents i ++ [Event.frame (readBlockFrame (blockAddr i))] ++
            blockCrcEvents (tag (sent ++ [readBlockFrame (blockAddr i)])) ++
            [Event.str "Address , Contents, CRC",
              blockRecord (blockAddr i) (tag (sent ++ [readBlockFrame (blockAddr i)]))]) := by
  simp only [readBlocksLoop, blockAddr, sysEvents, blockCrcEvents, blockRecord, readBlockFrame]
  by_cases h16 : i = 0x10
  · subst h16
    simp only [if_true]
    split_ifs <;> simp
  · simp only [h16, if_false]
    split_ifs <;> simp

/-- The whole of `ReadSRI512Iso14443`, branch by branch. -/
theorem ReadSRI512Iso14443_eq (tag : Tag) (fuel : Nat) :
    ReadSRI512Iso14443 tag fuel =
      if (initiateAnswer tag).len = 0 then
        some [Event.frame initiateFrame, Event.str "No response from tag"]
      else if (selectAnswer tag).len ≠ 3 then
        some (selectPrefix (initiateAnswer tag) ++
          [Event.str "Expected 3 bytes from tag, got:",
            Event.ints (word32 (selectAnswer tag).len) 0 0])
      else if (ComputeCrc14443 [(selectAnswer tag).output 0]).1 ≠ (selectAnswer tag).output 1 ∨
          (ComputeCrc14443 [(selectAnswer tag).output 0]).2 ≠ (selectAnswer tag).output 2 then
        some (selectPrefix (initiateAnswer tag) ++
          [Event.str "CRC Error reading select response."])
      else if (initiateAnswer tag).output 0 ≠ (selectAnswer tag).output 0 then
        some (selectPrefix (initiateAnswer tag) ++
          [Event.str "Bad response to SELECT from Tag, aborting:",
            Event.ints (word32 ((initiateAnswer tag).output 0))
              (word32 ((selectAnswer tag).output 0)) 0])
      else if (uidAnswer tag).len ≠ 10 then
        some (selectPrefix (initiateAnswer tag) ++ [Event.frame getUidFrame,
          Event.str "Expected 10 bytes from tag, got:",
          Event.ints (word32 (uidAnswer tag).len) 0 0])
      else
        readBlocksLoop tag fuel 0
          [initiateFrame, selectFrame ((initiateAnswer tag).output 0), getUidFrame]
          (selectPrefix (initiateAnswer tag) ++ [Event.frame getUidFrame] ++
            uidCrcEvents (uidAnswer tag) ++ uidEvents (uidAnswer tag)) := by
  by_cases h : (ComputeCrc14443 (bufferPrefix (uidAnswer tag).output 8)).1
        ≠ (uidAnswer tag).output 8 ∨
      (ComputeCrc14443 (bufferPrefix (uidAnswer tag).output 8)).2 ≠ (uidAnswer tag).output 9
  · have h' := h
    simp only [uidAnswer, initiateAnswer, initiateFrame, selectFrame, getUidFrame] at h'
    simp only [ReadSRI512Iso14443, uidCrcEvents, if_pos h', initiateAnswer, selectAnswer,
      uidAnswer, selectPrefix, uidEvents, initiateFrame, selectFrame, getUidFrame,
      List.cons_append, List.nil_append, List.append_assoc]
  · have h' := h
    simp only [uidAnswer, initiateAnswer, initiateFrame, selectFrame, getUidFrame] at h'
    simp only [ReadSRI512Iso14443, uidCrcEvents, if_neg h', initiateAnswer, selectAnswer,
      uidAnswer, selectPrefix, uidEvents, initiateFrame, selectFrame, getUidFrame,
      List.cons_append, List.nil_append, List.append_assoc]
theorem le32_or (d0 d1 d2 d3 : Nat) (h0 : d0 < 256) (h1 : d1 < 256) (h2 : d2 < 256) :
    d3 * 2 ^ 24 + d2 * 2 ^ 16 + d1 * 2 ^ 8 + d0
      = d3 <<< 24 ||| d2 <<< 16 ||| d1 <<< 8 ||| d0 := by
  have e0 := Nat.mul_add_lt_is_or (i := 8) (b := d0) (by norm_num; exact h0)
    (d3 * 2 ^ 16 + d2 * 2 ^ 8 + d1)
  have e1 := Nat.mul_add_lt_is_or (i := 16) (b := d1 * 2 ^ 8) (by norm_num; omega)
    (d3 * 2 ^ 8 + d2)
  have e2 := Nat.mul_add_lt_is_or (i := 24) (b := d2 * 2 ^ 16) (by norm_num; omega) d3
  simp only [Nat.shiftLeft_eq]
  rw [show d3 * 2 ^ 24 + d2 * 2 ^ 16 + d1 * 2 ^ 8 + d0
      = 2 ^ 8 * (d3 * 2 ^ 16 + d2 * 2 ^ 8 + d1) + d0 by ring, e0,
    show 2 ^ 8 * (d3 * 2 ^ 16 + d2 * 2 ^ 8 + d1)
      = 2 ^ 16 * (d3 * 2 ^ 8 + d2) + d1 * 2 ^ 8 by ring, e1,
    show 2 ^ 16 * (d3 * 2 ^ 8 + d2) = 2 ^ 24 * d3 + d2 * 2 ^ 16 by ring, e2,
    show 2 ^ 24 * d3 = d3 * 2 ^ 24 by ring]

theorem word32_le32 (d0 d1 d2 d3 : Nat) (h0 : d0 < 256) (h1 : d1 < 256) (h2 : d2 < 256)
    (h3 : d3 < 256) :
    word32 (((d3 : Int) <<< 24) + ((d2 : Int) <<< 16) + ((d1 : Int) <<< 8) + d0)
      = d3 <<< 24 ||| d2 <<< 16 ||| d1 <<< 8 ||| d0 := by
  rw [← le32_or d0 d1 d2 d3 h0 h1 h2]
  have e3 := Int.shiftLeft_coe_nat d3 24
  have e2 := Int.shiftLeft_coe_nat d2 16
  have e1 := Int.shiftLeft_coe_nat d1 8
  simp only [Nat.cast_ofNat] at e1 e2 e3
  rw [e1, e2, e3, word32]
  simp only [Nat.shiftLeft_eq]
  omega

theorem word32_le16 (c0 c1 : Nat) (h0 : c0 < 256) (h1 : c1 < 256) :
    word32 (((c0 : Int) <<< 8) + c1) = c0 <<< 8 ||| c1 := by
  have e0 := Nat.mul_add_lt_is_or (i := 8) (b := c1) (by norm_num; exact h1) c0
  have e1 := Int.shiftLeft_coe_nat c0 8
  simp only [Nat.cast_ofNat] at e1
  rw [e1, word32, Nat.shiftLeft_eq, show c0 * 2 ^ 8 = 2 ^ 8 * c0 by ring, ← e0]
  omega

theorem word32_small (a : Nat) (h : a < 256) : word32 (a : Int) = a := by
  rw [word32]
  omega

/-- With enough fuel the block loop ends, and the first thing it does is send
the READ_BLOCK frame of the current address. -/
theorem readBlocksLoop_sends (tag : Tag) (i fuel : Nat) (sent : List (List Nat))
    (log : List Event) (hi : i ≤ 16) (hf : 17 ≤ fuel + i) :
    ∃ ext, readBlocksLoop tag fuel i sent log
      = some (log ++ sysEvents i ++ [Event.frame (readBlockFrame (blockAddr i))] ++ ext) := by
  obtain ⟨f, rfl⟩ : ∃ f, fuel = f + 1 := ⟨fuel - 1, by omega⟩
  rw [readBlocksLoop_iter]
  split_ifs with h1 h2
  · exact ⟨_, by simp only [List.append_assoc, List.singleton_append]; rfl⟩
  · exact ⟨_, by simp only [List.append_assoc]; rfl⟩
  · have h16 : i ≠ 16 := by
      intro h
      rw [h] at h2
      exact h2 rfl
    have ha : blockAddr i = i := by simp [blockAddr, h16]
    rw [ha]
    have hmod : (i + 1) % 256 = i + 1 := by omega
    rw [hmod]
    obtain ⟨ext, h⟩ := readBlocksLoop_total tag (15 - i) (i + 1) f _ _ (by omega) (by omega)
    exact ⟨_, by rw [h]; simp only [List.append_assoc]; rfl⟩

/-- Once INITIATE has been answered the run ends with SELECT sent second. -/
theorem ReadSRI512Iso14443_select (tag : Tag) (fuel : Nat) (hfuel : 17 ≤ fuel)
    (h : (initiateAnswer tag).len ≠ 0) :
    ∃ ext, ReadSRI512Iso14443 tag fuel = some (selectPrefix (initiateAnswer tag) ++ ext) := by
  rw [ReadSRI512Iso14443_eq, if_neg h]
  split_ifs
  · exact ⟨_, rfl⟩
  · exact ⟨_, rfl⟩
  · exact ⟨_, rfl⟩
  · exact ⟨_, rfl⟩
  · obtain ⟨ext, h⟩ := readBlocksLoop_total tag 16 0 fuel _ _ (by omega) (by omega)
    exact ⟨_, by rw [h]; simp only [List.append_assoc]; rfl⟩

theorem framesOf_selectPrefix (a : Answer) (ext : List Event) :
    framesOf (selectPrefix a ++ ext)
      = initiateFrame :: selectFrame (a.output 0) :: framesOf ext := by
  simp [framesOf, selectPrefix]

/-- C11. SRI512 SELECT frame: for every non-empty INITIATE response whose first
byte is `XX`, the run ends and the frame transmitted right after INITIATE is
the 4 bytes `0E XX c0 c1` where `(c0, c1)` is the CRC-B of the two bytes
`0E XX`. -/
theorem C11_select_frame (tag : Tag) (fuel : Nat) (XX : Nat) (hfuel : 17 ≤ fuel)
    (hlen : (tag [[0x06, 0x00, 0x97, 0x5b]]).len ≠ 0)
    (hxx : (tag [[0x06, 0x00, 0x97, 0x5b]]).output 0 = XX) :
    ∃ log rest, ReadSRI512Iso14443 tag fuel = some log ∧
      framesOf log = [0x06, 0x00, 0x97, 0x5b] ::
        [0x0E, XX, (ComputeCrc14443 [0x0E, XX]).1, (ComputeCrc14443 [0x0E, XX]).2] :: rest := by
  obtain ⟨ext, h⟩ := ReadSRI512Iso14443_select tag fuel hfuel hlen
  refine ⟨_, framesOf ext, h, ?_⟩
  rw [framesOf_selectPrefix]
  simp only [initiateAnswer, initiateFrame, selectFrame, hxx]

/-- C11 witness: the tag `sriTag`, whose INITIATE answer starts with `0x77`. -/
theorem C11_select_frame_witness :
    (sriTag [[0x06, 0x00, 0x97, 0x5b]]).len ≠ 0 ∧
    (sriTag [[0x06, 0x00, 0x97, 0x5b]]).output 0 = 0x77 ∧
    ∃ log rest, ReadSRI512Iso14443 sriTag 17 = some log ∧
      framesOf log = [0x06, 0x00, 0x97, 0x5b] ::
        [0x0E, 0x77, (ComputeCrc14443 [0x0E, 0x77]).1, (ComputeCrc14443 [0x0E, 0x77]).2]
          :: rest :=
  ⟨by decide, by decide, C11_select_frame sriTag 17 0x77 (by decide) (by decide) (by decide)⟩

/-- The next command after a 6-byte answer to READ_BLOCK of a block `0..15`:
whatever the CRC check said, the record is logged and the READ_BLOCK of the
following address is sent. -/
theorem readBlocksLoop_next (tag : Tag) (i fuel : Nat) (sent : List (List Nat))
    (log : List Event) (hi : i ≤ 15) (hf : 17 ≤ fuel + i)
    (hlen : (tag (sent ++ [readBlockFrame i])).len = 6) :
    ∃ ext, readBlocksLoop tag fuel i sent log
      = some (log ++ [Event.frame (readBlockFrame i)] ++
          blockCrcEvents (tag (sent ++ [readBlockFrame i])) ++
          [Event.str "Address , Contents, CRC",
            blockRecord i (tag (sent ++ [readBlockFrame i]))] ++
          sysEvents (i + 1) ++ [Event.frame (readBlockFrame (blockAddr (i + 1)))] ++ ext) := by
  obtain ⟨f, rfl⟩ : ∃ f, fuel = f + 1 := ⟨fuel - 1, by omega⟩
  have ha : blockAddr i = i := by
    have : i ≠ 16 := by omega
    simp [blockAddr, this]
  have hs : sysEvents i = [] := by
    have : i ≠ 16 := by omega
    simp [sysEvents, this]
  have hff : i ≠ 0xff := by omega
  have hmod : (i + 1) % 256 = i + 1 := by omega
  rw [readBlocksLoop_iter, ha, hs, if_neg (by simpa using hlen), if_neg hff, hmod]
  obtain ⟨ext, h⟩ := readBlocksLoop_sends tag (i + 1) f (sent ++ [readBlockFrame i])
    (log ++ [] ++ [Event.frame (readBlockFrame i)] ++
      blockCrcEvents (tag (sent ++ [readBlockFrame i])) ++
      [Event.str "Address , Contents, CRC", blockRecord i (tag (sent ++ [readBlockFrame i]))])
    (by omega) (by omega)
  exact ⟨ext, by rw [h]; simp only [List.append_nil]⟩

/-- C12. SRI512 block log record: for the block address `a` read at loop index
`i` (`a = i` for `0..15`, `a = 0xFF` at index 16) and every 6-byte answer
`d0 d1 d2 d3 c0 c1`, the loop ends (17 - i iterations of fuel are enough) and
the three-integer record it logs right after the "Address , Contents, CRC"
line is `(a, (d3<<24)|(d2<<16)|(d1<<8)|d0, (c0<<8)|c1)`. -/
theorem C12_block_log_record (tag : Tag) (i fuel : Nat) (sent : List (List Nat))
    (log : List Event) (d0 d1 d2 d3 c0 c1 : Nat) (hi : i ≤ 16) (hf : 17 ≤ fuel + i)
    (hlen : (tag (sent ++ [readBlockFrame (blockAddr i)])).len = 6)
    (e0 : (tag (sent ++ [readBlockFrame (blockAddr i)])).output 0 = d0)
    (e1 : (tag (sent ++ [readBlockFrame (blockAddr i)])).output 1 = d1)
    (e2 : (tag (sent ++ [readBlockFrame (blockAddr i)])).output 2 = d2)
    (e3 : (tag (sent ++ [readBlockFrame (blockAddr i)])).output 3 = d3)
    (e4 : (tag (sent ++ [readBlockFrame (blockAddr i)])).output 4 = c0)
    (e5 : (tag (sent ++ [readBlockFrame (blockAddr i)])).output 5 = c1)
    (h0 : d0 < 256) (h1 : d1 < 256) (h2 : d2 < 256) (h3 : d3 < 256)
    (h4 : c0 < 256) (h5 : c1 < 256) :
    ∃ ext, readBlocksLoop tag fuel i sent log
      = some (log ++ sysEvents i ++ [Event.frame (readBlockFrame (blockAddr i))] ++
          blockCrcEvents (tag (sent ++ [readBlockFrame (blockAddr i)])) ++
          [Event.str "Address , Contents, CRC",
            Event.ints (blockAddr i) (d3 <<< 24 ||| d2 <<< 16 ||| d1 <<< 8 ||| d0)
              (c0 <<< 8 ||| c1)] ++ ext) := by
  obtain ⟨f, rfl⟩ : ∃ f, fuel = f + 1 := ⟨fuel - 1, by omega⟩
  have ha : blockAddr i < 256 := by
    unfold blockAddr
    split_ifs <;> omega
  have hrec : blockRecord (blockAddr i) (tag (sent ++ [readBlockFrame (blockAddr i)]))
      = Event.ints (blockAddr i) (d3 <<< 24 ||| d2 <<< 16 ||| d1 <<< 8 ||| d0)
          (c0 <<< 8 ||| c1) := by
    rw [blockRecord, e0, e1, e2, e3, e4, e5, word32_small _ ha, word32_le32 d0 d1 d2 d3 h0 h1 h2 h3,
      word32_le16 c0 c1 h4 h5]
  rw [readBlocksLoop_iter, if_neg (by simpa using hlen), hrec]
  split_ifs with hff
  · exact ⟨[], by simp⟩
  · have h16 : i ≠ 16 := by
      intro h
      rw [h] at hff
      exact hff rfl
    have hai : blockAddr i = i := by simp [blockAddr, h16]
    have hmod : (blockAddr i + 1) % 256 = i + 1 := by
      rw [hai]
      omega
    rw [hmod]
    obtain ⟨ext, h⟩ := readBlocksLoop_total tag (15 - i) (i + 1) f
      (sent ++ [readBlockFrame (blockAddr i)])
      (log ++ sysEvents i ++ [Event.frame (readBlockFrame (blockAddr i))] ++
        blockCrcEvents (tag (sent ++ [readBlockFrame (blockAddr i)])) ++
        [Event.str "Address , Contents, CRC",
          Event.ints (blockAddr i) (d3 <<< 24 ||| d2 <<< 16 ||| d1 <<< 8 ||| d0)
            (c0 <<< 8 ||| c1)]) (by omega) (by omega)
    exact ⟨ext, h⟩

/-- C12 witness: block 0 of `sriTag`, whose answer is `11 22 33 44 55 66`; the
record is `(0, 0x44332211, 0x5566)`. -/
theorem C12_block_log_record_witness :
    (sriTag ([initiateFrame, selectFrame 0x77, getUidFrame]
      ++ [readBlockFrame (blockAddr 0)])).len = 6 ∧
    ∃ ext, readBlocksLoop sriTag 17 0 [initiateFrame, selectFrame 0x77, getUidFrame] []
      = some ([] ++ sysEvents 0 ++ [Event.frame (readBlockFrame (blockAddr 0))] ++
          blockCrcEvents (sriTag ([initiateFrame, selectFrame 0x77, getUidFrame]
            ++ [readBlockFrame (blockAddr 0)])) ++
          [Event.str "Address , Contents, CRC",
            Event.ints (blockAddr 0) (0x44 <<< 24 ||| 0x33 <<< 16 ||| 0x22 <<< 8 ||| 0x11)
              (0x55 <<< 8 ||| 0x66)] ++ ext) :=
  ⟨by decide, C12_block_log_record sriTag 0 17 [initiateFrame, selectFrame 0x77, getUidFrame] []
    0x11 0x22 0x33 0x44 0x55 0x66 (by decide) (by decide) (by decide) (by decide) (by decide)
    (by decide) (by decide) (by decide) (by decide) (by decide) (by decide) (by decide)
    (by decide) (by decide) (by decide)⟩

theorem bufferPrefix_four (p : Int → Nat) : bufferPrefix p 4 = [p 0, p 1, p 2, p 3] := by
  simp [bufferPrefix, List.range, List.range.loop]

/-- A 6-byte answer with a wrong CRC to READ_BLOCK of a block `0..15`: the
error is logged, then the record, then the next READ_BLOCK is sent. -/
theorem readBlocksLoop_crc_next (tag : Tag) (a fuel : Nat) (sent : List (List Nat))
    (log : List Event) (r : Answer) (ha : a ≤ 15) (hf : 17 ≤ fuel + a)
    (hr : tag (sent ++ [readBlockFrame a]) = r) (hlen : r.len = 6)
    (hcrc : (ComputeCrc14443 (bufferPrefix r.output 4)).1 ≠ r.output 4 ∨
      (ComputeCrc14443 (bufferPrefix r.output 4)).2 ≠ r.output 5) :
    ∃ ext, readBlocksLoop tag fuel a sent log
      = some (log ++ [Event.frame (readBlockFrame a),
          Event.str "CRC Error reading block! - Below: expected, got",
          Event.ints
            (word32 ((((ComputeCrc14443 (bufferPrefix r.output 4)).1 : Int) <<< 8)
              + (ComputeCrc14443 (bufferPrefix r.output 4)).2))
            (word32 (((r.output 4 : Int) <<< 8) + r.output 5)) 0,
          Event.str "Address , Contents, CRC",
          blockRecord a r] ++
          sysEvents (a + 1) ++ [Event.frame (readBlockFrame (blockAddr (a + 1)))] ++ ext) := by
  subst hr
  obtain ⟨ext, h⟩ := readBlocksLoop_next tag a fuel sent log ha hf hlen
  rw [bufferPrefix_four] at hcrc ⊢
  rw [blockCrcEvents, if_pos hcrc] at h
  refine ⟨ext, ?_⟩
  rw [h]
  simp only [List.append_assoc, List.cons_append, List.nil_append]

/-- C13. CRC failure on READ_BLOCK: for every block address `a` in `0..15`, if
the 6-byte answer `r` to READ_BLOCK(a) carries CRC bytes that differ from the
CRC-B of its 4 data bytes, the loop ends and its log goes on with the
READ_BLOCK frame, the "CRC Error reading block!" line with the expected and the
received CRC, the block record, and then the READ_BLOCK frame of the next
address (`a + 1`, or `0xFF` after block 15, announced by the "System area
block" line). -/
theorem C13_crc_failure_on_read_block (tag : Tag) (a fuel : Nat) (sent : List (List Nat))
    (log : List Event) (r : Answer) (ha : a ≤ 15) (hf : 17 ≤ fuel + a)
    (hr : tag (sent ++ [readBlockFrame a]) = r) (hlen : r.len = 6)
    (hcrc : (ComputeCrc14443 (bufferPrefix r.output 4)).1 ≠ r.output 4 ∨
      (ComputeCrc14443 (bufferPrefix r.output 4)).2 ≠ r.output 5) :
    ∃ ext, readBlocksLoop tag fuel a sent log
      = some (log ++ [Event.frame (readBlockFrame a),
          Event.str "CRC Error reading block! - Below: expected, got",
          Event.ints
            (word32 ((((ComputeCrc14443 (bufferPrefix r.output 4)).1 : Int) <<< 8)
              + (ComputeCrc14443 (bufferPrefix r.output 4)).2))
            (word32 (((r.output 4 : Int) <<< 8) + r.output 5)) 0,
          Event.str "Address , Contents, CRC",
          blockRecord a r] ++
          (if a = 15 then [Event.str "System area block (0xff):"] else []) ++
          [Event.frame (readBlockFrame (if a = 15 then 0xff else a + 1))] ++ ext) := by
  obtain ⟨ext, h⟩ := readBlocksLoop_crc_next tag a fuel sent log r ha hf hr hlen hcrc
  have hn : blockAddr (a + 1) = if a = 15 then 0xff else a + 1 := by
    unfold blockAddr
    split_ifs <;> omega
  have hs : sysEvents (a + 1) = if a = 15 then [Event.str "System area block (0xff):"] else [] := by
    unfold sysEvents
    split_ifs <;> first | rfl | omega
  rw [hn, hs] at h
  exact ⟨ext, h⟩

set_option maxRecDepth 100000 in
theorem sriTag_block_crc :
    (ComputeCrc14443 (bufferPrefix (bufferOf [0x11, 0x22, 0x33, 0x44, 0x55, 0x66]) 4)).1
        ≠ bufferOf [0x11, 0x22, 0x33, 0x44, 0x55, 0x66] 4 ∨
      (ComputeCrc14443 (bufferPrefix (bufferOf [0x11, 0x22, 0x33, 0x44, 0x55, 0x66]) 4)).2
        ≠ bufferOf [0x11, 0x22, 0x33, 0x44, 0x55, 0x66] 5 := by
  decide

/-- C13 witness: block 0 of `sriTag`, whose answer `11 22 33 44 55 66` has a
wrong CRC. -/
theorem C13_crc_failure_on_read_block_witness :
    (sriTag ([initiateFrame, selectFrame 0x77, getUidFrame] ++ [readBlockFrame 0])).len = 6 ∧
    ∃ ext, readBlocksLoop sriTag 17 0 [initiateFrame, selectFrame 0x77, getUidFrame] []
      = some ([] ++ [Event.frame (readBlockFrame 0),
          Event.str "CRC Error reading block! - Below: expected, got",
          Event.ints
            (word32 ((((ComputeCrc14443 (bufferPrefix
              (bufferOf [0x11, 0x22, 0x33, 0x44, 0x55, 0x66]) 4)).1 : Int) <<< 8)
              + (ComputeCrc14443 (bufferPrefix
                (bufferOf [0x11, 0x22, 0x33, 0x44, 0x55, 0x66]) 4)).2))
            (word32 (((bufferOf [0x11, 0x22, 0x33, 0x44, 0x55, 0x66] 4 : Int) <<< 8)
              + bufferOf [0x11, 0x22, 0x33, 0x44, 0x55, 0x66] 5)) 0,
          Event.str "Address , Contents, CRC",
          blockRecord 0 ⟨6, bufferOf [0x11, 0x22, 0x33, 0x44, 0x55, 0x66]⟩] ++
          (if 0 = 15 then [Event.str "System area block (0xff):"] else []) ++
          [Event.frame (readBlockFrame (if 0 = 15 then 0xff else 0 + 1))] ++ ext) :=
  ⟨by decide, C13_crc_failure_on_read_block sriTag 0 17
    [initiateFrame, selectFrame 0x77, getUidFrame] []
    ⟨6, bufferOf [0x11, 0x22, 0x33, 0x44, 0x55, 0x66]⟩ (by decide) (by decide) rfl rfl
    sriTag_block_crc⟩
/-- A SELECT answer of 3 bytes with a wrong CRC ends the run right there. -/
theorem ReadSRI512Iso14443_select_crc (tag : Tag) (fuel : Nat)
    (hinit : (initiateAnswer tag).len ≠ 0) (hsel : (selectAnswer tag).len = 3)
    (hcrc : (ComputeCrc14443 [(selectAnswer tag).output 0]).1 ≠ (selectAnswer tag).output 1 ∨
      (ComputeCrc14443 [(selectAnswer tag).output 0]).2 ≠ (selectAnswer tag).output 2) :
    ReadSRI512Iso14443 tag fuel = some (selectPrefix (initiateAnswer tag) ++
      [Event.str "CRC Error reading select response."]) := by
  rw [ReadSRI512Iso14443_eq, if_neg hinit, if_neg (by simpa using hsel), if_pos hcrc]

/-- A GET_UID answer of 10 bytes is logged and the block loop starts, whatever
its CRC. -/
theorem ReadSRI512Iso14443_uid (tag : Tag) (fuel : Nat) (hfuel : 17 ≤ fuel)
    (hinit : (initiateAnswer tag).len ≠ 0) (hsel : (selectAnswer tag).len = 3)
    (hcrc1 : (ComputeCrc14443 [(selectAnswer tag).output 0]).1 = (selectAnswer tag).output 1)
    (hcrc2 : (ComputeCrc14443 [(selectAnswer tag).output 0]).2 = (selectAnswer tag).output 2)
    (hid : (initiateAnswer tag).output 0 = (selectAnswer tag).output 0)
    (huid : (uidAnswer tag).len = 10) :
    ∃ ext, ReadSRI512Iso14443 tag fuel = some (selectPrefix (initiateAnswer tag) ++
      [Event.frame getUidFrame] ++ uidCrcEvents (uidAnswer tag) ++ uidEvents (uidAnswer tag) ++
      [Event.frame (readBlockFrame 0)] ++ ext) := by
  rw [ReadSRI512Iso14443_eq, if_neg hinit, if_neg (by simpa using hsel),
    if_neg (by simp [hcrc1, hcrc2]), if_neg (by simpa using hid), if_neg (by simpa using huid)]
  obtain ⟨ext, h⟩ := readBlocksLoop_sends tag 0 fuel
    [initiateFrame, selectFrame ((initiateAnswer tag).output 0), getUidFrame]
    (selectPrefix (initiateAnswer tag) ++ [Event.frame getUidFrame] ++
      uidCrcEvents (uidAnswer tag) ++ uidEvents (uidAnswer tag)) (by omega) (by omega)
  exact ⟨ext, by rw [h]; simp [sysEvents, blockAddr]⟩

/-- C14 (as the code has it). CRC mismatch on a response of the expected length:
a SELECT answer with a wrong CRC is logged ("CRC Error reading select
response.") and ends the run, nothing more is sent; a GET_UID answer with a
wrong CRC is logged ("CRC Error reading block!" with the expected and received
CRC) and the run goes on to log the UID and send READ_BLOCK(0); a READ_BLOCK
answer for a block `0..15` with a wrong CRC is logged, the record is logged,
and the next READ_BLOCK is sent. -/
theorem C14_crc_mismatch (tag : Tag) (fuel : Nat) (hfuel : 17 ≤ fuel)
    (hinit : (initiateAnswer tag).len ≠ 0) (hsel : (selectAnswer tag).len = 3) :
    (((ComputeCrc14443 [(selectAnswer tag).output 0]).1 ≠ (selectAnswer tag).output 1 ∨
        (ComputeCrc14443 [(selectAnswer tag).output 0]).2 ≠ (selectAnswer tag).output 2) →
      ReadSRI512Iso14443 tag fuel = some (selectPrefix (initiateAnswer tag) ++
        [Event.str "CRC Error reading select response."])) ∧
    ((ComputeCrc14443 [(selectAnswer tag).output 0]).1 = (selectAnswer tag).output 1 →
      (ComputeCrc14443 [(selectAnswer tag).output 0]).2 = (selectAnswer tag).output 2 →
      (initiateAnswer tag).output 0 = (selectAnswer tag).output 0 →
      (uidAnswer tag).len = 10 →
      ((ComputeCrc14443 (bufferPrefix (uidAnswer tag).output 8)).1 ≠ (uidAnswer tag).output 8 ∨
        (ComputeCrc14443 (bufferPrefix (uidAnswer tag).output 8)).2
          ≠ (uidAnswer tag).output 9) →
      ∃ ext, ReadSRI512Iso14443 tag fuel = some (selectPrefix (initiateAnswer tag) ++
        [Event.frame getUidFrame,
          Event.str "CRC Error reading block! - Below: expected, got",
          Event.ints
            (word32 ((((ComputeCrc14443 (bufferPrefix (uidAnswer tag).output 8)).1 : Int) <<< 8)
              + (ComputeCrc14443 (bufferPrefix (uidAnswer tag).output 8)).2))
            (word32 ((((uidAnswer tag).output 8 : Int) <<< 8) + (uidAnswer tag).output 9)) 0] ++
        uidEvents (uidAnswer tag) ++ [Event.frame (readBlockFrame 0)] ++ ext)) ∧
    (∀ (a : Nat) (sent : List (List Nat)) (log : List Event) (r : Answer), a ≤ 15 →
      tag (sent ++ [readBlockFrame a]) = r → r.len = 6 →
      ((ComputeCrc14443 (bufferPrefix r.output 4)).1 ≠ r.output 4 ∨
        (ComputeCrc14443 (bufferPrefix r.output 4)).2 ≠ r.output 5) →
      ∃ ext, readBlocksLoop tag fuel a sent log
        = some (log ++ [Event.frame (readBlockFrame a),
            Event.str "CRC Error reading block! - Below: expected, got",
            Event.ints
              (word32 ((((ComputeCrc14443 (bufferPrefix r.output 4)).1 : Int) <<< 8)
                + (ComputeCrc14443 (bufferPrefix r.output 4)).2))
              (word32 (((r.output 4 : Int) <<< 8) + r.output 5)) 0,
            Event.str "Address , Contents, CRC",
            blockRecord a r] ++
            sysEvents (a + 1) ++ [Event.frame (readBlockFrame (blockAddr (a + 1)))] ++ ext)) := by
  refine ⟨ReadSRI512Iso14443_select_crc tag fuel hinit hsel, ?_, ?_⟩
  · intro hcrc1 hcrc2 hid huid hcrc
    obtain ⟨ext, h⟩ := ReadSRI512Iso14443_uid tag fuel hfuel hinit hsel hcrc1 hcrc2 hid huid
    rw [uidCrcEvents, if_pos hcrc] at h
    exact ⟨ext, by rw [h]; simp only [List.append_assoc, List.cons_append, List.nil_append]⟩
  · intro a sent log r ha hr hlen hcrc
    exact readBlocksLoop_crc_next tag a fuel sent log r ha (by omega) hr hlen hcrc

set_option maxRecDepth 100000 in
theorem sriTag_uid_crc :
    (ComputeCrc14443 (bufferPrefix (uidAnswer sriTag).output 8)).1 ≠ (uidAnswer sriTag).output 8 ∨
      (ComputeCrc14443 (bufferPrefix (uidAnswer sriTag).output 8)).2
        ≠ (uidAnswer sriTag).output 9 := by
  decide

theorem answerTag_select_crc :
    (ComputeCrc14443 [(selectAnswer (answerTag 0x0E ⟨3, bufferOf [0x77, 0, 0]⟩)).output 0]).1
        ≠ (selectAnswer (answerTag 0x0E ⟨3, bufferOf [0x77, 0, 0]⟩)).output 1 ∨
      (ComputeCrc14443 [(selectAnswer (answerTag 0x0E ⟨3, bufferOf [0x77, 0, 0]⟩)).output 0]).2
        ≠ (selectAnswer (answerTag 0x0E ⟨3, bufferOf [0x77, 0, 0]⟩)).output 2 := by
  decide

/-- C14 witness: SELECT answered `77 00 00` (wrong CRC) for the first part, the
tag `sriTag`, whose GET_UID and READ_BLOCK answers both carry a wrong CRC, for
the other two. -/
theorem C14_crc_mismatch_witness :
    ReadSRI512Iso14443 (answerTag 0x0E ⟨3, bufferOf [0x77, 0, 0]⟩) 17
      = some (selectPrefix (initiateAnswer (answerTag 0x0E ⟨3, bufferOf [0x77, 0, 0]⟩)) ++
        [Event.str "CRC Error reading select response."]) ∧
    (∃ ext, ReadSRI512Iso14443 sriTag 17 = some (selectPrefix (initiateAnswer sriTag) ++
        [Event.frame getUidFrame,
          Event.str "CRC Error reading block! - Below: expected, got",
          Event.ints
            (word32 ((((ComputeCrc14443 (bufferPrefix (uidAnswer sriTag).output 8)).1 : Int)
              <<< 8) + (ComputeCrc14443 (bufferPrefix (uidAnswer sriTag).output 8)).2))
            (word32 ((((uidAnswer sriTag).output 8 : Int) <<< 8)
              + (uidAnswer sriTag).output 9)) 0] ++
        uidEvents (uidAnswer sriTag) ++ [Event.frame (readBlockFrame 0)] ++ ext)) ∧
    (∃ ext, readBlocksLoop sriTag 17 3 [] []
        = some ([] ++ [Event.frame (readBlockFrame 3),
            Event.str "CRC Error reading block! - Below: expected, got",
            Event.ints
              (word32 ((((ComputeCrc14443 (bufferPrefix
                (bufferOf [0x11, 0x22, 0x33, 0x44, 0x55, 0x66]) 4)).1 : Int) <<< 8)
                + (ComputeCrc14443 (bufferPrefix
                  (bufferOf [0x11, 0x22, 0x33, 0x44, 0x55, 0x66]) 4)).2))
              (word32 (((bufferOf [0x11, 0x22, 0x33, 0x44, 0x55, 0x66] 4 : Int) <<< 8)
                + bufferOf [0x11, 0x22, 0x33, 0x44, 0x55, 0x66] 5)) 0,
            Event.str "Address , Contents, CRC",
            blockRecord 3 ⟨6, bufferOf [0x11, 0x22, 0x33, 0x44, 0x55, 0x66]⟩] ++
            sysEvents (3 + 1) ++ [Event.frame (readBlockFrame (blockAddr (3 + 1)))] ++ ext)) :=
  ⟨(C14_crc_mismatch (answerTag 0x0E ⟨3, bufferOf [0x77, 0, 0]⟩) 17 (by decide) (by decide)
      (by decide)).1 answerTag_select_crc,
    (C14_crc_mismatch sriTag 17 (by decide) (by decide) (by decide)).2.1 (by decide) (by decide)
      (by decide) (by decide) sriTag_uid_crc,
    (C14_crc_mismatch sriTag 17 (by decide) (by decide) (by decide)).2.2 3 [] []
      ⟨6, bufferOf [0x11, 0x22, 0x33, 0x44, 0x55, 0x66]⟩ (by decide) rfl rfl sriTag_block_crc⟩

/-- C14 counterexample: the tag answers SELECT with the 3 bytes `77 00 00`,
the expected length with a CRC that does not match; the run logs the mismatch
and stops, the frames it sent are INITIATE and SELECT only, no GET_UID and no
READ_BLOCK follows. -/
theorem C14_counterexample :
    (selectAnswer (answerTag 0x0E ⟨3, bufferOf [0x77, 0, 0]⟩)).len = 3 ∧
    ((ComputeCrc14443 [0x77]).1 ≠ 0 ∨ (ComputeCrc14443 [0x77]).2 ≠ 0) ∧
    ∃ log, ReadSRI512Iso14443 (answerTag 0x0E ⟨3, bufferOf [0x77, 0, 0]⟩) 17 = some log ∧
      log.getLast? = some (Event.str "CRC Error reading select response.") ∧
      framesOf log = [initiateFrame, selectFrame 0x77] := by
  refine ⟨by decide, by decide, _, ReadSRI512Iso14443_select_crc _ 17 (by decide) (by decide)
    answerTag_select_crc, ?_, ?_⟩
  · simp [selectPrefix]
  · rw [← List.append_nil (selectPrefix _ ++ _), List.append_assoc, framesOf_selectPrefix]
    simp only [framesOf, List.filterMap, List.append_nil]
    decide
/-- C15. Abort on unexpected length: a SELECT answer whose length is not 3 ends
the run with "Expected 3 bytes from tag, got:" and the length; a GET_UID answer
whose length is not 10 ends it with "Expected 10 bytes from tag, got:" and the
length; a READ_BLOCK answer whose length is not 6 ends the block loop with
"Expected 6 bytes from tag, got less...". In each case the log stops at that
message: the frame sent last is the one that got the answer, and no further
frame is coded or transmitted. -/
theorem C15_abort_on_unexpected_length (tag : Tag) (fuel : Nat)
    (hinit : (initiateAnswer tag).len ≠ 0) :
    ((selectAnswer tag).len ≠ 3 →
      ReadSRI512Iso14443 tag fuel = some (selectPrefix (initiateAnswer tag) ++
        [Event.str "Expected 3 bytes from tag, got:",
          Event.ints (word32 (selectAnswer tag).len) 0 0])) ∧
    ((selectAnswer tag).len = 3 →
      (ComputeCrc14443 [(selectAnswer tag).output 0]).1 = (selectAnswer tag).output 1 →
      (ComputeCrc14443 [(selectAnswer tag).output 0]).2 = (selectAnswer tag).output 2 →
      (initiateAnswer tag).output 0 = (selectAnswer tag).output 0 →
      (uidAnswer tag).len ≠ 10 →
      ReadSRI512Iso14443 tag fuel = some (selectPrefix (initiateAnswer tag) ++
        [Event.frame getUidFrame, Event.str "Expected 10 bytes from tag, got:",
          Event.ints (word32 (uidAnswer tag).len) 0 0])) ∧
    (∀ (f i : Nat) (sent : List (List Nat)) (log : List Event),
      (tag (sent ++ [readBlockFrame (blockAddr i)])).len ≠ 6 →
      readBlocksLoop tag (f + 1) i sent log
        = some (log ++ sysEvents i ++ [Event.frame (readBlockFrame (blockAddr i)),
            Event.str "Expected 6 bytes from tag, got less..."])) := by
  refine ⟨?_, ?_, ?_⟩
  · intro hsel
    rw [ReadSRI512Iso14443_eq, if_neg hinit, if_pos hsel]
  · intro hsel hcrc1 hcrc2 hid huid
    rw [ReadSRI512Iso14443_eq, if_neg hinit, if_neg (by simpa using hsel),
      if_neg (by simp [hcrc1, hcrc2]), if_neg (by simpa using hid), if_pos huid]
  · intro f i sent log hlen
    rw [readBlocksLoop_iter, if_pos hlen]

/-- C15 witness: a tag answering SELECT with 2 bytes, one answering GET_UID
with 9 bytes, and one answering READ_BLOCK with 5 bytes. -/
theorem C15_abort_on_unexpected_length_witness :
    ReadSRI512Iso14443 (answerTag 0x0E ⟨2, bufferOf [0x77, 0]⟩) 17
      = some (selectPrefix (initiateAnswer (answerTag 0x0E ⟨2, bufferOf [0x77, 0]⟩)) ++
        [Event.str "Expected 3 bytes from tag, got:",
          Event.ints (word32 (selectAnswer (answerTag 0x0E ⟨2, bufferOf [0x77, 0]⟩)).len)
            0 0]) ∧
    ReadSRI512Iso14443 (answerTag 0x0B ⟨9, bufferOf []⟩) 17
      = some (selectPrefix (initiateAnswer (answerTag 0x0B ⟨9, bufferOf []⟩)) ++
        [Event.frame getUidFrame, Event.str "Expected 10 bytes from tag, got:",
          Event.ints (word32 (uidAnswer (answerTag 0x0B ⟨9, bufferOf []⟩)).len) 0 0]) ∧
    readBlocksLoop (answerTag 0x08 ⟨5, bufferOf []⟩) (16 + 1) 2 [] []
      = some ([] ++ sysEvents 2 ++ [Event.frame (readBlockFrame (blockAddr 2)),
          Event.str "Expected 6 bytes from tag, got less..."]) :=
  ⟨(C15_abort_on_unexpected_length (answerTag 0x0E ⟨2, bufferOf [0x77, 0]⟩) 17
      (by decide)).1 (by decide),
    (C15_abort_on_unexpected_length (answerTag 0x0B ⟨9, bufferOf []⟩) 17 (by decide)).2.1
      (by decide) (by decide) (by decide) (by decide) (by decide),
    (C15_abort_on_unexpected_length (answerTag 0x08 ⟨5, bufferOf []⟩) 17 (by decide)).2.2
      16 2 [] [] (by decide)⟩

/-- The two branches after INITIATE: an empty answer is logged as
"No response from tag" and ends the run with INITIATE the only frame sent; any
non-empty answer, of 3 bytes or not, is logged as the chip id with its CRC and
is followed by the SELECT frame for its first byte. -/
theorem initiate_answer_branches (tag : Tag) (fuel : Nat) (hfuel : 17 ≤ fuel) :
    ((tag [initiateFrame]).len = 0 →
      ReadSRI512Iso14443 tag fuel
        = some [Event.frame initiateFrame, Event.str "No response from tag"]) ∧
    ((tag [initiateFrame]).len ≠ 0 →
      ∃ ext, ReadSRI512Iso14443 tag fuel
        = some ([Event.frame initiateFrame,
            Event.str "Randomly generated UID from tag (+ 2 byte CRC):",
            Event.ints (word32 ((tag [initiateFrame]).output 0))
              (word32 ((tag [initiateFrame]).output 1))
              (word32 ((tag [initiateFrame]).output 2)),
            Event.str "Now SELECT tag:",
            Event.frame (selectFrame ((tag [initiateFrame]).output 0))] ++ ext)) := by
  refine ⟨?_, ?_⟩
  · intro h
    have h' : (initiateAnswer tag).len = 0 := h
    rw [ReadSRI512Iso14443_eq, if_pos h']
  · intro h
    exact ReadSRI512Iso14443_select tag fuel hfuel h

/-- Two runs: a tag that does not answer INITIATE, and one that answers it
with 5 bytes. -/
theorem initiate_answer_branches_runs :
    ReadSRI512Iso14443 (answerTag 0x06 ⟨0, bufferOf []⟩) 17
      = some [Event.frame initiateFrame, Event.str "No response from tag"] ∧
    ∃ ext, ReadSRI512Iso14443 (answerTag 0x06 ⟨5, bufferOf [0x77, 1, 2, 3, 4]⟩) 17
      = some ([Event.frame initiateFrame,
          Event.str "Randomly generated UID from tag (+ 2 byte CRC):",
          Event.ints
            (word32 ((answerTag 0x06 ⟨5, bufferOf [0x77, 1, 2, 3, 4]⟩ [initiateFrame]).output 0))
            (word32 ((answerTag 0x06 ⟨5, bufferOf [0x77, 1, 2, 3, 4]⟩ [initiateFrame]).output 1))
            (word32 ((answerTag 0x06 ⟨5, bufferOf [0x77, 1, 2, 3, 4]⟩ [initiateFrame]).output 2)),
          Event.str "Now SELECT tag:",
          Event.frame (selectFrame
            ((answerTag 0x06 ⟨5, bufferOf [0x77, 1, 2, 3, 4]⟩ [initiateFrame]).output 0))]
          ++ ext) :=
  ⟨(initiate_answer_branches (answerTag 0x06 ⟨0, bufferOf []⟩) 17 (by decide)).1 (by decide),
    (initiate_answer_branches (answerTag 0x06 ⟨5, bufferOf [0x77, 1, 2, 3, 4]⟩) 17 (by decide)).2
      (by decide)⟩

/-- C16. The length of the INITIATE answer is not checked. The tag answers
INITIATE with 5 bytes `77 01 02 03 04`, not 3; the run does not stop at an
unexpected length, and the second frame it sends is SELECT for chip id
`0x77`. -/
theorem C16_initiate_length_unchecked :
    (answerTag 0x06 ⟨5, bufferOf [0x77, 1, 2, 3, 4]⟩ [[0x06, 0x00, 0x97, 0x5b]]).len ≠ 3 ∧
    ∃ log rest, ReadSRI512Iso14443 (answerTag 0x06 ⟨5, bufferOf [0x77, 1, 2, 3, 4]⟩) 17
        = some log ∧
      framesOf log = [0x06, 0x00, 0x97, 0x5b] :: selectFrame 0x77 :: rest := by
  refine ⟨by decide, ?_⟩
  obtain ⟨ext, h⟩ := ReadSRI512Iso14443_select (answerTag 0x06 ⟨5, bufferOf [0x77, 1, 2, 3, 4]⟩)
    17 (by decide) (by decide)
  exact ⟨_, framesOf ext, h, by rw [framesOf_selectPrefix]; rfl⟩

/-! ## Modulation buffer: byte count -/

theorem toSendInv_reset : ToSendInv ToSendReset := by
  simp [ToSendInv, ToSendReset]

theorem toSendInv_stuff (b : Int) (t : ToSendBuf) (h : ToSendInv t) :
    ToSendInv (ToSendStuffBit b t) := by
  obtain ⟨bits, mx, bit⟩ := t
  obtain ⟨h1, h2⟩ := h
  simp only at h1 h2
  simp only [ToSendInv, ToSendStuffBit]
  split_ifs at h2 with h0
  · subst h2
    simp [h0, h1]
  · simp only [List.length_append, List.length_singleton, Nat.add_sub_cancel,
      Nat.add_eq_zero, one_ne_zero, and_false, if_false]
    by_cases h8 : bit ≥ 8
    · simp only [h8, if_true]
      constructor
      · push_cast
        omega
      · omega
    · simp only [h8, if_false]
      constructor
      · push_cast
        omega
      · omega

theorem toSendInv_stuff4 (b : Int) (t : ToSendBuf) (h : ToSendInv t) :
    ToSendInv (stuff4 b t) :=
  toSendInv_stuff b _ (toSendInv_stuff b _ (toSendInv_stuff b _ (toSendInv_stuff b _ h)))

theorem forLoop_preserves {α : Type} (P : α → Prop) (body : α → α)
    (hb : ∀ a, P a → P (body a)) (n : Nat) : ∀ a, P a → P (forLoop n body a) := by
  induction n with
  | zero => intro a h; exact h
  | succ k ih => intro a h; exact ih _ (hb a h)

theorem toSendInv_tagDataBits (b : Nat) (t : ToSendBuf) (h : ToSendInv t) :
    ToSendInv (tagDataBits b t) := by
  unfold tagDataBits
  refine forLoop_preserves (fun (p : Nat × ToSendBuf) => ToSendInv p.2) _ ?_ 8 (b, t) h
  intro p hp
  show ToSendInv (if p.1 &&& 1 ≠ 0 then stuff4 1 p.2 else stuff4 0 p.2)
  split_ifs
  · exact toSendInv_stuff4 1 _ hp
  · exact toSendInv_stuff4 0 _ hp

theorem toSendInv_tagByte (t : ToSendBuf) (b : Nat) (h : ToSendInv t) :
    ToSendInv (tagByte t b) :=
  toSendInv_stuff4 1 _ (toSendInv_tagDataBits b _ (toSendInv_stuff4 0 _ h))

theorem toSendInv_foldl_tagByte (B : List Nat) : ∀ t, ToSendInv t →
    ToSendInv (B.foldl tagByte t) := by
  induction B with
  | nil => intro t h; exact h
  | cons b bs ih => intro t h; exact ih _ (toSendInv_tagByte t b h)

/-- The byte count `CodeIso14443bAsTag` leaves in `ToSendMax`. -/
theorem ToSendMax_CodeIso14443bAsTag (B : List Nat) :
    (CodeIso14443bAsTag B).ToSendMax = 28 + 5 * (B.length : Int) := by
  have hlen : (CodeIso14443bAsTag B).bits.length = 208 + 40 * B.length := by
    rw [bits_CodeIso14443bAsTag, tagLayout]
    simp only [List.length_append, List.length_replicate]
    rw [length_flatMap_const _ 40 (by
      intro a
      simp only [List.length_append, List.length_replicate]
      rw [length_flatMap_const _ 4 (by intro x; simp), length_lsbBits])]
    omega
  have hinv : ToSendInv (forLoop 10 (stuff4 1) (forLoop 10 (stuff4 0)
      (B.foldl tagByte (forLoop 2 (stuff4 1) (forLoop 10 (stuff4 0)
        (forLoop 20 (stuff4 1) ToSendReset)))))) := by
    refine forLoop_preserves ToSendInv _ (toSendInv_stuff4 1) _ _ ?_
    refine forLoop_preserves ToSendInv _ (toSendInv_stuff4 0) _ _ ?_
    refine toSendInv_foldl_tagByte B _ ?_
    refine forLoop_preserves ToSendInv _ (toSendInv_stuff4 1) _ _ ?_
    refine forLoop_preserves ToSendInv _ (toSendInv_stuff4 0) _ _ ?_
    exact forLoop_preserves ToSendInv _ (toSendInv_stuff4 1) _ _ toSendInv_reset
  simp only [CodeIso14443bAsTag] at hlen ⊢
  rw [hinv.1, hlen]
  push_cast
  omega

theorem response1_len : (CodeIso14443bAsTag response1).ToSendMax = 98 := by
  rw [ToSendMax_CodeIso14443bAsTag]
  rfl

/-! ## Tag emulation -/

theorem matchesCmd1_iff (c : Command) :
    matchesCmd1 c = true ↔ c.len = 5 ∧ bufferPrefix c.received 5 = [0x05, 0x00, 0x08, 0x39, 0x73] := by
  simp [matchesCmd1, cmd1]

/-- A matching frame received while fewer than `0x30` frames have been counted
is answered by one pass of the transmit loop, and the loop goes on. -/
theorem simLoop_match (c : Command) (rest : List (Option Command)) (n : Int)
    (log : List SimEvent) (hc : matchesCmd1 c = true) (hn : n < 0x30) :
    simLoop (CodeIso14443bAsTag response1) (some c :: rest) n log
      = simLoop (CodeIso14443bAsTag response1) rest (n + 1)
          (log ++ [SimEvent.stream (CodeIso14443bAsTag response1) 99]) := by
  have h1 : ¬ (n + 1 > 0x30) := by omega
  rw [simLoop, if_pos hc, if_neg h1, response1_len]
  rfl

/-- A matching frame received when `0x30` frames have been counted ends the
function without an answer. -/
theorem simLoop_limit (c : Command) (rest : List (Option Command)) (n : Int)
    (log : List SimEvent) (hc : matchesCmd1 c = true) (hn : 0x30 ≤ n) :
    simLoop (CodeIso14443bAsTag response1) (some c :: rest) n log
      = ⟨log ++ [SimEvent.str "many commands later..."], n + 1, true⟩ := by
  have h1 : n + 1 > 0x30 := by omega
  rw [simLoop, if_pos hc, if_pos h1]

/-- A frame that does not match ends the function without an answer. -/
theorem simLoop_other (resp1 : ToSendBuf) (c : Command) (rest : List (Option Command))
    (n : Int) (log : List SimEvent) (hc : matchesCmd1 c = false) :
    ∃ e1 e2 e3, (∀ r k, e1 ≠ SimEvent.stream r k) ∧ (∀ r k, e2 ≠ SimEvent.stream r k) ∧
      (∀ r k, e3 ≠ SimEvent.stream r k) ∧
      simLoop resp1 (some c :: rest) n log = ⟨log ++ [e1, e2, e3], n, true⟩ := by
  rw [simLoop]
  simp only [hc, Bool.false_eq_true, if_false]
  refine ⟨_, _, _, ?_, ?_, ?_, rfl⟩
  · intro r k h
    cases h
  · intro r k h
    cases h
  · intro r k
    split_ifs <;> intro h <;> cases h

theorem simLoop_run (cs : List Command) (rest : List (Option Command)) :
    ∀ (n : Int) (log : List SimEvent), (∀ c ∈ cs, matchesCmd1 c = true) →
      n + cs.length ≤ 0x30 →
      simLoop (CodeIso14443bAsTag response1) (cs.map some ++ rest) n log
        = simLoop (CodeIso14443bAsTag response1) rest (n + cs.length)
            (log ++ List.replicate cs.length
              (SimEvent.stream (CodeIso14443bAsTag response1) 99)) := by
  induction cs with
  | nil =>
    intro n log _ _
    simp
  | cons c cs ih =>
    intro n log hc hn
    simp only [List.length_cons, Nat.cast_add, Nat.cast_one] at hn
    rw [List.map_cons, List.cons_append, simLoop_match c _ n log (hc c (by simp)) (by omega),
      ih (n + 1) _ (fun c' h' => hc c' (by simp [h'])) (by omega)]
    simp only [List.length_cons, Nat.cast_add, Nat.cast_one, List.replicate_succ,
      List.append_assoc, List.singleton_append]
    congr 1
    omega

theorem responsesOf_append (l1 l2 : List SimEvent) :
    responsesOf (l1 ++ l2) = responsesOf l1 + responsesOf l2 := by
  simp [responsesOf]

theorem responsesOf_replicate (k : Nat) (r : ToSendBuf) (n : Int) :
    responsesOf (List.replicate k (SimEvent.stream r n)) = k := by
  simp [responsesOf, List.countP_replicate]

/-- C17 (as the code has it). ATQB emulation: a frame is answered iff it is
exactly the 5 bytes `05 00 08 39 73` and fewer than `0x30` frames have been
counted. After `k ≤ 0x30` such frames the log holds exactly `k` responses, one
per frame, each a pass of the transmit loop over the buffer that holds the
`CodeIso14443bAsTag` coding of `50 82 0D E1 74 20 38 19 22 00 21 85 5E D7`
(`resp1Len + 1 = 99` bytes written), and the emulator is waiting for the next
frame. A frame that is anything else then ends the function with no
response; so does one more matching frame once `0x30` have been answered. -/
theorem C17_atqb_emulation (cs : List Command) (hlen : cs.length ≤ 0x30)
    (hcs : ∀ c ∈ cs, c.len = 5 ∧ bufferPrefix c.received 5 = [0x05, 0x00, 0x08, 0x39, 0x73]) :
    SimulateIso14443Tag (cs.map some)
      = ⟨List.replicate cs.length (SimEvent.stream (CodeIso14443bAsTag
          [0x50, 0x82, 0x0d, 0xe1, 0x74, 0x20, 0x38, 0x19, 0x22, 0x00, 0x21, 0x85, 0x5e, 0xd7])
          99), cs.length, false⟩ ∧
    (∀ (c : Command) (rest : List (Option Command)),
      ¬ (c.len = 5 ∧ bufferPrefix c.received 5 = [0x05, 0x00, 0x08, 0x39, 0x73]) →
      (SimulateIso14443Tag (cs.map some ++ some c :: rest)).exited = true ∧
      responsesOf (SimulateIso14443Tag (cs.map some ++ some c :: rest)).log = cs.length) ∧
    (∀ (c : Command) (rest : List (Option Command)),
      (c.len = 5 ∧ bufferPrefix c.received 5 = [0x05, 0x00, 0x08, 0x39, 0x73]) →
      cs.length = 0x30 →
      (SimulateIso14443Tag (cs.map some ++ some c :: rest)).exited = true ∧
      responsesOf (SimulateIso14443Tag (cs.map some ++ some c :: rest)).log = cs.length) := by
  have hm : ∀ c ∈ cs, matchesCmd1 c = true := fun c h => (matchesCmd1_iff c).2 (hcs c h)
  have hrun := fun rest => simLoop_run cs rest 0 [] hm (by
    have : (cs.length : Int) ≤ 0x30 := by exact_mod_cast hlen
    omega)
  simp only [zero_add, List.nil_append] at hrun
  refine ⟨?_, ?_, ?_⟩
  · have h := hrun []
    rw [List.append_nil] at h
    rw [SimulateIso14443Tag, h, simLoop]
    rfl
  · intro c rest hc
    have hc' : matchesCmd1 c = false := by
      rw [← Bool.not_eq_true, matchesCmd1_iff]
      exact hc
    obtain ⟨e1, e2, e3, h1, h2, h3, h⟩ := simLoop_other (CodeIso14443bAsTag response1) c rest
      cs.length (List.replicate cs.length (SimEvent.stream (CodeIso14443bAsTag response1) 99)) hc'
    rw [SimulateIso14443Tag, hrun, h]
    refine ⟨rfl, ?_⟩
    show responsesOf (_ ++ _) = _
    rw [responsesOf_append, responsesOf_replicate]
    have : responsesOf [e1, e2, e3] = 0 := by
      cases e1 with
      | stream r k => exact absurd rfl (h1 r k)
      | str s => cases e2 with
        | stream r k => exact absurd rfl (h2 r k)
        | str s => cases e3 with
          | stream r k => exact absurd rfl (h3 r k)
          | str s => rfl
          | ints a b c => rfl
        | ints a b c => cases e3 with
          | stream r k => exact absurd rfl (h3 r k)
          | str s => rfl
          | ints a b c => rfl
      | ints a b c => cases e2 with
        | stream r k => exact absurd rfl (h2 r k)
        | str s => cases e3 with
          | stream r k => exact absurd rfl (h3 r k)
          | str s => rfl
          | ints a b c => rfl
        | ints a b c => cases e3 with
          | stream r k => exact absurd rfl (h3 r k)
          | str s => rfl
          | ints a b c => rfl
    omega
  · intro c rest hc h30
    have h := simLoop_limit c rest cs.length
      (List.replicate cs.length (SimEvent.stream (CodeIso14443bAsTag response1) 99))
      ((matchesCmd1_iff c).2 hc) (by rw [h30]; decide)
    rw [SimulateIso14443Tag, hrun, h]
    refine ⟨rfl, ?_⟩
    show responsesOf (_ ++ _) = _
    rw [responsesOf_append, responsesOf_replicate]
    rfl

/-- C17 witness: two query frames, then the 4-byte frame `06 00 97 5B`. -/
theorem C17_atqb_emulation_witness :
    (∀ c ∈ [commandOf cmd1, commandOf cmd1],
      c.len = 5 ∧ bufferPrefix c.received 5 = [0x05, 0x00, 0x08, 0x39, 0x73]) ∧
    ¬ ((commandOf [0x06, 0x00, 0x97, 0x5b]).len = 5 ∧
      bufferPrefix (commandOf [0x06, 0x00, 0x97, 0x5b]).received 5
        = [0x05, 0x00, 0x08, 0x39, 0x73]) ∧
    (SimulateIso14443Tag ([commandOf cmd1, commandOf cmd1].map some
      ++ some (commandOf [0x06, 0x00, 0x97, 0x5b]) :: [])).exited = true ∧
    responsesOf (SimulateIso14443Tag ([commandOf cmd1, commandOf cmd1].map some
      ++ some (commandOf [0x06, 0x00, 0x97, 0x5b]) :: [])).log
        = [commandOf cmd1, commandOf cmd1].length :=
  ⟨by decide, by decide,
    (C17_atqb_emulation [commandOf cmd1, commandOf cmd1] (by decide) (by decide)).2.1
      (commandOf [0x06, 0x00, 0x97, 0x5b]) [] (by decide)⟩

/-- C17 counterexample: 49 query frames `05 00 08 39 73` in a row. Every one
of them matches, yet the log holds 48 responses, not 49: the 49th frame ends
the function without a response. -/
theorem C17_counterexample :
    (∀ c ∈ List.replicate 49 (commandOf cmd1), matchesCmd1 c = true) ∧
    responsesOf (SimulateIso14443Tag ((List.replicate 49 (commandOf cmd1)).map some)).log = 48 ∧
    (SimulateIso14443Tag ((List.replicate 49 (commandOf cmd1)).map some)).exited = true := by
  have hq : matchesCmd1 (commandOf cmd1) = true := by decide
  have hm : ∀ c ∈ List.replicate 49 (commandOf cmd1), matchesCmd1 c = true := by
    intro c hc
    rw [List.eq_of_mem_replicate hc]
    exact hq
  have hsplit : (List.replicate 49 (commandOf cmd1)).map some
      = (List.replicate 48 (commandOf cmd1)).map some ++ [some (commandOf cmd1)] := by
    rw [show 49 = 48 + 1 from rfl, List.replicate_succ', List.map_append]
    rfl
  have hrun := simLoop_run (List.replicate 48 (commandOf cmd1)) [some (commandOf cmd1)] 0 []
    (by
      intro c hc
      rw [List.eq_of_mem_replicate hc]
      exact hq)
    (by simp)
  rw [List.length_replicate] at hrun
  rw [simLoop_limit _ _ _ _ hq (by norm_num)] at hrun
  rw [SimulateIso14443Tag, hsplit, hrun]
  refine ⟨hm, ?_, rfl⟩
  show responsesOf (_ ++ _) = _
  rw [responsesOf_append, responsesOf_append, responsesOf_replicate]
  rfl

/-! ## Snoop: invariants -/

theorem uart_true_state (u : Uart) (bit : Int) (h : (Handle14443UartBit u bit).ret = true) :
    u.state = .STATE_RECEIVING_DATA ∧
    (Handle14443UartBit u bit).uart.state = .STATE_RECEIVING_DATA ∧
    (Handle14443UartBit u bit).uart.byteCnt = u.byteCnt ∧
    (Handle14443UartBit u bit).uart.output = u.output := by
  obtain ⟨st, r, bc, byc, mx, pc, out⟩ := u
  cases st <;> simp only [Handle14443UartBit] at h ⊢
  all_goals (split_ifs at h ⊢ <;> simp_all)

theorem demod_true_state (d : Demod) (ci cq : Int)
    (h : (Handle14443SamplesDemod d ci cq).ret = true) :
    d.state = .DEMOD_RECEIVING_DATA ∧
    (Handle14443SamplesDemod d ci cq).demod.len = d.len ∧
    (Handle14443SamplesDemod d ci cq).demod.output = d.output := by
  obtain ⟨st, bc, pc, tb, m, mn, r, out, len, si, sq⟩ := d
  cases st <;> simp only [Handle14443SamplesDemod] at h ⊢
  all_goals first
    | (split_ifs at h ⊢ <;> simp_all)
    | simp_all

theorem demodOk_step (d : Demod) (ci cq : Int) (h : DemodOk d) :
    ((Handle14443SamplesDemod d ci cq).ret = false →
      DemodOk (Handle14443SamplesDemod d ci cq).demod) ∧
    ((Handle14443SamplesDemod d ci cq).ret = true →
      0 ≤ (Handle14443SamplesDemod d ci cq).demod.len ∧
      (Handle14443SamplesDemod d ci cq).demod.metricN
        = 10 * ((Handle14443SamplesDemod d ci cq).demod.len + 1) ∧
      0 ≤ (Handle14443SamplesDemod d ci cq).demod.metric) := by
  obtain ⟨st, bc, pc, tb, m, mn, r, out, len, si, sq⟩ := d
  obtain ⟨h1, h2⟩ := h
  simp only at h1 h2
  cases st <;> simp only [Handle14443SamplesDemod, DemodOk]
  all_goals first
    | (split_ifs <;> simp_all <;> omega)
    | simp_all

theorem uart_unsynced_ret (u : Uart) (bit : Int) (h : u.state = .STATE_UNSYNCD) :
    (Handle14443UartBit u bit).ret = false := by
  by_contra hc
  have := (uart_true_state u bit (by simpa using hc)).1
  rw [h] at this
  cases this

theorem demod_unsynced_ret (d : Demod) (ci cq : Int) (h : d.state = .DEMOD_UNSYNCD) :
    (Handle14443SamplesDemod d ci cq).ret = false := by
  by_contra hc
  have := (demod_true_state d ci cq (by simpa using hc)).1
  rw [h] at this
  cases this

theorem uartInv_snoopReset (u : Uart) : UartInv (uartSnoopReset u) := by
  simp [UartInv, uartSnoopReset]

theorem demodOk_snoopReset (d : Demod) : DemodOk (demodSnoopReset d) := by
  simp [DemodOk, demodSnoopReset]

theorem snoopInv_init (d0 : Demod) (c r : Int → Nat) : SnoopInv (snoopInit d0 c r) := by
  simp [SnoopInv, snoopInit, UartInv, DemodOk]

theorem snoopInv_uartBit (s : Snoop) (bit : Int) (h : SnoopInv s) :
    SnoopInv (snoopUartBit s bit) := by
  obtain ⟨hu, hm, hd⟩ := h
  have hstep := uartInv_step s.uart bit hu
  unfold snoopUartBit
  split_ifs with hr
  · simp only [HANDLE_BIT_IF_BODY]
    split_ifs with ht hl
    · exact ⟨hstep.1, by rw [hstep.2.1, hm], by intro h; cases h⟩
    · exact ⟨uartInv_snoopReset _, rfl, fun _ => ⟨demodOk_snoopReset _, Nat.le_of_not_lt hl⟩⟩
    · exact ⟨uartInv_snoopReset _, rfl, fun hs => ⟨demodOk_snoopReset _, (hd hs).2⟩⟩
  · exact ⟨hstep.1, by rw [hstep.2.1, hm], hd⟩

theorem snoopInv_demod (s : Snoop) (ci cq : Int) (h : SnoopInv s) (hs : s.stopped = false) :
    SnoopInv (snoopDemod s ci cq) := by
  obtain ⟨hu, hm, hd⟩ := h
  have hstep := demodOk_step s.demod ci cq (hd hs).1
  simp only [snoopDemod]
  split_ifs with hr hl
  · exact ⟨hu, hm, by intro h; cases h⟩
  · exact ⟨hu, hm, fun _ => ⟨demodOk_snoopReset _, Nat.le_of_not_lt hl⟩⟩
  · exact ⟨hu, hm, fun _ => ⟨hstep.1 (by simpa using hr), (hd hs).2⟩⟩

/-- The state after one pass, phase by phase. -/
theorem snoopStep_snoop (s : Snoop) (ci cq : Int) :
    (snoopStep s ci cq).snoop =
      if (snoopUartBit { s with samples := s.samples + 2 } (ci % 2)).stopped then
        snoopUartBit { s with samples := s.samples + 2 } (ci % 2)
      else if (snoopUartBit (snoopUartBit { s with samples := s.samples + 2 } (ci % 2))
          (cq % 2)).stopped then
        snoopUartBit (snoopUartBit { s with samples := s.samples + 2 } (ci % 2)) (cq % 2)
      else
        snoopDemod (snoopUartBit (snoopUartBit { s with samples := s.samples + 2 } (ci % 2))
          (cq % 2)) ci cq := by
  simp only [snoopStep]
  split_ifs <;> rfl

theorem snoopInv_step (s : Snoop) (ci cq : Int) (h : SnoopInv s) :
    SnoopInv (snoopStep s ci cq).snoop := by
  have h0 : SnoopInv { s with samples := s.samples + 2 } := h
  have h1 := snoopInv_uartBit _ (ci % 2) h0
  have h2 := snoopInv_uartBit _ (cq % 2) h1
  rw [snoopStep_snoop]
  split_ifs with hs1 hs2
  · exact h1
  · exact h2
  · exact snoopInv_demod _ ci cq h2 (by simpa using hs2)

theorem snoopInv_feed (l : List (Int × Int)) : ∀ (s : Snoop), SnoopInv s →
    SnoopInv (snoopFeed s l) := by
  induction l with
  | nil => intro s h; exact h
  | cons p ps ih =>
    intro s h
    rw [snoopFeed]
    split_ifs with hs
    · exact h
    · exact ih _ (snoopInv_step s p.1 p.2 h)

/-! ## Snoop: one pass, case by case -/

theorem uart_reset_ret (u : Uart) (bit : Int) :
    (Handle14443UartBit (uartSnoopReset u) bit).ret = false :=
  uart_unsynced_ret _ _ rfl

theorem uart_reset_output (u : Uart) (bit : Int) :
    (Handle14443UartBit (uartSnoopReset u) bit).uart.output = u.output := by
  simp only [Handle14443UartBit, uartSnoopReset]
  split_ifs <;> rfl

theorem demod_reset_ret (d : Demod) (ci cq : Int) :
    (Handle14443SamplesDemod (demodSnoopReset d) ci cq).ret = false :=
  demod_unsynced_ret _ _ _ rfl

theorem demod_reset_output (d : Demod) (ci cq : Int) :
    (Handle14443SamplesDemod (demodSnoopReset d) ci cq).demod.output = d.output := by
  simp only [Handle14443SamplesDemod, demodSnoopReset]
  split_ifs <;> rfl

/-- What `HANDLE_BIT_IF_BODY` leaves alone, and what it resets when it does
not leave the loop. -/
theorem handleBit_facts (s : Snoop) (u : Uart) :
    (HANDLE_BIT_IF_BODY s u).triggered = s.triggered ∧
    (HANDLE_BIT_IF_BODY s u).samples = s.samples ∧
    (HANDLE_BIT_IF_BODY s u).uart.output = u.output ∧
    ((HANDLE_BIT_IF_BODY s u).stopped = false →
      s.stopped = false ∧ (HANDLE_BIT_IF_BODY s u).uart = uartSnoopReset u ∧
      (HANDLE_BIT_IF_BODY s u).demod = demodSnoopReset s.demod) ∧
    (HANDLE_BIT_IF_BODY s u).trace
      = (if s.triggered then
          s.trace ++ [byteAt s.samples 0, byteAt s.samples 8, byteAt s.samples 16,
            byteAt s.samples 24, 0, 0, 0, 0, (u.byteCnt % 256).toNat]
            ++ bufferPrefix u.output u.byteCnt.toNat
        else s.trace) := by
  simp only [HANDLE_BIT_IF_BODY]
  split_ifs <;> simp [uartSnoopReset]

theorem snoopUartBit_quiet (s : Snoop) (bit : Int)
    (h : (Handle14443UartBit s.uart bit).ret = false) :
    snoopUartBit s bit = { s with uart := (Handle14443UartBit s.uart bit).uart } := by
  simp [snoopUartBit, h]

theorem snoopUartBit_true (s : Snoop) (bit : Int)
    (h : (Handle14443UartBit s.uart bit).ret = true) :
    snoopUartBit s bit = HANDLE_BIT_IF_BODY s (Handle14443UartBit s.uart bit).uart := by
  simp [snoopUartBit, h]

theorem snoopDemod_quiet (s : Snoop) (ci cq : Int)
    (h : (Handle14443SamplesDemod s.demod ci cq).ret = false) :
    snoopDemod s ci cq = { s with demod := (Handle14443SamplesDemod s.demod ci cq).demod } := by
  simp [snoopDemod, h]

/-- A pass in which no call returns TRUE. -/
theorem snoopStep_quiet (s : Snoop) (ci cq : Int) (u2 : Uart) (hs : s.stopped = false)
    (h1 : (Handle14443UartBit s.uart (ci % 2)).ret = false)
    (hu2 : (Handle14443UartBit (Handle14443UartBit s.uart (ci % 2)).uart (cq % 2)).uart = u2)
    (h2 : (Handle14443UartBit (Handle14443UartBit s.uart (ci % 2)).uart (cq % 2)).ret = false)
    (h3 : (Handle14443SamplesDemod s.demod ci cq).ret = false) :
    snoopStep s ci cq =
      ⟨{ s with samples := s.samples + 2, uart := u2,
                demod := (Handle14443SamplesDemod s.demod ci cq).demod }, none, none⟩ := by
  subst hu2
  simp [snoopStep, snoopUartBit, snoopDemod, h1, h2, h3, hs]

/-- A pass in which the demodulator returns TRUE. -/
theorem snoopStep_tag (s : Snoop) (ci cq : Int) (u2 : Uart) (hs : s.stopped = false)
    (h1 : (Handle14443UartBit s.uart (ci % 2)).ret = false)
    (hu2 : (Handle14443UartBit (Handle14443UartBit s.uart (ci % 2)).uart (cq % 2)).uart = u2)
    (h2 : (Handle14443UartBit (Handle14443UartBit s.uart (ci % 2)).uart (cq % 2)).ret = false)
    (h3 : (Handle14443SamplesDemod s.demod ci cq).ret = true) :
    snoopStep s ci cq =
      ⟨snoopDemod { s with samples := s.samples + 2, uart := u2 } ci cq,
        none, some (Handle14443SamplesDemod s.demod ci cq).demod.len⟩ := by
  subst hu2
  simp [snoopStep, snoopUartBit, h1, h2, h3, hs]

/-- A pass in which the first call of the UART returns TRUE. -/
theorem snoopStep_reader1 (s : Snoop) (ci cq : Int) (s1 : Snoop)
    (h1 : (Handle14443UartBit s.uart (ci % 2)).ret = true)
    (hs1 : HANDLE_BIT_IF_BODY { s with samples := s.samples + 2 }
      (Handle14443UartBit s.uart (ci % 2)).uart = s1) :
    snoopStep s ci cq =
      if s1.stopped then ⟨s1, some (Handle14443UartBit s.uart (ci % 2)).uart.byteCnt, none⟩
      else ⟨{ s1 with uart := (Handle14443UartBit s1.uart (cq % 2)).uart,
                      demod := (Handle14443SamplesDemod s1.demod ci cq).demod },
        some (Handle14443UartBit s.uart (ci % 2)).uart.byteCnt, none⟩ := by
  have hf := handleBit_facts { s with samples := s.samples + 2 }
    (Handle14443UartBit s.uart (ci % 2)).uart
  rw [hs1] at hf
  have e1 : snoopUartBit { s with samples := s.samples + 2 } (ci % 2) = s1 := by
    rw [snoopUartBit_true { s with samples := s.samples + 2 } (ci % 2) h1, hs1]
  by_cases hst : s1.stopped = true
  · simp [snoopStep, e1, hst]
  · have hst' : s1.stopped = false := by simpa using hst
    obtain ⟨_, hu, hd⟩ := hf.2.2.2.1 hst'
    have e2 : snoopUartBit s1 (cq % 2)
        = { s1 with uart := (Handle14443UartBit s1.uart (cq % 2)).uart } := by
      rw [snoopUartBit_quiet]
      rw [hu]
      exact uart_reset_ret _ _
    have e3 : (Handle14443SamplesDemod s1.demod ci cq).ret = false := by
      rw [hd]
      exact demod_reset_ret _ _ _
    simp [snoopStep, e1, hst', e2, h1, snoopDemod, e3]

/-- A pass in which the second call of the UART returns TRUE. -/
theorem snoopStep_reader2 (s : Snoop) (ci cq : Int) (u1 : Uart) (s2 : Snoop)
    (hs : s.stopped = false)
    (h1 : (Handle14443UartBit s.uart (ci % 2)).ret = false)
    (hu1 : (Handle14443UartBit s.uart (ci % 2)).uart = u1)
    (h2 : (Handle14443UartBit u1 (cq % 2)).ret = true)
    (hs2 : HANDLE_BIT_IF_BODY { s with samples := s.samples + 2, uart := u1 }
      (Handle14443UartBit u1 (cq % 2)).uart = s2) :
    snoopStep s ci cq =
      if s2.stopped then ⟨s2, some (Handle14443UartBit u1 (cq % 2)).uart.byteCnt, none⟩
      else ⟨{ s2 with demod := (Handle14443SamplesDemod s2.demod ci cq).demod },
        some (Handle14443UartBit u1 (cq % 2)).uart.byteCnt, none⟩ := by
  have hf := handleBit_facts { s with samples := s.samples + 2, uart := u1 }
    (Handle14443UartBit u1 (cq % 2)).uart
  rw [hs2] at hf
  have e1 : snoopUartBit { s with samples := s.samples + 2 } (ci % 2)
      = { s with samples := s.samples + 2, uart := u1 } := by
    rw [snoopUartBit_quiet { s with samples := s.samples + 2 } (ci % 2) h1, hu1]
  have e2 : snoopUartBit { s with samples := s.samples + 2, uart := u1 } (cq % 2) = s2 := by
    rw [snoopUartBit_true { s with samples := s.samples + 2, uart := u1 } (cq % 2) h2, hs2]
  by_cases hst : s2.stopped = true
  · simp only [snoopStep, e1, e2]
    simp [hs, h1, hu1, h2, hst]
  · have hst' : s2.stopped = false := by simpa using hst
    obtain ⟨_, hu, hd⟩ := hf.2.2.2.1 hst'
    have e3 : (Handle14443SamplesDemod s2.demod ci cq).ret = false := by
      rw [hd]
      exact demod_reset_ret _ _ _
    simp only [snoopStep, e1, e2]
    simp [hs, h1, hu1, h2, hst', snoopDemod, e3]


/-! ## Snoop: the trace records -/

theorem length_bufferPrefix (p : Int → Nat) (n : Nat) : (bufferPrefix p n).length = n := by
  simp [bufferPrefix]

/-- The nine header bytes and the copy that `HANDLE_BIT_IF_BODY` appends are a
reader record. -/
theorem readerRecord_eq (S n : Int) (out : Int → Nat) (h0 : 0 ≤ n) :
    [byteAt S 0, byteAt S 8, byteAt S 16, byteAt S 24, 0, 0, 0, 0, (n % 256).toNat]
        ++ bufferPrefix out n.toNat
      = readerRecord S (bufferPrefix out n.toNat) := by
  have e : (n % 256).toNat = n.toNat % 256 := by omega
  simp [readerRecord, le32, byteAt, length_bufferPrefix, e]

/-- The nine header bytes and the copy that the demodulator block appends are
a tag record. -/
theorem tagRecord_eq (S m n : Int) (out : Int → Nat) (h0 : 0 ≤ n) :
    [byteAt S 0, byteAt S 8, byteAt S 16, 0x80 ||| byteAt S 24,
        byteAt m 0, byteAt m 8, byteAt m 16, byteAt m 24, (n % 256).toNat]
        ++ bufferPrefix out n.toNat
      = tagRecord S m (bufferPrefix out n.toNat) := by
  have e : (n % 256).toNat = n.toNat % 256 := by omega
  simp [tagRecord, le32, byteAt, length_bufferPrefix, e]

theorem length_readerRecord (S : Int) (cmd : List Nat) :
    (readerRecord S cmd).length = 9 + cmd.length := by
  simp [readerRecord, le32]
  omega

theorem length_tagRecord (S avg : Int) (resp : List Nat) :
    (tagRecord S avg resp).length = 9 + resp.length := by
  simp [tagRecord, le32]
  omega

/-- A UART that returns TRUE under the capacity invariant holds a frame of
`0 ≤ byteCnt < byteCntMax` bytes. -/
theorem uart_true_count (u : Uart) (bit : Int) (hinv : UartInv u)
    (h : (Handle14443UartBit u bit).ret = true) :
    0 ≤ (Handle14443UartBit u bit).uart.byteCnt ∧
    (Handle14443UartBit u bit).uart.byteCnt < u.byteCntMax := by
  have hst := (uart_true_state u bit h).2.1
  have hi := uartInv_step u bit hinv
  have := hi.1.2.2 (Or.inr hst)
  rw [hi.2.1] at this
  exact this

/-- The trace after `HANDLE_BIT_IF_BODY`, as a reader record. -/
theorem handleBit_trace (s : Snoop) (u : Uart) (h0 : 0 ≤ u.byteCnt) :
    (HANDLE_BIT_IF_BODY s u).trace
      = if s.triggered then
          s.trace ++ readerRecord s.samples (bufferPrefix u.output u.byteCnt.toNat)
        else s.trace := by
  rw [(handleBit_facts s u).2.2.2.2]
  split_ifs
  · rw [List.append_assoc, readerRecord_eq _ _ _ h0]
  · rfl

/-- The demodulator block when the demodulator returns TRUE with a sound
bookkeeping: the record holds the average `metric / metricN`. -/
theorem snoopDemod_trace (s : Snoop) (ci cq : Int)
    (h3 : (Handle14443SamplesDemod s.demod ci cq).ret = true)
    (hlen : 0 ≤ (Handle14443SamplesDemod s.demod ci cq).demod.len)
    (hN : 0 < (Handle14443SamplesDemod s.demod ci cq).demod.metricN)
    (hm : 0 ≤ (Handle14443SamplesDemod s.demod ci cq).demod.metric) :
    (snoopDemod s ci cq).trace
      = s.trace ++ tagRecord s.samples
          ((Handle14443SamplesDemod s.demod ci cq).demod.metric
            / (Handle14443SamplesDemod s.demod ci cq).demod.metricN)
          (bufferPrefix (Handle14443SamplesDemod s.demod ci cq).demod.output
            (Handle14443SamplesDemod s.demod ci cq).demod.len.toNat) ∧
    (snoopDemod s ci cq).demod.output = (Handle14443SamplesDemod s.demod ci cq).demod.output ∧
    (snoopDemod s ci cq).samples = s.samples ∧
    (snoopDemod s ci cq).uart = s.uart ∧
    ((snoopDemod s ci cq).stopped = false →
      (snoopDemod s ci cq).triggered = true ∧
      (snoopDemod s ci cq).demod
        = demodSnoopReset (Handle14443SamplesDemod s.demod ci cq).demod) := by
  have hav : snoopAverage (Handle14443SamplesDemod s.demod ci cq).demod
      = { (Handle14443SamplesDemod s.demod ci cq).demod with
          metric := (Handle14443SamplesDemod s.demod ci cq).demod.metric
            / (Handle14443SamplesDemod s.demod ci cq).demod.metricN } := by
    rw [snoopAverage, if_pos (by omega), Int.tdiv_eq_ediv hm (by omega)]
  simp only [snoopDemod, h3, if_true, hav]
  split_ifs with hl
  · refine ⟨?_, rfl, rfl, rfl, fun h => by cases h⟩
    show s.trace ++ _ ++ _ = _
    rw [List.append_assoc, tagRecord_eq _ _ _ _ hlen]
  · refine ⟨?_, rfl, rfl, rfl, fun _ => ⟨rfl, ?_⟩⟩
    · show s.trace ++ _ ++ _ = _
      rw [List.append_assoc, tagRecord_eq _ _ _ _ hlen]
    · simp [demodSnoopReset]

theorem snoopDemod_stopped (s : Snoop) (ci cq : Int) (hs : s.stopped = false)
    (h3 : (Handle14443SamplesDemod s.demod ci cq).ret = true) :
    ((snoopDemod s ci cq).stopped = true ↔ (snoopDemod s ci cq).trace.length > 1000) := by
  simp only [snoopDemod, h3, if_true]
  split_ifs with hl
  · simpa using hl
  · simp only [hs]
    constructor
    · intro h
      cases h
    · intro h
      exact absurd h hl

/-- One pass from a state that keeps the invariant: what the pass reports and
what it appends. -/
theorem snoopStep_records (s : Snoop) (ci cq : Int) (hinv : SnoopInv s)
    (hs : s.stopped = false) :
    (∀ n, (snoopStep s ci cq).reader = some n →
      0 ≤ n ∧ n < 100 ∧ (snoopStep s ci cq).tag = none ∧
      (snoopStep s ci cq).snoop.triggered = s.triggered ∧
      (snoopStep s ci cq).snoop.trace
        = if s.triggered then
            s.trace ++ readerRecord (s.samples + 2)
              (bufferPrefix (snoopStep s ci cq).snoop.uart.output n.toNat)
          else s.trace) ∧
    (∀ n, (snoopStep s ci cq).tag = some n →
      0 ≤ n ∧ (snoopStep s ci cq).reader = none ∧
      (Handle14443SamplesDemod s.demod ci cq).ret = true ∧
      (Handle14443SamplesDemod s.demod ci cq).demod.len = n ∧
      (Handle14443SamplesDemod s.demod ci cq).demod.metricN = 10 * (n + 1) ∧
      ((snoopStep s ci cq).snoop.stopped = false → (snoopStep s ci cq).snoop.triggered = true) ∧
      (snoopStep s ci cq).snoop.trace
        = s.trace ++ tagRecord (s.samples + 2)
            ((Handle14443SamplesDemod s.demod ci cq).demod.metric
              / (Handle14443SamplesDemod s.demod ci cq).demod.metricN)
            (bufferPrefix (snoopStep s ci cq).snoop.demod.output n.toNat)) ∧
    ((snoopStep s ci cq).reader = none → (snoopStep s ci cq).tag = none →
      (snoopStep s ci cq).snoop.trace = s.trace ∧
      (snoopStep s ci cq).snoop.triggered = s.triggered ∧
      (snoopStep s ci cq).snoop.stopped = false) ∧
    (snoopStep s ci cq).snoop.samples = s.samples + 2 := by
  obtain ⟨hu, hmax, hd⟩ := hinv
  obtain ⟨hdok, _⟩ := hd hs
  by_cases h1 : (Handle14443UartBit s.uart (ci % 2)).ret = true
  · -- the first call of the UART returns TRUE
    have hc := uart_true_count s.uart (ci % 2) hu h1
    rw [hmax] at hc
    have hf := handleBit_facts { s with samples := s.samples + 2 }
      (Handle14443UartBit s.uart (ci % 2)).uart
    have ht := handleBit_trace { s with samples := s.samples + 2 }
      (Handle14443UartBit s.uart (ci % 2)).uart hc.1
    have hstep := snoopStep_reader1 s ci cq _ h1 rfl
    by_cases hst : (HANDLE_BIT_IF_BODY { s with samples := s.samples + 2 }
        (Handle14443UartBit s.uart (ci % 2)).uart).stopped = true
    · rw [if_pos hst] at hstep
      rw [hstep]
      refine ⟨?_, ?_, ?_, hf.2.1⟩
      · intro n hn
        cases hn
        exact ⟨hc.1, hc.2, rfl, hf.1, by rw [ht, hf.2.2.1]⟩
      · intro n hn
        cases hn
      · intro hn
        cases hn
    · rw [if_neg hst] at hstep
      rw [hstep]
      obtain ⟨_, hur, _⟩ := hf.2.2.2.1 (by simpa using hst)
      refine ⟨?_, ?_, ?_, hf.2.1⟩
      · intro n hn
        cases hn
        refine ⟨hc.1, hc.2, rfl, hf.1, ?_⟩
        show (HANDLE_BIT_IF_BODY _ _).trace = _
        rw [ht]
        simp only [hur, uart_reset_output]
      · intro n hn
        cases hn
      · intro hn
        cases hn
  · have h1' : (Handle14443UartBit s.uart (ci % 2)).ret = false := by simpa using h1
    have hu1 := (uartInv_step s.uart (ci % 2) hu).1
    have hmax1 : (Handle14443UartBit s.uart (ci % 2)).uart.byteCntMax = 100 := by
      rw [(uartInv_step s.uart (ci % 2) hu).2.1, hmax]
    by_cases h2 : (Handle14443UartBit (Handle14443UartBit s.uart (ci % 2)).uart (cq % 2)).ret
        = true
    · -- the second call of the UART returns TRUE
      have hc := uart_true_count _ (cq % 2) hu1 h2
      rw [hmax1] at hc
      have hf := handleBit_facts
        { s with samples := s.samples + 2, uart := (Handle14443UartBit s.uart (ci % 2)).uart }
        (Handle14443UartBit (Handle14443UartBit s.uart (ci % 2)).uart (cq % 2)).uart
      have ht := handleBit_trace
        { s with samples := s.samples + 2, uart := (Handle14443UartBit s.uart (ci % 2)).uart }
        (Handle14443UartBit (Handle14443UartBit s.uart (ci % 2)).uart (cq % 2)).uart hc.1
      have hstep := snoopStep_reader2 s ci cq _ _ hs h1' rfl h2 rfl
      by_cases hst : (HANDLE_BIT_IF_BODY
          { s with samples := s.samples + 2, uart := (Handle14443UartBit s.uart (ci % 2)).uart }
          (Handle14443UartBit (Handle14443UartBit s.uart (ci % 2)).uart (cq % 2)).uart).stopped
          = true
      · rw [if_pos hst] at hstep
        rw [hstep]
        refine ⟨?_, ?_, ?_, hf.2.1⟩
        · intro n hn
          cases hn
          exact ⟨hc.1, hc.2, rfl, hf.1, by rw [ht, hf.2.2.1]⟩
        · intro n hn
          cases hn
        · intro hn
          cases hn
      · rw [if_neg hst] at hstep
        rw [hstep]
        refine ⟨?_, ?_, ?_, hf.2.1⟩
        · intro n hn
          cases hn
          refine ⟨hc.1, hc.2, rfl, hf.1, ?_⟩
          show (HANDLE_BIT_IF_BODY _ _).trace = _
          rw [ht]
          simp only [hf.2.2.1]
        · intro n hn
          cases hn
        · intro hn
          cases hn
    · have h2' : (Handle14443UartBit (Handle14443UartBit s.uart (ci % 2)).uart (cq % 2)).ret
          = false := by simpa using h2
      by_cases h3 : (Handle14443SamplesDemod s.demod ci cq).ret = true
      · -- the demodulator returns TRUE
        have hok := (demodOk_step s.demod ci cq hdok).2 h3
        have hstep := snoopStep_tag s ci cq _ hs h1' rfl h2' h3
        have hdm := snoopDemod_trace
          { s with samples := s.samples + 2,
                   uart := (Handle14443UartBit (Handle14443UartBit s.uart (ci % 2)).uart
                    (cq % 2)).uart } ci cq h3 hok.1 (by rw [hok.2.1]; omega) hok.2.2
        rw [hstep]
        refine ⟨?_, ?_, ?_, hdm.2.2.1⟩
        · intro n hn
          cases hn
        · intro n hn
          cases hn
          refine ⟨hok.1, rfl, h3, rfl, hok.2.1, fun h => (hdm.2.2.2.2 h).1, ?_⟩
          show (snoopDemod _ ci cq).trace = _
          rw [hdm.1, hdm.2.1]
        · intro _ hn
          cases hn
      · have h3' : (Handle14443SamplesDemod s.demod ci cq).ret = false := by simpa using h3
        rw [snoopStep_quiet s ci cq _ hs h1' rfl h2' h3']
        refine ⟨?_, ?_, ?_, rfl⟩
        · intro n hn
          cases hn
        · intro n hn
          cases hn
        · intro _ _
          exact ⟨rfl, rfl, hs⟩

/-! ## Snoop: runs -/

theorem snoopFeed_stopped (l : List (Int × Int)) (s : Snoop) (h : s.stopped = true) :
    snoopFeed s l = s := by
  cases l with
  | nil => rfl
  | cons p ps => simp [snoopFeed, h]

theorem snoopFeed_append (l1 l2 : List (Int × Int)) : ∀ (s : Snoop),
    snoopFeed s (l1 ++ l2) = snoopFeed (snoopFeed s l1) l2 := by
  induction l1 with
  | nil => intro s; rfl
  | cons p ps ih =>
    intro s
    rw [List.cons_append]
    simp only [snoopFeed]
    split_ifs with h
    · rw [snoopFeed_stopped l2 s h]
    · exact ih _

theorem uartQuiet_cons_inv {u u2 : Uart} {b : Int} {l : List Int}
    (h : UartQuiet u (b :: l) u2) :
    (Handle14443UartBit u b).ret = false ∧ UartQuiet (Handle14443UartBit u b).uart l u2 := by
  obtain ⟨h1, h2⟩ := h
  simp only [uartFeed] at h1
  simp only [uartReturns, List.mem_cons, forall_eq_or_imp] at h2
  exact ⟨h2.1, h1, h2.2⟩

theorem demodQuiet_cons_inv {d d2 : Demod} {p : Int × Int} {l : List (Int × Int)}
    (h : DemodQuiet d (p :: l) d2) :
    (Handle14443SamplesDemod d p.1 p.2).ret = false ∧
      DemodQuiet (Handle14443SamplesDemod d p.1 p.2).demod l d2 := by
  obtain ⟨h1, h2⟩ := h
  simp only [demodFeed] at h1
  simp only [demodReturns, List.mem_cons, forall_eq_or_imp] at h2
  exact ⟨h2.1, h1, h2.2⟩

/-- A stretch of a snoop run in which neither the UART nor the demodulator
returns TRUE: both just advance, and `samples` counts two per pair. -/
theorem snoopFeed_quiet (l : List (Int × Int)) : ∀ (s : Snoop) (u2 : Uart) (d2 : Demod),
    s.stopped = false → UartQuiet s.uart (pairBits l) u2 → DemodQuiet s.demod l d2 →
    snoopFeed s l = { s with samples := s.samples + 2 * l.length, uart := u2, demod := d2 } := by
  induction l with
  | nil =>
    intro s u2 d2 hs hu hd
    obtain ⟨hu1, _⟩ := hu
    obtain ⟨hd1, _⟩ := hd
    simp only [pairBits, List.flatMap_nil, uartFeed] at hu1
    simp only [demodFeed] at hd1
    subst hu1 hd1
    simp [snoopFeed]
  | cons p ps ih =>
    intro s u2 d2 hs hu hd
    have hu' : UartQuiet s.uart (p.1 % 2 :: p.2 % 2 :: pairBits ps) u2 := hu
    obtain ⟨h1, hu1⟩ := uartQuiet_cons_inv hu'
    obtain ⟨h2, hu2⟩ := uartQuiet_cons_inv hu1
    obtain ⟨h3, hd3⟩ := demodQuiet_cons_inv hd
    rw [snoopFeed, if_neg (by simp [hs]), snoopStep_quiet s p.1 p.2 _ hs h1 rfl h2 h3]
    refine (ih ⟨s.triggered, s.trace, s.samples + 2, _, _, s.stopped⟩ u2 d2 hs hu2 hd3).trans ?_
    simp only [List.length_cons, Nat.cast_add, Nat.cast_one]
    congr 1
    ring

theorem uart_idle_zero (u : Uart) (h : uartIdle u) :
    (Handle14443UartBit u 0).ret = false ∧ uartIdle (Handle14443UartBit u 0).uart := by
  obtain ⟨st, r, bc, byc, mx, pc, out⟩ := u
  rcases h with h | h | h <;> simp only at h <;> subst h <;>
    simp only [Handle14443UartBit, uartIdle] <;> split_ifs <;> simp_all

theorem uart_idle_zeros (n : Nat) : ∀ (u : Uart), uartIdle u →
    ∃ u2, UartQuiet u (List.replicate n 0) u2 ∧ uartIdle u2 := by
  induction n with
  | zero => intro u h; exact ⟨u, uartQuiet_nil u, h⟩
  | succ k ih =>
    intro u h
    obtain ⟨hr, hi⟩ := uart_idle_zero u h
    obtain ⟨u2, hq, hi2⟩ := ih _ hi
    exact ⟨u2, uartQuiet_cons _ rfl hr hq, hi2⟩

theorem pairBits_even (l : List (Int × Int)) (h : ∀ p ∈ l, p.1 % 2 = 0 ∧ p.2 % 2 = 0) :
    pairBits l = List.replicate (2 * l.length) 0 := by
  induction l with
  | nil => rfl
  | cons p ps ih =>
    have hp := h p (by simp)
    rw [pairBits, List.flatMap_cons, ← pairBits, ih (fun q hq => h q (by simp [hq])), hp.1, hp.2]
    simp only [List.length_cons, Nat.mul_succ, List.replicate_succ]
    rfl

theorem length_carrierSamples (A : Int) (l : List Bool) :
    (carrierSamples A l).length = 2 * l.length := by
  induction l with
  | nil => rfl
  | cons x xs ih =>
    rw [carrierSamples_cons, List.length_append, ih]
    simp only [List.length_cons, List.length_nil]
    omega

theorem length_flatMap_charSymbols (B : List Nat) :
    (B.flatMap charSymbols).length = 10 * B.length := by
  rw [length_flatMap_const _ 10 (by intro b; simp [charSymbols, lsbBits])]

/-- The head of a tag frame, piece by piece, and the pair that follows it. -/
theorem tagFrameHead_eq (A : Int) (B : List Nat) :
    tagFrameHead A B
      = (List.replicate 9 (A, 0) ++ List.replicate 31 (A, 0) ++ [(-A, 0), (-A, 0)]
          ++ List.replicate 18 (-A, 0) ++ [(A, 0)] ++ List.replicate 3 (A, 0))
        ++ carrierSamples A (B.flatMap charSymbols)
        ++ (carrierSamples A (List.replicate 9 false) ++ [carrierSample A false]) ∧
    tagFrameSamples A B = tagFrameHead A B ++ [(-A, 0)] ∧
    (tagFrameHead A B).length = 83 + 20 * B.length := by
  have hlen : ((List.replicate 9 (A, 0) ++ List.replicate 31 (A, 0) ++ [(-A, 0), (-A, 0)]
          ++ List.replicate 18 (-A, 0) ++ [(A, 0)] ++ List.replicate 3 (A, 0))
        ++ carrierSamples A (B.flatMap charSymbols)
        ++ (carrierSamples A (List.replicate 9 false) ++ [carrierSample A false])).length
      = 83 + 20 * B.length := by
    simp only [List.length_append, List.length_replicate, length_carrierSamples,
      length_flatMap_charSymbols, List.length_cons, List.length_nil]
    omega
  have h1 : tagFrameHead A B
      = (List.replicate 9 (A, 0) ++ List.replicate 31 (A, 0) ++ [(-A, 0), (-A, 0)]
          ++ List.replicate 18 (-A, 0) ++ [(A, 0)] ++ List.replicate 3 (A, 0))
        ++ carrierSamples A (B.flatMap charSymbols)
        ++ (carrierSamples A (List.replicate 9 false) ++ [carrierSample A false]) := by
    rw [tagFrameHead, demod_stream, ← hlen, List.take_left]
  refine ⟨h1, ?_, by rw [h1, hlen]⟩
  rw [h1, tagFrameSamples, demod_stream]
  rw [show 84 + 20 * B.length = (83 + 20 * B.length) + 1 by omega, ← hlen]
  rw [List.take_append]
  rfl

theorem mem_carrierSamples (A : Int) (l : List Bool) (p : Int × Int)
    (h : p ∈ carrierSamples A l) : p = (A, 0) ∨ p = (-A, 0) := by
  simp only [carrierSamples, List.mem_flatMap, List.mem_replicate] at h
  obtain ⟨x, _, _, hp⟩ := h
  cases x <;> simp [hp]

theorem pairBits_tagFrameHead (A : Int) (B : List Nat) (hev : A % 2 = 0) :
    pairBits (tagFrameHead A B) = List.replicate (2 * (83 + 20 * B.length)) 0 := by
  rw [pairBits_even, (tagFrameHead_eq A B).2.2]
  intro p hp
  have := mem_carrierSamples A _ p (List.mem_of_mem_take hp)
  rcases this with h | h <;> subst h <;> simp <;> omega

/-- The demodulator over the head of a tag frame: no call returns TRUE and it
ends one sample short of the end of frame. -/
theorem demod_frame_head (A : Int) (hA : 40 < A) (B : List Nat) (hB : ∀ b ∈ B, b < 256)
    (bc pc tb m mn : Int) (r : Nat) (out : Int → Nat) (len si sq : Int) :
    DemodQuiet ⟨.DEMOD_UNSYNCD, bc, pc, tb, m, mn, r, out, len, si, sq⟩ (tagFrameHead A B)
      ⟨.DEMOD_RECEIVING_DATA, 9, 1, -A, 20 * A * B.length + 18 * A, 10 * B.length + 9, 0,
        storeList out 0 B, B.length, 8 * A, 0⟩ := by
  have hA0 : 0 < A := by omega
  have h8 : 0 < 8 * A := by omega
  have h1 := demod_preamble A hA bc pc tb m mn r out len si sq
  obtain ⟨bc2, pc2, tb2, r2, h2⟩ := demod_chars A hA0 B hB (8 * A) h8 bc 1 tb 0 0 r out 0
  simp only [zero_add] at h2
  have h3 := demod_eof_quiet A hA0 bc2 pc2 tb2 (20 * A * B.length) (10 * B.length) r2
    (storeList out 0 B) B.length (8 * A) h8
  rw [(tagFrameHead_eq A B).1]
  exact demodQuiet_append (demodQuiet_append h1 h2) h3

/-- A snoop run over the head of a tag frame on a carrier of even amplitude:
the UART sees zeros only and stays out of a frame, the demodulator ends one
sample short of the end of frame, nothing is appended. -/
theorem snoop_tag_head (A : Int) (hA : 40 < A) (hev : A % 2 = 0) (B : List Nat)
    (hB : ∀ b ∈ B, b < 256) (s : Snoop) (hs : s.stopped = false) (hidle : uartIdle s.uart)
    (hd : s.demod.state = .DEMOD_UNSYNCD) :
    ∃ u1, uartIdle u1 ∧
      snoopFeed s (tagFrameHead A B)
        = ⟨s.triggered, s.trace, s.samples + 2 * (83 + 20 * B.length), u1,
            ⟨.DEMOD_RECEIVING_DATA, 9, 1, -A, 20 * A * B.length + 18 * A, 10 * B.length + 9, 0,
              storeList s.demod.output 0 B, B.length, 8 * A, 0⟩, false⟩ := by
  obtain ⟨u1, hq, hi⟩ := uart_idle_zeros (2 * (83 + 20 * B.length)) s.uart hidle
  rw [← pairBits_tagFrameHead A B hev] at hq
  obtain ⟨tr, trace, smp, u, ⟨st, bc, pc, tb, m, mn, r, out, len, si, sq⟩, stp⟩ := s
  simp only at hs hd hq
  subst hs hd
  have hdq := demod_frame_head A hA B hB bc pc tb m mn r out len si sq
  refine ⟨u1, hi, ?_⟩
  rw [snoopFeed_quiet _ _ u1 _ rfl hq hdq, (tagFrameHead_eq A B).2.2]
  simp only [Snoop.mk.injEq, true_and, and_true]
  push_cast
  ring

/-- The pass that ends a tag frame: the demodulator returns TRUE and the tag
record is appended. -/
theorem snoop_tag_done (A : Int) (hA : 0 < A) (hev : A % 2 = 0) (tr : Bool)
    (trace : List Nat) (smp : Int) (u : Uart) (hidle : uartIdle u) (B : List Nat)
    (out : Int → Nat) :
    (snoopStep ⟨tr, trace, smp, u,
        ⟨.DEMOD_RECEIVING_DATA, 9, 1, -A, 20 * A * B.length + 18 * A, 10 * B.length + 9, 0,
          storeList out 0 B, B.length, 8 * A, 0⟩, false⟩ (-A) 0).tag = some (B.length : Int) ∧
    (snoopStep ⟨tr, trace, smp, u,
        ⟨.DEMOD_RECEIVING_DATA, 9, 1, -A, 20 * A * B.length + 18 * A, 10 * B.length + 9, 0,
          storeList out 0 B, B.length, 8 * A, 0⟩, false⟩ (-A) 0).reader = none ∧
    ∃ s2, (snoopStep ⟨tr, trace, smp, u,
        ⟨.DEMOD_RECEIVING_DATA, 9, 1, -A, 20 * A * B.length + 18 * A, 10 * B.length + 9, 0,
          storeList out 0 B, B.length, 8 * A, 0⟩, false⟩ (-A) 0).snoop = s2 ∧
      s2.trace = trace ++ tagRecord (smp + 2) (2 * A) B ∧
      s2.samples = smp + 2 ∧ uartIdle s2.uart ∧
      (s2.stopped = true ↔ s2.trace.length > 1000) ∧
      (s2.stopped = false → s2.triggered = true ∧ s2.demod.state = .DEMOD_UNSYNCD) := by
  have hA2 : -A % 2 = 0 := by omega
  have h8 : 0 < 8 * A := by omega
  obtain ⟨hr1, hi1⟩ := uart_idle_zero u hidle
  obtain ⟨hr2, hi2⟩ := uart_idle_zero _ hi1
  have e := demod_eof_return A hA (20 * A * B.length + 18 * A) (10 * B.length + 9)
    (storeList out 0 B) B.length (8 * A) h8
  have h3 : (Handle14443SamplesDemod
      ⟨.DEMOD_RECEIVING_DATA, 9, 1, -A, 20 * A * B.length + 18 * A, 10 * B.length + 9, 0,
        storeList out 0 B, B.length, 8 * A, 0⟩ (-A) 0).ret = true := by rw [e]
  have hstep := snoopStep_tag ⟨tr, trace, smp, u,
        ⟨.DEMOD_RECEIVING_DATA, 9, 1, -A, 20 * A * B.length + 18 * A, 10 * B.length + 9, 0,
          storeList out 0 B, B.length, 8 * A, 0⟩, false⟩ (-A) 0 _ rfl
    (by rw [hA2]; exact hr1) rfl (by rw [hA2]; exact hr2) h3
  rw [hstep]
  refine ⟨by rw [e], rfl, _, rfl, ?_⟩
  have hdm := snoopDemod_trace ⟨tr, trace, smp + 2,
      (Handle14443UartBit (Handle14443UartBit u (-A % 2)).uart (0 % 2)).uart,
      ⟨.DEMOD_RECEIVING_DATA, 9, 1, -A, 20 * A * B.length + 18 * A, 10 * B.length + 9, 0,
          storeList out 0 B, B.length, 8 * A, 0⟩, false⟩ (-A) 0 h3
    (by rw [e]; exact Int.natCast_nonneg _) (by rw [e]; show (0 : Int) < _ + 1; omega)
    (by
      rw [e]
      show (0 : Int) ≤ _ + 2 * A
      have : 0 ≤ 20 * A * (B.length : Int) := by positivity
      omega)
  have hstop := snoopDemod_stopped ⟨tr, trace, smp + 2,
      (Handle14443UartBit (Handle14443UartBit u (-A % 2)).uart (0 % 2)).uart,
      ⟨.DEMOD_RECEIVING_DATA, 9, 1, -A, 20 * A * B.length + 18 * A, 10 * B.length + 9, 0,
          storeList out 0 B, B.length, 8 * A, 0⟩, false⟩ (-A) 0 rfl h3
  have havg : (20 * A * (B.length : Int) + 18 * A + 2 * A) / (10 * (B.length : Int) + 9 + 1)
      = 2 * A := by
    rw [show 20 * A * (B.length : Int) + 18 * A + 2 * A
      = (2 * A) * (10 * (B.length : Int) + 9 + 1) by ring]
    exact Int.mul_ediv_cancel _ (by omega)
  have hbuf : bufferPrefix (storeList out 0 B) B.length = B := by
    have := bufferPrefix_storeList B out 0
    simp only [zero_add] at this
    exact this
  refine ⟨?_, hdm.2.2.1, ?_, hstop, ?_⟩
  · rw [hdm.1, e]
    simp only [Int.toNat_ofNat, havg, hbuf]
  · rw [hdm.2.2.2.1, hA2]
    exact hi2
  · intro h
    obtain ⟨h1, h2⟩ := hdm.2.2.2.2 h
    exact ⟨h1, by rw [h2]; rfl⟩

/-- A snoop run over a whole tag frame on a carrier of even amplitude `A > 40`:
one tag record is appended, with average metric `2 A`; the loop is left iff the
trace is then longer than 1000 bytes, and otherwise the run is ready for the
next frame. -/
theorem snoop_tag_frame (A : Int) (hA : 40 < A) (hev : A % 2 = 0) (B : List Nat)
    (hB : ∀ b ∈ B, b < 256) (s : Snoop) (hs : s.stopped = false) (hidle : uartIdle s.uart)
    (hd : s.demod.state = .DEMOD_UNSYNCD) :
    ∃ s2, snoopFeed s (tagFrameSamples A B) = s2 ∧
      s2.trace = s.trace ++ tagRecord (s.samples + 2 * (84 + 20 * B.length)) (2 * A) B ∧
      s2.samples = s.samples + 2 * (84 + 20 * B.length) ∧ uartIdle s2.uart ∧
      (s2.stopped = true ↔ s2.trace.length > 1000) ∧
      (s2.stopped = false → s2.triggered = true ∧ s2.demod.state = .DEMOD_UNSYNCD) := by
  obtain ⟨u1, hi1, hfeed⟩ := snoop_tag_head A hA hev B hB s hs hidle hd
  obtain ⟨_, _, s2, hs2, h1, h2, h3, h4, h5⟩ := snoop_tag_done A (by omega) hev s.triggered
    s.trace (s.samples + 2 * (83 + 20 * B.length)) u1 hi1 B s.demod.output
  refine ⟨s2, ?_, ?_, ?_, h3, h4, h5⟩
  · rw [(tagFrameHead_eq A B).2.1, snoopFeed_append, hfeed]
    simp only [snoopFeed, Bool.false_eq_true, if_false]
    exact hs2
  · rw [h1]
    congr 2
    ring
  · rw [h2]
    ring

/-- A snoop run over `k` tag frames in a row that fit in 1000 bytes: `k`
records are appended and the loop is still running. -/
theorem snoop_tag_frames (A : Int) (hA : 40 < A) (hev : A % 2 = 0) (B : List Nat)
    (hB : ∀ b ∈ B, b < 256) (k : Nat) : ∀ (s : Snoop), s.stopped = false → uartIdle s.uart →
    s.demod.state = .DEMOD_UNSYNCD → s.trace.length + k * (9 + B.length) ≤ 1000 →
    ∃ (s2 : Snoop) (Ss : List Int),
      snoopFeed s ((List.replicate k (tagFrameSamples A B)).flatMap id) = s2 ∧
      Ss.length = k ∧
      s2.trace = s.trace ++ Ss.flatMap (fun S => tagRecord S (2 * A) B) ∧
      s2.samples = s.samples + k * (2 * (84 + 20 * B.length)) ∧
      s2.stopped = false ∧ uartIdle s2.uart ∧ s2.demod.state = .DEMOD_UNSYNCD := by
  induction k with
  | zero =>
    intro s hs hi hd _
    exact ⟨s, [], rfl, rfl, by simp, by simp, hs, hi, hd⟩
  | succ k ih =>
    intro s hs hi hd hlen
    obtain ⟨s1, hf1, ht1, hsm1, hi1, hst1, hgo1⟩ := snoop_tag_frame A hA hev B hB s hs hi hd
    have hl1 : s1.trace.length = s.trace.length + (9 + B.length) := by
      rw [ht1, List.length_append, length_tagRecord]
    have hns : s1.stopped = false := by
      by_contra hc
      have := hst1.1 (by simpa using hc)
      rw [hl1] at this
      have h2 : (k + 1) * (9 + B.length) = k * (9 + B.length) + (9 + B.length) := by ring
      omega
    obtain ⟨_, hd1⟩ := hgo1 hns
    obtain ⟨s2, Ss, hf2, hSs, ht2, hsm2, hs2, hi2, hd2⟩ := ih s1 hns hi1 hd1 (by
      rw [hl1]
      have h2 : (k + 1) * (9 + B.length) = k * (9 + B.length) + (9 + B.length) := by ring
      omega)
    refine ⟨s2, (s.samples + 2 * (84 + 20 * B.length)) :: Ss, ?_, by simp [hSs], ?_, ?_,
      hs2, hi2, hd2⟩
    · rw [List.replicate_succ, List.flatMap_cons, id, snoopFeed_append, hf1, hf2]
    · rw [ht2, ht1, List.flatMap_cons, List.append_assoc]
    · rw [hsm2, hsm1]
      push_cast
      ring

/-- The trace bound along a run, from any state that keeps the invariant. -/
theorem snoopFeed_bound (M : Int) (l : List (Int × Int)) : ∀ (s : Snoop), SnoopInv s →
    (s.trace.length : Int) ≤ 1009 + M →
    (∀ (l1 : List (Int × Int)) (p : Int × Int) (l2 : List (Int × Int)) (n : Int),
      l = l1 ++ p :: l2 → (snoopFeed s l1).stopped = false →
      (((snoopStep (snoopFeed s l1) p.1 p.2).reader = some n ∧
          (snoopFeed s l1).triggered = true) ∨
        (snoopStep (snoopFeed s l1) p.1 p.2).tag = some n) → n ≤ M) →
    ((snoopFeed s l).trace.length : Int) ≤ 1009 + M := by
  induction l with
  | nil => intro s _ hb _; exact hb
  | cons p ps ih =>
    intro s hinv hb hM
    rw [snoopFeed]
    split_ifs with hst
    · exact hb
    · have hs : s.stopped = false := by simpa using hst
      have hrec := snoopStep_records s p.1 p.2 hinv hs
      have hlen := (hinv.2.2 hs).2
      refine ih _ (snoopInv_step s p.1 p.2 hinv) ?_ ?_
      · cases hrd : (snoopStep s p.1 p.2).reader with
        | some n =>
          obtain ⟨h0, _, _, _, htr⟩ := hrec.1 n hrd
          rw [htr]
          split_ifs with htg
          · have hn := hM [] p ps n rfl hs (Or.inl ⟨hrd, htg⟩)
            rw [List.length_append, length_readerRecord, length_bufferPrefix]
            push_cast
            rw [Int.toNat_of_nonneg h0]
            omega
          · omega
        | none =>
          cases htg : (snoopStep s p.1 p.2).tag with
          | some n =>
            obtain ⟨h0, _, _, _, _, _, htr⟩ := hrec.2.1 n htg
            have hn := hM [] p ps n rfl hs (Or.inr htg)
            rw [htr, List.length_append, length_tagRecord, length_bufferPrefix]
            push_cast
            rw [Int.toNat_of_nonneg h0]
            omega
          | none =>
            rw [(hrec.2.2.1 hrd htg).1]
            exact hb
      · intro l1 q l2 n hl hrun hn
        refine hM (p :: l1) q l2 n (by rw [hl]; rfl) ?_ ?_
        · rw [snoopFeed, if_neg hst]
          exact hrun
        · rw [snoopFeed, if_neg hst]
          exact hn

/-- C19 (as the code has it). Snoop trace bound: in every snoop run, as long
as the loop goes on `traceLen` is at most 1000; and if each recorded frame has
at most `M` bytes, `traceLen` never exceeds `1009 + M` at any point of the run
(a record of `9 + n` bytes is appended while `traceLen ≤ 1000`, and the test
`traceLen > 1000` comes after it). -/
theorem C19_snoop_trace_bound (d0 : Demod) (receivedCmd receivedResponse : Int → Nat)
    (l : List (Int × Int)) (M : Int) (h0 : 0 ≤ M)
    (hM : ∀ (l1 : List (Int × Int)) (p : Int × Int) (l2 : List (Int × Int)) (n : Int),
      l = l1 ++ p :: l2 →
      (snoopFeed (snoopInit d0 receivedCmd receivedResponse) l1).stopped = false →
      (((snoopStep (snoopFeed (snoopInit d0 receivedCmd receivedResponse) l1) p.1 p.2).reader
            = some n ∧
          (snoopFeed (snoopInit d0 receivedCmd receivedResponse) l1).triggered = true) ∨
        (snoopStep (snoopFeed (snoopInit d0 receivedCmd receivedResponse) l1) p.1 p.2).tag
          = some n) → n ≤ M) :
    ∀ (l1 l2 : List (Int × Int)), l = l1 ++ l2 →
      ((snoopFeed (snoopInit d0 receivedCmd receivedResponse) l1).trace.length : Int)
        ≤ 1009 + M ∧
      ((snoopFeed (snoopInit d0 receivedCmd receivedResponse) l1).stopped = false →
        (snoopFeed (snoopInit d0 receivedCmd receivedResponse) l1).trace.length ≤ 1000) := by
  intro l1 l2 hl
  have hinv := snoopInv_feed l1 _ (snoopInv_init d0 receivedCmd receivedResponse)
  refine ⟨?_, fun h => (hinv.2.2 h).2⟩
  refine snoopFeed_bound M l1 _ (snoopInv_init d0 receivedCmd receivedResponse) ?_ ?_
  · show ((0 : Nat) : Int) ≤ 1009 + M
    omega
  · intro k1 p k2 n hk hrun hn
    exact hM k1 p (k2 ++ l2) n (by rw [hl, hk, List.append_assoc, List.cons_append]) hrun hn

theorem flatMap_replicate_succ {α : Type} (k : Nat) (X : List α) :
    (List.replicate (k + 1) X).flatMap id = (List.replicate k X).flatMap id ++ X := by
  rw [List.replicate_succ', List.flatMap_append, List.flatMap_cons, List.flatMap_nil,
    List.append_nil]
  rfl

theorem snoopFeed_eleven (s0 s2 s3 : Snoop) (X : List (Int × Int))
    (hf2 : snoopFeed s0 ((List.replicate 10 X).flatMap id) = s2)
    (hf3 : snoopFeed s2 X = s3) :
    snoopFeed s0 ((List.replicate 11 X).flatMap id) = s3 := by
  rw [flatMap_replicate_succ 10 X, snoopFeed_append, hf2, hf3]

/-- C19 counterexample: eleven tag frames of 91 zero bytes each, on a carrier
of amplitude 50. Every recorded frame has 91 bytes and every record 100, so
ten records fill the trace to exactly 1000 and the eleventh takes it to 1100,
more than `1000 + 91`. -/
theorem C19_counterexample :
    ∃ Ss : List Int, Ss.length = 11 ∧
      (snoopFeed (snoopInit demodReset (fun _ => 0x44) (fun _ => 0x44))
        ((List.replicate 11 (tagFrameSamples 50 (List.replicate 91 0))).flatMap id)).trace
        = Ss.flatMap (fun S => tagRecord S 100 (List.replicate 91 0)) ∧
      (snoopFeed (snoopInit demodReset (fun _ => 0x44) (fun _ => 0x44))
        ((List.replicate 11 (tagFrameSamples 50 (List.replicate 91 0))).flatMap id)).trace.length
        = 1100 ∧
      1000 + (List.replicate 91 0).length <
        (snoopFeed (snoopInit demodReset (fun _ => 0x44) (fun _ => 0x44))
          ((List.replicate 11 (tagFrameSamples 50 (List.replicate 91 0))).flatMap id)).trace.length
      := by
  have hB : ∀ b ∈ List.replicate 91 0, b < 256 := by
    intro b hb
    rw [List.eq_of_mem_replicate hb]
    decide
  obtain ⟨s2, Ss, hf2, hSs, ht2, _, hs2, hi2, hd2⟩ := snoop_tag_frames 50 (by decide) (by decide)
    (List.replicate 91 0) hB 10 (snoopInit demodReset (fun _ => 0x44) (fun _ => 0x44)) rfl
    (Or.inl rfl) rfl (by simp [snoopInit])
  obtain ⟨s3, hf3, ht3, _, _, _, _⟩ := snoop_tag_frame 50 (by decide) (by decide)
    (List.replicate 91 0) hB s2 hs2 hi2 hd2
  have e100 : (2 : Int) * 50 = 100 := by norm_num
  rw [e100] at ht2 ht3
  have hrun := snoopFeed_eleven _ s2 s3 _ hf2 hf3
  have htr : s3.trace
      = (Ss ++ [s2.samples + 2 * (84 + 20 * ((List.replicate 91 0).length : Int))]).flatMap
        (fun S => tagRecord S 100 (List.replicate 91 0)) := by
    rw [ht3, ht2, List.flatMap_append, List.flatMap_cons, List.flatMap_nil, List.append_nil]
    simp only [snoopInit, List.nil_append]
  have hlen : s3.trace.length = 1100 := by
    rw [htr, length_flatMap_const _ 100 (by
      intro S
      rw [length_tagRecord, List.length_replicate]), List.length_append, hSs]
    rfl
  rw [hrun]
  refine ⟨_, ?_, htr, hlen, ?_⟩
  · rw [List.length_append, hSs]
    rfl
  · rw [hlen, List.length_replicate]
    decide

/-- A stretch of a run over which neither receiver reports a frame: no pass of
it records anything. -/
theorem snoop_quiet_passes (l1 : List (Int × Int)) : ∀ (s : Snoop) (u2 : Uart) (d2 : Demod)
    (p : Int × Int) (l2 : List (Int × Int)), s.stopped = false →
    UartQuiet s.uart (pairBits (l1 ++ p :: l2)) u2 → DemodQuiet s.demod (l1 ++ p :: l2) d2 →
    (snoopStep (snoopFeed s l1) p.1 p.2).reader = none ∧
    (snoopStep (snoopFeed s l1) p.1 p.2).tag = none := by
  induction l1 with
  | nil =>
    intro s u2 d2 p l2 hs hu hd
    have hu' : UartQuiet s.uart (p.1 % 2 :: p.2 % 2 :: pairBits l2) u2 := hu
    obtain ⟨h1, hu1⟩ := uartQuiet_cons_inv hu'
    obtain ⟨h2, hu2⟩ := uartQuiet_cons_inv hu1
    obtain ⟨h3, hd3⟩ := demodQuiet_cons_inv hd
    rw [snoopFeed, snoopStep_quiet s p.1 p.2 _ hs h1 rfl h2 h3]
    exact ⟨rfl, rfl⟩
  | cons q qs ih =>
    intro s u2 d2 p l2 hs hu hd
    have hu' : UartQuiet s.uart (q.1 % 2 :: q.2 % 2 :: pairBits (qs ++ p :: l2)) u2 := hu
    obtain ⟨h1, hu1⟩ := uartQuiet_cons_inv hu'
    obtain ⟨h2, hu2⟩ := uartQuiet_cons_inv hu1
    have hd' : DemodQuiet s.demod (q :: (qs ++ p :: l2)) d2 := hd
    obtain ⟨h3, hd3⟩ := demodQuiet_cons_inv hd'
    rw [snoopFeed, if_neg (by simp [hs]),
      snoopStep_quiet s q.1 q.2 _ hs h1 rfl h2 h3]
    exact ih ⟨s.triggered, s.trace, s.samples + 2, _, _, s.stopped⟩ u2 d2 p l2 hs hu2 hd3

/-- In the snoop run over the one-byte tag frame `5A` the only pass that
records a frame is the last one, and the frame it records has one byte. -/
theorem snoop_frame_5A_lengths (l1 : List (Int × Int)) (p : Int × Int)
    (l2 : List (Int × Int)) (n : Int)
    (hl : tagFrameSamples 50 [0x5A] = l1 ++ p :: l2)
    (hn : ((snoopStep (snoopFeed (snoopInit demodReset (fun _ => 0x44) (fun _ => 0x44)) l1)
            p.1 p.2).reader = some n ∧
          (snoopFeed (snoopInit demodReset (fun _ => 0x44) (fun _ => 0x44)) l1).triggered = true) ∨
        (snoopStep (snoopFeed (snoopInit demodReset (fun _ => 0x44) (fun _ => 0x44)) l1)
          p.1 p.2).tag = some n) :
    n ≤ 1 := by
  obtain ⟨u1, hi1, hfeed⟩ := snoop_tag_head 50 (by decide) (by decide) [0x5A] (by decide)
    (snoopInit demodReset (fun _ => 0x44) (fun _ => 0x44)) rfl (Or.inl rfl) rfl
  rw [(tagFrameHead_eq 50 [0x5A]).2.1] at hl
  rcases List.eq_nil_or_concat l2 with h2 | ⟨l2', y, h2⟩
  · subst h2
    obtain ⟨e1, e2⟩ := List.append_inj' hl rfl
    have ep : p = (-50, 0) := by
      simp only [List.cons.injEq, and_true] at e2
      exact e2.symm
    subst e1 ep
    obtain ⟨ht, hr, -⟩ := snoop_tag_done 50 (by decide) (by decide) false []
      ((0 : Int) + 2 * (83 + 20 * (([0x5A] : List Nat).length : Int))) u1 hi1 [0x5A]
      (fun _ => 0x44)
    rw [hfeed] at hn
    rcases hn with ⟨hn, -⟩ | hn
    · have hr' := hr
      simp only [snoopInit] at hn
      rw [hr'] at hn
      cases hn
    · simp only [snoopInit] at hn
      rw [ht] at hn
      simp only [Option.some.injEq] at hn
      rw [← hn]
      simp
  · subst h2
    have hl' : tagFrameHead 50 [0x5A] ++ [(-50, 0)] = (l1 ++ p :: l2') ++ [y] := by
      rw [hl]
      simp
    obtain ⟨e1, -⟩ := List.append_inj' hl' rfl
    obtain ⟨u2, hq, -⟩ := uart_idle_zeros (2 * (83 + 20 * ([0x5A] : List Nat).length))
      (snoopInit demodReset (fun _ => 0x44) (fun _ => 0x44)).uart (Or.inl rfl)
    rw [← pairBits_tagFrameHead 50 [0x5A] (by decide), e1] at hq
    have hd := demod_frame_head 50 (by decide) [0x5A] (by decide) 0 0 0 0 0 0
      (fun _ => 0x44) 0 0 0
    rw [e1] at hd
    obtain ⟨hr, ht⟩ := snoop_quiet_passes l1 (snoopInit demodReset (fun _ => 0x44) (fun _ => 0x44))
      u2 _ p l2' rfl hq hd
    rcases hn with ⟨hn, -⟩ | hn
    · rw [hr] at hn
      cases hn
    · rw [ht] at hn
      cases hn

/-- C19 witness: the run over the one-byte tag frame `5A` on a carrier of
amplitude 50. The pass on its last pair records the frame, a record of 10
bytes: every frame recorded in the run has at most `M = 1` byte, and
`traceLen` stays within `1009 + 1`. -/
theorem C19_snoop_trace_bound_witness :
    (snoopStep (snoopFeed (snoopInit demodReset (fun _ => 0x44) (fun _ => 0x44))
      (tagFrameHead 50 [0x5A])) (-50) 0).tag = some 1 ∧
    (snoopFeed (snoopInit demodReset (fun _ => 0x44) (fun _ => 0x44))
      (tagFrameSamples 50 [0x5A])).trace.length = 10 ∧
    ((snoopFeed (snoopInit demodReset (fun _ => 0x44) (fun _ => 0x44))
      (tagFrameSamples 50 [0x5A])).trace.length : Int) ≤ 1009 + 1 ∧
    ((snoopFeed (snoopInit demodReset (fun _ => 0x44) (fun _ => 0x44))
        (tagFrameSamples 50 [0x5A])).stopped = false →
      (snoopFeed (snoopInit demodReset (fun _ => 0x44) (fun _ => 0x44))
        (tagFrameSamples 50 [0x5A])).trace.length ≤ 1000) := by
  obtain ⟨u1, hi1, hfeed⟩ := snoop_tag_head 50 (by decide) (by decide) [0x5A] (by decide)
    (snoopInit demodReset (fun _ => 0x44) (fun _ => 0x44)) rfl (Or.inl rfl) rfl
  have hdone := (snoop_tag_done 50 (by decide) (by decide) false []
    ((0 : Int) + 2 * (83 + 20 * (([0x5A] : List Nat).length : Int))) u1 hi1 [0x5A]
    (fun _ => 0x44)).1
  have htag : (snoopStep (snoopFeed (snoopInit demodReset (fun _ => 0x44) (fun _ => 0x44))
      (tagFrameHead 50 [0x5A])) (-50) 0).tag = some 1 := by
    rw [hfeed]
    exact hdone
  obtain ⟨s2, hs2, htr, -⟩ := snoop_tag_frame 50 (by decide) (by decide) [0x5A] (by decide)
    (snoopInit demodReset (fun _ => 0x44) (fun _ => 0x44)) rfl (Or.inl rfl) rfl
  have hlen : (snoopFeed (snoopInit demodReset (fun _ => 0x44) (fun _ => 0x44))
      (tagFrameSamples 50 [0x5A])).trace.length = 10 := by
    rw [hs2, htr, List.length_append, length_tagRecord]
    rfl
  have key := C19_snoop_trace_bound demodReset (fun _ => 0x44) (fun _ => 0x44)
    (tagFrameSamples 50 [0x5A]) 1 (by norm_num)
    (fun l1 p l2 n hl _ hn => snoop_frame_5A_lengths l1 p l2 n hl hn)
    (tagFrameSamples 50 [0x5A]) [] (List.append_nil _).symm
  exact ⟨htag, hlen, key.1, key.2⟩


/-! ## Snoop: a reader frame -/

theorem pairBits_pairUp : ∀ (l : List Int), l.length % 2 = 0 →
    (∀ b ∈ l, b = 0 ∨ b = 1) → pairBits (pairUp l) = l
  | [], _, _ => rfl
  | [_], h, _ => by simp at h
  | a :: b :: rest, h, hb => by
    have ha : a % 2 = a := by
      rcases hb a (by simp) with h | h <;> subst h <;> rfl
    have hb2 : b % 2 = b := by
      rcases hb b (by simp) with h | h <;> subst h <;> rfl
    have ih := pairBits_pairUp rest (by simp only [List.length_cons] at h; omega)
      (fun x hx => hb x (by simp [hx]))
    rw [pairUp, pairBits, List.flatMap_cons, ← pairBits, ih]
    simp only [ha, hb2, List.cons_append, List.nil_append]

theorem length_pairUp : ∀ (l : List Int), l.length % 2 = 0 →
    2 * (pairUp l).length = l.length
  | [], _ => rfl
  | [_], h => by simp at h
  | a :: b :: rest, h => by
    have ih := length_pairUp rest (by simp only [List.length_cons] at h; omega)
    simp only [pairUp, List.length_cons]
    omega

theorem mem_pairUp : ∀ (l : List Int) (p : Int × Int), p ∈ pairUp l → p.1 ∈ l ∧ p.2 ∈ l
  | [], p, h => by simp [pairUp] at h
  | [_], p, h => by simp [pairUp] at h
  | a :: b :: rest, p, h => by
    simp only [pairUp, List.mem_cons] at h
    rcases h with h | h
    · subst h
      simp
    · have := mem_pairUp rest p h
      simp [this.1, this.2]

theorem mem_oversample4 (bits : List Bool) (b : Int) (h : b ∈ oversample4 bits) :
    b = 0 ∨ b = 1 := by
  simp only [oversample4, List.mem_flatMap, List.mem_replicate] at h
  obtain ⟨x, _, _, hb⟩ := h
  cases x <;> simp [hb]

theorem length_oversample4 (l : List Bool) : (oversample4 l).length = 4 * l.length := by
  induction l with
  | nil => rfl
  | cons x xs ih =>
    rw [show x :: xs = [x] ++ xs from rfl, oversample4_append, List.length_append, ih]
    simp only [oversample4, List.flatMap_cons, List.flatMap_nil, List.append_nil,
      List.length_replicate, List.length_append, List.length_cons, List.length_nil]
    omega

theorem length_flatMap_uartCharSlots (B : List Nat) :
    (B.flatMap uartCharSlots).length = 44 * B.length := by
  rw [length_flatMap_const _ 44 (by
    intro b
    simp only [uartCharSlots, List.length_append, length_oversample4, length_lsbBits,
      List.length_cons, List.length_nil])]

/-- The slots of a reader frame before the one at which the UART reports it. -/
theorem readerFrameHead_bits (B : List Nat) :
    (oversample4 (CodeIso14443bAsReader B).bits).take (242 + 44 * B.length)
      = List.replicate 160 1 ++ (List.replicate 40 0 ++ [1, 1, 1]) ++ B.flatMap uartCharSlots
          ++ ([1] ++ List.replicate 38 0) ∧
    (List.replicate 160 (1 : Int) ++ (List.replicate 40 0 ++ [1, 1, 1])
      ++ B.flatMap uartCharSlots ++ ([1] ++ List.replicate 38 0)).length
      = 242 + 44 * B.length := by
  have hlen : (List.replicate 160 (1 : Int) ++ (List.replicate 40 0 ++ [1, 1, 1])
      ++ B.flatMap uartCharSlots ++ ([1] ++ List.replicate 38 0)).length
      = 242 + 44 * B.length := by
    simp only [List.length_append, List.length_replicate, length_flatMap_uartCharSlots,
      List.length_cons, List.length_nil]
    omega
  refine ⟨?_, hlen⟩
  rw [uart_stream, ← hlen, List.take_left]

/-- A demodulator in UNSYNCED does not move on a pair of one-bit samples. -/
theorem demod_weak_step (d : Demod) (ci cq : Int) (hd : d.state = .DEMOD_UNSYNCD)
    (hi : ci = 0 ∨ ci = 1) (hq : cq = 0 ∨ cq = 1) :
    Handle14443SamplesDemod d ci cq = ⟨d, none, false⟩ := by
  obtain ⟨st, bc, pc, tb, m, mn, r, out, len, si, sq⟩ := d
  simp only at hd
  subst hd
  rcases hi with h | h <;> rcases hq with h' | h' <;> subst h <;> subst h' <;>
    simp [Handle14443SamplesDemod]

theorem demod_weak (l : List (Int × Int)) (d : Demod) (hd : d.state = .DEMOD_UNSYNCD)
    (h : ∀ p ∈ l, (p.1 = 0 ∨ p.1 = 1) ∧ (p.2 = 0 ∨ p.2 = 1)) : DemodQuiet d l d := by
  induction l with
  | nil => exact demodQuiet_nil d
  | cons p ps ih =>
    have hp := h p (by simp)
    have e := demod_weak_step d p.1 p.2 hd hp.1 hp.2
    exact demodQuiet_cons d (by rw [e]) (by rw [e])
      (ih (fun q hq => h q (by simp [hq])))

/-- A snoop run over the head of a reader frame: the demodulator does not
move, the UART ends one slot short of the end of frame, nothing is appended. -/
theorem snoop_reader_head (B : List Nat) (hB : ∀ b ∈ B, b < 256) (tr : Bool)
    (trace : List Nat) (smp : Int) (r : Nat) (bc byc mx pc : Int) (out : Int → Nat)
    (d : Demod) (hd : d.state = .DEMOD_UNSYNCD) (h : (B.length : Int) < mx) :
    snoopFeed ⟨tr, trace, smp, ⟨.STATE_UNSYNCD, r, bc, byc, mx, pc, out⟩, d, false⟩
        (readerFrameHead B)
      = ⟨tr, trace, smp + 2 * (121 + 22 * B.length),
          ⟨.STATE_RECEIVING_DATA, 0, 9, B.length, mx, 1, storeList out 0 B⟩, d, false⟩ := by
  obtain ⟨r', bc', h1⟩ := uart_prefix_quiet B hB r bc byc mx pc out h
  have h2 := uartQuiet_append h1 (uart_eof_quiet r' bc' B.length mx (storeList out 0 B))
  obtain ⟨hbits, hlen⟩ := readerFrameHead_bits B
  have hmem : ∀ b ∈ (oversample4 (CodeIso14443bAsReader B).bits).take (242 + 44 * B.length),
      b = 0 ∨ b = 1 := fun b hb => mem_oversample4 _ b (List.mem_of_mem_take hb)
  have hlen' : ((oversample4 (CodeIso14443bAsReader B).bits).take
      (242 + 44 * B.length)).length % 2 = 0 := by
    rw [hbits, hlen]
    omega
  have hpb := pairBits_pairUp _ hlen' hmem
  have hpl := length_pairUp _ hlen'
  rw [hbits] at hpb
  rw [hbits, hlen] at hpl
  have hq : UartQuiet ⟨.STATE_UNSYNCD, r, bc, byc, mx, pc, out⟩ (pairBits (readerFrameHead B))
      ⟨.STATE_RECEIVING_DATA, 0, 9, B.length, mx, 1, storeList out 0 B⟩ := by
    rw [readerFrameHead, hbits, hpb]
    exact h2
  have hdq : DemodQuiet d (readerFrameHead B) d := by
    refine demod_weak _ d hd ?_
    intro p hp
    have := mem_pairUp _ p hp
    exact ⟨hmem _ this.1, hmem _ this.2⟩
  rw [snoopFeed_quiet _ _ _ _ rfl hq hdq]
  have hl2 : ((readerFrameHead B).length : Int) = 121 + 22 * B.length := by
    rw [readerFrameHead, hbits]
    omega
  simp only [hl2]

/-- The pass that ends a reader frame before the recording has been
triggered: the UART returns TRUE on the first sample, nothing is appended, and
both receivers are reset. -/
theorem snoop_reader_done_untriggered (trace : List Nat) (smp k mx : Int) (out : Int → Nat)
    (d : Demod) :
    snoopStep ⟨false, trace, smp, ⟨.STATE_RECEIVING_DATA, 0, 9, k, mx, 1, out⟩, d, false⟩ 0 0
      = ⟨⟨false, trace, smp + 2, ⟨.STATE_GOT_FALLING_EDGE_OF_SOF, 0, 0, 0, 100, 0, out⟩,
          demodSnoopReset d, false⟩, some k, none⟩ := by
  obtain ⟨e1, _, _⟩ := uart_eof_returns k mx out
  have h1 : (Handle14443UartBit ⟨.STATE_RECEIVING_DATA, 0, 9, k, mx, 1, out⟩ (0 % 2)).ret
      = true := by
    show (Handle14443UartBit _ 0).ret = true
    rw [e1]
  rw [snoopStep_reader1 _ 0 0 _ h1 rfl]
  have e2 : Handle14443UartBit ⟨.STATE_RECEIVING_DATA, 0, 9, k, mx, 1, out⟩ (0 % 2)
      = ⟨⟨.STATE_RECEIVING_DATA, 0, 10, k, mx, 2, out⟩, none, true⟩ := e1
  simp only [e2, HANDLE_BIT_IF_BODY, Bool.false_eq_true, if_false]
  have e3 : (Handle14443UartBit (uartSnoopReset ⟨.STATE_RECEIVING_DATA, 0, 10, k, mx, 2, out⟩)
      (0 % 2)).uart = ⟨.STATE_GOT_FALLING_EDGE_OF_SOF, 0, 0, 0, 100, 0, out⟩ := by
    simp [Handle14443UartBit, uartSnoopReset]
  have e4 : (Handle14443SamplesDemod (demodSnoopReset d) 0 0).demod = demodSnoopReset d := by
    rw [demod_weak_step _ 0 0 rfl (Or.inl rfl) (Or.inl rfl)]
  rw [e3, e4]

/-- The pass that ends a reader frame once the recording has been triggered,
with room in the trace: the reader record is appended. -/
theorem snoop_reader_done_triggered (trace : List Nat) (smp mx : Int) (B : List Nat)
    (out : Int → Nat) (d : Demod)
    (hroom : trace.length + (9 + B.length) ≤ 1000) :
    snoopStep ⟨true, trace, smp,
        ⟨.STATE_RECEIVING_DATA, 0, 9, B.length, mx, 1, storeList out 0 B⟩, d, false⟩ 0 0
      = ⟨⟨true, trace ++ readerRecord (smp + 2) B, smp + 2,
          ⟨.STATE_GOT_FALLING_EDGE_OF_SOF, 0, 0, 0, 100, 0, storeList out 0 B⟩,
          demodSnoopReset d, false⟩, some (B.length : Int), none⟩ := by
  obtain ⟨e1, _, _⟩ := uart_eof_returns B.length mx (storeList out 0 B)
  have h1 : (Handle14443UartBit
      ⟨.STATE_RECEIVING_DATA, 0, 9, B.length, mx, 1, storeList out 0 B⟩ (0 % 2)).ret
      = true := by
    show (Handle14443UartBit _ 0).ret = true
    rw [e1]
  have e2 : Handle14443UartBit
      ⟨.STATE_RECEIVING_DATA, 0, 9, B.length, mx, 1, storeList out 0 B⟩ (0 % 2)
      = ⟨⟨.STATE_RECEIVING_DATA, 0, 10, B.length, mx, 2, storeList out 0 B⟩, none, true⟩ := e1
  have hbuf : bufferPrefix (storeList out 0 B) B.length = B := by
    have := bufferPrefix_storeList B out 0
    simp only [zero_add] at this
    exact this
  have hs1 : HANDLE_BIT_IF_BODY ⟨true, trace, smp + 2,
      ⟨.STATE_RECEIVING_DATA, 0, 9, B.length, mx, 1, storeList out 0 B⟩, d, false⟩
      ⟨.STATE_RECEIVING_DATA, 0, 10, B.length, mx, 2, storeList out 0 B⟩
      = ⟨true, trace ++ readerRecord (smp + 2) B, smp + 2,
          uartSnoopReset ⟨.STATE_RECEIVING_DATA, 0, 10, B.length, mx, 2, storeList out 0 B⟩,
          demodSnoopReset d, false⟩ := by
    have hrec := readerRecord_eq (smp + 2) B.length (storeList out 0 B) (Int.natCast_nonneg _)
    simp only [Int.toNat_ofNat, hbuf] at hrec
    have hlen : ¬ (trace ++ readerRecord (smp + 2) B).length > 1000 := by
      rw [List.length_append, length_readerRecord]
      omega
    simp only [HANDLE_BIT_IF_BODY, if_true, Int.toNat_ofNat, hbuf, List.append_assoc, hrec,
      hlen, if_false]
  have e3 : (Handle14443UartBit
      (uartSnoopReset ⟨.STATE_RECEIVING_DATA, 0, 10, B.length, mx, 2, storeList out 0 B⟩)
      (0 % 2)).uart = ⟨.STATE_GOT_FALLING_EDGE_OF_SOF, 0, 0, 0, 100, 0, storeList out 0 B⟩ := by
    simp [Handle14443UartBit, uartSnoopReset]
  have e4 : (Handle14443SamplesDemod (demodSnoopReset d) 0 0).demod = demodSnoopReset d := by
    rw [demod_weak_step _ 0 0 rfl (Or.inl rfl) (Or.inl rfl)]
  have key := snoopStep_reader1 ⟨true, trace, smp,
    ⟨.STATE_RECEIVING_DATA, 0, 9, B.length, mx, 1, storeList out 0 B⟩, d, false⟩ 0 0 _ h1 rfl
  simp only [e2, hs1, Bool.false_eq_true, if_false, e3, e4] at key
  exact key

/-! ## Snoop: exact states after a tag frame -/

set_option maxRecDepth 100000 in
theorem uart_zero_cycle (r : Nat) (bc byc mx pc : Int) (out : Int → Nat) :
    UartQuiet ⟨.STATE_UNSYNCD, r, bc, byc, mx, pc, out⟩ (List.replicate 68 0)
      ⟨.STATE_UNSYNCD, r, 15, byc, mx, 11, out⟩ := by
  simp [UartQuiet, uartFeed, uartReturns, Handle14443UartBit, List.replicate]

/-- On zeros the UART comes back to UNSYNCED every 68 slots. -/
theorem uart_zero_cycles (k : Nat) (r : Nat) (bc byc mx pc : Int) (out : Int → Nat) :
    UartQuiet ⟨.STATE_UNSYNCD, r, bc, byc, mx, pc, out⟩ (List.replicate (68 * (k + 1)) 0)
      ⟨.STATE_UNSYNCD, r, 15, byc, mx, 11, out⟩ := by
  induction k generalizing bc pc with
  | zero => exact uart_zero_cycle r bc byc mx pc out
  | succ j ih =>
    rw [show 68 * (j + 1 + 1) = 68 + 68 * (j + 1) by ring, List.replicate_add]
    exact uartQuiet_append (uart_zero_cycle r bc byc mx pc out) (ih 15 11)

theorem uartQuiet_split {u u2 : Uart} {l1 l2 : List Int} (h : UartQuiet u (l1 ++ l2) u2) :
    UartQuiet u l1 (uartFeed u l1) ∧ UartQuiet (uartFeed u l1) l2 u2 := by
  obtain ⟨h1, h2⟩ := h
  rw [uartFeed_append] at h1
  rw [uartReturns_append] at h2
  exact ⟨⟨rfl, fun r hr => h2 r (List.mem_append_left _ hr)⟩,
    ⟨h1, fun r hr => h2 r (List.mem_append_right _ hr)⟩⟩

/-- The demodulator block when the record fits: the whole state. -/
theorem snoopDemod_go (tr : Bool) (trace : List Nat) (smp : Int) (u : Uart) (d : Demod)
    (ci cq : Int) (d2 : Demod) (avg : Int) (resp : List Nat)
    (h : Handle14443SamplesDemod d ci cq = ⟨d2, none, true⟩)
    (hlen : (resp.length : Int) = d2.len) (hN : 0 < d2.metricN) (hm : 0 ≤ d2.metric)
    (havg : d2.metric / d2.metricN = avg) (hresp : bufferPrefix d2.output resp.length = resp)
    (hroom : trace.length + (9 + resp.length) ≤ 1000) :
    snoopDemod ⟨tr, trace, smp, u, d, false⟩ ci cq
      = ⟨true, trace ++ tagRecord smp avg resp, smp, u, demodSnoopReset d2, false⟩ := by
  have h3 : (Handle14443SamplesDemod d ci cq).ret = true := by rw [h]
  have hd2 : (Handle14443SamplesDemod d ci cq).demod = d2 := by rw [h]
  have hf := snoopDemod_trace ⟨tr, trace, smp, u, d, false⟩ ci cq h3
    (by rw [hd2, ← hlen]; exact Int.natCast_nonneg _) (by rw [hd2]; exact hN)
    (by rw [hd2]; exact hm)
  have hst := snoopDemod_stopped ⟨tr, trace, smp, u, d, false⟩ ci cq rfl h3
  simp only [hd2, havg, ← hlen, Int.toNat_ofNat, hresp] at hf
  obtain ⟨ht, _, hsm, hu, hgo⟩ := hf
  have hns : (snoopDemod ⟨tr, trace, smp, u, d, false⟩ ci cq).stopped = false := by
    by_contra hc
    have := hst.1 (by simpa using hc)
    rw [ht, List.length_append, length_tagRecord] at this
    omega
  obtain ⟨htr, hdm⟩ := hgo hns
  cases hsd : snoopDemod ⟨tr, trace, smp, u, d, false⟩ ci cq with
  | mk a b c e f g =>
    rw [hsd] at ht hsm hu hns htr hdm
    simp only at ht hsm hu hns htr hdm
    subst ht hsm hu hns htr hdm
    rfl

/-- A snoop run over a whole tag frame, with the UART followed exactly: the
state after the record when the record fits. -/
theorem snoop_tag_frame_exact (A : Int) (hA : 40 < A) (hev : A % 2 = 0) (B : List Nat)
    (hB : ∀ b ∈ B, b < 256) (tr : Bool) (trace : List Nat) (smp : Int) (u u2 : Uart)
    (bc pc tb m mn : Int) (r : Nat) (out : Int → Nat) (len si sq : Int)
    (hq : UartQuiet u (List.replicate (2 * (83 + 20 * B.length)) 0 ++ [0, 0]) u2)
    (hroom : trace.length + (9 + B.length) ≤ 1000) :
    snoopFeed ⟨tr, trace, smp, u, ⟨.DEMOD_UNSYNCD, bc, pc, tb, m, mn, r, out, len, si, sq⟩, false⟩
        (tagFrameSamples A B)
      = ⟨true, trace ++ tagRecord (smp + 2 * (84 + 20 * B.length)) (2 * A) B,
          smp + 2 * (84 + 20 * B.length), u2,
          ⟨.DEMOD_UNSYNCD, 0, 0, 0, 0, 0, 0, storeList out 0 B, 0, 0, 0⟩, false⟩ := by
  have hA0 : 0 < A := by omega
  have hA2 : -A % 2 = 0 := by omega
  have h8 : 0 < 8 * A := by omega
  obtain ⟨hq1, hq2⟩ := uartQuiet_split hq
  rw [← pairBits_tagFrameHead A B hev] at hq1
  have hdq := demod_frame_head A hA B hB bc pc tb m mn r out len si sq
  rw [(tagFrameHead_eq A B).2.1, snoopFeed_append,
    snoopFeed_quiet (tagFrameHead A B) _ _ _ rfl hq1 hdq]
  obtain ⟨hr1, hq3⟩ := uartQuiet_cons_inv hq2
  obtain ⟨hr2, hq4⟩ := uartQuiet_cons_inv hq3
  have hu2 := hq4.1
  simp only [uartFeed] at hu2
  have e := demod_eof_return A hA0 (20 * A * B.length + 18 * A) (10 * B.length + 9)
    (storeList out 0 B) B.length (8 * A) h8
  simp only [snoopFeed, Bool.false_eq_true, if_false, pairBits_tagFrameHead A B hev]
  rw [snoopStep_tag _ (-A) 0 u2 rfl (by rw [hA2]; exact hr1) (by rw [hA2]; exact hu2)
    (by rw [hA2]; exact hr2) (by rw [e])]
  have havg : (20 * A * (B.length : Int) + 18 * A + 2 * A) / (10 * (B.length : Int) + 9 + 1)
      = 2 * A := by
    rw [show 20 * A * (B.length : Int) + 18 * A + 2 * A
      = (2 * A) * (10 * (B.length : Int) + 9 + 1) by ring]
    exact Int.mul_ediv_cancel _ (by omega)
  have hbuf : bufferPrefix (storeList out 0 B) B.length = B := by
    have := bufferPrefix_storeList B out 0
    simp only [zero_add] at this
    exact this
  have hgo := snoopDemod_go tr trace (smp + 2 * ((tagFrameHead A B).length : Int) + 2) u2
    ⟨.DEMOD_RECEIVING_DATA, 9, 1, -A, 20 * A * B.length + 18 * A, 10 * B.length + 9, 0,
      storeList out 0 B, B.length, 8 * A, 0⟩ (-A) 0 _ (2 * A) B e rfl
    (by show (0 : Int) < _ + 1; omega)
    (by
      show (0 : Int) ≤ _ + 2 * A
      have : 0 ≤ 20 * A * (B.length : Int) := by positivity
      omega) havg hbuf hroom
  simp only [hgo]
  rw [(tagFrameHead_eq A B).2.2]
  simp only [demodSnoopReset, Snoop.mk.injEq, true_and, and_true]
  push_cast
  constructor
  · congr 2
    ring
  · ring

/-- C18 (as the code has it). Snoop trace record format: in every snoop run, a
pass of the sample loop appends at most one record. When it completes a reader
frame of `n` bytes, the recording has been triggered and the record ends
within the first 1024 bytes of the buffer (below `receivedCmd`), it appends
the sample count `S` as 4 little-endian bytes, 4 zero bytes, the byte `n`
(always below 100) and the `n` command bytes. When it completes a tag frame of
`n ≤ 255` bytes it appends the low 3 bytes of `S`, the byte
`0x80 | ((S >> 24) & 0xFF)`, `metric / metricN` as 4 little-endian bytes
(`metricN = 10 (n + 1)` is not zero), the byte `n` and the `n` response bytes.
In both cases `traceLen` grows by exactly `9 + n`; a pass that completes no
frame, or a reader frame before the trigger, leaves the trace unchanged. -/
theorem C18_snoop_record_format (d0 : Demod) (receivedCmd receivedResponse : Int → Nat)
    (l : List (Int × Int)) (ci cq : Int) (s : Snoop)
    (hs : snoopFeed (snoopInit d0 receivedCmd receivedResponse) l = s)
    (hrun : s.stopped = false) :
    (∀ n, (snoopStep s ci cq).reader = some n → s.triggered = true →
      (s.trace.length : Int) + (9 + n) ≤ 1024 →
      0 ≤ n ∧ n < 100 ∧ (snoopStep s ci cq).tag = none ∧
      (snoopStep s ci cq).snoop.trace
        = s.trace ++ (le32 (s.samples + 2) ++ [0, 0, 0, 0] ++ [n.toNat]
            ++ bufferPrefix (snoopStep s ci cq).snoop.uart.output n.toNat) ∧
      ((snoopStep s ci cq).snoop.trace.length : Int) = s.trace.length + (9 + n)) ∧
    (∀ n, (snoopStep s ci cq).tag = some n → n ≤ 255 →
      0 ≤ n ∧ (snoopStep s ci cq).reader = none ∧
      (Handle14443SamplesDemod s.demod ci cq).demod.metricN = 10 * (n + 1) ∧
      (snoopStep s ci cq).snoop.trace
        = s.trace ++ ([((s.samples + 2) % 256).toNat, ((s.samples + 2) / 256 % 256).toNat,
              ((s.samples + 2) / 65536 % 256).toNat,
              0x80 ||| ((s.samples + 2) / 16777216 % 256).toNat]
            ++ le32 ((Handle14443SamplesDemod s.demod ci cq).demod.metric
                / (Handle14443SamplesDemod s.demod ci cq).demod.metricN)
            ++ [n.toNat]
            ++ bufferPrefix (snoopStep s ci cq).snoop.demod.output n.toNat) ∧
      ((snoopStep s ci cq).snoop.trace.length : Int) = s.trace.length + (9 + n)) ∧
    (∀ n, (snoopStep s ci cq).reader = some n → s.triggered = false →
      (snoopStep s ci cq).snoop.trace = s.trace) ∧
    ((snoopStep s ci cq).reader = none → (snoopStep s ci cq).tag = none →
      (snoopStep s ci cq).snoop.trace = s.trace) := by
  have hinv : SnoopInv s := by
    rw [← hs]
    exact snoopInv_feed l _ (snoopInv_init d0 receivedCmd receivedResponse)
  obtain ⟨h1, h2, h3, _⟩ := snoopStep_records s ci cq hinv hrun
  refine ⟨?_, ?_, ?_, fun hr ht => (h3 hr ht).1⟩
  · intro n hn htr _
    obtain ⟨h0, h100, htag, _, htrace⟩ := h1 n hn
    rw [if_pos htr] at htrace
    have hmod : n.toNat % 256 = n.toNat := by omega
    refine ⟨h0, h100, htag, ?_, ?_⟩
    · rw [htrace, readerRecord, length_bufferPrefix, hmod]
    · rw [htrace, List.length_append, length_readerRecord, length_bufferPrefix]
      push_cast
      rw [Int.toNat_of_nonneg h0]
  · intro n hn h255
    obtain ⟨h0, hrd, _, _, hN, _, htrace⟩ := h2 n hn
    have hmod : n.toNat % 256 = n.toNat := by omega
    refine ⟨h0, hrd, hN, ?_, ?_⟩
    · rw [htrace, tagRecord, length_bufferPrefix, hmod]
    · rw [htrace, List.length_append, length_tagRecord, length_bufferPrefix]
      push_cast
      rw [Int.toNat_of_nonneg h0]
  · intro n hn htr
    obtain ⟨_, _, _, _, htrace⟩ := h1 n hn
    rw [htrace, if_neg (by simp [htr])]

theorem tagRecord_length_byte (S avg : Int) (resp : List Nat) :
    (tagRecord S avg resp)[8]? = some (resp.length % 256) := by
  simp [tagRecord, le32]

/-- C18 counterexample: a tag frame of 256 zero bytes on a carrier of amplitude
50, from the start of a snoop run. The frame completes with `n = 256`, the
record has `9 + 256` bytes, and its length byte, the byte at index 8, is 0:
`Demod.len` is stored in a `BYTE`. -/
theorem C18_counterexample :
    (snoopStep (snoopFeed (snoopInit demodReset (fun _ => 0x44) (fun _ => 0x44))
      (tagFrameHead 50 (List.replicate 256 0))) (-50) 0).tag = some 256 ∧
    (snoopFeed (snoopInit demodReset (fun _ => 0x44) (fun _ => 0x44))
      (tagFrameSamples 50 (List.replicate 256 0))).trace.length = 9 + 256 ∧
    (snoopFeed (snoopInit demodReset (fun _ => 0x44) (fun _ => 0x44))
      (tagFrameSamples 50 (List.replicate 256 0))).trace[8]? = some 0 := by
  have hB : ∀ b ∈ List.replicate 256 0, b < 256 := by
    intro b hb
    rw [List.eq_of_mem_replicate hb]
    decide
  obtain ⟨u1, hi1, hfeed⟩ := snoop_tag_head 50 (by decide) (by decide) (List.replicate 256 0) hB
    (snoopInit demodReset (fun _ => 0x44) (fun _ => 0x44)) rfl (Or.inl rfl) rfl
  have hdone := (snoop_tag_done 50 (by decide) (by decide) false []
    ((0 : Int) + 2 * (83 + 20 * ((List.replicate 256 0).length : Int))) u1 hi1
    (List.replicate 256 0) (fun _ => 0x44)).1
  obtain ⟨s2, hs2, htr, -⟩ := snoop_tag_frame 50 (by decide) (by decide)
    (List.replicate 256 0) hB
    (snoopInit demodReset (fun _ => 0x44) (fun _ => 0x44)) rfl (Or.inl rfl) rfl
  have hnil : (snoopInit demodReset (fun _ => 0x44) (fun _ => 0x44)).trace = [] := rfl
  rw [hnil, List.nil_append] at htr
  refine ⟨?_, ?_, ?_⟩
  · rw [hfeed]
    refine hdone.trans ?_
    rw [List.length_replicate]
    rfl
  · rw [hs2, htr, length_tagRecord, List.length_replicate]
  · rw [hs2, htr, tagRecord_length_byte, List.length_replicate]

/-- C18 witness: the run over the head of the one-byte tag frame `5A` on a
carrier of amplitude 50, and the pass on the pair `(-50, 0)` that completes
it: the record is 10 bytes long. -/
theorem C18_snoop_record_format_witness :
    (snoopFeed (snoopInit demodReset (fun _ => 0x44) (fun _ => 0x44))
      (tagFrameHead 50 [0x5A])).stopped = false ∧
    (snoopStep (snoopFeed (snoopInit demodReset (fun _ => 0x44) (fun _ => 0x44))
      (tagFrameHead 50 [0x5A])) (-50) 0).tag = some 1 ∧
    ((snoopStep (snoopFeed (snoopInit demodReset (fun _ => 0x44) (fun _ => 0x44))
      (tagFrameHead 50 [0x5A])) (-50) 0).snoop.trace.length : Int)
      = (snoopFeed (snoopInit demodReset (fun _ => 0x44) (fun _ => 0x44))
          (tagFrameHead 50 [0x5A])).trace.length + (9 + 1) := by
  obtain ⟨u1, hi1, hfeed⟩ := snoop_tag_head 50 (by decide) (by decide) [0x5A] (by decide)
    (snoopInit demodReset (fun _ => 0x44) (fun _ => 0x44)) rfl (Or.inl rfl) rfl
  have hdone := (snoop_tag_done 50 (by decide) (by decide) false []
    ((0 : Int) + 2 * (83 + 20 * (([0x5A] : List Nat).length : Int))) u1 hi1 [0x5A]
    (fun _ => 0x44)).1
  have hstop : (snoopFeed (snoopInit demodReset (fun _ => 0x44) (fun _ => 0x44))
      (tagFrameHead 50 [0x5A])).stopped = false := by rw [hfeed]
  have htag : (snoopStep (snoopFeed (snoopInit demodReset (fun _ => 0x44) (fun _ => 0x44))
      (tagFrameHead 50 [0x5A])) (-50) 0).tag = some 1 := by
    rw [hfeed]
    exact hdone
  exact ⟨hstop, htag,
    ((C18_snoop_record_format demodReset (fun _ => 0x44) (fun _ => 0x44)
      (tagFrameHead 50 [0x5A]) (-50) 0 _ rfl hstop).2.1 1 htag (by norm_num)).2.2.2.2⟩

/-! ## Snoop: order of the records -/

theorem snoopUartBit_stopped (s : Snoop) (bit : Int) (h : s.stopped = true) :
    (snoopUartBit s bit).stopped = true := by
  simp only [snoopUartBit, HANDLE_BIT_IF_BODY]
  split_ifs <;> simp [h]

/-- One pass keeps what is in the trace, keeps the trigger, and adds two to
the sample count. -/
theorem snoopStep_mono (s : Snoop) (ci cq : Int) (hinv : SnoopInv s) (hs : s.stopped = false) :
    (∃ ext, (snoopStep s ci cq).snoop.trace = s.trace ++ ext) ∧
    (s.triggered = true → (snoopStep s ci cq).snoop.stopped = false →
      (snoopStep s ci cq).snoop.triggered = true) ∧
    (snoopStep s ci cq).snoop.samples = s.samples + 2 := by
  obtain ⟨h1, h2, h3, h4⟩ := snoopStep_records s ci cq hinv hs
  refine ⟨?_, ?_, h4⟩
  · cases hrd : (snoopStep s ci cq).reader with
    | some n =>
      obtain ⟨_, _, _, _, htr⟩ := h1 n hrd
      rw [htr]
      split_ifs
      · exact ⟨_, rfl⟩
      · exact ⟨[], by simp⟩
    | none =>
      cases htg : (snoopStep s ci cq).tag with
      | some n =>
        obtain ⟨_, _, _, _, _, _, htr⟩ := h2 n htg
        exact ⟨_, htr⟩
      | none => exact ⟨[], by rw [(h3 hrd htg).1]; simp⟩
  · intro ht hgo
    cases hrd : (snoopStep s ci cq).reader with
    | some n =>
      obtain ⟨_, _, _, htr, _⟩ := h1 n hrd
      rw [htr, ht]
    | none =>
      cases htg : (snoopStep s ci cq).tag with
      | some n =>
        obtain ⟨_, _, _, _, _, htr, _⟩ := h2 n htg
        exact htr hgo
      | none => rw [(h3 hrd htg).2.1, ht]

/-- A run that is still going has kept the trace and the trigger of the state
it started from, and its sample count has not gone down. -/
theorem snoopFeed_mono (l : List (Int × Int)) : ∀ (s : Snoop), SnoopInv s →
    (snoopFeed s l).stopped = false →
    s.stopped = false ∧ (∃ ext, (snoopFeed s l).trace = s.trace ++ ext) ∧
    (s.triggered = true → (snoopFeed s l).triggered = true) ∧
    s.samples ≤ (snoopFeed s l).samples := by
  induction l with
  | nil =>
    intro s _ hgo
    exact ⟨hgo, ⟨[], by simp [snoopFeed]⟩, fun h => h, le_refl _⟩
  | cons p ps ih =>
    intro s hinv hgo
    have hs : s.stopped = false := by
      by_contra hc
      rw [snoopFeed_stopped _ s (by simpa using hc)] at hgo
      exact hc hgo
    rw [snoopFeed, if_neg (by simp [hs])] at hgo ⊢
    obtain ⟨hs', ⟨ext2, he2⟩, ht2, hsm2⟩ := ih _ (snoopInv_step s p.1 p.2 hinv) hgo
    obtain ⟨⟨ext1, he1⟩, ht1, hsm1⟩ := snoopStep_mono s p.1 p.2 hinv hs
    refine ⟨hs, ⟨ext1 ++ ext2, by rw [he2, he1, List.append_assoc]⟩,
      fun h => ht2 (ht1 h hs'), ?_⟩
    rw [hsm1] at hsm2
    omega

/-- C20 (as the code has it). Snoop frame ordering: in every snoop run, once
the recording has been triggered (a tag frame has completed earlier), if a
reader frame of `n1` bytes completes at sample count `S1` and later in the same
run, the loop still going, a tag frame of `n2` bytes completes at sample count
`S2`, then `S1 < S2` and the trace holds what it held before, the reader record
with time stamp `S1`, whatever was recorded in between, and the tag record with
time stamp `S2`, in that order. -/
theorem C20_snoop_frame_order (d0 : Demod) (receivedCmd receivedResponse : Int → Nat)
    (l1 l2 : List (Int × Int)) (ci1 cq1 ci2 cq2 : Int) (n1 n2 : Int) (s1 s2 : Snoop)
    (e1 : snoopFeed (snoopInit d0 receivedCmd receivedResponse) l1 = s1)
    (hs1 : s1.stopped = false) (htrig : s1.triggered = true)
    (hr : (snoopStep s1 ci1 cq1).reader = some n1)
    (e2 : snoopFeed (snoopStep s1 ci1 cq1).snoop l2 = s2)
    (hs2 : s2.stopped = false)
    (ht : (snoopStep s2 ci2 cq2).tag = some n2) :
    s1.samples + 2 < s2.samples + 2 ∧
    snoopFeed (snoopInit d0 receivedCmd receivedResponse) (l1 ++ (ci1, cq1) :: (l2 ++ [(ci2, cq2)]))
      = (snoopStep s2 ci2 cq2).snoop ∧
    ∃ (cmd resp : List Nat) (avg : Int) (mid : List Nat),
      (cmd.length : Int) = n1 ∧ (resp.length : Int) = n2 ∧
      (snoopStep s2 ci2 cq2).snoop.trace
        = s1.trace ++ readerRecord (s1.samples + 2) cmd ++ mid
            ++ tagRecord (s2.samples + 2) avg resp := by
  have hinv1 : SnoopInv s1 := by
    rw [← e1]
    exact snoopInv_feed l1 _ (snoopInv_init d0 receivedCmd receivedResponse)
  have hinvr := snoopInv_step s1 ci1 cq1 hinv1
  have hinv2 : SnoopInv s2 := by
    rw [← e2]
    exact snoopInv_feed l2 _ hinvr
  obtain ⟨hn1, _, _, _, htr1⟩ := (snoopStep_records s1 ci1 cq1 hinv1 hs1).1 n1 hr
  rw [if_pos htrig] at htr1
  have hgo2 : (snoopFeed (snoopStep s1 ci1 cq1).snoop l2).stopped = false := by
    rw [e2]
    exact hs2
  obtain ⟨hsr, ⟨mid, hmid⟩, _, hsm⟩ := snoopFeed_mono l2 _ hinvr hgo2
  rw [e2] at hmid hsm
  obtain ⟨hn2, _, _, _, _, _, htr2⟩ := (snoopStep_records s2 ci2 cq2 hinv2 hs2).2.1 n2 ht
  have hsmr := (snoopStep_mono s1 ci1 cq1 hinv1 hs1).2.2
  refine ⟨by omega, ?_, bufferPrefix (snoopStep s1 ci1 cq1).snoop.uart.output n1.toNat,
    bufferPrefix (snoopStep s2 ci2 cq2).snoop.demod.output n2.toNat,
    (Handle14443SamplesDemod s2.demod ci2 cq2).demod.metric
      / (Handle14443SamplesDemod s2.demod ci2 cq2).demod.metricN, mid, ?_, ?_, ?_⟩
  · rw [snoopFeed_append, e1, snoopFeed, if_neg (by simp [hs1]), snoopFeed_append, e2,
      snoopFeed, if_neg (by simp [hs2]), snoopFeed]
  · rw [length_bufferPrefix]
    exact Int.toNat_of_nonneg hn1
  · rw [length_bufferPrefix]
    exact Int.toNat_of_nonneg hn2
  · rw [htr2, hmid, htr1]

/-- C20 counterexample: from the set-up, the reader frame `06 00` completes at
sample count 332 and the tag frame `5A` completes at sample count 540. The
recording is not triggered before the tag frame, so the reader frame is not
recorded: the trace is the 10 bytes of the tag record and holds no reader
record with time stamp 332. -/
theorem C20_counterexample :
    (snoopStep (snoopFeed snoopStart (readerFrameHead [0x06, 0x00])) 0 0).reader = some 2 ∧
    (snoopFeed snoopStart (readerFrameHead [0x06, 0x00])).samples + 2 = 332 ∧
    ∃ s2, snoopFeed snoopStart (readerFrameHead [0x06, 0x00] ++ (0, 0) :: tagFrameHead 50 [0x5A])
        = s2 ∧
      s2.stopped = false ∧ (snoopStep s2 (-50) 0).tag = some 1 ∧ s2.samples + 2 = 540 ∧
      (snoopStep s2 (-50) 0).snoop.trace = tagRecord 540 100 [0x5A] ∧
      ¬ ∃ (pre cmd post : List Nat), cmd.length = 2 ∧
        (snoopStep s2 (-50) 0).snoop.trace = pre ++ readerRecord 332 cmd ++ post := by
  have e0 : snoopStart
      = ⟨false, [], 0, ⟨.STATE_UNSYNCD, 0, 0, 0, 100, 0, fun _ => 0x44⟩, demodReset, false⟩ := rfl
  have h1 := snoop_reader_head [0x06, 0x00] (by decide) false [] 0 0 0 0 100 0 (fun _ => 0x44)
    demodReset rfl (by decide)
  have h2 := snoop_reader_done_untriggered [] 330 2 100 (storeList (fun _ => 0x44) 0 [0x06, 0x00])
    demodReset
  obtain ⟨u1, hi1, h3⟩ := snoop_tag_head 50 (by decide) (by decide) [0x5A] (by decide)
    ⟨false, [], 332, ⟨.STATE_GOT_FALLING_EDGE_OF_SOF, 0, 0, 0, 100, 0,
      storeList (fun _ => 0x44) 0 [0x06, 0x00]⟩, demodSnoopReset demodReset, false⟩ rfl
    (Or.inr (Or.inl rfl)) rfl
  obtain ⟨h4, _, s3, hs3, htr3, _, _, _, _⟩ := snoop_tag_done 50 (by decide) (by decide) false []
    538 u1 hi1 [0x5A] (demodSnoopReset demodReset).output
  have hfeed1 : snoopFeed snoopStart (readerFrameHead [0x06, 0x00])
      = ⟨false, [], 330, ⟨.STATE_RECEIVING_DATA, 0, 9, 2, 100, 1,
          storeList (fun _ => 0x44) 0 [0x06, 0x00]⟩, demodReset, false⟩ := by
    rw [e0]
    exact h1
  have hfeed2 : snoopFeed snoopStart
      (readerFrameHead [0x06, 0x00] ++ (0, 0) :: tagFrameHead 50 [0x5A])
      = ⟨false, [], 538, u1,
          ⟨.DEMOD_RECEIVING_DATA, 9, 1, -50, 20 * 50 * 1 + 18 * 50, 10 * 1 + 9, 0,
            storeList (demodSnoopReset demodReset).output 0 [0x5A], 1, 8 * 50, 0⟩, false⟩ := by
    rw [snoopFeed_append, hfeed1, snoopFeed, if_neg (by simp), h2]
    exact h3
  have hs3' : (snoopStep ⟨false, [], 538, u1,
      ⟨.DEMOD_RECEIVING_DATA, 9, 1, -50, 20 * 50 * 1 + 18 * 50, 10 * 1 + 9, 0,
        storeList (demodSnoopReset demodReset).output 0 [0x5A], 1, 8 * 50, 0⟩, false⟩
      (-50) 0).snoop = s3 := hs3
  refine ⟨by rw [hfeed1, h2], by rw [hfeed1]; rfl, _, hfeed2, rfl, h4, rfl, ?_, ?_⟩
  · rw [hs3', htr3]
    rfl
  · rintro ⟨pre, cmd, post, hc, htr⟩
    rw [hs3', htr3] at htr
    have := congrArg List.length htr
    simp only [List.nil_append, List.length_append, length_tagRecord, length_readerRecord, hc,
      List.length_cons, List.length_nil] at this
    omega

/-- C20 witness: from the set-up, the tag frame `01 02 03 04 05 06` triggers the
recording, then the reader frame `06 00` completes at sample count 740 and the
tag frame `5A` at sample count 948. -/
theorem C20_snoop_frame_order_witness :
    ∃ s1 s2,
      snoopFeed snoopStart (tagFrameSamples 50 [1, 2, 3, 4, 5, 6] ++ readerFrameHead [0x06, 0x00])
        = s1 ∧
      s1.stopped = false ∧ s1.triggered = true ∧ (snoopStep s1 0 0).reader = some 2 ∧
      snoopFeed (snoopStep s1 0 0).snoop (tagFrameHead 50 [0x5A]) = s2 ∧
      s2.stopped = false ∧ (snoopStep s2 (-50) 0).tag = some 1 ∧
      s1.samples + 2 = 740 ∧ s2.samples + 2 = 948 ∧
      ∃ (cmd resp : List Nat) (avg : Int) (mid : List Nat),
        (cmd.length : Int) = 2 ∧ (resp.length : Int) = 1 ∧
        (snoopStep s2 (-50) 0).snoop.trace
          = s1.trace ++ readerRecord (s1.samples + 2) cmd ++ mid
              ++ tagRecord (s2.samples + 2) avg resp := by
  have e0 : snoopStart
      = ⟨false, [], 0, ⟨.STATE_UNSYNCD, 0, 0, 0, 100, 0, fun _ => 0x44⟩,
          ⟨.DEMOD_UNSYNCD, 0, 0, 0, 0, 0, 0, fun _ => 0x44, 0, 0, 0⟩, false⟩ := rfl
  have hq : UartQuiet ⟨.STATE_UNSYNCD, 0, 0, 0, 100, 0, fun _ => 0x44⟩
      (List.replicate (2 * (83 + 20 * ([1, 2, 3, 4, 5, 6] : List Nat).length)) 0 ++ [0, 0])
      ⟨.STATE_UNSYNCD, 0, 15, 0, 100, 11, fun _ => 0x44⟩ := by
    have h := uart_zero_cycles 5 0 0 0 100 0 (fun _ => 0x44)
    have e : List.replicate (2 * (83 + 20 * ([1, 2, 3, 4, 5, 6] : List Nat).length)) (0 : Int)
        ++ [0, 0] = List.replicate (68 * (5 + 1)) 0 :=
      (List.replicate_add 406 2 (0 : Int)).symm
    rw [e]
    exact h
  have hX1 := snoop_tag_frame_exact 50 (by decide) (by decide) [1, 2, 3, 4, 5, 6] (by decide)
    false [] 0 _ _ 0 0 0 0 0 0 (fun _ => 0x44) 0 0 0 hq (by decide)
  have hs1 := snoop_reader_head [0x06, 0x00] (by decide) true
    ([] ++ tagRecord (0 + 2 * (84 + 20 * (([1, 2, 3, 4, 5, 6] : List Nat).length : Int))) (2 * 50)
      [1, 2, 3, 4, 5, 6]) 408 0 15 0 100 11 (fun _ => 0x44)
    ⟨.DEMOD_UNSYNCD, 0, 0, 0, 0, 0, 0, storeList (fun _ => 0x44) 0 [1, 2, 3, 4, 5, 6], 0, 0, 0⟩
    rfl (by decide)
  have hfeed1 : snoopFeed snoopStart
      (tagFrameSamples 50 [1, 2, 3, 4, 5, 6] ++ readerFrameHead [0x06, 0x00])
      = ⟨true, [] ++ tagRecord (0 + 2 * (84 + 20 * (([1, 2, 3, 4, 5, 6] : List Nat).length : Int)))
            (2 * 50) [1, 2, 3, 4, 5, 6], 738,
          ⟨.STATE_RECEIVING_DATA, 0, 9, 2, 100, 1, storeList (fun _ => 0x44) 0 [0x06, 0x00]⟩,
          ⟨.DEMOD_UNSYNCD, 0, 0, 0, 0, 0, 0, storeList (fun _ => 0x44) 0 [1, 2, 3, 4, 5, 6],
            0, 0, 0⟩, false⟩ := by
    rw [snoopFeed_append, e0, hX1]
    exact hs1
  have hdone := snoop_reader_done_triggered
    ([] ++ tagRecord (0 + 2 * (84 + 20 * (([1, 2, 3, 4, 5, 6] : List Nat).length : Int))) (2 * 50)
      [1, 2, 3, 4, 5, 6]) 738 100 [0x06, 0x00] (fun _ => 0x44)
    ⟨.DEMOD_UNSYNCD, 0, 0, 0, 0, 0, 0, storeList (fun _ => 0x44) 0 [1, 2, 3, 4, 5, 6], 0, 0, 0⟩
    (by
      rw [List.length_append, length_tagRecord]
      decide)
  obtain ⟨u1, hi1, hfeed2⟩ := snoop_tag_head 50 (by decide) (by decide) [0x5A] (by decide)
    ⟨true, [] ++ tagRecord (0 + 2 * (84 + 20 * (([1, 2, 3, 4, 5, 6] : List Nat).length : Int)))
        (2 * 50) [1, 2, 3, 4, 5, 6] ++ readerRecord (738 + 2) [0x06, 0x00], 738 + 2,
      ⟨.STATE_GOT_FALLING_EDGE_OF_SOF, 0, 0, 0, 100, 0, storeList (fun _ => 0x44) 0 [0x06, 0x00]⟩,
      demodSnoopReset ⟨.DEMOD_UNSYNCD, 0, 0, 0, 0, 0, 0,
        storeList (fun _ => 0x44) 0 [1, 2, 3, 4, 5, 6], 0, 0, 0⟩, false⟩ rfl
    (Or.inr (Or.inl rfl)) rfl
  have htag := (snoop_tag_done 50 (by decide) (by decide) true
    ([] ++ tagRecord (0 + 2 * (84 + 20 * (([1, 2, 3, 4, 5, 6] : List Nat).length : Int)))
        (2 * 50) [1, 2, 3, 4, 5, 6] ++ readerRecord (738 + 2) [0x06, 0x00])
    (738 + 2 + 2 * (83 + 20 * (([0x5A] : List Nat).length : Int))) u1 hi1 [0x5A]
    (storeList (fun _ => 0x44) 0 [1, 2, 3, 4, 5, 6])).1
  have hr : (snoopStep (snoopFeed snoopStart
      (tagFrameSamples 50 [1, 2, 3, 4, 5, 6] ++ readerFrameHead [0x06, 0x00])) 0 0).reader
      = some 2 := by
    rw [hfeed1]
    exact congrArg SnoopResult.reader hdone
  have hsn : (snoopStep (snoopFeed snoopStart
      (tagFrameSamples 50 [1, 2, 3, 4, 5, 6] ++ readerFrameHead [0x06, 0x00])) 0 0).snoop
      = ⟨true, [] ++ tagRecord (0 + 2 * (84 + 20 * (([1, 2, 3, 4, 5, 6] : List Nat).length : Int)))
        (2 * 50) [1, 2, 3, 4, 5, 6] ++ readerRecord (738 + 2) [0x06, 0x00], 738 + 2,
      ⟨.STATE_GOT_FALLING_EDGE_OF_SOF, 0, 0, 0, 100, 0, storeList (fun _ => 0x44) 0 [0x06, 0x00]⟩,
      demodSnoopReset ⟨.DEMOD_UNSYNCD, 0, 0, 0, 0, 0, 0,
        storeList (fun _ => 0x44) 0 [1, 2, 3, 4, 5, 6], 0, 0, 0⟩, false⟩ := by
    rw [hfeed1]
    exact congrArg SnoopResult.snoop hdone
  have hs2 : (snoopFeed (snoopStep (snoopFeed snoopStart
      (tagFrameSamples 50 [1, 2, 3, 4, 5, 6] ++ readerFrameHead [0x06, 0x00])) 0 0).snoop
      (tagFrameHead 50 [0x5A])).stopped = false := by
    rw [hsn, hfeed2]
  have ht : (snoopStep (snoopFeed (snoopStep (snoopFeed snoopStart
      (tagFrameSamples 50 [1, 2, 3, 4, 5, 6] ++ readerFrameHead [0x06, 0x00])) 0 0).snoop
      (tagFrameHead 50 [0x5A])) (-50) 0).tag = some 1 := by
    rw [hsn, hfeed2]
    exact htag
  have hst1 : (snoopFeed snoopStart
      (tagFrameSamples 50 [1, 2, 3, 4, 5, 6] ++ readerFrameHead [0x06, 0x00])).stopped = false := by
    rw [hfeed1]
  have htg1 : (snoopFeed snoopStart
      (tagFrameSamples 50 [1, 2, 3, 4, 5, 6] ++ readerFrameHead [0x06, 0x00])).triggered = true := by
    rw [hfeed1]
  have key := C20_snoop_frame_order demodReset (fun _ => 0x44) (fun _ => 0x44)
    (tagFrameSamples 50 [1, 2, 3, 4, 5, 6] ++ readerFrameHead [0x06, 0x00])
    (tagFrameHead 50 [0x5A]) 0 0 (-50) 0 2 1
    (snoopFeed snoopStart (tagFrameSamples 50 [1, 2, 3, 4, 5, 6] ++ readerFrameHead [0x06, 0x00]))
    (snoopFeed (snoopStep (snoopFeed snoopStart
      (tagFrameSamples 50 [1, 2, 3, 4, 5, 6] ++ readerFrameHead [0x06, 0x00])) 0 0).snoop
      (tagFrameHead 50 [0x5A])) rfl hst1 htg1 hr rfl hs2 ht
  refine ⟨_, _, rfl, hst1, htg1, hr, rfl, hs2, ht, ?_, ?_, key.2.2⟩
  · rw [hfeed1]
    rfl
  · rw [hsn, hfeed2]
    rfl

/-! ## Byte count of the modulation buffer -/

theorem toSendInv_readerDataBits (b : Nat) (t : ToSendBuf) (h : ToSendInv t) :
    ToSendInv (readerDataBits b t) := by
  unfold readerDataBits
  refine forLoop_preserves (fun (p : Nat × ToSendBuf) => ToSendInv p.2) _ ?_ 8 (b, t) h
  intro p hp
  show ToSendInv (if p.1 &&& 1 ≠ 0 then ToSendStuffBit 1 p.2 else ToSendStuffBit 0 p.2)
  split_ifs
  · exact toSendInv_stuff 1 _ hp
  · exact toSendInv_stuff 0 _ hp

theorem toSendInv_readerByte (t : ToSendBuf) (b : Nat) (h : ToSendInv t) :
    ToSendInv (readerByte t b) :=
  toSendInv_readerDataBits b _ (toSendInv_stuff 0 _ (toSendInv_stuff 1 _ (toSendInv_stuff 1 _ h)))

theorem toSendInv_foldl_readerByte (B : List Nat) : ∀ t, ToSendInv t →
    ToSendInv (B.foldl readerByte t) := by
  induction B with
  | nil => intro t h; exact h
  | cons b bs ih => intro t h; exact ih _ (toSendInv_readerByte t b h)

theorem length_bits_CodeIso14443bAsReader (B : List Nat) :
    (CodeIso14443bAsReader B).bits.length = 93 + 11 * B.length := by
  rw [bits_CodeIso14443bAsReader, readerLayout]
  simp only [List.length_append, List.length_replicate, List.length_singleton]
  rw [length_flatMap_const _ 11 (by intro a; simp [lsbBits])]
  omega

theorem length_bits_CodeIso14443bAsTag (B : List Nat) :
    (CodeIso14443bAsTag B).bits.length = 208 + 40 * B.length := by
  rw [bits_CodeIso14443bAsTag, tagLayout]
  simp only [List.length_append, List.length_replicate]
  rw [length_flatMap_const _ 40 (by
    intro a
    simp only [List.length_append, List.length_replicate]
    rw [length_flatMap_const _ 4 (by intro x; simp), length_lsbBits])]
  omega

/-- The byte count `CodeIso14443bAsReader` leaves in `ToSendMax`: the index of
the last byte in use plus one, with no slop. -/
theorem ToSendMax_CodeIso14443bAsReader (B : List Nat) :
    (CodeIso14443bAsReader B).ToSendMax = (92 + 11 * (B.length : Int)) / 8 + 1 := by
  have hlen := length_bits_CodeIso14443bAsReader B
  have hinv : ToSendInv (forLoop 24 (ToSendStuffBit 1) (forLoop 8 (ToSendStuffBit 1)
      (forLoop 10 (ToSendStuffBit 0) (ToSendStuffBit 1
        (B.foldl readerByte (forLoop 10 (ToSendStuffBit 0)
          (forLoop 40 (ToSendStuffBit 1) ToSendReset))))))) := by
    refine forLoop_preserves ToSendInv _ (toSendInv_stuff 1) _ _ ?_
    refine forLoop_preserves ToSendInv _ (toSendInv_stuff 1) _ _ ?_
    refine forLoop_preserves ToSendInv _ (toSendInv_stuff 0) _ _ ?_
    refine toSendInv_stuff 1 _ ?_
    refine toSendInv_foldl_readerByte B _ ?_
    refine forLoop_preserves ToSendInv _ (toSendInv_stuff 0) _ _ ?_
    exact forLoop_preserves ToSendInv _ (toSendInv_stuff 1) _ _ toSendInv_reset
  simp only [CodeIso14443bAsReader] at hlen ⊢
  rw [hinv.1, hlen]
  push_cast
  omega

/-- C22. Byte count of the modulation buffer. After `CodeIso14443bAsTag`,
`ToSendMax` is the number of stuffed bits divided by eight plus the slop of 2,
that is `28 + 5 * |B|`. After `CodeIso14443bAsReader`, which adds no slop,
`ToSendMax` is the number of stuffed bits divided by eight and rounded up,
`(92 + 11 * |B|) / 8 + 1`, which is less than the bits divided by eight plus
2. -/
theorem C22_byte_count (B : List Nat) :
    (CodeIso14443bAsTag B).ToSendMax = ((CodeIso14443bAsTag B).bits.length : Int) / 8 + 2 ∧
    (CodeIso14443bAsTag B).ToSendMax = 28 + 5 * (B.length : Int) ∧
    (CodeIso14443bAsReader B).ToSendMax
      = (((CodeIso14443bAsReader B).bits.length : Int) + 7) / 8 ∧
    (CodeIso14443bAsReader B).ToSendMax = (92 + 11 * (B.length : Int)) / 8 + 1 ∧
    (CodeIso14443bAsReader B).ToSendMax
      < ((CodeIso14443bAsReader B).bits.length : Int) / 8 + 2 := by
  rw [ToSendMax_CodeIso14443bAsTag, ToSendMax_CodeIso14443bAsReader,
    length_bits_CodeIso14443bAsTag, length_bits_CodeIso14443bAsReader]
  push_cast
  refine ⟨by omega, rfl, by omega, rfl, by omega⟩

/-- C22, counterexample. The reader coder on the empty frame stuffs 93 bits and
leaves `ToSendMax = 12`, not `93 / 8 + 2 = 13`. -/
theorem C22_counterexample :
    (CodeIso14443bAsReader []).bits.length = 93 ∧
    (CodeIso14443bAsReader []).ToSendMax = 12 ∧
    ¬ ((CodeIso14443bAsReader []).ToSendMax
        = ((CodeIso14443bAsReader []).bits.length : Int) / 8 + 2) := by
  rw [ToSendMax_CodeIso14443bAsReader, length_bits_CodeIso14443bAsReader]
  simp

/-! ## The frame limit of the emulator -/

theorem matchesCmd1_commandOf : matchesCmd1 (commandOf cmd1) = true := by decide

theorem simLoop_waiting (cs : List Command) (hcs : ∀ c ∈ cs, matchesCmd1 c = true)
    (hlen : cs.length ≤ 0x30) :
    SimulateIso14443Tag (cs.map some)
      = ⟨List.replicate cs.length (SimEvent.stream (CodeIso14443bAsTag response1) 99),
          cs.length, false⟩ := by
  have hrun := simLoop_run cs [] 0 [] hcs (by
    have : (cs.length : Int) ≤ 0x30 := by exact_mod_cast hlen
    omega)
  simp only [zero_add, List.nil_append, List.append_nil] at hrun
  rw [SimulateIso14443Tag, hrun, simLoop]

/-- C23. Frame limit of the emulator, with query frames only and no button
press. While at most `0x30` frames have been received the function has not
returned: every frame was answered and the counter is the number of frames.
The frame that takes the counter to `0x31` ends the main loop: it is not
answered, "many commands later..." is logged, and what follows it is not
read. -/
theorem C23_frame_limit (cs : List Command) (hcs : ∀ c ∈ cs, matchesCmd1 c = true) :
    (cs.length ≤ 0x30 →
      SimulateIso14443Tag (cs.map some)
        = ⟨List.replicate cs.length (SimEvent.stream (CodeIso14443bAsTag response1) 99),
            cs.length, false⟩) ∧
    (0x31 ≤ cs.length → ∀ rest : List (Option Command),
      SimulateIso14443Tag (cs.map some ++ rest)
        = ⟨List.replicate 0x30 (SimEvent.stream (CodeIso14443bAsTag response1) 99)
            ++ [SimEvent.str "many commands later..."], 0x31, true⟩) := by
  refine ⟨simLoop_waiting cs hcs, fun hlen rest => ?_⟩
  obtain ⟨c, tl, hdrop⟩ : ∃ c tl, cs.drop 0x30 = c :: tl := by
    cases hd : cs.drop 0x30 with
    | nil =>
      have := congrArg List.length hd
      simp only [List.length_drop, List.length_nil] at this
      omega
    | cons c tl => exact ⟨c, tl, rfl⟩
  have hsplit : cs = cs.take 0x30 ++ c :: tl := by
    rw [← hdrop, List.take_append_drop]
  have hc : matchesCmd1 c = true := hcs c (by rw [hsplit]; simp)
  have htake : (cs.take 0x30).length = 0x30 := by
    rw [List.length_take]
    omega
  have hrun := simLoop_run (cs.take 0x30) (some c :: (tl.map some ++ rest)) 0 []
    (fun c' h' => hcs c' (List.mem_of_mem_take h')) (by rw [htake]; norm_num)
  rw [htake, simLoop_limit _ _ _ _ hc (by norm_num)] at hrun
  have hin : cs.map some ++ rest
      = (cs.take 0x30).map some ++ some c :: (tl.map some ++ rest) := by
    conv_lhs => rw [hsplit]
    simp
  rw [SimulateIso14443Tag, hin, hrun]
  rfl

theorem C23_frame_limit_witness :
    (∀ c ∈ List.replicate 0x31 (commandOf cmd1), matchesCmd1 c = true) ∧
    SimulateIso14443Tag ((List.replicate 0x31 (commandOf cmd1)).map some ++ [none])
      = ⟨List.replicate 0x30 (SimEvent.stream (CodeIso14443bAsTag response1) 99)
          ++ [SimEvent.str "many commands later..."], 0x31, true⟩ :=
  have hm : ∀ c ∈ List.replicate 0x31 (commandOf cmd1), matchesCmd1 c = true :=
    fun c hc => by rw [List.eq_of_mem_replicate hc]; exact matchesCmd1_commandOf
  ⟨hm, (C23_frame_limit (List.replicate 0x31 (commandOf cmd1)) hm).2
    (by rw [List.length_replicate]) [none]⟩

/-- C23, counterexample. After exactly `0x30` query frames the counter is
`0x30` and the main loop has not ended: the emulator is waiting for the next
frame. -/
theorem C23_counterexample :
    (∀ c ∈ List.replicate 0x30 (commandOf cmd1), matchesCmd1 c = true) ∧
    (SimulateIso14443Tag ((List.replicate 0x30 (commandOf cmd1)).map some)).cmdsRecvd = 0x30 ∧
    (SimulateIso14443Tag ((List.replicate 0x30 (commandOf cmd1)).map some)).exited = false := by
  have hm : ∀ c ∈ List.replicate 0x30 (commandOf cmd1), matchesCmd1 c = true :=
    fun c hc => by rw [List.eq_of_mem_replicate hc]; exact matchesCmd1_commandOf
  have h := simLoop_waiting (List.replicate 0x30 (commandOf cmd1)) hm
    (by rw [List.length_replicate])
  rw [List.length_replicate] at h
  rw [h]
  exact ⟨hm, rfl, rfl⟩

/-! ## SOF detection of the reader UART -/

theorem uart_sof_long :
    uartFeed uartReset (List.replicate 58 0)
      = ⟨.STATE_GOT_FALLING_EDGE_OF_SOF, 0, 14, 0, 100, 1, fun _ => 0x44⟩ := by
  simp [uartFeed, Handle14443UartBit, List.replicate, uartReset]

/-- One call in GOT_FALLING_EDGE_OF_SOF, case by case. The call never returns
TRUE and stores nothing. At a sample slot (the call that takes
`posCnt` to 2) with the input bit 1 it moves to AWAITING_START_BIT, with
`posCnt` and `byteCnt` zeroed, if `10 ≤ bitCnt < 14`, and to ERROR_WAIT if
`bitCnt < 10` or `bitCnt ≥ 14`; at a sample slot with the input bit 0 it
counts the slot and moves to ERROR_WAIT if that makes more than 14, else
stays; at any other call it counts nothing and stays unless `bitCnt > 14`. -/
theorem uart_sof_step (u : Uart) (bit : Int)
    (hs : u.state = .STATE_GOT_FALLING_EDGE_OF_SOF) :
    (Handle14443UartBit u bit).ret = false ∧ (Handle14443UartBit u bit).write = none ∧
    (u.posCnt + 1 = 2 → bit ≠ 0 →
      (10 ≤ u.bitCnt → u.bitCnt < 14 →
        (Handle14443UartBit u bit).uart.state = .STATE_AWAITING_START_BIT ∧
        (Handle14443UartBit u bit).uart.posCnt = 0 ∧
        (Handle14443UartBit u bit).uart.byteCnt = 0) ∧
      (u.bitCnt < 10 → (Handle14443UartBit u bit).uart.state = .STATE_ERROR_WAIT) ∧
      (14 ≤ u.bitCnt → (Handle14443UartBit u bit).uart.state = .STATE_ERROR_WAIT)) ∧
    (u.posCnt + 1 = 2 → bit = 0 →
      (Handle14443UartBit u bit).uart.bitCnt = u.bitCnt + 1 ∧
      (Handle14443UartBit u bit).uart.state
        = if u.bitCnt + 1 > 14 then .STATE_ERROR_WAIT else .STATE_GOT_FALLING_EDGE_OF_SOF) ∧
    (u.posCnt + 1 ≠ 2 →
      (Handle14443UartBit u bit).uart.bitCnt = u.bitCnt ∧
      (Handle14443UartBit u bit).uart.state
        = if u.bitCnt > 14 then .STATE_ERROR_WAIT else .STATE_GOT_FALLING_EDGE_OF_SOF) := by
  obtain ⟨st, r, bc, byc, mx, pc, out⟩ := u
  simp only at hs
  subst hs
  simp only [Handle14443UartBit]
  refine ⟨trivial, trivial, ?_, ?_, ?_⟩
  · intro hp hb
    simp only [hp, hb, if_true, ne_eq, not_false_eq_true]
    refine ⟨fun h1 h2 => ?_, fun h1 => ?_, fun h1 => ?_⟩
    · have h3 : bc ≥ 10 := h1
      have h4 : ¬ (bc + 1 > 14) := by omega
      simp [h3, h4]
    · have h3 : ¬ (bc ≥ 10) := by omega
      simp [h3]
    · have h3 : bc ≥ 10 := by omega
      have h4 : bc + 1 > 14 := by omega
      simp [h3, h4]
  · intro hp hb
    simp only [hp, hb, if_true, ne_eq, not_true_eq_false, if_false]
    split_ifs <;> simp_all
  · intro hp
    simp only [hp, if_false]
    split_ifs <;> simp_all

/-- A 1 at the sample slot after ten zero slots confirms the SOF. -/
theorem uart_sof_step_ten :
    (uartFeed uartReset (List.replicate 42 0)).state = .STATE_GOT_FALLING_EDGE_OF_SOF ∧
    (Handle14443UartBit (uartFeed uartReset (List.replicate 42 0)) 1).uart.state
      = .STATE_AWAITING_START_BIT := by
  have h : uartFeed uartReset (List.replicate 42 0)
      = ⟨.STATE_GOT_FALLING_EDGE_OF_SOF, 0, 10, 0, 100, 1, fun _ => 0x44⟩ := by
    simp [uartFeed, Handle14443UartBit, List.replicate, uartReset]
  rw [h]
  exact ⟨rfl, ((uart_sof_step
    ⟨.STATE_GOT_FALLING_EDGE_OF_SOF, 0, 10, 0, 100, 1, fun _ => 0x44⟩ 1 rfl).2.2.1
      (by norm_num) (by norm_num)).1 (by norm_num) (by norm_num) |>.1⟩

/-- C24. SOF detection of the reader UART at the edge of the zero limit. After
58 zero inputs from UNSYNCED the UART is in GOT_FALLING_EDGE_OF_SOF at the
call before a sample slot, having counted `bitCnt = 14` zero slots. A 1 at
that slot, with `bitCnt ≥ 10`, sends it to ERROR_WAIT and not to
AWAITING_START_BIT, although no more than 14 zero slots were counted: the slot
of the 1 is counted too and the limit is tested after the SOF was accepted. -/
theorem C24_long_sof_rejected :
    (uartFeed uartReset (List.replicate 58 0)).state = .STATE_GOT_FALLING_EDGE_OF_SOF ∧
    (uartFeed uartReset (List.replicate 58 0)).posCnt + 1 = 2 ∧
    (uartFeed uartReset (List.replicate 58 0)).bitCnt = 14 ∧
    (Handle14443UartBit (uartFeed uartReset (List.replicate 58 0)) 1).uart.state
      = .STATE_ERROR_WAIT ∧
    (Handle14443UartBit (uartFeed uartReset (List.replicate 58 0)) 1).uart.state
      ≠ .STATE_AWAITING_START_BIT := by
  rw [uart_sof_long]
  simp [Handle14443UartBit]

/-! ## The demodulator after the end of frame -/

theorem demod_true_post (d : Demod) (ci cq : Int)
    (h : (Handle14443SamplesDemod d ci cq).ret = true) :
    (Handle14443SamplesDemod d ci cq).demod.state = .DEMOD_RECEIVING_DATA ∧
    (Handle14443SamplesDemod d ci cq).demod.bitCount = 10 := by
  obtain ⟨st, bc, pc, tb, m, mn, r, out, len, si, sq⟩ := d
  cases st <;> simp only [Handle14443SamplesDemod] at h ⊢
  all_goals first
    | (split_ifs at h ⊢ <;> simp_all)
    | simp_all

theorem demod_stuck_feed (l : List (Int × Int)) : ∀ (d : Demod),
    d.state = .DEMOD_RECEIVING_DATA → d.bitCount ≥ 10 →
    (demodFeed d l).state = .DEMOD_RECEIVING_DATA ∧ (demodFeed d l).bitCount ≥ 10 ∧
    (demodFeed d l).len = d.len ∧ (demodFeed d l).output = d.output := by
  induction l with
  | nil => intro d hs hb; exact ⟨hs, hb, rfl, rfl⟩
  | cons p ps ih =>
    intro d hs hb
    obtain ⟨-, -, h2, h3, h4, h5⟩ := demod_stuck_step d p.1 p.2 hs hb
    obtain ⟨i1, i2, i3, i4⟩ := ih _ h2 h3
    rw [demodFeed]
    exact ⟨i1, i2, i3.trans h4, i4.trans h5⟩

/-- C25. A call of `Handle14443SamplesDemod` that returns TRUE leaves the mode
at RECEIVING_DATA. If the caller does not reset the demodulator, then whatever
sample pairs follow, every later call returns FALSE and stores no byte, and
after them the mode is still RECEIVING_DATA with `len` and the output bytes as
the frame left them (the counters being unbounded integers). -/
theorem C25_stuck_after_eof (d : Demod) (ci cq : Int) (l : List (Int × Int))
    (h : (Handle14443SamplesDemod d ci cq).ret = true) :
    (Handle14443SamplesDemod d ci cq).demod.state = .DEMOD_RECEIVING_DATA ∧
    (∀ r ∈ demodReturns (Handle14443SamplesDemod d ci cq).demod l, r = false) ∧
    (demodFeed (Handle14443SamplesDemod d ci cq).demod l).state = .DEMOD_RECEIVING_DATA ∧
    (demodFeed (Handle14443SamplesDemod d ci cq).demod l).len
      = (Handle14443SamplesDemod d ci cq).demod.len ∧
    (demodFeed (Handle14443SamplesDemod d ci cq).demod l).output
      = (Handle14443SamplesDemod d ci cq).demod.output ∧
    (∀ ci2 cq2 : Int,
      (Handle14443SamplesDemod
        (demodFeed (Handle14443SamplesDemod d ci cq).demod l) ci2 cq2).ret = false ∧
      (Handle14443SamplesDemod
        (demodFeed (Handle14443SamplesDemod d ci cq).demod l) ci2 cq2).write = none) := by
  obtain ⟨hs, hb⟩ := demod_true_post d ci cq h
  have hb' : (Handle14443SamplesDemod d ci cq).demod.bitCount ≥ 10 := by omega
  obtain ⟨i1, i2, i3, i4⟩ := demod_stuck_feed l _ hs hb'
  refine ⟨hs, demod_stuck l _ hs hb', i1, i3, i4, fun ci2 cq2 => ?_⟩
  obtain ⟨j1, j2, -⟩ := demod_stuck_step _ ci2 cq2 i1 i2
  exact ⟨j1, j2⟩

theorem C25_stuck_after_eof_witness :
    (Handle14443SamplesDemod
      ⟨.DEMOD_RECEIVING_DATA, 9, 1, -50, 1900, 19, 0, fun _ => 0x44, 1, 400, 0⟩ (-50) 0).ret
      = true ∧
    (demodFeed (Handle14443SamplesDemod
      ⟨.DEMOD_RECEIVING_DATA, 9, 1, -50, 1900, 19, 0, fun _ => 0x44, 1, 400, 0⟩ (-50) 0).demod
      [(50, 0), (50, 0), (-50, 0), (-50, 0)]).state = .DEMOD_RECEIVING_DATA ∧
    (demodFeed (Handle14443SamplesDemod
      ⟨.DEMOD_RECEIVING_DATA, 9, 1, -50, 1900, 19, 0, fun _ => 0x44, 1, 400, 0⟩ (-50) 0).demod
      [(50, 0), (50, 0), (-50, 0), (-50, 0)]).len = 1 :=
  have hret : (Handle14443SamplesDemod
      ⟨.DEMOD_RECEIVING_DATA, 9, 1, -50, 1900, 19, 0, fun _ => 0x44, 1, 400, 0⟩ (-50) 0).ret
      = true := by
    rw [demod_eof_return 50 (by norm_num) _ _ _ _ _ (by norm_num)]
  have key := C25_stuck_after_eof
    ⟨.DEMOD_RECEIVING_DATA, 9, 1, -50, 1900, 19, 0, fun _ => 0x44, 1, 400, 0⟩ (-50) 0
    [(50, 0), (50, 0), (-50, 0), (-50, 0)] hret
  ⟨hret, key.2.2.1, key.2.2.2.1.trans
    (by rw [demod_eof_return 50 (by norm_num) _ _ _ _ _ (by norm_num)])⟩

/-! ## Metric bookkeeping without a reset -/

theorem metricInv_unsynced (d : Demod) (h : d.state = .DEMOD_UNSYNCD) : MetricInv d := by
  simp [MetricInv, h]

theorem metricInv_step (d : Demod) (ci cq : Int) (h : MetricInv d) :
    MetricInv (Handle14443SamplesDemod d ci cq).demod ∧
    ((Handle14443SamplesDemod d ci cq).ret = true →
      (Handle14443SamplesDemod d ci cq).demod.metricN
        = 10 * ((Handle14443SamplesDemod d ci cq).demod.len + 1) ∧
      0 < (Handle14443SamplesDemod d ci cq).demod.metricN) := by
  obtain ⟨st, bc, pc, tb, m, mn, r, out, len, si, sq⟩ := d
  obtain ⟨h1, h2⟩ := h
  simp only at h1 h2
  cases st <;> simp only [Handle14443SamplesDemod, MetricInv]
  all_goals first
    | (split_ifs <;> simp_all <;> omega)
    | simp_all

theorem metricInv_feed (l : List (Int × Int)) : ∀ (d : Demod), MetricInv d →
    MetricInv (demodFeed d l) := by
  induction l with
  | nil => intro d h; exact h
  | cons p ps ih =>
    intro d h
    rw [demodFeed]
    exact ih _ (metricInv_step d p.1 p.2 h).1

theorem metric_nonneg_step (d : Demod) (ci cq : Int) (h : 0 ≤ d.metric) :
    0 ≤ (Handle14443SamplesDemod d ci cq).demod.metric := by
  obtain ⟨st, bc, pc, tb, m, mn, r, out, len, si, sq⟩ := d
  simp only at h
  cases st <;> simp only [Handle14443SamplesDemod]
  all_goals first
    | (split_ifs <;> simp_all <;> omega)
    | simp_all

theorem metric_nonneg_feed (l : List (Int × Int)) : ∀ (d : Demod), 0 ≤ d.metric →
    0 ≤ (demodFeed d l).metric := by
  induction l with
  | nil => intro d h; exact h
  | cons p ps ih =>
    intro d h
    rw [demodFeed]
    exact ih _ (metric_nonneg_step d p.1 p.2 h)

/-- C28. From any UNSYNCED demodulator and after any sample pairs, with no
reset in between: in AWAITING_START_BIT `metricN = 10 * len`, in RECEIVING_DATA
`metricN = 10 * len + bitCount`, in both `metric` is not negative (and at every
point of the run if it was not negative at the start); so a call that reports a
frame leaves `metricN = 10 * (len + 1) > 0`. The same holds at every pass of a
snoop run, where the divisor of `metric / metricN` is therefore never zero. -/
theorem C28_metric_bookkeeping (d0 : Demod) (l : List (Int × Int))
    (h0 : d0.state = .DEMOD_UNSYNCD) :
    ((demodFeed d0 l).state = .DEMOD_AWAITING_START_BIT →
      (demodFeed d0 l).metricN = 10 * (demodFeed d0 l).len ∧ 0 ≤ (demodFeed d0 l).metric) ∧
    ((demodFeed d0 l).state = .DEMOD_RECEIVING_DATA →
      (demodFeed d0 l).metricN = 10 * (demodFeed d0 l).len + (demodFeed d0 l).bitCount ∧
      0 ≤ (demodFeed d0 l).metric) ∧
    (0 ≤ d0.metric → 0 ≤ (demodFeed d0 l).metric) ∧
    (∀ ci cq : Int, (Handle14443SamplesDemod (demodFeed d0 l) ci cq).ret = true →
      (Handle14443SamplesDemod (demodFeed d0 l) ci cq).demod.metricN
        = 10 * ((Handle14443SamplesDemod (demodFeed d0 l) ci cq).demod.len + 1) ∧
      0 < (Handle14443SamplesDemod (demodFeed d0 l) ci cq).demod.metricN) ∧
    (∀ (c r : Int → Nat) (ci cq : Int) (s2 : Snoop),
      s2 = snoopUartBit (snoopUartBit
        { snoopFeed (snoopInit d0 c r) l with
          samples := (snoopFeed (snoopInit d0 c r) l).samples + 2 } (ci % 2)) (cq % 2) →
      s2.stopped = false →
      (Handle14443SamplesDemod s2.demod ci cq).ret = true →
      (Handle14443SamplesDemod s2.demod ci cq).demod.metricN ≠ 0 ∧
      (snoopAverage (Handle14443SamplesDemod s2.demod ci cq).demod).metric
        = Int.tdiv (Handle14443SamplesDemod s2.demod ci cq).demod.metric
            (Handle14443SamplesDemod s2.demod ci cq).demod.metricN) := by
  have hinv := metricInv_feed l d0 (metricInv_unsynced d0 h0)
  refine ⟨fun h => ⟨(hinv.1 h).2.1, (hinv.1 h).2.2⟩, fun h => ⟨(hinv.2 h).2.1, (hinv.2 h).2.2⟩,
    metric_nonneg_feed l d0, fun ci cq h => (metricInv_step _ ci cq hinv).2 h, ?_⟩
  intro c r ci cq s2 hs2 hst hret
  have hs : SnoopInv (snoopFeed (snoopInit d0 c r) l) :=
    snoopInv_feed l _ (snoopInv_init d0 c r)
  have hs0 : SnoopInv { snoopFeed (snoopInit d0 c r) l with
      samples := (snoopFeed (snoopInit d0 c r) l).samples + 2 } := hs
  have h2 : SnoopInv s2 := by
    rw [hs2]
    exact snoopInv_uartBit _ _ (snoopInv_uartBit _ _ hs0)
  have hd := (demodOk_step s2.demod ci cq (h2.2.2 hst).1).2 hret
  have hne : (Handle14443SamplesDemod s2.demod ci cq).demod.metricN ≠ 0 := by omega
  refine ⟨hne, ?_⟩
  simp [snoopAverage, hne]

theorem C28_metric_bookkeeping_witness :
    demodReset.state = .DEMOD_UNSYNCD ∧
    (demodFeed demodReset (tagFrameHead 50 [0x5A])).state = .DEMOD_RECEIVING_DATA ∧
    (Handle14443SamplesDemod (demodFeed demodReset (tagFrameHead 50 [0x5A])) (-50) 0).ret = true ∧
    (Handle14443SamplesDemod (demodFeed demodReset (tagFrameHead 50 [0x5A])) (-50) 0).demod.metricN
      = 10 * ((Handle14443SamplesDemod
          (demodFeed demodReset (tagFrameHead 50 [0x5A])) (-50) 0).demod.len + 1) ∧
    0 < (Handle14443SamplesDemod
          (demodFeed demodReset (tagFrameHead 50 [0x5A])) (-50) 0).demod.metricN := by
  have hq := (demod_frame_head 50 (by norm_num) [0x5A] (by simp) 0 0 0 0 0 0
    (fun _ => 0x44) 0 0 0).1
  have hq' : demodFeed demodReset (tagFrameHead 50 [0x5A])
      = ⟨.DEMOD_RECEIVING_DATA, 9, 1, -50, 20 * 50 * ([0x5A] : List Nat).length + 18 * 50,
        10 * ([0x5A] : List Nat).length + 9, 0,
        storeList (fun _ => 0x44) 0 [0x5A], ([0x5A] : List Nat).length, 8 * 50, 0⟩ := hq
  have hret : (Handle14443SamplesDemod
      (demodFeed demodReset (tagFrameHead 50 [0x5A])) (-50) 0).ret = true := by
    rw [hq', demod_eof_return 50 (by norm_num) _ _ _ _ _ (by norm_num)]
  refine ⟨rfl, ?_, hret, ?_⟩
  · rw [hq']
  · exact (C28_metric_bookkeeping demodReset (tagFrameHead 50 [0x5A]) rfl).2.2.2.1 (-50) 0 hret

/-! ## Quarter-turn invariance of the demodulator -/

theorem soft_decision_turn (s s' : Demod) (ci cq : Int) (h : QuarterTurn s s')
    (hq : s.sumQ ≠ 0) :
    MAKE_SOFT_DECISION s' (-cq) ci = MAKE_SOFT_DECISION s ci cq := by
  obtain ⟨-, -, -, -, -, -, -, -, -, hi, hq'⟩ := h
  simp only [MAKE_SOFT_DECISION, hi, hq']
  split_ifs <;> omega

set_option maxHeartbeats 1600000 in
theorem quarterTurn_step (s s' : Demod) (ci cq : Int) (h : QuarterTurn s s')
    (hq : softDecisionTaken s → s.sumQ ≠ 0) :
    (Handle14443SamplesDemod s' (-cq) ci).ret = (Handle14443SamplesDemod s ci cq).ret ∧
    (Handle14443SamplesDemod s' (-cq) ci).write = (Handle14443SamplesDemod s ci cq).write ∧
    QuarterTurn (Handle14443SamplesDemod s ci cq).demod
      (Handle14443SamplesDemod s' (-cq) ci).demod := by
  obtain ⟨st, bc, pc, tb, m, mn, r, out, len, si, sq⟩ := s
  obtain ⟨st', bc', pc', tb', m', mn', r', out', len', si', sq'⟩ := s'
  obtain ⟨h1, h2, h3, h4, h5, h6, h7, h8, h9, h10, h11⟩ := h
  simp only at h1 h2 h3 h4 h5 h6 h7 h8 h9 h10 h11
  subst h1 h2 h3 h4 h5 h6 h7 h8 h9 h10 h11
  have hrel : ∀ st0 : DemodMode, QuarterTurn ⟨st0, bc', pc', tb', m', mn', r', out', len', sq', sq⟩
      ⟨st0, bc', pc', tb', m', mn', r', out', len', -sq, sq'⟩ := fun st0 => by simp [QuarterTurn]
  cases st'
  case DEMOD_UNSYNCD =>
    simp only [Handle14443SamplesDemod, QuarterTurn]
    split_ifs <;> (try simp) <;> omega
  case DEMOD_PHASE_REF_TRAINING =>
    by_cases hp : pc' < 8
    · simp [Handle14443SamplesDemod, QuarterTurn, hp]
      omega
    · by_cases hp2 : pc' > 100
      · simp [Handle14443SamplesDemod, QuarterTurn, hp, hp2]
      · have hv := soft_decision_turn _ _ ci cq (hrel .DEMOD_PHASE_REF_TRAINING)
          (hq (by simp [softDecisionTaken, hp, hp2]))
        simp only [Handle14443SamplesDemod, QuarterTurn, hv]
        split_ifs <;> simp
  case DEMOD_AWAITING_FALLING_EDGE_OF_SOF =>
    have hv := soft_decision_turn _ _ ci cq (hrel .DEMOD_AWAITING_FALLING_EDGE_OF_SOF)
      (hq (by simp [softDecisionTaken]))
    simp only [Handle14443SamplesDemod, QuarterTurn, hv]
    split_ifs <;> simp
  case DEMOD_GOT_FALLING_EDGE_OF_SOF =>
    have hv := soft_decision_turn _ _ ci cq (hrel .DEMOD_GOT_FALLING_EDGE_OF_SOF)
      (hq (by simp [softDecisionTaken]))
    simp only [Handle14443SamplesDemod, QuarterTurn, hv]
    split_ifs <;> simp
  case DEMOD_AWAITING_START_BIT =>
    have hv := soft_decision_turn _ _ ci cq (hrel .DEMOD_AWAITING_START_BIT)
      (hq (by simp [softDecisionTaken]))
    simp only [Handle14443SamplesDemod, QuarterTurn, hv]
    split_ifs <;> simp
  case DEMOD_RECEIVING_DATA =>
    have hv := soft_decision_turn _ _ ci cq (hrel .DEMOD_RECEIVING_DATA)
      (hq (by simp [softDecisionTaken]))
    simp only [Handle14443SamplesDemod, QuarterTurn, hv]
    generalize MAKE_SOFT_DECISION _ ci cq = v
    by_cases c1 : pc' = 0
    · simp [c1]
    · by_cases c2 : tb' + v > 0
      · by_cases c3 : bc' + 1 = 10
        · simp only [c1, c2, c3, if_true, if_false]
          split_ifs <;> exact ⟨rfl, rfl, rfl, rfl, rfl, rfl, rfl, rfl, rfl, rfl, rfl, rfl, rfl⟩
        · simp [c1, c2, c3]
      · by_cases c3 : bc' + 1 = 10
        · simp only [c1, c2, c3, if_true, if_false]
          split_ifs <;> exact ⟨rfl, rfl, rfl, rfl, rfl, rfl, rfl, rfl, rfl, rfl, rfl, rfl, rfl⟩
        · simp [c1, c2, c3]
  case DEMOD_ERROR_WAIT =>
    simp [Handle14443SamplesDemod, QuarterTurn]

theorem quarterTurn_feed (l : List (Int × Int)) : ∀ (s s' : Demod), QuarterTurn s s' →
    SoftOk s l →
    demodReturns s' (l.map quarterTurn) = demodReturns s l ∧
    QuarterTurn (demodFeed s l) (demodFeed s' (l.map quarterTurn)) := by
  induction l with
  | nil => intro s s' h _; exact ⟨rfl, h⟩
  | cons p ps ih =>
    intro s s' h hok
    obtain ⟨h1, -, h3⟩ := quarterTurn_step s s' p.1 p.2 h hok.1
    obtain ⟨i1, i2⟩ := ih _ _ h3 hok.2
    simp only [List.map_cons, demodReturns, demodFeed, quarterTurn]
    exact ⟨by rw [h1, i1], i2⟩

/-- C29. Let `s'` agree with `s` on every field but the phase reference, which
is that of `s` turned by a quarter turn. One call on `s` with `(ci, cq)` and on
`s'` with `(-cq, ci)` returns the same flag, stores at the same index and
leaves two states so related again, provided `sumQ` of `s` is not zero if the
call takes a soft decision. Over a whole stream that keeps to this proviso
the two runs return the same flags and end with the same `len` and the same
output bytes. -/
theorem C29_quarter_turn (s s' : Demod) (hrel : QuarterTurn s s') :
    (∀ ci cq : Int, (softDecisionTaken s → s.sumQ ≠ 0) →
      (Handle14443SamplesDemod s' (-cq) ci).ret = (Handle14443SamplesDemod s ci cq).ret ∧
      (Handle14443SamplesDemod s' (-cq) ci).write = (Handle14443SamplesDemod s ci cq).write ∧
      QuarterTurn (Handle14443SamplesDemod s ci cq).demod
        (Handle14443SamplesDemod s' (-cq) ci).demod) ∧
    (∀ l : List (Int × Int), SoftOk s l →
      demodReturns s' (l.map quarterTurn) = demodReturns s l ∧
      QuarterTurn (demodFeed s l) (demodFeed s' (l.map quarterTurn)) ∧
      (demodFeed s' (l.map quarterTurn)).len = (demodFeed s l).len ∧
      (demodFeed s' (l.map quarterTurn)).output = (demodFeed s l).output) := by
  refine ⟨fun ci cq hq => quarterTurn_step s s' ci cq hrel hq, fun l hok => ?_⟩
  obtain ⟨h1, h2⟩ := quarterTurn_feed l s s' hrel hok
  exact ⟨h1, h2, h2.2.2.2.2.2.2.2.2.1, h2.2.2.2.2.2.2.2.1⟩

/-! ## The DMA cursor -/

theorem dmaCursor_succ (n : Nat) : dmaCursor (n + 1) = 2 * ((n % 128 : Nat) : Int) + 2 := by
  induction n with
  | zero => rfl
  | succ k ih =>
    rw [dmaCursor, ih]
    simp only [dmaAdvance, DMA_BUFFER_SIZE]
    split_ifs <;> omega

theorem dmaCursor_range (n : Nat) :
    dmaCursor n % 2 = 0 ∧ 0 ≤ dmaCursor n ∧ dmaCursor n ≤ DMA_BUFFER_SIZE := by
  cases n with
  | zero => simp [dmaCursor, DMA_BUFFER_SIZE]
  | succ k =>
    rw [dmaCursor_succ, DMA_BUFFER_SIZE]
    omega

/-! ## The receive loop of the reader -/

theorem rxFeed_append (l1 l2 : List (Int × Int)) : ∀ s : Rx,
    rxFeed s (l1 ++ l2) = rxFeed (rxFeed s l1) l2 := by
  induction l1 with
  | nil => intro s; rfl
  | cons p ps ih => intro s; exact ih _

theorem rxFeed_samples (l : List (Int × Int)) : ∀ s : Rx,
    (rxFeed s l).samples = s.samples + 2 * l.length := by
  induction l with
  | nil => intro s; simp [rxFeed]
  | cons p ps ih =>
    intro s
    rw [rxFeed, ih]
    simp only [rxPair, List.length_cons, Nat.cast_add, Nat.cast_one]
    ring

theorem rxFeed_demod (l : List (Int × Int)) : ∀ s : Rx,
    (rxFeed s l).demod = demodFeed s.demod l := by
  induction l with
  | nil => intro s; rfl
  | cons p ps ih =>
    intro s
    rw [rxFeed, ih, demodFeed]
    rfl

theorem rxFeed_upTo (l : List (Int × Int)) : ∀ (s : Rx) (k : Nat), s.upTo = dmaCursor k →
    (rxFeed s l).upTo = dmaCursor (k + l.length) := by
  induction l with
  | nil => intro s k h; exact h
  | cons p ps ih =>
    intro s k h
    rw [rxFeed, ih _ (k + 1) (by simp only [rxPair, h, dmaCursor])]
    congr 1
    simp only [List.length_cons]
    omega

theorem rxFeed_lastRxCounter (l : List (Int × Int)) : ∀ (s s' : Rx),
    s.lastRxCounter = s'.lastRxCounter →
    (rxFeed s l).lastRxCounter = (rxFeed s' l).lastRxCounter := by
  induction l with
  | nil => intro s s' h; exact h
  | cons p ps ih =>
    intro s s' h
    rw [rxFeed, rxFeed]
    exact ih _ _ (by simp only [rxPair, h])

theorem rxFeed_gotFrame_mono (l : List (Int × Int)) : ∀ s : Rx, s.gotFrame = true →
    (rxFeed s l).gotFrame = true := by
  induction l with
  | nil => intro s h; exact h
  | cons p ps ih =>
    intro s h
    rw [rxFeed]
    exact ih _ (by simp [rxPair, h])

theorem rxFeed_gotFrame (l : List (Int × Int)) : ∀ s : Rx,
    (rxFeed s l).gotFrame = true ↔ (s.gotFrame = true ∨ true ∈ demodReturns s.demod l) := by
  induction l with
  | nil => intro s; simp [rxFeed, demodReturns]
  | cons p ps ih =>
    intro s
    rw [rxFeed, ih, demodReturns]
    simp only [rxPair, List.mem_cons]
    by_cases hr : (Handle14443SamplesDemod s.demod p.1 p.2).ret = true
    · simp [hr]
    · simp only [hr, if_false]
      have : ¬ (true = (Handle14443SamplesDemod s.demod p.1 p.2).ret) := fun h => hr h.symm
      simp [this]

/-- A run of the `while` during which the hardware stays ahead consumes every
pair, whatever `gotFrame` and `samples` are. -/
theorem rxLoop_ahead (l : List (Int × Int)) : ∀ (s : Rx) (rest : List Poll),
    rxLoop true s (pollsAhead s.lastRxCounter l ++ rest) = rxLoop true (rxFeed s l) rest := by
  induction l with
  | nil => intro s rest; rfl
  | cons p ps ih =>
    intro s rest
    have h4 : (s.lastRxCounter - (s.lastRxCounter - 4)) % DMA_BUFFER_SIZE > 2 := by
      rw [DMA_BUFFER_SIZE]
      omega
    have hn : nextRxCounter s.lastRxCounter = (rxPair s p.1 p.2).lastRxCounter := rfl
    rw [pollsAhead, List.cons_append, rxLoop, if_pos h4, hn, ih, rxFeed]

theorem rxFeed_counter (l : List (Int × Int)) : ∀ (s : Rx) (k : Nat),
    s.lastRxCounter = rxCounterAfter k →
    (rxFeed s l).lastRxCounter = rxCounterAfter (k + l.length) := by
  induction l with
  | nil => intro s k h; exact h
  | cons p ps ih =>
    intro s k h
    have hn : (rxPair s p.1 p.2).lastRxCounter = nextRxCounter s.lastRxCounter := rfl
    rw [rxFeed, ih _ (k + 1) (by rw [hn, h, rxCounterAfter])]
    congr 1
    simp only [List.length_cons]
    omega

theorem rxBehind_fields (s : Rx) (c : Int) :
    (rxBehind s c).gotFrame = s.gotFrame ∧ (rxBehind s c).lastRxCounter = s.lastRxCounter ∧
    (rxBehind s c).upTo = s.upTo ∧ (rxBehind s c).samples = s.samples ∧
    (rxBehind s c).uart = s.uart ∧ (rxBehind s c).demod = s.demod := by
  simp only [rxBehind]
  split_ifs <;> exact ⟨rfl, rfl, rfl, rfl, rfl, rfl⟩

theorem rxLoop_drained (s : Rx) (p : Poll) (h : p.counter = s.lastRxCounter) :
    rxLoop true s [p] = ⟨s, decide (s.samples > 2000)⟩ := by
  have h0 : ¬ ((s.lastRxCounter - p.counter) % DMA_BUFFER_SIZE > 2) := by
    rw [h, DMA_BUFFER_SIZE]
    simp
  rw [rxLoop, if_neg h0]
  by_cases hs : s.samples > 2000
  · simp [hs]
  · simp [hs, rxLoop]

/-- The run of `GetSamplesFor14443Demod` while the hardware stays ahead, and
the same run ended by a read that finds the ring drained. -/
theorem rx_drained_run (u0 : Uart) (d0 : Demod) (bigBuf : Int → Nat) (c0 : Int)
    (l : List (Int × Int)) :
    GetSamplesFor14443Demod u0 d0 bigBuf (⟨c0, 0, 0⟩ :: pollsAhead DMA_BUFFER_SIZE l)
      = ⟨rxFeed (rxBehind (rxInit u0 d0 bigBuf) c0) l, false⟩ ∧
    GetSamplesFor14443Demod u0 d0 bigBuf (drainedPolls c0 l)
      = ⟨rxFeed (rxBehind (rxInit u0 d0 bigBuf) c0) l,
          decide ((rxFeed (rxBehind (rxInit u0 d0 bigBuf) c0) l).samples > 2000)⟩ := by
  have hl : (rxBehind (rxInit u0 d0 bigBuf) c0).lastRxCounter = DMA_BUFFER_SIZE :=
    (rxBehind_fields _ c0).2.1
  constructor
  · have h := rxLoop_ahead l (rxBehind (rxInit u0 d0 bigBuf) c0) []
    rw [List.append_nil, hl] at h
    rw [GetSamplesFor14443Demod, rxLoop, h]
    rfl
  · have h := rxLoop_ahead l (rxBehind (rxInit u0 d0 bigBuf) c0)
      [⟨rxCounterAfter l.length, 0, 0⟩]
    rw [hl] at h
    rw [GetSamplesFor14443Demod, drainedPolls, rxLoop, h]
    refine rxLoop_drained _ _ ?_
    have := rxFeed_counter l (rxBehind (rxInit u0 d0 bigBuf) c0) 0 (by rw [hl]; rfl)
    rw [Nat.zero_add] at this
    exact this.symm

theorem rx_run_fields (u0 : Uart) (d0 : Demod) (bigBuf : Int → Nat) (c0 : Int)
    (l : List (Int × Int)) :
    (rxFeed (rxBehind (rxInit u0 d0 bigBuf) c0) l).samples = 2 * l.length ∧
    (rxFeed (rxBehind (rxInit u0 d0 bigBuf) c0) l).demod
      = demodFeed (rxInit u0 d0 bigBuf).demod l ∧
    ((rxFeed (rxBehind (rxInit u0 d0 bigBuf) c0) l).gotFrame = true ↔
      true ∈ demodReturns (rxInit u0 d0 bigBuf).demod l) ∧
    (rxFeed (rxBehind (rxInit u0 d0 bigBuf) c0) l).upTo = dmaCursor l.length := by
  obtain ⟨f1, -, f3, f4, -, f6⟩ := rxBehind_fields (rxInit u0 d0 bigBuf) c0
  refine ⟨?_, ?_, ?_, ?_⟩
  · rw [rxFeed_samples, f4]
    simp [rxInit]
  · rw [rxFeed_demod, f6]
  · rw [rxFeed_gotFrame, f1, f6]
    simp [rxInit]
  · have := rxFeed_upTo l (rxBehind (rxInit u0 d0 bigBuf) c0) 0 (by rw [f3]; rfl)
    rw [Nat.zero_add] at this
    exact this

theorem demodReturns_tagFrame (out : Int → Nat) :
    true ∈ demodReturns ⟨.DEMOD_UNSYNCD, 0, 0, 0, 0, 0, 0, out, 0, 0, 0⟩
      (tagFrameSamples 50 [0x5A]) := by
  have hq := demod_frame_head 50 (by norm_num) [0x5A] (by simp) 0 0 0 0 0 0 out 0 0 0
  rw [(tagFrameHead_eq 50 [0x5A]).2.1, demodReturns_append, hq.1, demodReturns,
    demod_eof_return 50 (by norm_num) _ _ _ _ _ (by norm_num)]
  simp

/-- C26. The read cursor of the DMA ring. The offset `upTo - dmaBuf` at every
read is even and lies in `[0, DMA_BUFFER_SIZE]`, and it is `DMA_BUFFER_SIZE`
itself at the pair number 128 and at every 128th pair after it: there
`upTo[0]` and `upTo[1]` are the bytes 256 and 257, past the end of the
256-byte ring. After the pair number `n` the cursor is `2 * (n mod 128) + 2`;
offset 0 is read once. In `GetSamplesFor14443Demod` the cursor after the
pairs of `l` is `dmaCursor` of their number, so the pair that follows 128
pairs is read there. -/
theorem C26_cursor_leaves_ring :
    dmaCursor 128 = DMA_BUFFER_SIZE ∧ ¬ (dmaCursor 128 ≤ DMA_BUFFER_SIZE - 2) ∧
    (∀ n : Nat, dmaCursor n % 2 = 0 ∧ 0 ≤ dmaCursor n ∧ dmaCursor n ≤ DMA_BUFFER_SIZE) ∧
    (∀ n : Nat, dmaCursor (n + 1) = 2 * ((n % 128 : Nat) : Int) + 2) ∧
    (∀ k : Nat, dmaCursor (128 * (k + 1)) = DMA_BUFFER_SIZE) ∧
    (∀ (u0 : Uart) (d0 : Demod) (bigBuf : Int → Nat) (c0 : Int) (l : List (Int × Int)),
      (GetSamplesFor14443Demod u0 d0 bigBuf
        (⟨c0, 0, 0⟩ :: pollsAhead DMA_BUFFER_SIZE l)).rx.upTo = dmaCursor l.length) := by
  have h128 : dmaCursor 128 = DMA_BUFFER_SIZE := by
    rw [show 128 = 127 + 1 from rfl, dmaCursor_succ]
    rfl
  refine ⟨h128, ?_, dmaCursor_range, dmaCursor_succ, ?_, ?_⟩
  · rw [h128, DMA_BUFFER_SIZE]
    norm_num
  · intro k
    rw [show 128 * (k + 1) = (128 * k + 127) + 1 from by ring, dmaCursor_succ, DMA_BUFFER_SIZE]
    omega
  · intro u0 d0 bigBuf c0 l
    rw [(rx_drained_run u0 d0 bigBuf c0 l).1]
    exact (rx_run_fields u0 d0 bigBuf c0 l).2.2.2

/-! ## Frames too short for the CRC check of the emulator -/

/-- The UART looks only at whether the input is zero. -/
theorem uart_bit_nonzero (u : Uart) (bit : Int) (h : bit ≠ 0) :
    Handle14443UartBit u bit = Handle14443UartBit u 1 := by
  obtain ⟨st, r, bc, byc, mx, pc, out⟩ := u
  cases st <;> simp [Handle14443UartBit, h]

theorem uartFirstFrame_levels (l : List Int) : ∀ u : Uart,
    uartFirstFrame u l = uartFirstFrame u (l.map (fun b => if b = 0 then 0 else 1)) := by
  induction l with
  | nil => intro u; rfl
  | cons b bs ih =>
    intro u
    by_cases hb : b = 0
    · subst hb
      simp only [List.map_cons, uartFirstFrame, if_true]
      rw [ih]
    · simp only [List.map_cons, uartFirstFrame, hb, if_false]
      rw [uart_bit_nonzero u b hb, ih]

theorem emptyFrame_levels :
    (emptyFrameBytes.flatMap byteMaskBits).map (fun (b : Int) => if b = 0 then (0 : Int) else 1)
      = List.replicate 8 1 ++ ((List.replicate 40 0 ++ [1, 1, 1]) ++
          (([1] ++ List.replicate 38 0) ++ (0 :: List.replicate 5 0))) := by
  decide

theorem uart_empty_frame (r : Nat) (bc byc mx pc : Int) (out : Int → Nat) :
    uartFirstFrame ⟨.STATE_UNSYNCD, r, bc, byc, mx, pc, out⟩
        (emptyFrameBytes.flatMap byteMaskBits)
      = some ⟨.STATE_RECEIVING_DATA, 0, 10, 0, mx, 2, out⟩ := by
  have h1 := uart_unsynced_ones 8 r bc byc mx pc out
  have h2 := uartQuiet_append h1 (uart_sof r bc byc mx pc out)
  have h3 := uartQuiet_append h2 (uart_eof_quiet r 11 0 mx out)
  rw [uartFirstFrame_levels, emptyFrame_levels, ← List.append_assoc, ← List.append_assoc,
    uartFirstFrame_append _ _ _ h3.2, h3.1, uartFirstFrame, (uart_eof_returns 0 mx out).1]
  rfl

/-- C27. A frame too short for the CRC check. The serial bytes
`FF 00 00 00 00 00 F0 00 00 00 00 00` carry a start of frame followed at once
by an end of frame; `GetIso14443CommandFromReader` reports it with `len = 0`.
It is not the query, so `SimulateIso14443Tag` takes the branch of the unknown
command, where the CRC is computed over `len - 2 = -2` bytes and compared with
`receivedCmd[-2]` and `receivedCmd[-1]`. -/
theorem C27_short_frame_delivered :
    GetIso14443CommandFromReader uartReset (fun _ => 0x44) 100 emptyFrameBytes
      = some ⟨0, fun _ => 0x44⟩ ∧
    matchesCmd1 ⟨0, fun _ => 0x44⟩ = false ∧
    ¬ ((⟨0, fun _ => 0x44⟩ : Command).len ≥ 2) ∧
    (⟨0, fun _ => 0x44⟩ : Command).len - 2 = -2 ∧
    (⟨0, fun _ => 0x44⟩ : Command).len - 1 = -1 ∧
    (SimulateIso14443Tag
      [GetIso14443CommandFromReader uartReset (fun _ => 0x44) 100 emptyFrameBytes]).exited
        = true ∧
    (SimulateIso14443Tag
      [GetIso14443CommandFromReader uartReset (fun _ => 0x44) 100 emptyFrameBytes]).log.take 2
        = [SimEvent.str "new cmd from reader:", SimEvent.ints 0 0x1234 0] := by
  have hget : GetIso14443CommandFromReader uartReset (fun _ => 0x44) 100 emptyFrameBytes
      = some ⟨0, fun _ => 0x44⟩ := by
    have h := uart_empty_frame 0 0 0 100 0 (fun _ => 0x44)
    have h' : uartFirstFrame
        { uartReset with output := fun _ => 0x44, byteCntMax := 100, state := .STATE_UNSYNCD }
        (emptyFrameBytes.flatMap byteMaskBits)
        = some ⟨.STATE_RECEIVING_DATA, 0, 10, 0, 100, 2, fun _ => 0x44⟩ := h
    rw [GetIso14443CommandFromReader, h']
    rfl
  have hm : matchesCmd1 ⟨0, fun _ => 0x44⟩ = false := by decide
  refine ⟨hget, hm, by decide, by decide, by decide, ?_, ?_⟩
  · rw [hget, SimulateIso14443Tag, simLoop]
    simp only [hm, Bool.false_eq_true, if_false]
  · rw [hget, SimulateIso14443Tag, simLoop]
    simp only [hm, Bool.false_eq_true, if_false]
    rfl

/-! ## Quarter-turn invariance over a whole frame -/

theorem softOk_append (l1 l2 : List (Int × Int)) : ∀ d : Demod,
    SoftOk d l1 → SoftOk (demodFeed d l1) l2 → SoftOk d (l1 ++ l2) := by
  induction l1 with
  | nil => intro d _ h; exact h
  | cons p ps ih =>
    intro d h1 h2
    exact ⟨h1.1, ih _ h1.2 h2⟩

theorem quadratureFrame_turn : quadratureFrame.map quarterTurn = tagFrameSamples 50 [0x5A] := by
  rw [quadratureFrame, List.map_map]
  have h : (quarterTurn ∘ fun (p : Int × Int) => (p.2, -p.1)) = id := by
    funext p
    simp [quarterTurn]
  rw [h, List.map_id]

set_option maxRecDepth 100000 in
theorem quadratureFrame_eq :
    quadratureFrame
      = List.replicate 40 (0, -50) ++ (List.replicate 20 (0, 50) ++ (List.replicate 4 (0, -50) ++
          (([(0, 50), (0, 50)] ++
            ((lsbBits 0x5A).flatMap
              (fun x => [if x then ((0 : Int), (-50 : Int)) else (0, 50),
                if x then (0, -50) else (0, 50)]) ++
            [(0, -50), (0, -50)])) ++ List.replicate 20 (0, 50)))) := by
  rw [quadratureFrame]
  decide

theorem quad_training (out : Int → Nat) :
    SoftOk ⟨.DEMOD_UNSYNCD, 0, 0, 0, 0, 0, 0, out, 0, 0, 0⟩ (List.replicate 40 (0, -50)) ∧
    demodFeed ⟨.DEMOD_UNSYNCD, 0, 0, 0, 0, 0, 0, out, 0, 0, 0⟩ (List.replicate 40 (0, -50))
      = ⟨.DEMOD_PHASE_REF_TRAINING, 0, 39, 0, 0, 0, 0, out, 0, 0, -400⟩ := by
  simp [SoftOk, demodFeed, List.replicate, Handle14443SamplesDemod, MAKE_SOFT_DECISION,
    softDecisionTaken]

theorem quad_sof_low (out : Int → Nat) :
    SoftOk ⟨.DEMOD_PHASE_REF_TRAINING, 0, 39, 0, 0, 0, 0, out, 0, 0, -400⟩
      (List.replicate 20 (0, 50)) ∧
    demodFeed ⟨.DEMOD_PHASE_REF_TRAINING, 0, 39, 0, 0, 0, 0, out, 0, 0, -400⟩
        (List.replicate 20 (0, 50))
      = ⟨.DEMOD_GOT_FALLING_EDGE_OF_SOF, 0, 19, 0, 0, 0, 0, out, 0, 0, -400⟩ := by
  simp [SoftOk, demodFeed, List.replicate, Handle14443SamplesDemod, MAKE_SOFT_DECISION,
    softDecisionTaken]

theorem quad_sof_high (out : Int → Nat) :
    SoftOk ⟨.DEMOD_GOT_FALLING_EDGE_OF_SOF, 0, 19, 0, 0, 0, 0, out, 0, 0, -400⟩
      (List.replicate 4 (0, -50)) ∧
    demodFeed ⟨.DEMOD_GOT_FALLING_EDGE_OF_SOF, 0, 19, 0, 0, 0, 0, out, 0, 0, -400⟩
        (List.replicate 4 (0, -50))
      = ⟨.DEMOD_AWAITING_START_BIT, 0, 1, 0, 0, 0, 0, out, 0, 0, -400⟩ := by
  simp [SoftOk, demodFeed, List.replicate, Handle14443SamplesDemod, MAKE_SOFT_DECISION,
    softDecisionTaken]

theorem quad_start (bc pc tb m mn : Int) (r : Nat) (out : Int → Nat) (len : Int) :
    SoftOk ⟨.DEMOD_AWAITING_START_BIT, bc, pc, tb, m, mn, r, out, len, 0, -400⟩
      [(0, 50), (0, 50)] ∧
    demodFeed ⟨.DEMOD_AWAITING_START_BIT, bc, pc, tb, m, mn, r, out, len, 0, -400⟩
        [(0, 50), (0, 50)]
      = ⟨.DEMOD_RECEIVING_DATA, 1, 0, -100, m + 100, mn + 1, 0, out, len, 0, -400⟩ := by
  simp [SoftOk, demodFeed, Handle14443SamplesDemod, MAKE_SOFT_DECISION, softDecisionTaken]

theorem quad_symbol (x : Bool) (n tb m mn : Int) (r : Nat) (out : Int → Nat) (len : Int)
    (hn : n + 1 ≠ 10) :
    SoftOk ⟨.DEMOD_RECEIVING_DATA, n, 0, tb, m, mn, r, out, len, 0, -400⟩
      [if x then (0, -50) else (0, 50), if x then (0, -50) else (0, 50)] ∧
    demodFeed ⟨.DEMOD_RECEIVING_DATA, n, 0, tb, m, mn, r, out, len, 0, -400⟩
        [if x then (0, -50) else (0, 50), if x then (0, -50) else (0, 50)]
      = ⟨.DEMOD_RECEIVING_DATA, n + 1, 0, (if x then 100 else -100), m + 100, mn + 1,
          sampledReg r (if x then 1 else 0), out, len, 0, -400⟩ := by
  cases x <;>
    simp [SoftOk, demodFeed, Handle14443SamplesDemod, MAKE_SOFT_DECISION, softDecisionTaken,
      sampledReg, hn]

theorem quad_symbols (xs : List Bool) (out : Int → Nat) (len : Int) :
    ∀ (n tb m mn : Int) (r : Nat), n + xs.length ≤ 9 →
    ∃ tb', SoftOk ⟨.DEMOD_RECEIVING_DATA, n, 0, tb, m, mn, r, out, len, 0, -400⟩
        (xs.flatMap (fun x => [if x then ((0 : Int), (-50 : Int)) else (0, 50),
          if x then (0, -50) else (0, 50)])) ∧
      demodFeed ⟨.DEMOD_RECEIVING_DATA, n, 0, tb, m, mn, r, out, len, 0, -400⟩
          (xs.flatMap (fun x => [if x then ((0 : Int), (-50 : Int)) else (0, 50),
            if x then (0, -50) else (0, 50)]))
        = ⟨.DEMOD_RECEIVING_DATA, n + xs.length, 0, tb', m + 100 * xs.length, mn + xs.length,
            shiftInBits r xs, out, len, 0, -400⟩ := by
  induction xs with
  | nil =>
    intro n tb m mn r _
    exact ⟨tb, trivial, by simp [demodFeed, shiftInBits]⟩
  | cons x xs ih =>
    intro n tb m mn r h
    simp only [List.length_cons, Nat.cast_add, Nat.cast_one] at h
    obtain ⟨h1, h2⟩ := quad_symbol x n tb m mn r out len (by omega)
    obtain ⟨tb', h3, h4⟩ := ih (n + 1) (if x then 100 else -100) (m + 100) (mn + 1)
      (sampledReg r (if x then 1 else 0)) (by omega)
    refine ⟨tb', ?_, ?_⟩
    · rw [List.flatMap_cons]
      refine softOk_append _ _ _ h1 ?_
      rw [h2]
      exact h3
    · rw [List.flatMap_cons, demodFeed_append, h2, h4]
      simp only [shiftInBits, List.foldl_cons, List.length_cons, Nat.cast_add, Nat.cast_one]
      congr 1 <;> ring

theorem quad_stop (tb m mn : Int) (r : Nat) (out : Int → Nat) (len : Int)
    (h0 : sampledReg r 1 &&& 0x001 = 0) :
    SoftOk ⟨.DEMOD_RECEIVING_DATA, 9, 0, tb, m, mn, r, out, len, 0, -400⟩
      [(0, -50), (0, -50)] ∧
    demodFeed ⟨.DEMOD_RECEIVING_DATA, 9, 0, tb, m, mn, r, out, len, 0, -400⟩
        [(0, -50), (0, -50)]
      = ⟨.DEMOD_AWAITING_START_BIT, 10, 0, 100, m + 100, mn + 1, sampledReg r 1,
          store out len ((sampledReg r 1 >>> 1) % 256), len + 1, 0, -400⟩ := by
  have h9 : sampledReg r 1 &&& 0x200 ≠ 0 := by
    simp only [sampledReg, ne_eq, one_ne_zero, not_false_eq_true, if_true]
    exact shifted_lor_bit9 r
  simp only [sampledReg, ne_eq, one_ne_zero, not_false_eq_true, if_true] at h0 h9 ⊢
  have h0' : (r >>> 1 ||| 512) % 2 = 0 := by rw [← Nat.and_one_is_mod]; exact h0
  simp [SoftOk, demodFeed, Handle14443SamplesDemod, MAKE_SOFT_DECISION, softDecisionTaken,
    h0', h9]

theorem quad_char (b : Nat) (hb : b < 256) (bc pc tb m mn : Int) (r : Nat)
    (out : Int → Nat) (len : Int) :
    ∃ r', SoftOk ⟨.DEMOD_AWAITING_START_BIT, bc, pc, tb, m, mn, r, out, len, 0, -400⟩
        ([(0, 50), (0, 50)] ++
          ((lsbBits b).flatMap
            (fun x => [if x then ((0 : Int), (-50 : Int)) else (0, 50),
              if x then (0, -50) else (0, 50)]) ++
          [(0, -50), (0, -50)])) ∧
      demodFeed ⟨.DEMOD_AWAITING_START_BIT, bc, pc, tb, m, mn, r, out, len, 0, -400⟩
          ([(0, 50), (0, 50)] ++
            ((lsbBits b).flatMap
              (fun x => [if x then ((0 : Int), (-50 : Int)) else (0, 50),
                if x then (0, -50) else (0, 50)]) ++
            [(0, -50), (0, -50)]))
        = ⟨.DEMOD_AWAITING_START_BIT, 10, 0, 100, m + 1000, mn + 10, r',
            store out len b, len + 1, 0, -400⟩ := by
  obtain ⟨hv0, -⟩ := shiftIn_byte b hb
  have hvb := shiftIn_byte_mod b hb
  obtain ⟨a1, a2⟩ := quad_start bc pc tb m mn r out len
  obtain ⟨tb', b1, b2⟩ := quad_symbols (lsbBits b) out len 1 (-100) (m + 100) (mn + 1) 0
    (by simp [length_lsbBits])
  obtain ⟨c1, c2⟩ := quad_stop tb' (m + 100 + 100 * (lsbBits b).length)
    (mn + 1 + (lsbBits b).length) (shiftInBits 0 (lsbBits b)) out len hv0
  rw [hvb] at c2
  simp only [length_lsbBits] at b2 c1 c2
  norm_num at b2 c1 c2
  refine ⟨sampledReg (shiftInBits 0 (lsbBits b)) 1, ?_, ?_⟩
  · refine softOk_append _ _ _ a1 ?_
    rw [a2]
    refine softOk_append _ _ _ b1 ?_
    rw [b2]
    exact c1
  · rw [demodFeed_append, a2, demodFeed_append, b2, c2]
    congr 1 <;> ring

theorem quad_eof (bc pc tb : Int) (r : Nat) (out : Int → Nat) :
    SoftOk ⟨.DEMOD_AWAITING_START_BIT, bc, pc, tb, 1000, 10, r, out, 1, 0, -400⟩
      (List.replicate 20 (0, 50)) := by
  simp [SoftOk, List.replicate, Handle14443SamplesDemod, MAKE_SOFT_DECISION, softDecisionTaken]

/-- The proviso of the quarter-turn invariance holds along the whole frame `5A`
on the quadrature carrier: `sumQ` is -400 at every soft decision. -/
theorem softOk_quadratureFrame : SoftOk demodReset quadratureFrame := by
  rw [quadratureFrame_eq]
  have h1 := quad_training (fun _ => 0x44)
  have h2 := quad_sof_low (fun _ => 0x44)
  have h3 := quad_sof_high (fun _ => 0x44)
  obtain ⟨r', h4, h5⟩ := quad_char 0x5A (by norm_num) 0 1 0 0 0 0 (fun _ => 0x44) 0
  refine softOk_append _ _ _ h1.1 ?_
  rw [show demodReset = ⟨.DEMOD_UNSYNCD, 0, 0, 0, 0, 0, 0, fun _ => 0x44, 0, 0, 0⟩ from rfl, h1.2]
  refine softOk_append _ _ _ h2.1 ?_
  rw [h2.2]
  refine softOk_append _ _ _ h3.1 ?_
  rw [h3.2]
  refine softOk_append _ _ _ h4 ?_
  rw [h5]
  exact quad_eof _ _ _ _ _

theorem demodFeed_tagFrame_5A :
    demodFeed demodReset (tagFrameSamples 50 [0x5A])
      = ⟨.DEMOD_RECEIVING_DATA, 10, 1, -(2 * 50),
          20 * 50 * (([0x5A] : List Nat).length : Int) + 18 * 50 + 2 * 50,
          10 * (([0x5A] : List Nat).length : Int) + 9 + 1, 0,
          storeList (fun _ => 0x44) 0 [0x5A], (([0x5A] : List Nat).length : Int), 8 * 50, 0⟩ := by
  have hq := demod_frame_head 50 (by norm_num) [0x5A] (by simp) 0 0 0 0 0 0
    (fun _ => 0x44) 0 0 0
  have hq' : demodFeed demodReset (tagFrameHead 50 [0x5A]) = _ := hq.1
  rw [(tagFrameHead_eq 50 [0x5A]).2.1, demodFeed_append, hq', demodFeed, demodFeed,
    demod_eof_return 50 (by norm_num) _ _ _ _ _ (by norm_num)]

/-- C29 witness: the tag frame `5A` on a quadrature carrier, high `(0, -50)` and
low `(0, 50)`, from a reset demodulator. Its phase reference is
`(sumI, sumQ) = (0, -400)`, so the proviso holds at every soft decision. The
stream turned by a quarter turn is the same frame on the in-phase carrier,
whose reference is `(400, 0)`. Both runs return the same flags, report the
frame, and end with `len = 1` and the byte `5A` stored at index 0. -/
theorem C29_quarter_turn_witness :
    QuarterTurn demodReset demodReset ∧
    SoftOk demodReset quadratureFrame ∧
    quadratureFrame.map quarterTurn = tagFrameSamples 50 [0x5A] ∧
    demodReturns demodReset (tagFrameSamples 50 [0x5A])
      = demodReturns demodReset quadratureFrame ∧
    true ∈ demodReturns demodReset quadratureFrame ∧
    (demodFeed demodReset quadratureFrame).len = 1 ∧
    (demodFeed demodReset quadratureFrame).output 0 = 0x5A ∧
    (demodFeed demodReset (tagFrameSamples 50 [0x5A])).output 0 = 0x5A ∧
    (demodFeed demodReset quadratureFrame).sumQ = -400 ∧
    (demodFeed demodReset (tagFrameSamples 50 [0x5A])).sumI = 400 := by
  have hrel : QuarterTurn demodReset demodReset := by simp [QuarterTurn, demodReset]
  obtain ⟨-, hrun⟩ := C29_quarter_turn demodReset demodReset hrel
  obtain ⟨k1, k2, k3, k4⟩ := hrun quadratureFrame softOk_quadratureFrame
  rw [quadratureFrame_turn] at k1 k2 k3 k4
  have hin := demodFeed_tagFrame_5A
  have hlen : (demodFeed demodReset (tagFrameSamples 50 [0x5A])).len = 1 := by
    rw [hin]
    rfl
  have hout : (demodFeed demodReset (tagFrameSamples 50 [0x5A])).output 0 = 0x5A := by
    rw [hin]
    simp [storeList, store]
  have hsi : (demodFeed demodReset (tagFrameSamples 50 [0x5A])).sumI = 400 := by
    rw [hin]
    norm_num
  refine ⟨hrel, softOk_quadratureFrame, quadratureFrame_turn, k1, ?_, ?_, ?_, hout, ?_, hsi⟩
  · rw [← k1]
    exact demodReturns_tagFrame _
  · rw [← k3, hlen]
  · rw [← k4, hout]
  · have := k2.2.2.2.2.2.2.2.2.2.1
    rw [hsi] at this
    omega

end Iso14443
